import Mathlib

/-!
# Console host screen-buffer operations (programs/conhost/conhost.c)

A shallow embedding of the screen-buffer request handlers of the headless
console host: `fill_output`, `write_output`, `read_output`, `scroll_output`
and `set_output_info`, of `create_screen_buffer` and
`change_screen_buffer_size`, of the input queue (`write_console_input`,
`read_console_input`) and the input requests of `console_input_ioctl`, of
the screen buffer map with the routing of `process_console_ioctls`, and of
the tty functions (`tty_write`, `tty_flush`, `set_tty_cursor`, `set_tty_attr`,
`tty_sync`, `update_output`, `set_console_title`), together with the data they
act on.

Conventions of the embedding

* The cell grid `screen_buffer->data` is a `List char_info_t` in row-major
  order; the C expression `data[k]` is the list position `k`.  A store whose
  index lies outside the list is undefined behaviour in C: `fill_output`,
  which never tests `x`, has no result (`none`) for a run that leaves the
  grid; in the block copies of `scroll_output`, where such a store needs a
  buffer of more than 16384 columns or rows, it is a no-op.
* `unsigned int` arithmetic is arithmetic modulo `2^32` (`UINT`, `U32`), stores
  into `SHORT` fields wrap modulo `2^16` (`SHORT`), conversions to the 64-bit
  `size_t` are modulo `2^64` (`SIZE_T`); `int` and `ptrdiff_t` values are kept
  as integers.
* The ioctl reply buffer is represented by the typed value written into it.
* `alloc_ioctl_buffer`, `malloc` and `realloc` are taken to succeed; the
  contents of a fresh block are a parameter of the function that allocates
  it. The tty rendering calls (`update_output`, `tty_sync`) read the grid but
  never change it and are not part of the screen-buffer handlers below; the
  rendering of a handler is a function of its own (`write_output_tty`, and the
  update rectangles `fill_update_rect` and `scroll_update_rect`).
* `struct console` is split into its parts: the input side (`console`), the
  history and settings (`console_info`), the tty side (`console_tty`) and the
  screen buffer map with the active buffer (`buffer_map`). The bytes handed to
  `WriteFile` on the tty are recorded in the field `written`, every write
  taken to succeed.
-/

namespace Conhost

/-! ## Machine integers -/

/-- Conversion of an integer value to `unsigned int` (32 bit). -/
def UINT (z : Int) : Nat := (z % 4294967296).toNat

/-- Wrap-around of an `unsigned int` result (32 bit). -/
def U32 (n : Nat) : Nat := n % 4294967296

/-- Conversion of an integer value to `size_t` (64 bit). -/
def SIZE_T (z : Int) : Nat := (z % 18446744073709551616).toNat

/-- Conversion of an integer value to `SHORT` (16 bit, two's complement). -/
def SHORT (z : Int) : Int := (z + 32768) % 65536 - 32768

/-- Conversion of an integer value to `int` or `LONG` (32 bit, two's
complement). -/
def INT (z : Int) : Int := (z + 2147483648) % 4294967296 - 2147483648

/-- Conversion of an integer value to `unsigned short` (16 bit). -/
def WORD (z : Int) : Nat := (z % 65536).toNat

/-! ## Data model (include/wine/condrv.h, conhost.c) -/

/-- The cell type `char_info_t`: a code unit and an attribute word. -/
structure char_info_t where
  ch : Nat
  attr : Nat
deriving DecidableEq, Repr

/-- The constant `empty_char_info`: white on black space. -/
def empty_char_info : char_info_t := ⟨32, 7⟩

instance : Inhabited char_info_t := ⟨empty_char_info⟩

/-- The Windows `RECT` (four `LONG`s). -/
structure RECT where
  left : Int
  top : Int
  right : Int
  bottom : Int
deriving DecidableEq, Repr

/-- The Windows `SMALL_RECT` (four `SHORT`s). -/
structure SMALL_RECT where
  Left : Int
  Top : Int
  Right : Int
  Bottom : Int
deriving DecidableEq, Repr

/-- The Windows `COORD` (two `SHORT`s). -/
structure COORD where
  X : Int
  Y : Int
deriving DecidableEq, Repr

/-- The font description `struct font_info`. -/
structure font_info where
  width : Int
  height : Int
  weight : Int
  pitch_family : Int
  face_name : List Nat
deriving DecidableEq, Repr

/-- The state `struct screen_buffer` (without the console back pointer and
the map entry). -/
structure screen_buffer where
  id : Nat
  mode : Nat
  width : Nat
  height : Nat
  cursor_size : Nat
  cursor_visible : Nat
  cursor_x : Nat
  cursor_y : Nat
  attr : Nat
  popup_attr : Nat
  max_width : Nat
  max_height : Nat
  data : List char_info_t
  color_map : List Nat
  win : RECT
  font : font_info
deriving DecidableEq, Repr

/-- The status codes the handlers return. -/
inductive NTSTATUS where
  | STATUS_SUCCESS
  | STATUS_INVALID_PARAMETER
  | STATUS_NO_MEMORY
  | STATUS_NOT_SUPPORTED
  | STATUS_PENDING
  | STATUS_INVALID_HANDLE
  | STATUS_BUFFER_OVERFLOW
deriving DecidableEq, Repr

open NTSTATUS

/-- The enumerators of `enum char_info_mode`. -/
def CHAR_INFO_MODE_TEXT : Nat := 0

/-- Attributes only. -/
def CHAR_INFO_MODE_ATTR : Nat := 1

/-- Both characters and attributes. -/
def CHAR_INFO_MODE_TEXTATTR : Nat := 2

/-- Characters, with the standard attributes of the buffer. -/
def CHAR_INFO_MODE_TEXTSTDATTR : Nat := 3

/-- The request `struct condrv_fill_output_params` (five `int`s, a `WCHAR`
and an `unsigned short`). -/
structure condrv_fill_output_params where
  x : Int
  y : Int
  mode : Int
  count : Int
  wrap : Int
  ch : Nat
  attr : Nat
deriving DecidableEq, Repr

/-- The request header `struct condrv_output_params` (four `unsigned int`s). -/
structure condrv_output_params where
  x : Nat
  y : Nat
  mode : Nat
  width : Nat
deriving DecidableEq, Repr

/-- The request `struct condrv_scroll_params`. -/
structure condrv_scroll_params where
  scroll : SMALL_RECT
  origin : COORD
  clip : SMALL_RECT
  fill : char_info_t
deriving DecidableEq, Repr

/-! ## Cell stores -/

/-- The store `data[idx] = f (data[idx])` on the grid. -/
def poke (data : List char_info_t) (idx : Nat) (f : char_info_t → char_info_t) :
    List char_info_t :=
  match data[idx]? with
  | some c => data.set idx (f c)
  | none => data

/-- The assignment `dest->ch = v`. -/
def set_ch (v : Nat) (c : char_info_t) : char_info_t := { c with ch := v }

/-- The assignment `dest->attr = v`. -/
def set_attr (v : Nat) (c : char_info_t) : char_info_t := { c with attr := v }

/-! ## fill_output -/

/-- The stores `dest[0] .. dest[count - 1]` of a store loop address cells of
the block `data`: there is no store, or the run starts at an offset that is
not negative and ends inside the block. -/
def run_inside (data : List char_info_t) (dest : Int) (count : Nat) : Prop :=
  count = 0 ∨ (0 ≤ dest ∧ dest + count ≤ data.length)

instance (data : List char_info_t) (dest : Int) (count : Nat) :
    Decidable (run_inside data dest count) := by
  unfold run_inside; exact inferInstance

/-- The loop `for (i = 0; i < count; i++) dest[i] = f (dest[i])`, with `n`
the number of iterations still to run and `i` the loop counter. The loop is
meant for a run inside the block (`run_inside`): a store to an offset
outside the block is undefined behaviour in C and is left out here, and
every function that can reach such a store has no result in that case. -/
def fill_loop (f : char_info_t → char_info_t) (dest : Int) :
    Nat → Nat → List char_info_t → List char_info_t
  | 0, _, data => data
  | n + 1, i, data =>
    fill_loop f dest n (i + 1) (if 0 ≤ dest + i then poke data (dest + i).toNat f else data)

/-- What `fill_output` leaves behind: the status, the buffer and the `DWORD`
written to the reply buffer (`none` when the handler returns before writing
it). -/
structure fill_result where
  status : NTSTATUS
  sb : screen_buffer
  result : Option Nat
deriving DecidableEq, Repr

/-- The pointer `dest` of `fill_output`, as an offset from
`screen_buffer->data` in cells. -/
def fill_dest (sb : screen_buffer) (params : condrv_fill_output_params) : Int :=
  (UINT (UINT params.y * sb.width) : Int) + params.x

/-- The pointer `end` of `fill_output`, as an offset from
`screen_buffer->data` in cells. -/
def fill_end (sb : screen_buffer) (params : condrv_fill_output_params) : Int :=
  if params.wrap ≠ 0 then (UINT (sb.height * sb.width) : Int)
  else (UINT (UINT (params.y + 1) * sb.width) : Int)

/-- The clamped `count` of `fill_output` (conhost.c 868-869); the comparison
is made in `ptrdiff_t`, the assignment converts back to `DWORD`. -/
def fill_count (sb : screen_buffer) (params : condrv_fill_output_params) : Nat :=
  if (UINT params.count : Int) > fill_end sb params - fill_dest sb params then
    UINT (fill_end sb params - fill_dest sb params)
  else UINT params.count

/-- The `switch (params->mode)` of `fill_output`: the store applied to every
cell of the run, or `none` for the `default:` label. -/
def fill_cell (sb : screen_buffer) (params : condrv_fill_output_params) :
    Option (char_info_t → char_info_t) :=
  if params.mode = CHAR_INFO_MODE_TEXT then some (set_ch params.ch)
  else if params.mode = CHAR_INFO_MODE_ATTR then some (set_attr params.attr)
  else if params.mode = CHAR_INFO_MODE_TEXTATTR then
    some (fun c => set_attr params.attr (set_ch params.ch c))
  else if params.mode = CHAR_INFO_MODE_TEXTSTDATTR then
    some (fun c => set_attr sb.attr (set_ch params.ch c))
  else none

/-- The handler `fill_output` (conhost.c 852-912). The handler tests `y`
and clamps the count to `end - dest`, but it never tests `x`: the run
`dest[0] .. dest[count - 1]` can start before the grid or end after it, and
the loop then stores outside the block `screen_buffer->data`, which is
undefined behaviour. The result is `none` in that case. -/
def fill_output (sb : screen_buffer) (params : condrv_fill_output_params) :
    Option fill_result :=
  let dest := fill_dest sb params
  if UINT params.y ≥ sb.height then some ⟨STATUS_SUCCESS, sb, none⟩
  else
    let count := fill_count sb params
    match fill_cell sb params with
    | none => some ⟨STATUS_INVALID_PARAMETER, sb, none⟩
    | some f =>
      if run_inside sb.data dest count then
        some ⟨STATUS_SUCCESS, { sb with data := fill_loop f dest count 0 sb.data }, some count⟩
      else none

/-! ## write_output -/

/-- The typed contents of the ioctl reply buffer after a handler. -/
inductive ioctl_reply where
  | unwritten
  | dword (v : Nat)
  | region (r : SMALL_RECT)
  | wchars (l : List Nat)
  | region_cells (r : SMALL_RECT) (cells : List char_info_t)
deriving DecidableEq, Repr

/-- The C constant `sizeof(char_info_t)`. -/
def sizeof_char_info_t : Nat := 4

/-- The C constant `sizeof(WCHAR)`. -/
def sizeof_WCHAR : Nat := 2

/-- The C constant `sizeof(SMALL_RECT)`. -/
def sizeof_SMALL_RECT : Nat := 8

/-- The C constant `sizeof(DWORD)`. -/
def sizeof_DWORD : Nat := 4

/-- The C constant `sizeof(struct condrv_output_params)`. -/
def sizeof_condrv_output_params : Nat := 16

/-- The `switch (params->mode)` of `write_output` for entry `i` of the
payload `src` (a list of 16-bit units following the header): the store to
apply to `*dest`, or `none` for the `default:` label. -/
def write_cell (attr : Nat) (mode : Nat) (src : List Nat) (i : Nat) :
    Option (char_info_t → char_info_t) :=
  if mode = CHAR_INFO_MODE_TEXT then some (set_ch (src.getD i 0))
  else if mode = CHAR_INFO_MODE_ATTR then some (set_attr (src.getD i 0))
  else if mode = CHAR_INFO_MODE_TEXTATTR then
    some (fun _ => ⟨src.getD (2 * i) 0, src.getD (2 * i + 1) 0⟩)
  else if mode = CHAR_INFO_MODE_TEXTSTDATTR then
    some (fun c => set_attr attr (set_ch (src.getD i 0) c))
  else none

/-- The addressing part of the loop body of `write_output` for loop counter
`i`: `none` stands for the `continue`, otherwise the pair `(x, y)`. -/
def write_addr (sb : screen_buffer) (params : condrv_output_params) (i : Nat) :
    Option (Nat × Nat) :=
  if params.width ≠ 0 then
    let x := U32 (params.x + i % params.width)
    let y := U32 (params.y + i / params.width)
    if x ≥ sb.width then none else some (x, y)
  else
    some (U32 (params.x + i) % sb.width, U32 (params.y + U32 (params.x + i) / sb.width))

/-- The index of the cell the loop body of `write_output` stores entry `i`
into: `none` when the body leaves through `continue` or `break`. -/
def write_target (sb : screen_buffer) (params : condrv_output_params) (i : Nat) : Option Nat :=
  match write_addr sb params i with
  | none => none
  | some (x, y) => if y ≥ sb.height then none else some (U32 (y * sb.width + x))

/-- The loop body of `write_output` leaves through `break` at counter `i`. -/
def write_break (sb : screen_buffer) (params : condrv_output_params) (i : Nat) : Prop :=
  ∃ x y, write_addr sb params i = some (x, y) ∧ y ≥ sb.height

/-- The state the store loop of `write_output` ends in: the grid, the loop
counter `i`, the indices of the cells stored into (in order), and whether
the loop was left by `return STATUS_INVALID_PARAMETER`. -/
structure write_loop_result where
  data : List char_info_t
  i : Nat
  stored : List Nat
  invalid : Bool
deriving DecidableEq, Repr

/-- The loop `for (i = 0; i < entry_cnt; i++, src += entry_size)` of
`write_output` (conhost.c 688-722), with `n` the number of iterations still
to run. -/
def write_output_loop (sb : screen_buffer) (params : condrv_output_params) (src : List Nat) :
    Nat → Nat → List char_info_t → List Nat → write_loop_result
  | 0, i, data, stored => ⟨data, i, stored, false⟩
  | n + 1, i, data, stored =>
    match write_addr sb params i with
    | none => write_output_loop sb params src n (i + 1) data stored
    | some (x, y) =>
      if y ≥ sb.height then ⟨data, i, stored, false⟩
      else
        let dest := U32 (y * sb.width + x)
        match write_cell sb.attr params.mode src i with
        | none => ⟨data, i, stored, true⟩
        | some f => write_output_loop sb params src n (i + 1) (poke data dest f) (stored ++ [dest])

/-- What `write_output` leaves behind: status, buffer, `*out_size`, the reply
buffer and the indices of the cells stored into. -/
structure write_result where
  status : NTSTATUS
  sb : screen_buffer
  out_size : Nat
  reply : ioctl_reply
  stored : List Nat
deriving DecidableEq, Repr

/-- The value `entry_cnt` of `write_output` (conhost.c 677-678) for a payload
`src` of 16-bit units after the header, so that `in_size` is
`sizeof(*params) + 2 * src.length`. -/
def write_entry_cnt (params : condrv_output_params) (src : List Nat) : Nat :=
  let in_size := sizeof_condrv_output_params + sizeof_WCHAR * src.length
  let entry_size :=
    if params.mode = CHAR_INFO_MODE_TEXTATTR then sizeof_char_info_t else sizeof_WCHAR
  U32 ((in_size - sizeof_condrv_output_params) / entry_size)

/-- The handler `write_output` (conhost.c 670-772). `src` is the payload
after the header in 16-bit units. The result is `none` when the C code
divides by zero. -/
def write_output (sb : screen_buffer) (params : condrv_output_params) (src : List Nat)
    (out_size : Nat) : Option write_result :=
  let entry_cnt := write_entry_cnt params src
  if params.x ≥ sb.width then some ⟨STATUS_SUCCESS, sb, 0, ioctl_reply.unwritten, []⟩
  else
    let l := write_output_loop sb params src entry_cnt 0 sb.data []
    let sb1 := { sb with data := l.data }
    if l.invalid then some ⟨STATUS_INVALID_PARAMETER, sb1, out_size, ioctl_reply.unwritten, l.stored⟩
    else if out_size = sizeof_SMALL_RECT then
      let width := params.width
      let x := params.x
      let y := params.y
      if width = 0 then none
      else
        some ⟨STATUS_SUCCESS, sb1, out_size,
          ioctl_reply.region
            { Left := SHORT x
              Top := SHORT y
              Right := SHORT (UINT ((min (U32 (x + width)) sb.width : Int) - 1))
              Bottom := SHORT (UINT ((min (U32 (y + entry_cnt / width)) sb.height : Int) - 1)) },
          l.stored⟩
    else some ⟨STATUS_SUCCESS, sb1, out_size, ioctl_reply.dword l.i, l.stored⟩

/-! ## read_output -/

/-- What `read_output` leaves behind: status, `*out_size` and the reply
buffer; the handler never writes to the screen buffer. -/
structure read_result where
  status : NTSTATUS
  out_size : Nat
  reply : ioctl_reply
deriving DecidableEq, Repr

/-- The copy loop `for (i = 0; i < count; i++) data[i] = f (src[i])` of the
TEXT and ATTR cases of `read_output`; `src` is an offset into the grid. -/
def read_run (f : char_info_t → Nat) (grid : List char_info_t) (src : Int) (count : Nat) :
    List Nat :=
  (List.range count).map (fun (i : Nat) => f (grid.getD (src + (i : Int)).toNat default))

/-- The library call `memcpy (dst, &grid[src], n * sizeof(char_info_t))` seen
from the destination: the `n` cells read. -/
def read_cells (grid : List char_info_t) (src : Nat) (n : Nat) : List char_info_t :=
  (List.range n).map (fun (k : Nat) => grid.getD (src + k) default)

/-- The row loop of the TEXTATTR case of `read_output` (conhost.c 838-842):
rows `i`, `i + 1`, ... of the reply, `n` rows still to copy. -/
def read_rows (sb : screen_buffer) (x y width : Nat) : Nat → Nat → List char_info_t
  | 0, _ => []
  | n + 1, i =>
    read_cells sb.data (U32 (U32 (y + i) * sb.width + x)) width ++ read_rows sb x y width n (i + 1)

/-- The pointer `src` of the TEXT and ATTR cases of `read_output`, as an
offset from `screen_buffer->data` in cells. -/
def read_src (sb : screen_buffer) (x y : Nat) : Int := (U32 (y * sb.width) : Int) + (x : Int)

/-- The value `count` of the TEXT and ATTR cases of `read_output`: the `min`
is taken in `size_t`, the assignment converts to `unsigned int`. -/
def read_count (sb : screen_buffer) (x y out_size : Nat) : Nat :=
  U32 (min (SIZE_T ((U32 (sb.height * sb.width) : Int) - read_src sb x y))
    (out_size / sizeof_WCHAR))

/-- The value `count` (the number of rows) of the TEXTATTR case of
`read_output` (conhost.c 829). -/
def read_rect_count (sb : screen_buffer) (y width out_size : Nat) : Nat :=
  U32 (min ((out_size - sizeof_SMALL_RECT) / (width * sizeof_char_info_t)) (U32 (sb.height - y)))

/-- The clamped `width` of the TEXTATTR case of `read_output` (conhost.c 830). -/
def read_rect_width (sb : screen_buffer) (x width : Nat) : Nat :=
  min width (U32 (sb.width - x))

/-- The handler `read_output` (conhost.c 774-850). -/
def read_output (sb : screen_buffer) (params : condrv_output_params) (out_size : Nat) :
    read_result :=
  let x := params.x
  let y := params.y
  let mode := params.mode
  let width := params.width
  if mode = CHAR_INFO_MODE_TEXT then
    if x ≥ sb.width ∨ y ≥ sb.height then ⟨STATUS_SUCCESS, 0, ioctl_reply.unwritten⟩
    else
      let count := read_count sb x y out_size
      ⟨STATUS_SUCCESS, count * sizeof_WCHAR,
        ioctl_reply.wchars (read_run (fun c => c.ch) sb.data (read_src sb x y) count)⟩
  else if mode = CHAR_INFO_MODE_ATTR then
    if x ≥ sb.width ∨ y ≥ sb.height then ⟨STATUS_SUCCESS, 0, ioctl_reply.unwritten⟩
    else
      let count := read_count sb x y out_size
      ⟨STATUS_SUCCESS, count * sizeof_WCHAR,
        ioctl_reply.wchars (read_run (fun c => c.attr) sb.data (read_src sb x y) count)⟩
  else if mode = CHAR_INFO_MODE_TEXTATTR then
    if width = 0 ∨ out_size < sizeof_SMALL_RECT ∨ x ≥ sb.width ∨ y ≥ sb.height then
      ⟨STATUS_INVALID_PARAMETER, out_size, ioctl_reply.unwritten⟩
    else
      let count := read_rect_count sb y width out_size
      let width1 := read_rect_width sb x width
      ⟨STATUS_SUCCESS, sizeof_SMALL_RECT + U32 (width1 * count) * sizeof_char_info_t,
        ioctl_reply.region_cells
          { Left := SHORT x
            Top := SHORT y
            Right := SHORT (UINT ((U32 (x + width1) : Int) - 1))
            Bottom := SHORT (UINT ((U32 (y + count) : Int) - 1)) }
          (read_rows sb x y width1 count 0)⟩
  else ⟨STATUS_INVALID_PARAMETER, out_size, ioctl_reply.unwritten⟩

/-! ## scroll_output -/

/-- The macro `min (a, b)` applied to an `int` and an `unsigned int`: the
comparison and the result are `unsigned int`. -/
def umin (a : Int) (b : Nat) : Nat := if UINT a < b then UINT a else b

/-- The cells stored by `memmove (&data[dst], blk, ...)`, one after the
other. -/
def write_cells : List char_info_t → Nat → List char_info_t → List char_info_t
  | data, _, [] => data
  | data, dst, c :: cs => write_cells (data.set dst c) (dst + 1) cs

/-- The library call `memmove (pdst, psrc, n * sizeof(char_info_t))` inside
the grid: the `n` source cells are read before any is written. -/
def memmove (data : List char_info_t) (pdst psrc : Int) (n : Nat) : List char_info_t :=
  write_cells data pdst.toNat (read_cells data psrc.toNat n)

/-- The library call `memcpy`; its two blocks never overlap where it is
called, where it acts like `memmove`. -/
def memcpy (data : List char_info_t) (pdst psrc : Int) (n : Nat) : List char_info_t :=
  memmove data pdst psrc n

/-- The loop `for (y = h; y > 0; y--)` of `scroll_output` (conhost.c 972-977):
rows are copied from the last one to the first one. -/
def scroll_copy_backward (width : Nat) (w : Nat) :
    Nat → Int → Int → List char_info_t → List char_info_t
  | 0, _, _, data => data
  | y + 1, pdst, psrc, data =>
    scroll_copy_backward width w y (pdst - width) (psrc - width) (memcpy data pdst psrc w)

/-- The loop `for (y = 0; y < h; y++)` of `scroll_output` (conhost.c 984-992):
rows are copied from the first one to the last one; `n` rows remain. -/
def scroll_copy_forward (width : Nat) (w : Nat) :
    Nat → Int → Int → List char_info_t → List char_info_t
  | 0, _, _, data => data
  | n + 1, pdst, psrc, data =>
    scroll_copy_forward width w n (pdst + width) (psrc + width) (memmove data pdst psrc w)

/-- The inner loop `for (x = left; x <= right; x++) data[y * width + x] = fill`
(conhost.c 1005), `n` iterations remaining. -/
def scroll_fill_row (width : Nat) (fill : char_info_t) (y : Int) :
    Nat → Int → List char_info_t → List char_info_t
  | 0, _, data => data
  | n + 1, x, data =>
    scroll_fill_row width fill y n (x + 1) (poke data (UINT (y * width + x)) (fun _ => fill))

/-- The value of `left` in row `y` of the fill loop of `scroll_output`
(conhost.c 998-1004). -/
def scroll_fill_left (src dst : SMALL_RECT) (y : Int) : Int :=
  let left := src.Left
  if dst.Top ≤ y ∧ y ≤ dst.Bottom then
    (if dst.Left ≤ src.Left then max left (dst.Right + 1) else left)
  else left

/-- The value of `right` in row `y` of the fill loop of `scroll_output`
(conhost.c 999-1004). -/
def scroll_fill_right (src dst : SMALL_RECT) (y : Int) : Int :=
  let right := src.Right
  if dst.Top ≤ y ∧ y ≤ dst.Bottom then
    (if dst.Left ≥ src.Left then min right (dst.Left - 1) else right)
  else right

/-- The loop `for (y = src.Top; y <= src.Bottom; y++)` of `scroll_output`
(conhost.c 996-1006), `n` iterations remaining. -/
def scroll_fill (width : Nat) (fill : char_info_t) (src dst : SMALL_RECT) :
    Nat → Int → List char_info_t → List char_info_t
  | 0, _, data => data
  | n + 1, y, data =>
    let left := scroll_fill_left src dst y
    let right := scroll_fill_right src dst y
    scroll_fill width fill src dst n (y + 1)
      (scroll_fill_row width fill y (right - left + 1).toNat left data)

/-- What `scroll_output` leaves behind: the status and the buffer. -/
structure scroll_result where
  status : NTSTATUS
  sb : screen_buffer
deriving DecidableEq, Repr

/-- The normalised clip rectangle of `scroll_output` (conhost.c 929-932). -/
def scroll_clip (sb : screen_buffer) (params : condrv_scroll_params) : SMALL_RECT :=
  { Left := SHORT (max params.clip.Left 0)
    Top := SHORT (max params.clip.Top 0)
    Right := SHORT (umin params.clip.Right (UINT ((sb.width : Int) - 1)))
    Bottom := SHORT (umin params.clip.Bottom (UINT ((sb.height : Int) - 1))) }

/-- The rejection test of `scroll_output` (conhost.c 933-938). -/
def scroll_invalid (sb : screen_buffer) (params : condrv_scroll_params) : Prop :=
  let clip := scroll_clip sb params
  clip.Left > clip.Right ∨ clip.Top > clip.Bottom ∨ params.scroll.Left < 0 ∨
  params.scroll.Top < 0 ∨ UINT params.scroll.Right ≥ sb.width ∨
  UINT params.scroll.Bottom ≥ sb.height ∨ params.scroll.Right < params.scroll.Left ∨
  params.scroll.Top > params.scroll.Bottom ∨ params.origin.X < 0 ∨
  UINT params.origin.X ≥ sb.width ∨ params.origin.Y < 0 ∨ UINT params.origin.Y ≥ sb.height

instance (sb : screen_buffer) (params : condrv_scroll_params) :
    Decidable (scroll_invalid sb params) := by
  unfold scroll_invalid; exact inferInstance

/-- The local variables `xsrc`, `ysrc`, `w`, `h` (all `int`) and `dst` of
`scroll_output`. -/
structure scroll_vars where
  xsrc : Int
  ysrc : Int
  w : Int
  h : Int
  dst : SMALL_RECT
deriving DecidableEq, Repr

/-- The rectangle `src` of `scroll_output` (conhost.c 940-943): the source
rectangle cut to the clip. -/
def scroll_src (sb : screen_buffer) (params : condrv_scroll_params) : SMALL_RECT :=
  let xsrc : Int := params.scroll.Left
  let ysrc : Int := params.scroll.Top
  let w : Int := params.scroll.Right - params.scroll.Left + 1
  let h : Int := params.scroll.Bottom - params.scroll.Top + 1
  let clip := scroll_clip sb params
  { Left := SHORT (max xsrc clip.Left)
    Top := SHORT (max ysrc clip.Top)
    Right := SHORT (min (xsrc + w - 1) clip.Right)
    Bottom := SHORT (min (ysrc + h - 1) clip.Bottom) }

/-- The variables of `scroll_output` after line 948: `xsrc`, `ysrc`, `w`, `h`
of the source rectangle and `dst` the source rectangle moved to the origin. -/
def scroll_init (params : condrv_scroll_params) : scroll_vars :=
  let w : Int := params.scroll.Right - params.scroll.Left + 1
  let h : Int := params.scroll.Bottom - params.scroll.Top + 1
  { xsrc := params.scroll.Left
    ysrc := params.scroll.Top
    w := w
    h := h
    dst :=
      { Left := params.origin.X
        Top := params.origin.Y
        Right := SHORT (params.origin.X + w - 1)
        Bottom := SHORT (params.origin.Y + h - 1) } }

/-- The four `if` statements of `scroll_output` that cut the destination to
the clip (conhost.c 950-963), in order. -/
def scroll_clip_dst (clip : SMALL_RECT) (v : scroll_vars) : scroll_vars :=
  let v1 : scroll_vars :=
    if v.dst.Left < clip.Left then
      { v with
        xsrc := v.xsrc + (clip.Left - v.dst.Left)
        w := v.w - (clip.Left - v.dst.Left)
        dst := { v.dst with Left := clip.Left } }
    else v
  let v2 : scroll_vars :=
    if v1.dst.Top < clip.Top then
      { v1 with
        ysrc := v1.ysrc + (clip.Top - v1.dst.Top)
        h := v1.h - (clip.Top - v1.dst.Top)
        dst := { v1.dst with Top := clip.Top } }
    else v1
  let v3 : scroll_vars :=
    if v2.dst.Right > clip.Right then { v2 with w := v2.w - (v2.dst.Right - clip.Right) } else v2
  if v3.dst.Bottom > clip.Bottom then { v3 with h := v3.h - (v3.dst.Bottom - clip.Bottom) } else v3

/-- The copy of `scroll_output` (conhost.c 965-994); `psrc` and `pdst` are
offsets from `screen_buffer->data`. -/
def scroll_copy (sb : screen_buffer) (v : scroll_vars) : List char_info_t :=
  if v.w > 0 ∧ v.h > 0 then
    if v.ysrc < v.dst.Top then
      let psrc : Int := UINT ((v.ysrc + v.h - 1) * sb.width + v.xsrc)
      let pdst : Int := UINT ((v.dst.Top + v.h - 1) * sb.width + v.dst.Left)
      scroll_copy_backward sb.width v.w.toNat v.h.toNat pdst psrc sb.data
    else
      let psrc : Int := UINT (v.ysrc * sb.width + v.xsrc)
      let pdst : Int := UINT (v.dst.Top * sb.width + v.dst.Left)
      scroll_copy_forward sb.width v.w.toNat v.h.toNat pdst psrc sb.data
  else sb.data

/-- The handler `scroll_output` (conhost.c 914-1013). -/
def scroll_output (sb : screen_buffer) (params : condrv_scroll_params) : scroll_result :=
  let clip := scroll_clip sb params
  if scroll_invalid sb params then ⟨STATUS_INVALID_PARAMETER, sb⟩
  else
    let src := scroll_src sb params
    let v := scroll_clip_dst clip (scroll_init params)
    let data1 := scroll_copy sb v
    let data2 :=
      scroll_fill sb.width params.fill src v.dst (src.Bottom - src.Top + 1).toNat src.Top data1
    ⟨STATUS_SUCCESS, { sb with data := data2 }⟩

/-- The value is in the range of a `SHORT`. -/
def is_short (z : Int) : Prop := -32768 ≤ z ∧ z ≤ 32767

instance (z : Int) : Decidable (is_short z) := by
  unfold is_short; exact inferInstance

/-- Every `SHORT` field of the request holds a `SHORT` value. -/
def scroll_params_typed (params : condrv_scroll_params) : Prop :=
  is_short params.scroll.Left ∧ is_short params.scroll.Top ∧ is_short params.scroll.Right ∧
  is_short params.scroll.Bottom ∧ is_short params.origin.X ∧ is_short params.origin.Y ∧
  is_short params.clip.Left ∧ is_short params.clip.Top ∧ is_short params.clip.Right ∧
  is_short params.clip.Bottom

instance (params : condrv_scroll_params) : Decidable (scroll_params_typed params) := by
  unfold scroll_params_typed; exact inferInstance

/-! ## create_screen_buffer -/

/-- The block `malloc` returns for `n` cells. Its contents are indeterminate:
`fresh k` stands for whatever cell `k` of the block holds. -/
def malloc_cells (fresh : Nat → char_info_t) (n : Nat) : List char_info_t :=
  (List.range n).map fresh

/-- The library call `memcpy (&dst[pdst], &src[psrc], n * sizeof(char_info_t))`
from one block into another one. -/
def memcpy_from (dst : List char_info_t) (pdst : Int) (src : List char_info_t) (psrc : Int)
    (n : Nat) : List char_info_t :=
  write_cells dst pdst.toNat (read_cells src psrc.toNat n)

/-- The loop `for (i = 1; i < height; i++) memcpy (&data[i * width], data, ...)`
of `create_screen_buffer` (conhost.c 173-175), with `n` the number of
iterations still to run and `i` the loop counter (an `unsigned int`). -/
def create_copy_rows (width : Nat) : Nat → Nat → List char_info_t → List char_info_t
  | 0, _, data => data
  | n + 1, i, data =>
    create_copy_rows width n (i + 1) (memcpy data (U32 (i * width)) 0 width)

/-- Modelled from the spec: the constant `FW_NORMAL` of wingdi.h, a header
that is not among the sources; the value is the one of the Windows SDK. -/
def FW_NORMAL : Int := 400

/-- Modelled from the spec: the constant `FIXED_PITCH` of wingdi.h, a header
that is not among the sources; the value is the one of the Windows SDK. -/
def FIXED_PITCH : Nat := 1

/-- Modelled from the spec: the constant `FF_DONTCARE` of wingdi.h, a header
that is not among the sources; the value is the one of the Windows SDK. -/
def FF_DONTCARE : Nat := 0

/-- Modelled from the spec: the output mode flag `ENABLE_PROCESSED_OUTPUT`
of wincon.h, a header that is not among the sources; the value is the one
of the Windows SDK. -/
def ENABLE_PROCESSED_OUTPUT : Nat := 0x0001

/-- Modelled from the spec: the output mode flag
`ENABLE_WRAP_AT_EOL_OUTPUT` of wincon.h, a header that is not among the
sources; the value is the one of the Windows SDK. -/
def ENABLE_WRAP_AT_EOL_OUTPUT : Nat := 0x0002

/-- The function `create_screen_buffer` (conhost.c 132-184). The tree
`screen_buffer_map` is represented by the list of the ids it holds;
`wine_rb_put` refuses an id that is present, and the function then returns
`NULL` (`none`). `malloc` is taken to succeed. -/
def create_screen_buffer (screen_buffer_map : List Nat) (fresh : Nat → char_info_t)
    (id width height : Int) : Option screen_buffer :=
  let max_width : Nat := 80
  let max_height : Nat := 25
  let w := UINT width
  let h := UINT height
  let data0 := malloc_cells fresh (U32 (w * h))
  let data1 := fill_loop (fun _ => empty_char_info) 0 w 0 data0
  let data2 := create_copy_rows w (h - 1) 1 data1
  if UINT id ∈ screen_buffer_map then none
  else
    some
      { id := UINT id
        mode := ENABLE_PROCESSED_OUTPUT ||| ENABLE_WRAP_AT_EOL_OUTPUT
        width := w
        height := h
        cursor_size := 100
        cursor_visible := 1
        cursor_x := 0
        cursor_y := 0
        attr := 7
        popup_attr := 245
        max_width := max_width
        max_height := max_height
        data := data2
        color_map := List.replicate 16 0
        win := ⟨0, 0, INT (UINT ((max_width : Int) - 1)), INT (UINT ((max_height : Int) - 1))⟩
        font := ⟨0, 0, FW_NORMAL, ((FIXED_PITCH ||| FF_DONTCARE : Nat) : Int), []⟩ }

/-! ## change_screen_buffer_size -/

/-- The loop `for (i = 0; i < copy_height; i++) memcpy (&new_data[i * new_width],
&screen_buffer->data[i * old_width], ...)` of `change_screen_buffer_size`
(conhost.c 510-514), with `n` the number of iterations still to run. -/
def resize_copy_rows (data : List char_info_t) (old_width new_width copy_width : Int) :
    Nat → Int → List char_info_t → List char_info_t
  | 0, _, new_data => new_data
  | n + 1, i, new_data =>
    resize_copy_rows data old_width new_width copy_width n (i + 1)
      (memcpy_from new_data (i * new_width) data (i * old_width) copy_width.toNat)

/-- The loop `for (i = 1; i < copy_height; i++) memcpy (&new_data[i * new_width
+ old_width], &new_data[old_width], ...)` of `change_screen_buffer_size`
(conhost.c 522-524), with `n` the number of iterations still to run. -/
def resize_clear_columns (old_width new_width : Int) :
    Nat → Int → List char_info_t → List char_info_t
  | 0, _, new_data => new_data
  | n + 1, i, new_data =>
    resize_clear_columns old_width new_width n (i + 1)
      (memcpy new_data (i * new_width + old_width) old_width (new_width - old_width).toNat)

/-- The loop `for (i = old_height + 1; i < new_height; i++) memcpy (&new_data[i
* new_width], &new_data[old_height * new_width], ...)` of
`change_screen_buffer_size` (conhost.c 533-535), with `n` the number of
iterations still to run. -/
def resize_clear_rows (old_height new_width : Int) :
    Nat → Int → List char_info_t → List char_info_t
  | 0, _, new_data => new_data
  | n + 1, i, new_data =>
    resize_clear_rows old_height new_width n (i + 1)
      (memcpy new_data (i * new_width) (old_height * new_width) new_width.toNat)

/-- The function `change_screen_buffer_size` (conhost.c 497-542). `malloc`
fails when the product of the two `int`s is negative (the size converted to
`size_t` is then beyond any address space) and is taken to succeed
otherwise; `fresh` is the contents of the block it returns. -/
def change_screen_buffer_size (fresh : Nat → char_info_t) (sb : screen_buffer)
    (new_width new_height : Int) : NTSTATUS × screen_buffer :=
  if new_width * new_height < 0 then (STATUS_NO_MEMORY, sb)
  else
    let new_data := malloc_cells fresh (new_width * new_height).toNat
    let old_width := INT sb.width
    let old_height := INT sb.height
    let copy_width := min old_width new_width
    let copy_height := min old_height new_height
    let data1 := resize_copy_rows sb.data old_width new_width copy_width copy_height.toNat 0 new_data
    let data2 :=
      if new_width > old_width then
        resize_clear_columns old_width new_width (copy_height - 1).toNat 1
          (fill_loop (fun _ => empty_char_info) old_width (new_width - old_width).toNat 0 data1)
      else data1
    let data3 :=
      if new_height > old_height then
        resize_clear_rows old_height new_width (new_height - (old_height + 1)).toNat
          (old_height + 1)
          (fill_loop (fun _ => empty_char_info) (old_height * new_width) new_width.toNat 0 data2)
      else data2
    (STATUS_SUCCESS,
      { sb with data := data3, width := UINT new_width, height := UINT new_height })

/-! ## set_output_info -/

/-- The record `struct condrv_output_info` (condrv.h 121-142): eighteen
`short int`s and the colour table. -/
structure condrv_output_info where
  cursor_size : Int
  cursor_visible : Int
  cursor_x : Int
  cursor_y : Int
  width : Int
  height : Int
  attr : Int
  popup_attr : Int
  win_left : Int
  win_top : Int
  win_right : Int
  win_bottom : Int
  max_width : Int
  max_height : Int
  font_width : Int
  font_height : Int
  font_weight : Int
  font_pitch_family : Int
  color_map : List Nat
deriving DecidableEq

/-- The request `struct condrv_output_info_params` (condrv.h 145-149). -/
structure condrv_output_info_params where
  mask : Nat
  info : condrv_output_info
deriving DecidableEq

/-- The flag `SET_CONSOLE_OUTPUT_INFO_CURSOR_GEOM`. -/
def SET_CONSOLE_OUTPUT_INFO_CURSOR_GEOM : Nat := 0x0001

/-- The flag `SET_CONSOLE_OUTPUT_INFO_CURSOR_POS`. -/
def SET_CONSOLE_OUTPUT_INFO_CURSOR_POS : Nat := 0x0002

/-- The flag `SET_CONSOLE_OUTPUT_INFO_SIZE`. -/
def SET_CONSOLE_OUTPUT_INFO_SIZE : Nat := 0x0004

/-- The flag `SET_CONSOLE_OUTPUT_INFO_ATTR`. -/
def SET_CONSOLE_OUTPUT_INFO_ATTR : Nat := 0x0008

/-- The flag `SET_CONSOLE_OUTPUT_INFO_DISPLAY_WINDOW`. -/
def SET_CONSOLE_OUTPUT_INFO_DISPLAY_WINDOW : Nat := 0x0010

/-- The flag `SET_CONSOLE_OUTPUT_INFO_MAX_SIZE`. -/
def SET_CONSOLE_OUTPUT_INFO_MAX_SIZE : Nat := 0x0020

/-- The flag `SET_CONSOLE_OUTPUT_INFO_FONT`. -/
def SET_CONSOLE_OUTPUT_INFO_FONT : Nat := 0x0040

/-- The flag `SET_CONSOLE_OUTPUT_INFO_COLORTABLE`. -/
def SET_CONSOLE_OUTPUT_INFO_COLORTABLE : Nat := 0x0080

/-- The flag `SET_CONSOLE_OUTPUT_INFO_POPUP_ATTR`. -/
def SET_CONSOLE_OUTPUT_INFO_POPUP_ATTR : Nat := 0x0100

/-- The C constant `sizeof(struct condrv_output_info_params)`: the mask, 18
`short int`s and 16 `unsigned int`s. -/
def sizeof_condrv_output_info_params : Nat := 104

/-- Modelled from the spec: the console mode flag `ENABLE_WINDOW_INPUT` of
wincon.h, a header that is not among the sources; the value is the one of
the Windows SDK. -/
def ENABLE_WINDOW_INPUT : Nat := 0x0008

/-- The test `params->mask & flag` of `set_output_info`. -/
def mask_has (mask flag : Nat) : Prop := mask &&& flag ≠ 0

instance (mask flag : Nat) : Decidable (mask_has mask flag) := by
  unfold mask_has; exact inferInstance

/-- The block of `set_output_info` for the cursor geometry (conhost.c
555-561); `none` stands for `return STATUS_INVALID_PARAMETER`. -/
def set_info_cursor_geom (sb : screen_buffer) (info : condrv_output_info) :
    Option screen_buffer :=
  if info.cursor_size < 1 ∨ info.cursor_size > 100 then none
  else
    some { sb with
      cursor_size := UINT info.cursor_size
      cursor_visible := if info.cursor_visible ≠ 0 then 1 else 0 }

/-- The block of `set_output_info` for the cursor position (conhost.c
562-575); `none` stands for `return STATUS_INVALID_PARAMETER`. -/
def set_info_cursor_pos (sb : screen_buffer) (info : condrv_output_info) :
    Option screen_buffer :=
  if info.cursor_x < 0 ∨ UINT info.cursor_x ≥ sb.width ∨
      info.cursor_y < 0 ∨ UINT info.cursor_y ≥ sb.height then none
  else if sb.cursor_x ≠ UINT info.cursor_x ∨ sb.cursor_y ≠ UINT info.cursor_y then
    some { sb with cursor_x := UINT info.cursor_x, cursor_y := UINT info.cursor_y }
  else some sb

/-- The statements of `set_output_info` that follow a successful
`change_screen_buffer_size` (conhost.c 587-599): the window is moved back
into the buffer and the cursor is clamped. -/
def set_info_size_adjust (sb : screen_buffer) (info : condrv_output_info) : screen_buffer :=
  let win1 : RECT :=
    if sb.win.right ≥ info.width then
      { sb.win with right := INT (sb.win.right - sb.win.left), left := 0 }
    else sb.win
  let win2 : RECT :=
    if win1.bottom ≥ info.height then
      { win1 with bottom := INT (win1.bottom - win1.top), top := 0 }
    else win1
  { sb with
    win := win2
    cursor_x := if sb.cursor_x ≥ UINT info.width then UINT (info.width - 1) else sb.cursor_x
    cursor_y := if sb.cursor_y ≥ UINT info.height then UINT (info.height - 1) else sb.cursor_y }

/-- The block of `set_output_info` for the buffer size (conhost.c 576-609):
the status on an early `return`, or the buffer the block leaves. -/
def set_info_size (fresh : Nat → char_info_t) (sb : screen_buffer) (info : condrv_output_info) :
    Except NTSTATUS screen_buffer :=
  if info.width < sb.win.right - sb.win.left + 1 ∨
      info.height < sb.win.bottom - sb.win.top + 1 then
    Except.error STATUS_INVALID_PARAMETER
  else
    let r := change_screen_buffer_size fresh sb info.width info.height
    if r.1 ≠ STATUS_SUCCESS then Except.error r.1
    else Except.ok (set_info_size_adjust r.2 info)

/-- The block of `set_output_info` for the displayed window (conhost.c
618-635); `none` stands for `return STATUS_INVALID_PARAMETER`. -/
def set_info_display_window (sb : screen_buffer) (info : condrv_output_info) :
    Option screen_buffer :=
  if info.win_left < 0 ∨ info.win_left > info.win_right ∨
      UINT info.win_right ≥ sb.width ∨
      info.win_top < 0 ∨ info.win_top > info.win_bottom ∨
      UINT info.win_bottom ≥ sb.height then none
  else if sb.win.left ≠ info.win_left ∨ sb.win.top ≠ info.win_top ∨
      sb.win.right ≠ info.win_right ∨ sb.win.bottom ≠ info.win_bottom then
    some { sb with win := ⟨info.win_left, info.win_top, info.win_right, info.win_bottom⟩ }
  else some sb

/-- The block of `set_output_info` for the font (conhost.c 645-664).
`extra_size` is the number of bytes that follow the parameter block and
`face` holds them as `WCHAR`s; `malloc` is taken to succeed. -/
def set_info_font (sb : screen_buffer) (info : condrv_output_info) (extra_size : Nat)
    (face : List Nat) : screen_buffer :=
  let font1 : font_info :=
    { sb.font with
      width := info.font_width
      height := info.font_height
      weight := info.font_weight
      pitch_family := info.font_pitch_family }
  if extra_size ≠ 0 then
    let extra_size1 := extra_size / sizeof_WCHAR * sizeof_WCHAR
    { sb with font := { font1 with face_name := face.take (extra_size1 / sizeof_WCHAR) } }
  else { sb with font := font1 }

/-- What `set_output_info` leaves behind: the status, the buffer, and the
size carried by the `WINDOW_BUFFER_SIZE_EVENT` record handed to
`write_console_input` (conhost.c 601-608), if there is one. That call acts
on the input queue of the console, not on the screen buffer. -/
structure set_output_info_result where
  status : NTSTATUS
  sb : screen_buffer
  size_event : Option COORD
deriving DecidableEq, Repr

/-- The function `set_output_info` (conhost.c 544-668). `in_size` is the
value passed for the parameter `extra_size`, `face` the `WCHAR`s after the
parameter block, `active` the value of `is_active (screen_buffer)` and
`console_mode` the value of `screen_buffer->console->mode`. The blocks run
in the order of the source; a block that returns early leaves the changes
of the blocks before it in place. -/
def set_output_info (fresh : Nat → char_info_t) (active : Bool) (console_mode : Nat)
    (sb : screen_buffer) (params : condrv_output_info_params) (in_size : Nat)
    (face : List Nat) : set_output_info_result :=
  let info := params.info
  let extra_size := SIZE_T ((in_size : Int) - sizeof_condrv_output_info_params)
  match
    (if mask_has params.mask SET_CONSOLE_OUTPUT_INFO_CURSOR_GEOM then set_info_cursor_geom sb info
     else some sb) with
  | none => ⟨STATUS_INVALID_PARAMETER, sb, none⟩
  | some sb1 =>
    match
      (if mask_has params.mask SET_CONSOLE_OUTPUT_INFO_CURSOR_POS then
        set_info_cursor_pos sb1 info
       else some sb1) with
    | none => ⟨STATUS_INVALID_PARAMETER, sb1, none⟩
    | some sb2 =>
      match
        (if mask_has params.mask SET_CONSOLE_OUTPUT_INFO_SIZE then set_info_size fresh sb2 info
         else Except.ok sb2) with
      | Except.error status => ⟨status, sb2, none⟩
      | Except.ok sb3 =>
        let size_event : Option COORD :=
          if mask_has params.mask SET_CONSOLE_OUTPUT_INFO_SIZE ∧ active = true ∧
              mask_has console_mode ENABLE_WINDOW_INPUT then
            some ⟨info.width, info.height⟩
          else none
        let sb4 :=
          if mask_has params.mask SET_CONSOLE_OUTPUT_INFO_ATTR then
            { sb3 with attr := WORD info.attr }
          else sb3
        let sb5 :=
          if mask_has params.mask SET_CONSOLE_OUTPUT_INFO_POPUP_ATTR then
            { sb4 with popup_attr := WORD info.popup_attr }
          else sb4
        match
          (if mask_has params.mask SET_CONSOLE_OUTPUT_INFO_DISPLAY_WINDOW then
            set_info_display_window sb5 info
           else some sb5) with
        | none => ⟨STATUS_INVALID_PARAMETER, sb5, size_event⟩
        | some sb6 =>
          let sb7 :=
            if mask_has params.mask SET_CONSOLE_OUTPUT_INFO_MAX_SIZE then
              { sb6 with max_width := UINT info.max_width, max_height := UINT info.max_height }
            else sb6
          let sb8 :=
            if mask_has params.mask SET_CONSOLE_OUTPUT_INFO_COLORTABLE then
              { sb7 with color_map := info.color_map }
            else sb7
          let sb9 :=
            if mask_has params.mask SET_CONSOLE_OUTPUT_INFO_FONT then
              set_info_font sb8 info extra_size face
            else sb8
          ⟨STATUS_SUCCESS, sb9, size_event⟩

/-! ## screen_buffer_ioctl -/

/-- The C constant `sizeof(unsigned int)`. -/
def sizeof_unsigned_int : Nat := 4

/-- The case `IOCTL_CONDRV_SET_MODE` of `screen_buffer_ioctl` (conhost.c
1069-1073); `mode` is the `unsigned int` the request carries. -/
def ioctl_set_mode (sb : screen_buffer) (in_size out_size mode : Nat) :
    NTSTATUS × screen_buffer :=
  if in_size ≠ sizeof_unsigned_int ∨ out_size ≠ 0 then (STATUS_INVALID_PARAMETER, sb)
  else (STATUS_SUCCESS, { sb with mode := mode })

/-! ## Typing and invariants of the screen buffer -/

/-- Every `short int` field of the info record holds a `short int` value. -/
def output_info_typed (info : condrv_output_info) : Prop :=
  is_short info.cursor_size ∧ is_short info.cursor_visible ∧ is_short info.cursor_x ∧
  is_short info.cursor_y ∧ is_short info.width ∧ is_short info.height ∧ is_short info.attr ∧
  is_short info.popup_attr ∧ is_short info.win_left ∧ is_short info.win_top ∧
  is_short info.win_right ∧ is_short info.win_bottom ∧ is_short info.max_width ∧
  is_short info.max_height ∧ is_short info.font_width ∧ is_short info.font_height ∧
  is_short info.font_weight ∧ is_short info.font_pitch_family

instance (info : condrv_output_info) : Decidable (output_info_typed info) := by
  unfold output_info_typed; exact inferInstance

/-- The invariants of a screen buffer that the data model of the
specification lists: the dimensions are at least 1, the grid has
`width * height` cells, the cursor is inside the buffer, the cursor size is
a percentage from 1 to 100 and the window lies inside the buffer. -/
def buffer_invariant (sb : screen_buffer) : Prop :=
  1 ≤ sb.width ∧ 1 ≤ sb.height ∧ sb.data.length = sb.width * sb.height ∧
  sb.cursor_x < sb.width ∧ sb.cursor_y < sb.height ∧
  1 ≤ sb.cursor_size ∧ sb.cursor_size ≤ 100 ∧
  0 ≤ sb.win.left ∧ sb.win.left ≤ sb.win.right ∧ sb.win.right < sb.width ∧
  0 ≤ sb.win.top ∧ sb.win.top ≤ sb.win.bottom ∧ sb.win.bottom < sb.height

instance (sb : screen_buffer) : Decidable (buffer_invariant sb) := by
  unfold buffer_invariant; exact inferInstance

/-! ## The input queue: write_console_input, read_console_input -/

/-- Modelled from the spec: the type `INPUT_RECORD` of wincon.h, a header
that is not among the sources. The record is its event type and its union
`Event`, seen through the member `KeyEvent`, which is the member the
console host reads. -/
structure INPUT_RECORD where
  EventType : Nat
  bKeyDown : Nat
  wRepeatCount : Nat
  wVirtualKeyCode : Nat
  wVirtualScanCode : Nat
  UnicodeChar : Nat
  dwControlKeyState : Nat
deriving DecidableEq, Repr

instance : Inhabited INPUT_RECORD := ⟨⟨0, 0, 0, 0, 0, 0, 0⟩⟩

/-- Modelled from the spec: the event type `KEY_EVENT` of wincon.h, a header
that is not among the sources; the value is the one of the Windows SDK. -/
def KEY_EVENT : Nat := 0x0001

/-- Modelled from the spec: the control key state flag `ENHANCED_KEY` of
wincon.h, a header that is not among the sources; the value is the one of
the Windows SDK. -/
def ENHANCED_KEY : Nat := 0x0100

/-- Modelled from the spec: the input mode flag `ENABLE_PROCESSED_INPUT` of
wincon.h, a header that is not among the sources; the value is the one of
the Windows SDK. -/
def ENABLE_PROCESSED_INPUT : Nat := 0x0001

/-- Modelled from the spec: the control event `CTRL_C_EVENT` of wincon.h, a
header that is not among the sources; the value is the one of the Windows
SDK. -/
def CTRL_C_EVENT : Int := 0

/-- The C constant `sizeof(INPUT_RECORD)`. -/
def sizeof_INPUT_RECORD : Nat := 20

/-- The input side of `struct console` (conhost.c 57-83): the input mode,
the array `records` with its `record_size` entries, the number
`record_count` of entries in use and the size of the parked read. -/
structure console where
  mode : Nat
  records : List INPUT_RECORD
  record_count : Nat
  record_size : Nat
  pending_read : Nat
deriving DecidableEq, Repr

/-- The input queue of a console: the entries of `records` in use. -/
def input_queue (con : console) : List INPUT_RECORD := con.records.take con.record_count

/-- A request the console host sends to the server: the `CTRL_EVENT` ioctl
with its `struct condrv_ctrl_event` (condrv.h 231-235), or the
`get_next_console_request` call of `read_console_input` with its fields
`status`, `signal`, `read` and its data. -/
inductive server_request where
  | ctrl_event (event : Int) (group_id : Nat)
  | get_next_console_request (status : NTSTATUS) (signal : Bool) (read : Nat)
      (data : List INPUT_RECORD)
deriving DecidableEq, Repr

/-- The records stored by `memcpy (&array[dst], blk, ...)`, one after the
other. -/
def write_records : List INPUT_RECORD → Nat → List INPUT_RECORD → List INPUT_RECORD
  | array, _, [] => array
  | array, dst, r :: rs => write_records (array.set dst r) (dst + 1) rs

/-- The `n` records read by `memcpy (..., &array[src], ...)`. -/
def read_records (array : List INPUT_RECORD) (src : Nat) (n : Nat) : List INPUT_RECORD :=
  (List.range n).map (fun (k : Nat) => array.getD (src + k) default)

/-- The block `realloc (old, n * sizeof(INPUT_RECORD))` returns: the old
entries that fit, then indeterminate entries, `fresh k` standing for what
entry `k` happens to hold. -/
def realloc_records (fresh : Nat → INPUT_RECORD) (old : List INPUT_RECORD) (n : Nat) :
    List INPUT_RECORD :=
  (List.range n).map (fun (k : Nat) => old.getD k (fresh k))

/-- What a function of the input queue leaves behind: the status, the
console and the requests sent to the server, in order. -/
structure input_result where
  status : NTSTATUS
  console : console
  requests : List server_request
deriving DecidableEq, Repr

/-- The function `read_console_input` (conhost.c 369-397). `server_status`
is the status `wine_server_call` returns for the request. -/
def read_console_input (server_status : NTSTATUS) (con : console) (out_size : Nat) :
    input_result :=
  let count := min (out_size / sizeof_INPUT_RECORD) con.record_count
  let req := server_request.get_next_console_request STATUS_SUCCESS
    (decide (count < con.record_count)) 1 (read_records con.records 0 count)
  if server_status ≠ STATUS_SUCCESS then ⟨server_status, con, [req]⟩
  else
    let records1 :=
      if count < con.record_count then
        write_records con.records 0 (read_records con.records count (con.record_count - count))
      else con.records
    ⟨STATUS_SUCCESS,
      { con with records := records1, record_count := U32 (con.record_count - count) }, [req]⟩

/-- The test of the loop of `write_console_input` (conhost.c 421-423): the
record is a key event for Ctrl-C that is not an enhanced key. -/
def is_ctrl_c (r : INPUT_RECORD) : Prop :=
  r.EventType = KEY_EVENT ∧ r.UnicodeChar = 3 ∧ r.dwControlKeyState &&& ENHANCED_KEY = 0

instance (r : INPUT_RECORD) : Decidable (is_ctrl_c r) := by
  unfold is_ctrl_c; exact inferInstance

/-- The state of the loop of `write_console_input`: the array
`console->records`, the variables `count` and `i`, and the requests sent. -/
structure ctrl_c_state where
  array : List INPUT_RECORD
  count : Nat
  i : Nat
  requests : List server_request
deriving DecidableEq, Repr

/-- The loop `while (i < count)` of `write_console_input` (conhost.c
419-443). Every iteration either increments `i` or decrements `count`, so
`n = count - i` iterations remain. The test reads `records[i]`, the record
of the request, while the removal shifts the entries of `console->records`;
the `memcpy` to a lower address is taken to copy like `memmove`. -/
def ctrl_c_loop (records : List INPUT_RECORD) (record_count : Nat) :
    Nat → ctrl_c_state → ctrl_c_state
  | 0, s => s
  | n + 1, s =>
    if is_ctrl_c (records.getD s.i default) then
      let array1 :=
        if s.i ≠ s.count - 1 then
          write_records s.array (U32 (record_count + s.i))
            (read_records s.array (U32 (U32 (record_count + s.i) + 1)) (s.count - s.i - 1))
        else s.array
      let requests1 :=
        if (records.getD s.i default).bKeyDown ≠ 0 then
          s.requests ++ [server_request.ctrl_event CTRL_C_EVENT 0]
        else s.requests
      ctrl_c_loop records record_count n
        { s with array := array1, count := s.count - 1, requests := requests1 }
    else ctrl_c_loop records record_count n { s with i := s.i + 1 }

/-- The function `write_console_input` (conhost.c 400-452). `records` and
`count` are its parameters, `fresh` the contents of the entries `realloc`
adds, `server_status` the status the server returns to the parked read.
`realloc` is taken to succeed. -/
def write_console_input (fresh : Nat → INPUT_RECORD) (server_status : NTSTATUS) (con : console)
    (records : List INPUT_RECORD) (count : Nat) : input_result :=
  if count = 0 then ⟨STATUS_SUCCESS, con, []⟩
  else
    let con1 : console :=
      if U32 (con.record_count + count) > con.record_size then
        { con with
          records := realloc_records fresh con.records (U32 (con.record_size * 2 + count))
          record_size := U32 (con.record_size * 2 + count) }
      else con
    let array1 := write_records con1.records con1.record_count (read_records records 0 count)
    let s0 : ctrl_c_state := ⟨array1, count, 0, []⟩
    let s : ctrl_c_state :=
      if mask_has con1.mode ENABLE_PROCESSED_INPUT then
        ctrl_c_loop records con1.record_count count s0
      else s0
    let con2 : console :=
      { con1 with records := s.array, record_count := U32 (con1.record_count + s.count) }
    if s.count ≠ 0 ∧ con2.pending_read ≠ 0 then
      let r := read_console_input server_status con2 con2.pending_read
      ⟨STATUS_SUCCESS, { r.console with pending_read := 0 }, s.requests ++ r.requests⟩
    else ⟨STATUS_SUCCESS, con2, s.requests⟩

/-! ## The input requests of console_input_ioctl -/

/-- What an input request leaves behind: the status, the console, the
requests sent to the server and the value of `*out_size` on return. -/
structure input_ioctl_result where
  status : NTSTATUS
  console : console
  requests : List server_request
  out_size : Nat
deriving DecidableEq, Repr

/-- The case `IOCTL_CONDRV_READ_INPUT` of `console_input_ioctl` (conhost.c
1130-1145). `in_data` is the word `*(unsigned int *)in_data`, which is read
only when `in_size` is not zero; `out_size` is the reply capacity. -/
def ioctl_read_input (server_status : NTSTATUS) (con : console) (in_size in_data out_size : Nat) :
    input_ioctl_result :=
  if in_size ≠ 0 ∧ in_size ≠ sizeof_unsigned_int then
    ⟨STATUS_INVALID_PARAMETER, con, [], out_size⟩
  else
    let blocking : Nat := if in_size ≠ 0 ∧ in_data ≠ 0 then 1 else 0
    if blocking ≠ 0 ∧ con.record_count = 0 ∧ out_size ≠ 0 then
      ⟨STATUS_PENDING, { con with pending_read := out_size }, [], out_size⟩
    else
      let r := read_console_input server_status con out_size
      ⟨r.status, r.console, r.requests, 0⟩

/-- The case `IOCTL_CONDRV_WRITE_INPUT` of `console_input_ioctl` (conhost.c
1147-1149). `in_data` holds the records of the payload; the count is
converted to the `unsigned int` parameter of `write_console_input`. -/
def ioctl_write_input (fresh : Nat → INPUT_RECORD) (server_status : NTSTATUS) (con : console)
    (in_size : Nat) (in_data : List INPUT_RECORD) (out_size : Nat) : input_ioctl_result :=
  if in_size % sizeof_INPUT_RECORD ≠ 0 ∨ out_size ≠ 0 then
    ⟨STATUS_INVALID_PARAMETER, con, [], out_size⟩
  else
    let r := write_console_input fresh server_status con in_data
      (U32 (in_size / sizeof_INPUT_RECORD))
    ⟨r.status, r.console, r.requests, out_size⟩

/-- The reply of `IOCTL_CONDRV_PEEK`: `out_size` bytes copied from the start
of `console->records`, that is `records`, the whole records among them,
followed by the first `tail` bytes of the record `cut_record`. -/
structure peek_result where
  status : NTSTATUS
  console : console
  out_size : Nat
  records : List INPUT_RECORD
  tail : Nat
  cut_record : Option INPUT_RECORD
deriving DecidableEq, Repr

/-- The case `IOCTL_CONDRV_PEEK` of `console_input_ioctl` (conhost.c
1151-1160). `alloc_ioctl_buffer` is taken to succeed. -/
def ioctl_peek (con : console) (in_size out_size : Nat) : peek_result :=
  if in_size ≠ 0 then ⟨STATUS_INVALID_PARAMETER, con, out_size, [], 0, none⟩
  else
    let out_size1 := min out_size (SIZE_T (con.record_count * sizeof_INPUT_RECORD))
    ⟨STATUS_SUCCESS, con, out_size1,
      read_records con.records 0 (out_size1 / sizeof_INPUT_RECORD),
      out_size1 % sizeof_INPUT_RECORD,
      if out_size1 % sizeof_INPUT_RECORD ≠ 0 then
        some (con.records.getD (out_size1 / sizeof_INPUT_RECORD) default)
      else none⟩

/-! ## History and settings of the console -/

/-- The history and the settings of `struct console` (conhost.c 68-75). The
array `history` of `history_size` pointers is a list, `none` being `NULL`
and `some text` a `struct history_line` with that text. -/
structure console_info where
  history : List (Option (List Nat))
  history_size : Nat
  history_index : Nat
  history_mode : Nat
  edition_mode : Nat
  input_cp : Nat
  output_cp : Nat
  win : Nat
deriving DecidableEq, Repr

/-- The structure `condrv_input_info` (condrv.h 76-86). -/
structure condrv_input_info where
  input_cp : Nat
  output_cp : Nat
  history_mode : Nat
  history_size : Nat
  history_index : Nat
  edition_mode : Nat
  input_count : Nat
  win : Nat
deriving DecidableEq, Repr

/-- The structure `condrv_input_info_params` (condrv.h 89-93). -/
structure condrv_input_info_params where
  mask : Nat
  info : condrv_input_info
deriving DecidableEq, Repr

/-- The flag `SET_CONSOLE_INPUT_INFO_EDITION_MODE`. -/
def SET_CONSOLE_INPUT_INFO_EDITION_MODE : Nat := 0x01

/-- The flag `SET_CONSOLE_INPUT_INFO_INPUT_CODEPAGE`. -/
def SET_CONSOLE_INPUT_INFO_INPUT_CODEPAGE : Nat := 0x02

/-- The flag `SET_CONSOLE_INPUT_INFO_OUTPUT_CODEPAGE`. -/
def SET_CONSOLE_INPUT_INFO_OUTPUT_CODEPAGE : Nat := 0x04

/-- The flag `SET_CONSOLE_INPUT_INFO_WIN`. -/
def SET_CONSOLE_INPUT_INFO_WIN : Nat := 0x08

/-- The flag `SET_CONSOLE_INPUT_INFO_HISTORY_MODE`. -/
def SET_CONSOLE_INPUT_INFO_HISTORY_MODE : Nat := 0x10

/-- The flag `SET_CONSOLE_INPUT_INFO_HISTORY_SIZE`. -/
def SET_CONSOLE_INPUT_INFO_HISTORY_SIZE : Nat := 0x20

/-- The size of `struct condrv_input_info`: eight 32-bit fields. -/
def sizeof_condrv_input_info : Nat := 32

/-- The size of `struct condrv_input_info_params`: the mask and the info. -/
def sizeof_condrv_input_info_params : Nat := 36

/-- The case `IOCTL_CONDRV_GET_INPUT_INFO` of `console_input_ioctl`
(conhost.c 1162-1177); `none` stands for a reply that is not written. -/
def ioctl_get_input_info (con : console) (info : console_info) (in_size out_size : Nat) :
    NTSTATUS × Option condrv_input_info :=
  if in_size ≠ 0 ∨ out_size ≠ sizeof_condrv_input_info then (STATUS_INVALID_PARAMETER, none)
  else
    (STATUS_SUCCESS,
      some
        { history_mode := info.history_mode
          history_size := info.history_size
          history_index := info.history_index
          edition_mode := info.edition_mode
          input_cp := info.input_cp
          output_cp := info.output_cp
          win := info.win
          input_count := con.record_count })

/-- The assignment `mem[i] = line`; a store outside the block is left out. -/
def history_store (mem : List (Option (List Nat))) (i : Int) (line : Option (List Nat)) :
    List (Option (List Nat)) :=
  if 0 ≤ i then mem.set i.toNat line else mem

/-- The value `history[i]`. -/
def history_load (history : List (Option (List Nat))) (i : Int) : Option (List Nat) :=
  if 0 ≤ i then history.getD i.toNat none else none

/-- The loop `for (i = delta; i < console->history_index; i++)` of the case
`IOCTL_CONDRV_SET_INPUT_INFO` (conhost.c 1204-1208), with `n` the number of
iterations still to run. The old array is freed after the loop, so that the
assignment `console->history[i] = NULL` leaves no trace. -/
def history_copy (history : List (Option (List Nat))) (delta : Int) :
    Nat → Int → List (Option (List Nat)) → List (Option (List Nat))
  | 0, _, mem => mem
  | n + 1, i, mem =>
    history_copy history delta n (INT (i + 1))
      (history_store mem (i - delta) (history_load history i))

/-- The block of the case `IOCTL_CONDRV_SET_INPUT_INFO` that resizes the
history to `n` entries (conhost.c 1190-1216). `malloc` is taken to succeed;
the new array is zeroed by `memset` and is `NULL`, the empty block, for the
size 0. The variables `i` and `delta` are of type `int`; the loop runs while
`i < history_index`. -/
def set_input_info_history (c : console_info) (n : Nat) : console_info :=
  let mem : List (Option (List Nat)) := List.replicate n none
  let delta : Int := INT (if c.history_index > n then U32 (c.history_index - n) else 0)
  let mem1 := history_copy c.history delta ((c.history_index : Int) - delta).toNat delta mem
  { c with
    history := mem1
    history_index := UINT ((c.history_index : Int) - delta)
    history_size := n }

/-- The assignments of the case `IOCTL_CONDRV_SET_INPUT_INFO` for the flags
`EDITION_MODE`, `INPUT_CODEPAGE`, `OUTPUT_CODEPAGE` and `WIN` (conhost.c
1217-1232). -/
def set_input_info_modes (c : console_info) (params : condrv_input_info_params) :
    console_info :=
  let c3 : console_info :=
    if mask_has params.mask SET_CONSOLE_INPUT_INFO_EDITION_MODE then
      { c with edition_mode := params.info.edition_mode }
    else c
  let c4 : console_info :=
    if mask_has params.mask SET_CONSOLE_INPUT_INFO_INPUT_CODEPAGE then
      { c3 with input_cp := params.info.input_cp }
    else c3
  let c5 : console_info :=
    if mask_has params.mask SET_CONSOLE_INPUT_INFO_OUTPUT_CODEPAGE then
      { c4 with output_cp := params.info.output_cp }
    else c4
  if mask_has params.mask SET_CONSOLE_INPUT_INFO_WIN then
    { c5 with win := params.info.win }
  else c5

/-- The case `IOCTL_CONDRV_SET_INPUT_INFO` of `console_input_ioctl`
(conhost.c 1179-1234). -/
def ioctl_set_input_info (info : console_info) (in_size : Nat)
    (params : condrv_input_info_params) (out_size : Nat) : NTSTATUS × console_info :=
  if in_size ≠ sizeof_condrv_input_info_params ∨ out_size ≠ 0 then
    (STATUS_INVALID_PARAMETER, info)
  else
    let c1 : console_info :=
      if mask_has params.mask SET_CONSOLE_INPUT_INFO_HISTORY_MODE then
        { info with history_mode := params.info.history_mode }
      else info
    let c2 : console_info :=
      if mask_has params.mask SET_CONSOLE_INPUT_INFO_HISTORY_SIZE ∧
          c1.history_size ≠ params.info.history_size then
        set_input_info_history c1 params.info.history_size
      else c1
    (STATUS_SUCCESS, set_input_info_modes c2 params)

/-! ## The tty side of the console -/

/-- The tty fields of `struct console` (conhost.c 76-82). `tty_output` tells
whether the handle is set; `tty_buffer` holds the `tty_buffer_count` bytes
in use of the array of that name; `written` is the sequence of bytes handed
to `WriteFile` on `tty_output` so far, every write taken to succeed. -/
structure console_tty where
  tty_output : Bool
  tty_buffer : List Nat
  tty_cursor_x : Nat
  tty_cursor_y : Nat
  tty_attr : Nat
  tty_cursor_visible : Nat
  written : List Nat
deriving DecidableEq, Repr

/-- The size of the array `tty_buffer` (conhost.c 77). -/
def sizeof_tty_buffer : Nat := 4096

/-- The bytes sent towards the tty: those written, then those still held in
`tty_buffer`. -/
def tty_stream (t : console_tty) : List Nat := t.written ++ t.tty_buffer

/-- The function `tty_flush` (conhost.c 199-207). -/
def tty_flush (t : console_tty) : console_tty :=
  if t.tty_output = false ∨ t.tty_buffer.length = 0 then t
  else { t with written := t.written ++ t.tty_buffer, tty_buffer := [] }

/-- The function `tty_write` (conhost.c 209-225); `size` is the length of
`buffer`. -/
def tty_write (t : console_tty) (buffer : List Nat) : console_tty :=
  if buffer.length = 0 ∨ t.tty_output = false then t
  else
    let t1 := if t.tty_buffer.length + buffer.length > sizeof_tty_buffer then tty_flush t else t
    if t1.tty_buffer.length + buffer.length ≤ sizeof_tty_buffer then
      { t1 with tty_buffer := t1.tty_buffer ++ buffer }
    else { t1 with written := t1.written ++ buffer }

/-- The function `tty_alloc_buffer` (conhost.c 227-234): `none` is `NULL`,
otherwise the offset of the block in `tty_buffer` is returned. The bytes of
the block are what the array held; they are zero here and are written by the
caller. -/
def tty_alloc_buffer (t : console_tty) (size : Nat) : Option (Nat × console_tty) :=
  if t.tty_buffer.length + size > sizeof_tty_buffer then none
  else some (t.tty_buffer.length, { t with tty_buffer := t.tty_buffer ++ List.replicate size 0 })

/-- The function `hide_tty_cursor` (conhost.c 236-243); the text is
`"\x1b[25l"`. -/
def hide_tty_cursor (t : console_tty) : console_tty :=
  if t.tty_cursor_visible ≠ 0 then
    { tty_write t [27, 91, 50, 53, 108] with tty_cursor_visible := 0 }
  else t

/-- The digits of `sprintf_u`, least significant first into `acc`; `fuel`
bounds the number of digits. -/
def decimal_digits : Nat → Nat → List Nat → List Nat
  | 0, _, acc => acc
  | fuel + 1, n, acc =>
    if n < 10 then (48 + n) :: acc
    else decimal_digits fuel (n / 10) ((48 + n % 10) :: acc)

/-- Modelled from the spec: the conversion `%u` of the C library function
`sprintf`, which is not among the sources: the decimal digits of the
`unsigned int` argument, most significant first, without leading zeros. Ten
digits are enough for 32 bits. -/
def sprintf_u (n : Nat) : List Nat := decimal_digits 10 (U32 n) []

/-- The function `set_tty_cursor` (conhost.c 245-268). The pair holds the
console after the branch and the text in `buf`: `"\r\n"`, `"\r"`, `"\b"`,
`"\x1b[%uC"`, `"\x1b[%uD"`, `"\x1b[%u;%uH"` or `"\x1b[H"`. -/
def set_tty_cursor (t : console_tty) (x y : Nat) : console_tty :=
  if t.tty_cursor_x = x ∧ t.tty_cursor_y = y then t
  else
    let r : console_tty × List Nat :=
      if x = 0 ∧ y = U32 (t.tty_cursor_y + 1) then (t, [13, 10])
      else if x = 0 ∧ y = t.tty_cursor_y then (t, [13])
      else if y = t.tty_cursor_y then
        if U32 (x + 1) = t.tty_cursor_x then (t, [8])
        else if x > t.tty_cursor_x then
          (t, [27, 91] ++ sprintf_u (U32 (x - t.tty_cursor_x)) ++ [67])
        else (t, [27, 91] ++ sprintf_u (U32 (t.tty_cursor_x - x)) ++ [68])
      else if x ≠ 0 ∨ y ≠ 0 then
        (hide_tty_cursor t,
          [27, 91] ++ sprintf_u (U32 (y + 1)) ++ [59] ++ sprintf_u (U32 (x + 1)) ++ [72])
      else (t, [27, 91, 72])
    tty_write { r.1 with tty_cursor_x := x, tty_cursor_y := y } r.2

/-- Modelled from the spec: the attribute bit `FOREGROUND_BLUE` of wincon.h,
a header that is not among the sources; the value is the one of the Windows
SDK. -/
def FOREGROUND_BLUE : Nat := 0x0001

/-- Modelled from the spec: the attribute bit `FOREGROUND_GREEN` of
wincon.h, with the value of the Windows SDK. -/
def FOREGROUND_GREEN : Nat := 0x0002

/-- Modelled from the spec: the attribute bit `FOREGROUND_RED` of wincon.h,
with the value of the Windows SDK. -/
def FOREGROUND_RED : Nat := 0x0004

/-- Modelled from the spec: the attribute bit `FOREGROUND_INTENSITY` of
wincon.h, with the value of the Windows SDK. -/
def FOREGROUND_INTENSITY : Nat := 0x0008

/-- Modelled from the spec: the attribute bit `BACKGROUND_BLUE` of wincon.h,
with the value of the Windows SDK. -/
def BACKGROUND_BLUE : Nat := 0x0010

/-- Modelled from the spec: the attribute bit `BACKGROUND_GREEN` of
wincon.h, with the value of the Windows SDK. -/
def BACKGROUND_GREEN : Nat := 0x0020

/-- Modelled from the spec: the attribute bit `BACKGROUND_RED` of wincon.h,
with the value of the Windows SDK. -/
def BACKGROUND_RED : Nat := 0x0040

/-- Modelled from the spec: the attribute bit `BACKGROUND_INTENSITY` of
wincon.h, with the value of the Windows SDK. -/
def BACKGROUND_INTENSITY : Nat := 0x0080

/-- The number `n` that `set_tty_attr` computes from `base` (conhost.c
278-282 and 291-295): 4 for the blue bit, 2 for the green one, 1 for the red
one and 60 for the intensity bit, added in `unsigned int`. -/
def tty_attr_number (attr base blue green red intensity : Nat) : Nat :=
  let n0 := base
  let n1 := if mask_has attr blue then U32 (n0 + 4) else n0
  let n2 := if mask_has attr green then U32 (n1 + 2) else n1
  let n3 := if mask_has attr red then U32 (n2 + 1) else n2
  if mask_has attr intensity then U32 (n3 + 60) else n3

/-- The function `set_tty_attr` (conhost.c 270-301); the texts are
`"\x1b[%um"` and `"\x1b[m"`. -/
def set_tty_attr (t : console_tty) (attr : Nat) : console_tty :=
  let t1 :=
    if (attr &&& 0x0f) ≠ (t.tty_attr &&& 0x0f) then
      if (attr &&& 0x0f) ≠ 7 then
        tty_write t ([27, 91] ++
          sprintf_u (tty_attr_number attr 30 FOREGROUND_BLUE FOREGROUND_GREEN FOREGROUND_RED
            FOREGROUND_INTENSITY) ++ [109])
      else tty_write t [27, 91, 109]
    else t
  let t2 :=
    if (attr &&& 0xf0) ≠ (t1.tty_attr &&& 0xf0) ∧ attr ≠ 7 then
      tty_write t1 ([27, 91] ++
        sprintf_u (tty_attr_number attr 40 BACKGROUND_BLUE BACKGROUND_GREEN BACKGROUND_RED
          BACKGROUND_INTENSITY) ++ [109])
    else t1
  { t2 with tty_attr := attr }

/-- The function `tty_sync` (conhost.c 303-319). `active` is
`console->active`; the result `none` stands for the read of
`console->active->cursor_visible` through a `NULL` pointer. The text is
`"\x1b[?25h"`. -/
def tty_sync (active : Option screen_buffer) (t : console_tty) : Option console_tty :=
  if t.tty_output = false then some t
  else
    match active with
    | none => none
    | some a =>
      let t1 :=
        if a.cursor_visible ≠ 0 then
          let t2 := set_tty_cursor t a.cursor_x a.cursor_y
          if t2.tty_cursor_visible = 0 then
            { tty_write t2 [27, 91, 63, 50, 53, 104] with tty_cursor_visible := 1 }
          else t2
        else if t.tty_cursor_visible ≠ 0 then hide_tty_cursor t
        else t
      some (tty_flush t1)

/-! ## The screen buffer map and the active buffer -/

/-- The tree `screen_buffer_map` (conhost.c 130) as the list of its buffers
and the pointer `console->active` as the id of the buffer it points to. The
tree holds at most one buffer for an id, so that the id stands for the
buffer. -/
structure buffer_map where
  screen_buffer_map : List screen_buffer
  active : Option Nat
deriving DecidableEq, Repr

/-- The call `wine_rb_get (&screen_buffer_map, LongToPtr (output))`
(conhost.c 1312): `screen_buffer_compare_id` (conhost.c 124-128) finds the
buffer whose id equals the key in 32 bits. -/
def wine_rb_get (m : List screen_buffer) (output : Int) : Option screen_buffer :=
  m.find? (fun sb => decide (sb.id = UINT output))

/-- The buffer `console->active` points to. An id that is not in the map
stands for a dangling pointer, which no request produces; the result is
`none` for it. -/
def active_buffer (m : buffer_map) : Option screen_buffer :=
  match m.active with
  | none => none
  | some id => m.screen_buffer_map.find? (fun sb => decide (sb.id = id))

/-- The function `destroy_screen_buffer` (conhost.c 186-192). -/
def destroy_screen_buffer (m : buffer_map) (sb : screen_buffer) : buffer_map :=
  { screen_buffer_map := m.screen_buffer_map.erase sb
    active := if m.active = some sb.id then none else m.active }

/-- The assignment of `screen_buffer_activate` (conhost.c 458); the rendering
that follows it (conhost.c 459-461) acts on the tty side only. -/
def screen_buffer_activate (m : buffer_map) (sb : screen_buffer) : NTSTATUS × buffer_map :=
  (STATUS_SUCCESS, { m with active := some sb.id })

/-- The case `IOCTL_CONDRV_CLOSE_OUTPUT` of `screen_buffer_ioctl` (conhost.c
1050-1053). -/
def ioctl_close_output (m : buffer_map) (sb : screen_buffer) (in_size out_size : Nat) :
    NTSTATUS × buffer_map :=
  if in_size ≠ 0 ∨ out_size ≠ 0 then (STATUS_INVALID_PARAMETER, m)
  else (STATUS_SUCCESS, destroy_screen_buffer m sb)

/-- The case `IOCTL_CONDRV_ACTIVATE` of `screen_buffer_ioctl` (conhost.c
1055-1057). -/
def ioctl_activate (m : buffer_map) (sb : screen_buffer) (in_size out_size : Nat) :
    NTSTATUS × buffer_map :=
  if in_size ≠ 0 ∨ out_size ≠ 0 then (STATUS_INVALID_PARAMETER, m)
  else screen_buffer_activate m sb

/-- The branch of `process_console_ioctls` for `IOCTL_CONDRV_INIT_OUTPUT`
(conhost.c 1297-1304): `create_screen_buffer` puts the buffer into the tree
unless the id is present; its result is not looked at. -/
def init_output (fresh : Nat → char_info_t) (m : buffer_map) (output : Int) : buffer_map :=
  let created :=
    match active_buffer m with
    | some a =>
      create_screen_buffer (m.screen_buffer_map.map (fun sb => sb.id)) fresh output
        (INT a.width) (INT a.height)
    | none => create_screen_buffer (m.screen_buffer_map.map (fun sb => sb.id)) fresh output 80 150
  match created with
  | some sb => { m with screen_buffer_map := sb :: m.screen_buffer_map }
  | none => m

/-- A request for the screen buffer map: its code is
`IOCTL_CONDRV_INIT_OUTPUT`, `IOCTL_CONDRV_ACTIVATE` or
`IOCTL_CONDRV_CLOSE_OUTPUT`, sent to the id `output` with `in_size` bytes of
payload and the reply capacity `out_size`. -/
inductive buffer_request where
  | init_output (output : Int)
  | activate (output : Int) (in_size out_size : Nat)
  | close_output (output : Int) (in_size out_size : Nat)
deriving DecidableEq, Repr

/-- The routing of `process_console_ioctls` (conhost.c 1297-1322) for the
requests of `buffer_request`. A request for the id 0 goes to
`console_input_ioctl`, which has no case for the two codes and returns
`STATUS_NOT_SUPPORTED` (conhost.c 1252-1254). -/
def buffer_request_step (fresh : Nat → char_info_t) (m : buffer_map) :
    buffer_request → NTSTATUS × buffer_map
  | .init_output output => (STATUS_SUCCESS, init_output fresh m output)
  | .activate output in_size out_size =>
    if output = 0 then (STATUS_NOT_SUPPORTED, m)
    else
      match wine_rb_get m.screen_buffer_map output with
      | none => (STATUS_INVALID_HANDLE, m)
      | some sb => ioctl_activate m sb in_size out_size
  | .close_output output in_size out_size =>
    if output = 0 then (STATUS_NOT_SUPPORTED, m)
    else
      match wine_rb_get m.screen_buffer_map output with
      | none => (STATUS_INVALID_HANDLE, m)
      | some sb => ioctl_close_output m sb in_size out_size

/-- The state after a sequence of requests, served one after the other. -/
def buffer_requests (fresh : Nat → char_info_t) : List buffer_request → buffer_map → buffer_map
  | [], m => m
  | r :: rs, m => buffer_requests fresh rs (buffer_request_step fresh m r).2

/-- The property that `console->active` is `NULL` or points to a buffer of
the tree. -/
def active_in_map (m : buffer_map) : Prop :=
  m.active = none ∨ ∃ sb, sb ∈ m.screen_buffer_map ∧ m.active = some sb.id

/-! ## The console and the dispatcher -/

/-- The state of conhost: `struct console` (conhost.c 57-83) in its parts,
with the title as the list of its `WCHAR`s, and the screen buffer map. -/
structure console_state where
  input : console
  info : console_info
  title : List Nat
  title_len : Nat
  tty : console_tty
  buffers : buffer_map
deriving DecidableEq, Repr

/-- Modelled from the spec: the macro `CTL_CODE` of winioctl.h, a header
that is not among the sources, with the layout of the Windows SDK. -/
def CTL_CODE (device_type function method access : Nat) : Nat :=
  (device_type <<< 16) ||| (access <<< 14) ||| (function <<< 2) ||| method

/-- Modelled from the spec: the device type `FILE_DEVICE_CONSOLE` of
winioctl.h, with the value of the Windows SDK. -/
def FILE_DEVICE_CONSOLE : Nat := 0x50

/-- Modelled from the spec: the transfer type `METHOD_BUFFERED` of
winioctl.h, with the value of the Windows SDK. -/
def METHOD_BUFFERED : Nat := 0

/-- The code `IOCTL_CONDRV_INIT_OUTPUT` (condrv.h 55). -/
def IOCTL_CONDRV_INIT_OUTPUT : Nat := CTL_CODE FILE_DEVICE_CONSOLE 90 METHOD_BUFFERED 0

/-- A handler of the dispatcher: from the state, the code, the payload with
its size and the reply capacity to the status, the value of `*out_size` on
return and the new state. -/
abbrev ioctl_handler (target : Type) : Type :=
  console_state → target → Nat → List Nat → Nat → Nat → NTSTATUS × Nat × console_state

/-- The routing of `process_console_ioctls` (conhost.c 1297-1322) for one
request. The two handlers `console_input_ioctl` and `screen_buffer_ioctl`
are parameters; `IOCTL_CONDRV_INIT_OUTPUT` leaves `status` and `out_size`
as the fetch set them. -/
def dispatch_request (fresh : Nat → char_info_t) (console_input_ioctl : ioctl_handler Unit)
    (screen_buffer_ioctl : ioctl_handler screen_buffer) (st : console_state) (code : Nat)
    (output : Int) (in_data : List Nat) (in_size out_size : Nat) :
    NTSTATUS × Nat × console_state :=
  if code = IOCTL_CONDRV_INIT_OUTPUT then
    (STATUS_SUCCESS, out_size, { st with buffers := init_output fresh st.buffers output })
  else if output = 0 then console_input_ioctl st () code in_data in_size out_size
  else
    match wine_rb_get st.buffers.screen_buffer_map output with
    | none => (STATUS_INVALID_HANDLE, out_size, st)
    | some sb => screen_buffer_ioctl st sb code in_data in_size out_size

/-- The reply of the server to `get_next_console_request`: the status of the
call, the code, the target id, the reply capacity and the payload with its
size. -/
structure console_request where
  status : NTSTATUS
  code : Nat
  output : Int
  out_size : Nat
  in_size : Nat
  in_data : List Nat
deriving DecidableEq, Repr

/-- What `process_console_ioctls` reports with `get_next_console_request`:
the status of the request served before, the flag `signal` and the number of
bytes of `ioctl_buffer` sent as the reply. -/
structure console_report where
  status : NTSTATUS
  signal : Bool
  out_size : Nat
deriving DecidableEq, Repr

/-- The loop of `process_console_ioctls` (conhost.c 1258-1324) over the
replies the server gives to its calls, in order. The result holds the
reports sent, the state, and the value returned, `none` when the last call
has no reply yet. `alloc_ioctl_buffer` is taken to succeed. -/
def process_console_ioctls (fresh : Nat → char_info_t) (console_input_ioctl : ioctl_handler Unit)
    (screen_buffer_ioctl : ioctl_handler screen_buffer) :
    List console_request → console_state → NTSTATUS → Nat →
      List console_report × console_state × Option NTSTATUS
  | [], st, status, out_size =>
    ([⟨status, decide (st.input.record_count ≠ 0),
        if status ≠ STATUS_SUCCESS then 0 else out_size⟩], st, none)
  | r :: rs, st, status, out_size =>
    let report : console_report :=
      ⟨status, decide (st.input.record_count ≠ 0), if status ≠ STATUS_SUCCESS then 0 else out_size⟩
    if r.status = STATUS_PENDING then ([report], st, some STATUS_SUCCESS)
    else if r.status = STATUS_BUFFER_OVERFLOW then
      let next := process_console_ioctls fresh console_input_ioctl screen_buffer_ioctl rs st
        STATUS_SUCCESS r.out_size
      (report :: next.1, next.2)
    else if r.status ≠ STATUS_SUCCESS then ([report], st, some r.status)
    else
      let d := dispatch_request fresh console_input_ioctl screen_buffer_ioctl st r.code r.output
        r.in_data r.in_size r.out_size
      let next := process_console_ioctls fresh console_input_ioctl screen_buffer_ioctl rs d.2.2
        d.1 d.2.1
      (report :: next.1, next.2)

/-! ## The title -/

/-- The bytes `block` stored at the offset `vt` of `tty_buffer`. -/
def tty_store (buffer : List Nat) (vt : Nat) (block : List Nat) : List Nat :=
  buffer.take vt ++ block ++ buffer.drop (vt + block.length)

/-- The function `set_console_title` (conhost.c 1015-1043). `in_title` holds
the `size / 2` `WCHAR`s of the payload. The function `WideCharToMultiByte`
of the Windows API, which is not among the sources, is the parameter `utf8`:
it gives the bytes of the conversion to `CP_UTF8`, and the call without
destination returns their number; for an empty source the call returns 0.
`malloc` is taken to succeed. The result is `none` when `tty_sync` reads
through the `NULL` pointer `console->active`. -/
def set_console_title (utf8 : List Nat → List Nat) (st : console_state) (in_title : List Nat)
    (size : Nat) : Option (NTSTATUS × console_state) :=
  let title : List Nat := if size ≠ 0 then in_title.take (size / 2) else []
  let st1 : console_state := { st with title := title, title_len := size }
  if st1.tty.tty_output = true then
    let t1 := tty_write st1.tty [27, 93, 48, 59]
    let bytes : List Nat := if size / 2 = 0 then [] else utf8 title
    let len := bytes.length
    let t2 : console_tty :=
      match tty_alloc_buffer t1 len with
      | some (vt, t) => { t with tty_buffer := tty_store t.tty_buffer vt bytes }
      | none => t1
    let t3 := tty_write t2 [7]
    match tty_sync (active_buffer st1.buffers) t3 with
    | some t4 => some (STATUS_SUCCESS, { st1 with tty := t4 })
    | none => none
  else some (STATUS_SUCCESS, st1)

/-- The reply of `IOCTL_CONDRV_GET_TITLE`: `out_size` bytes, `text` being
the whole `WCHAR`s among them. -/
structure title_reply where
  status : NTSTATUS
  out_size : Nat
  text : List Nat
deriving DecidableEq, Repr

/-- The case `IOCTL_CONDRV_GET_TITLE` of `console_input_ioctl` (conhost.c
1236-1246). `alloc_ioctl_buffer` is taken to succeed. -/
def ioctl_get_title (st : console_state) (in_size out_size : Nat) : title_reply :=
  if in_size ≠ 0 then ⟨STATUS_INVALID_PARAMETER, out_size, []⟩
  else
    let out_size1 := min out_size st.title_len
    ⟨STATUS_SUCCESS, out_size1, st.title.take (out_size1 / 2)⟩

/-- The case `IOCTL_CONDRV_SET_TITLE` of `console_input_ioctl` (conhost.c
1248-1250). -/
def ioctl_set_title (utf8 : List Nat → List Nat) (st : console_state) (in_size : Nat)
    (in_data : List Nat) (out_size : Nat) : Option (NTSTATUS × console_state) :=
  if in_size % sizeof_WCHAR ≠ 0 ∨ out_size ≠ 0 then some (STATUS_INVALID_PARAMETER, st)
  else set_console_title utf8 st in_data in_size

/-- The ids of the buffers of the map are distinct, as `wine_rb_put` keeps
them. -/
def distinct_ids (m : buffer_map) : Prop := (m.screen_buffer_map.map (fun sb => sb.id)).Nodup

instance (m : buffer_map) : Decidable (distinct_ids m) := by
  unfold distinct_ids; exact inferInstance

instance (m : buffer_map) : Decidable (active_in_map m) := by
  unfold active_in_map; exact inferInstance

/-! ## The emission of the renderer as the specification states it -/

/-- The bytes the specification gives for `set_tty_cursor (x, y)` from the
believed position `(cx, cy)`; `visible` tells whether the tty cursor is
marked visible, and the cursor-hide text is the one of `hide_tty_cursor`. -/
def set_tty_cursor_emission (x y cx cy : Nat) (visible : Bool) : List Nat :=
  if x = cx ∧ y = cy then []
  else if x = 0 ∧ y = cy + 1 then [13, 10]
  else if x = 0 ∧ y = cy then [13]
  else if y = cy then
    if x + 1 = cx then [8]
    else if x > cx then [27, 91] ++ sprintf_u (x - cx) ++ [67]
    else [27, 91] ++ sprintf_u (cx - x) ++ [68]
  else if x = 0 ∧ y = 0 then [27, 91, 72]
  else
    (if visible then [27, 91, 50, 53, 108] else []) ++
      ([27, 91] ++ sprintf_u (y + 1) ++ [59] ++ sprintf_u (x + 1) ++ [72])

/-- The number `n` of the specification for an attribute: `base` plus 1 for
the red bit, 2 for the green one, 4 for the blue one and 60 for the
intensity bit. -/
def sgr_number (a base red green blue intensity : Nat) : Nat :=
  base + (if mask_has a red then 1 else 0) + (if mask_has a green then 2 else 0) +
    (if mask_has a blue then 4 else 0) + (if mask_has a intensity then 60 else 0)

/-- The foreground part the specification gives for `set_tty_attr (a)` after
the attribute `p`. -/
def set_tty_attr_foreground (p a : Nat) : List Nat :=
  if (a &&& 0x0f) = (p &&& 0x0f) then []
  else if (a &&& 0x0f) = 7 then [27, 91, 109]
  else
    [27, 91] ++
      sprintf_u (sgr_number a 30 FOREGROUND_RED FOREGROUND_GREEN FOREGROUND_BLUE
        FOREGROUND_INTENSITY) ++ [109]

/-- The background part the specification gives for `set_tty_attr (a)` after
the attribute `p`. -/
def set_tty_attr_background (p a : Nat) : List Nat :=
  if (a &&& 0xf0) = (p &&& 0xf0) ∨ a = 7 then []
  else
    [27, 91] ++
      sprintf_u (sgr_number a 40 BACKGROUND_RED BACKGROUND_GREEN BACKGROUND_BLUE
        BACKGROUND_INTENSITY) ++ [109]

/-- The value of a sequence of decimal digits, most significant first. -/
def decimal_value (digits : List Nat) : Nat :=
  digits.foldl (fun (v d : Nat) => 10 * v + (d - 48)) 0

/-! ## update_output -/

/-- The loop `for (trailing_spaces = 0; trailing_spaces < width;
trailing_spaces++)` of `update_output` (conhost.c 343-347), with `n` the
number of iterations still to run: it stops at the first cell from the end
of row `y` that is not `(' ', 7)`. The index is computed in `unsigned int`. -/
def update_trailing_spaces (sb : screen_buffer) (y : Int) : Nat → Int → Int
  | 0, trailing_spaces => trailing_spaces
  | n + 1, trailing_spaces =>
    let ch := sb.data.getD (UINT ((y + 1) * sb.width - trailing_spaces - 1)) default
    if ch.ch ≠ 32 ∨ ch.attr ≠ 7 then trailing_spaces
    else update_trailing_spaces sb y n (trailing_spaces + 1)

/-- The loop `for (x = rect->left; x <= rect->right; x++)` of
`update_output` (conhost.c 350-365) for row `y`, with `n` the number of
iterations still to run. The text is `"\x1b[K"`. The function
`WideCharToMultiByte` of the Windows API, which is not among the sources, is
the parameter `utf8`: it gives the bytes of the conversion of the `WCHAR`s
to `CP_UTF8`. -/
def update_output_columns (utf8 : List Nat → List Nat) (sb : screen_buffer) (y : Int)
    (trailing_spaces : Int) : Nat → Int → console_tty → console_tty
  | 0, _, t => t
  | n + 1, x, t =>
    let ch := sb.data.getD (UINT (y * sb.width + x)) default
    let t1 := set_tty_attr t ch.attr
    let t2 := set_tty_cursor t1 (UINT x) (UINT y)
    if UINT (x + trailing_spaces) ≥ sb.width then tty_write t2 [27, 91, 75]
    else
      let t3 := tty_write t2 (utf8 [ch.ch])
      update_output_columns utf8 sb y trailing_spaces n (INT (x + 1))
        { t3 with tty_cursor_x := U32 (t3.tty_cursor_x + 1) }

/-- The value of `trailing_spaces` for row `y` after the test `if
(trailing_spaces < 4) trailing_spaces = 0` (conhost.c 343-348). -/
def update_row_skip (sb : screen_buffer) (y : Int) : Int :=
  if update_trailing_spaces sb y sb.width 0 < 4 then 0
  else update_trailing_spaces sb y sb.width 0

/-- The loop `for (y = rect->top; y <= rect->bottom; y++)` of
`update_output` (conhost.c 341-366), with `n` the number of iterations still
to run. -/
def update_output_rows (utf8 : List Nat → List Nat) (sb : screen_buffer) (rect : RECT) :
    Nat → Int → console_tty → console_tty
  | 0, _, t => t
  | n + 1, y, t =>
    update_output_rows utf8 sb rect n (INT (y + 1))
      (update_output_columns utf8 sb y (update_row_skip sb y)
        (rect.right - rect.left + 1).toNat rect.left t)

/-- The function `update_output` (conhost.c 330-367); `active` is the value
of `is_active (screen_buffer)`. -/
def update_output (utf8 : List Nat → List Nat) (active : Bool) (sb : screen_buffer)
    (rect : RECT) (t : console_tty) : console_tty :=
  if active = false ∨ t.tty_output = false then t
  else
    update_output_rows utf8 sb rect (rect.bottom - rect.top + 1).toNat rect.top
      (hide_tty_cursor t)

/-! ## The rendering of the handlers -/

/-- The rectangle `update_rect` of `write_output` (conhost.c 726-747) for
the loop counter `i` and `entry_cnt`. The right sides are computed in
`unsigned int` and stored into `LONG` fields. -/
def write_update_rect (sb : screen_buffer) (params : condrv_output_params) (i entry_cnt : Nat) :
    RECT :=
  if params.width ≠ 0 then
    { left := INT params.x
      top := INT params.y
      bottom := INT (UINT ((min (U32 (params.y + entry_cnt / params.width)) sb.height : Int) - 1))
      right := INT (UINT ((min (U32 (params.x + params.width)) sb.width : Int) - 1)) }
  else
    let bottom : Int :=
      INT (U32 (params.y + UINT (((params.x + i : Nat) : Int) - 1) / sb.width))
    if UINT bottom ≠ params.y then
      { left := 0
        top := INT params.y
        right := INT (UINT ((sb.width : Int) - 1))
        bottom := bottom }
    else
      { left := INT params.x
        top := INT params.y
        right := INT (UINT (((params.x + i : Nat) : Int) - 1))
        bottom := bottom }

/-- The tty after `write_output` (conhost.c 670-772): the handler renders
the rectangle `update_rect` and calls `tty_sync` when the loop counter is
not zero and the buffer is the active one (conhost.c 724-750); it returns
before that for a start column outside the buffer and for an unknown mode.
The result is `none` when `tty_sync` reads through a `NULL` pointer. -/
def write_output_tty (utf8 : List Nat → List Nat) (active : Bool) (sb : screen_buffer)
    (params : condrv_output_params) (src : List Nat) (t : console_tty) : Option console_tty :=
  let entry_cnt := write_entry_cnt params src
  if params.x ≥ sb.width then some t
  else
    let l := write_output_loop sb params src entry_cnt 0 sb.data []
    let sb1 := { sb with data := l.data }
    if l.invalid then some t
    else if l.i ≠ 0 ∧ active = true then
      tty_sync (some sb1)
        (update_output utf8 active sb1 (write_update_rect sb1 params l.i entry_cnt) t)
    else some t

/-- The rectangle `update_rect` of `fill_output` (conhost.c 899-904), the
loop counter `i` being `count` after the loop. The arguments of `SetRect`
are computed in `unsigned int` and passed as `int`. -/
def fill_update_rect (sb : screen_buffer) (params : condrv_fill_output_params) : RECT :=
  let i := fill_count sb params
  { left := INT (UINT params.x % sb.width)
    top := INT (U32 (UINT params.y + UINT params.x / sb.width))
    right := INT (UINT (params.x + i - 1) % sb.width)
    bottom := INT (U32 (UINT params.y + UINT (params.x + i - 1) / sb.width)) }

/-- The rectangle `update_rect` of `scroll_output` (conhost.c 1008-1009):
`src` is the source cut to the clip and `dst` the destination after the four
`if` statements, which cut its left and top sides only. -/
def scroll_update_rect (sb : screen_buffer) (params : condrv_scroll_params) : RECT :=
  let src := scroll_src sb params
  let dst := (scroll_clip_dst (scroll_clip sb params) (scroll_init params)).dst
  { left := min src.Left dst.Left
    top := min src.Top dst.Top
    right := max src.Right dst.Right
    bottom := max src.Bottom dst.Bottom }

/-! ## The size checks of screen_buffer_ioctl -/

/-- The case `IOCTL_CONDRV_WRITE_OUTPUT` of `screen_buffer_ioctl` (conhost.c
1075-1079). `src` is the payload after the header in 16-bit units, so that
`in_size` is `sizeof(struct condrv_output_params) + 2 * src.length`. The
result is `none` when `write_output` divides by zero. -/
def ioctl_write_output (sb : screen_buffer) (params : condrv_output_params) (src : List Nat)
    (out_size : Nat) : Option write_result :=
  let in_size := sizeof_condrv_output_params + sizeof_WCHAR * src.length
  if (out_size ≠ sizeof_DWORD ∧ out_size ≠ sizeof_SMALL_RECT) ∨
      in_size < sizeof_condrv_output_params then
    some ⟨STATUS_INVALID_PARAMETER, sb, out_size, ioctl_reply.unwritten, []⟩
  else write_output sb params src out_size

/-- The C constant `sizeof(struct condrv_output_info)`: 18 `short int`s and
16 `unsigned int`s (condrv.h 121-141). -/
def sizeof_condrv_output_info : Nat := 100

/-- The case `IOCTL_CONDRV_SET_OUTPUT_INFO` of `screen_buffer_ioctl`
(conhost.c 1089-1091). -/
def ioctl_set_output_info (fresh : Nat → char_info_t) (active : Bool) (console_mode : Nat)
    (sb : screen_buffer) (params : condrv_output_info_params) (in_size : Nat)
    (face : List Nat) (out_size : Nat) : set_output_info_result :=
  if in_size < sizeof_condrv_output_info ∨ out_size ≠ 0 then
    ⟨STATUS_INVALID_PARAMETER, sb, none⟩
  else set_output_info fresh active console_mode sb params in_size face

/-- The number of bytes that the font block of `set_output_info` copies from
behind the parameter block (conhost.c 553 and 651-658), for the value
`in_size` that the dispatcher passes as `extra_size`: the subtraction and
the rounding to whole `WCHAR`s are made in `size_t`. -/
def font_name_size (in_size : Nat) : Nat :=
  let extra_size := SIZE_T ((in_size : Int) - sizeof_condrv_output_info_params)
  extra_size / sizeof_WCHAR * sizeof_WCHAR

/-! ## Sequences of tty calls -/

/-- A call of `tty_write` with a chunk of bytes, or a call of `tty_flush`. -/
inductive tty_call where
  | write (buffer : List Nat)
  | flush
deriving DecidableEq, Repr

/-- The tty after the calls, made one after the other. -/
def tty_calls : List tty_call → console_tty → console_tty
  | [], t => t
  | tty_call.write buffer :: cs, t => tty_calls cs (tty_write t buffer)
  | tty_call.flush :: cs, t => tty_calls cs (tty_flush t)

/-- The chunks written by the calls, one after the other. -/
def tty_chunks : List tty_call → List Nat
  | [] => []
  | tty_call.write buffer :: cs => buffer ++ tty_chunks cs
  | tty_call.flush :: cs => tty_chunks cs

/-- The assertion `assert (!console->tty_buffer_count)` of `tty_write`
(conhost.c 221) holds when the call reaches it: on the path of a chunk that
does not fit into the buffer after the flush. -/
def tty_write_assertion (t : console_tty) (buffer : List Nat) : Prop :=
  if buffer.length = 0 ∨ t.tty_output = false then True
  else
    let t1 := if t.tty_buffer.length + buffer.length > sizeof_tty_buffer then tty_flush t else t
    if t1.tty_buffer.length + buffer.length ≤ sizeof_tty_buffer then True
    else t1.tty_buffer.length = 0

instance (t : console_tty) (buffer : List Nat) : Decidable (tty_write_assertion t buffer) := by
  unfold tty_write_assertion; exact inferInstance

/-- The assertion of `tty_write` holds in every call of the sequence. -/
def tty_calls_assertion : List tty_call → console_tty → Prop
  | [], _ => True
  | tty_call.write buffer :: cs, t =>
    tty_write_assertion t buffer ∧ tty_calls_assertion cs (tty_write t buffer)
  | tty_call.flush :: cs, t => tty_calls_assertion cs (tty_flush t)

/-! ## The rendering as the specification states it -/

/-- The cells of row `y` of the grid. -/
def grid_row (sb : screen_buffer) (y : Nat) : List char_info_t :=
  (sb.data.drop (y * sb.width)).take sb.width

/-- The number of trailing cells of row `y` that are equal to `(' ', 7)`. -/
def row_trailing_blanks (sb : screen_buffer) (y : Nat) : Nat :=
  ((grid_row sb y).reverse.takeWhile (fun c => decide (c = empty_char_info))).length

/-- The number `t` of the specification for row `y`: the number of trailing
blank cells if it is at least 4, and 0 otherwise. -/
def row_skipped (sb : screen_buffer) (y : Nat) : Nat :=
  if 4 ≤ row_trailing_blanks sb y then row_trailing_blanks sb y else 0

/-- The rendering of one cell as the specification states it: the attribute
and cursor convergence for the cell, the conversion of its character to
UTF-8, and the advance of `tty_cursor_x` by 1. -/
def emit_cell (utf8 : List Nat → List Nat) (sb : screen_buffer) (y : Nat) (t : console_tty)
    (x : Nat) : console_tty :=
  let c := sb.data.getD (y * sb.width + x) default
  let t1 := tty_write (set_tty_cursor (set_tty_attr t c.attr) x y) (utf8 [c.ch])
  { t1 with tty_cursor_x := t1.tty_cursor_x + 1 }

/-- The rendering of row `y` for the columns `left .. right` as the
specification states it: the cells of the columns below `W - t` from left to
right, then one `ESC[K` at the first column of the rectangle that is not
below `W - t`, after the attribute and cursor convergence for it, if there
is such a column. -/
def emit_row (utf8 : List Nat → List Nat) (sb : screen_buffer) (left right : Nat)
    (t : console_tty) (y : Nat) : console_tty :=
  let stop := sb.width - row_skipped sb y
  let t1 := (List.range' left (min (right + 1) stop - left)).foldl (emit_cell utf8 sb y) t
  if stop ≤ right then
    let x := max left stop
    let c := sb.data.getD (y * sb.width + x) default
    tty_write (set_tty_cursor (set_tty_attr t1 c.attr) x y) [27, 91, 75]
  else t1

/-! ## The colours of a terminal as the specification states them -/

/-- The colour state of a terminal: the foreground and the background
nibble. -/
structure terminal_colour where
  fg : Nat
  bg : Nat
deriving DecidableEq, Repr

/-- The nibble for the colour number `c` of an SGR parameter: red is 1,
green 2 and blue 4 in `c`, and `FOREGROUND_RED`, `FOREGROUND_GREEN` and
`FOREGROUND_BLUE` in the nibble. -/
def sgr_nibble (c : Nat) : Nat :=
  (if c &&& 1 ≠ 0 then FOREGROUND_RED else 0) + (if c &&& 2 ≠ 0 then FOREGROUND_GREEN else 0) +
    (if c &&& 4 ≠ 0 then FOREGROUND_BLUE else 0)

/-- The effect of one SGR sequence on the colour state: `ESC[m` (`none`)
sets it to `(7, 0)`, `ESC[<n>m` with `n` in 30..37 or 90..97 sets the
foreground only, with `n` in 40..47 or 100..107 the background only; the
upper ranges are the colours with intensity. -/
def sgr_apply (n : Option Nat) (s : terminal_colour) : terminal_colour :=
  match n with
  | none => ⟨7, 0⟩
  | some n =>
    if 30 ≤ n ∧ n ≤ 37 then ⟨sgr_nibble (n - 30), s.bg⟩
    else if 90 ≤ n ∧ n ≤ 97 then ⟨sgr_nibble (n - 90) + FOREGROUND_INTENSITY, s.bg⟩
    else if 40 ≤ n ∧ n ≤ 47 then ⟨s.fg, sgr_nibble (n - 40)⟩
    else if 100 ≤ n ∧ n ≤ 107 then ⟨s.fg, sgr_nibble (n - 100) + FOREGROUND_INTENSITY⟩
    else s

/-- Where the terminal is in its input: in plain text, after `ESC`, or
inside a sequence `ESC[` with the digits read so far. -/
inductive terminal_input where
  | ground
  | escape
  | csi (n : Option Nat)
deriving DecidableEq, Repr

/-- The terminal reads one byte. -/
def terminal_step (s : terminal_input × terminal_colour) (b : Nat) :
    terminal_input × terminal_colour :=
  match s.1 with
  | terminal_input.ground => if b = 27 then (terminal_input.escape, s.2) else s
  | terminal_input.escape =>
    if b = 91 then (terminal_input.csi none, s.2) else (terminal_input.ground, s.2)
  | terminal_input.csi n =>
    if 48 ≤ b ∧ b ≤ 57 then (terminal_input.csi (some (10 * n.getD 0 + (b - 48))), s.2)
    else if b = 109 then (terminal_input.ground, sgr_apply n s.2)
    else (terminal_input.ground, s.2)

/-- The colour state of the terminal after the bytes. -/
def terminal_run (bytes : List Nat) (s : terminal_colour) : terminal_colour :=
  (bytes.foldl terminal_step (terminal_input.ground, s)).2

/-- The colour state of the terminal matches the attribute `a`: the
foreground is `a & 0x0f` and the background `(a >> 4) & 0x0f`. -/
def terminal_matches (s : terminal_colour) (a : Nat) : Prop :=
  s.fg = (a &&& 0x0f) ∧ s.bg = ((a >>> 4) &&& 0x0f)

instance (s : terminal_colour) (a : Nat) : Decidable (terminal_matches s a) := by
  unfold terminal_matches; exact inferInstance

/-! ## The blocks of set_output_info, one after the other -/

/-- The blocks of a SET_OUTPUT_INFO request in the order in which
`set_output_info` runs them (cursor geometry, cursor position, size,
attributes, popup attributes, display window, max size, palette, font),
each with its flag: what the block makes of the buffer, or `none` when it
refuses the request. -/
def info_blocks (fresh : Nat → char_info_t) (info : condrv_output_info) (extra_size : Nat)
    (face : List Nat) : List (Nat × (screen_buffer → Option screen_buffer)) :=
  [(SET_CONSOLE_OUTPUT_INFO_CURSOR_GEOM, fun sb => set_info_cursor_geom sb info),
    (SET_CONSOLE_OUTPUT_INFO_CURSOR_POS, fun sb => set_info_cursor_pos sb info),
    (SET_CONSOLE_OUTPUT_INFO_SIZE, fun sb => (set_info_size fresh sb info).toOption),
    (SET_CONSOLE_OUTPUT_INFO_ATTR, fun sb => some { sb with attr := WORD info.attr }),
    (SET_CONSOLE_OUTPUT_INFO_POPUP_ATTR,
      fun sb => some { sb with popup_attr := WORD info.popup_attr }),
    (SET_CONSOLE_OUTPUT_INFO_DISPLAY_WINDOW, fun sb => set_info_display_window sb info),
    (SET_CONSOLE_OUTPUT_INFO_MAX_SIZE,
      fun sb => some { sb with
        max_width := UINT info.max_width
        max_height := UINT info.max_height }),
    (SET_CONSOLE_OUTPUT_INFO_COLORTABLE, fun sb => some { sb with color_map := info.color_map }),
    (SET_CONSOLE_OUTPUT_INFO_FONT, fun sb => some (set_info_font sb info extra_size face))]

/-- The run of the blocks that the mask selects, one after the other: the
flag of the block that refused, if one did, and the buffer after the run. A
block that refuses ends the run and leaves the buffer as the blocks before
it made it. -/
def run_blocks (mask : Nat) :
    List (Nat × (screen_buffer → Option screen_buffer)) → screen_buffer →
      Option Nat × screen_buffer
  | [], sb => (none, sb)
  | (flag, block) :: rest, sb =>
    if mask_has mask flag then
      match block sb with
      | none => (some flag, sb)
      | some sb1 => run_blocks mask rest sb1
    else run_blocks mask rest sb

/-! ## Sample states -/

/-- A screen buffer with the given size, default attribute and cells; the
other fields have the values `create_screen_buffer` gives them. -/
def test_buffer (width height attr : Nat) (data : List char_info_t) : screen_buffer :=
  { id := 1, mode := 3, width := width, height := height, cursor_size := 100,
    cursor_visible := 1, cursor_x := 0, cursor_y := 0, attr := attr, popup_attr := 245,
    max_width := 80, max_height := 25, data := data, color_map := List.replicate 16 0,
    win := ⟨0, 0, 79, 24⟩, font := ⟨0, 0, 400, 1, []⟩ }

/-- The cells of a text, all with attribute `attr`. -/
def text_cells (attr : Nat) (chars : List Nat) : List char_info_t :=
  chars.map (fun ch => ⟨ch, attr⟩)

/-- An 8 x 4 buffer of blanks with default attribute 7. -/
def blank_8x4 : screen_buffer := test_buffer 8 4 7 (List.replicate 32 empty_char_info)

/-- The 8 x 4 buffer after the fill of the first scenario: every cell is
`('A', 0x07)`. -/
def filled_8x4 : screen_buffer := test_buffer 8 4 7 (List.replicate 32 ⟨65, 7⟩)

/-- A 2 x 2 buffer of blanks with default attribute 7. -/
def blank_2x2 : screen_buffer := test_buffer 2 2 7 (List.replicate 4 empty_char_info)

/-- The 4 x 4 buffer of the third scenario, with rows `AAAA`, `BBBB`, `CCCC`
and `DDDD`. -/
def rows_4x4 : screen_buffer :=
  test_buffer 4 4 7
    (text_cells 7 [65, 65, 65, 65, 66, 66, 66, 66, 67, 67, 67, 67, 68, 68, 68, 68])

/-- An 8 x 1 buffer holding `abcdefgh`. -/
def row_abcdefgh : screen_buffer :=
  test_buffer 8 1 7 (text_cells 7 [97, 98, 99, 100, 101, 102, 103, 104])

/-- A 4 x 1 buffer holding `abcd`. -/
def row_abcd : screen_buffer := test_buffer 4 1 7 (text_cells 7 [97, 98, 99, 100])

/-- The 2 x 2 buffer of blanks with the window on the whole buffer. -/
def window_2x2 : screen_buffer := { blank_2x2 with win := ⟨0, 0, 1, 1⟩ }

/-- An info record that describes `window_2x2`. -/
def info_2x2 : condrv_output_info :=
  { cursor_size := 100, cursor_visible := 1, cursor_x := 0, cursor_y := 0, width := 2,
    height := 2, attr := 7, popup_attr := 245, win_left := 0, win_top := 0, win_right := 1,
    win_bottom := 1, max_width := 80, max_height := 25, font_width := 0, font_height := 0,
    font_weight := 400, font_pitch_family := 1, color_map := List.replicate 16 0 }

/-- The contents of a fresh block in the examples: every cell is `(0, 0)`. -/
def fresh_zero : Nat → char_info_t := fun _ => ⟨0, 0⟩

/-- The 4 x 4 buffer of rows `AAAA` .. `DDDD` with the cursor in its last
cell and the window on its last two rows and columns. -/
def corner_4x4 : screen_buffer :=
  { rows_4x4 with cursor_x := 3, cursor_y := 3, win := ⟨2, 2, 3, 3⟩ }

/-- A key event: the key with character `ch`, pressed (`down = 1`) or
released (`down = 0`), no control key. -/
def key_record (ch down : Nat) : INPUT_RECORD := ⟨KEY_EVENT, down, 1, 0, 0, ch, 0⟩

/-- A console with processed input, no array and an empty input queue, as
`wmain` leaves it. -/
def console_processed : console := ⟨ENABLE_PROCESSED_INPUT, [], 0, 0, 0⟩

/-- A console without processed input, no array and an empty input queue. -/
def console_raw : console := ⟨0, [], 0, 0, 0⟩

/-- The contents of fresh entries in the examples. -/
def fresh_record : Nat → INPUT_RECORD := fun _ => default

/-- A tty at the origin with an empty buffer, attribute 7 and the cursor
marked visible. -/
def tty_origin : console_tty := ⟨true, [], 0, 0, 7, 1, []⟩

/-- A tty that believes the cursor at (6, 2), with attribute 0x1c. -/
def tty_moved : console_tty := ⟨true, [], 6, 2, 0x1c, 1, []⟩

/-- A queue with the records `a` and `b` in an array of four entries. -/
def console_ab : console := ⟨0, [key_record 97 1, key_record 98 1, default, default], 2, 4, 0⟩

/-- A console with a parked read of 20 bytes and an empty queue. -/
def console_parked : console := ⟨0, [], 0, 0, 20⟩

/-- A history of five entries with three lines in use. -/
def history_3of5 : console_info :=
  ⟨[some [49], some [50], some [51], none, none], 5, 3, 0, 0, 0, 0, 0⟩

/-- Parameters that set the history size to `n` and nothing else. -/
def history_size_params (n : Nat) : condrv_input_info_params :=
  ⟨SET_CONSOLE_INPUT_INFO_HISTORY_SIZE, ⟨0, 0, 0, n, 0, 0, 0, 0⟩⟩

/-- The map and the active buffer as `wmain` leaves them (conhost.c 1449),
here with a 2 x 2 buffer: the buffer with the id 1 is the active one. -/
def buffers_initial : buffer_map := ⟨[blank_2x2], some 1⟩

/-- The state of the console in the examples of the dispatcher: empty input
queue, no history, no title, no tty, and the map of `buffers_initial`. -/
def state_initial : console_state :=
  ⟨console_raw, ⟨[], 0, 0, 0, 0, 0, 0, 0⟩, [], 0, ⟨false, [], 0, 0, 0, 0, []⟩, buffers_initial⟩

/-- A handler that rejects every request and changes nothing. -/
def handler_none (target : Type) : ioctl_handler target :=
  fun st _ _ _ _ out_size => (STATUS_NOT_SUPPORTED, out_size, st)

/-- The conversion to UTF-8 of a text of ASCII characters: every character
is one byte. -/
def utf8_ascii : List Nat → List Nat := fun text => text

/-- A console with a tty at the origin, the map of one 2 x 2 buffer, which
is active and has its cursor at the origin, and no title. -/
def state_tty : console_state :=
  ⟨console_raw, ⟨[], 0, 0, 0, 0, 0, 0, 0⟩, [], 0, tty_origin, ⟨[blank_2x2], some 1⟩⟩

/-- A wrapped fill of four cells `A` from column 6 of row 0: it runs over
the end of the row. -/
def fill_across_rows : condrv_fill_output_params := ⟨6, 0, 0, 4, 1, 65, 7⟩

/-- A scroll of the whole 4 x 4 buffer to the origin (2, 2), with the clip
on the whole buffer. -/
def scroll_past_edge : condrv_scroll_params := ⟨⟨0, 0, 3, 3⟩, ⟨2, 2⟩, ⟨0, 0, 3, 3⟩, ⟨32, 7⟩⟩

/-- A wrapped write (width 0) of the text `A` at the cell (0, 0). -/
def write_a_wrapped : condrv_output_params := ⟨0, 0, 0, 0⟩

/-- A tty at the origin that believes the attribute 0x14: red on blue. -/
def tty_red_on_blue : console_tty := ⟨true, [], 0, 0, 0x14, 1, []⟩

/-- A tty at the origin that believes the attribute 0x17: white on blue. -/
def tty_white_on_blue : console_tty := ⟨true, [], 0, 0, 0x17, 1, []⟩

/-- The 2 x 2 buffer of blanks with a hidden cursor at (1, 1). -/
def hidden_cursor_2x2 : screen_buffer :=
  { blank_2x2 with cursor_visible := 0, cursor_x := 1, cursor_y := 1 }

/-- The state of `state_tty` after `CLOSE_OUTPUT` of its only buffer: the map
is empty and no buffer is active. -/
def state_tty_closed : console_state := { state_tty with buffers := ⟨[], none⟩ }

/-- An 8 x 2 buffer: the row `ab` followed by six blanks, and the row
`abcdefgh`. -/
def rows_8x2 : screen_buffer :=
  test_buffer 8 2 7
    (text_cells 7 [97, 98, 32, 32, 32, 32, 32, 32, 97, 98, 99, 100, 101, 102, 103, 104])

/-- The 2 x 2 buffer of blanks after the text `A` was written to its cell
(0, 0). -/
def a_2x2 : screen_buffer := test_buffer 2 2 7 (text_cells 7 [65, 32, 32, 32])

/-- The tty of `tty_origin` after that write was rendered: the cursor was
hidden, `A` written, the cursor moved back to the origin and shown. -/
def tty_after_a : console_tty :=
  ⟨true, [], 0, 0, 7, 1, [27, 91, 50, 53, 108, 65, 13, 27, 91, 63, 50, 53, 104]⟩

/-- A buffer of one row of 40000 blanks, as `--width 40000 --height 1`
creates it. -/
def wide_40000 : screen_buffer := test_buffer 40000 1 7 (List.replicate 40000 empty_char_info)

/-- A buffer of 3 rows of 16385 cells, as `--width 16385 --height 3`
makes it possible, in which every cell holds its own index as character. -/
def indexed_16385x3 : screen_buffer :=
  test_buffer 16385 3 7 (malloc_cells (fun k => ⟨k, 7⟩) 49155)

/-- The scroll of the first two rows of the 16385 x 3 buffer to the origin
(16384, 0), with the clip on the whole buffer. -/
def scroll_wide : condrv_scroll_params :=
  ⟨⟨0, 0, 16384, 1⟩, ⟨16384, 0⟩, ⟨0, 0, 16384, 2⟩, ⟨46, 7⟩⟩

/-- The scroll of the first row of the 16385 x 3 buffer to the origin
(16384, 1), with the clip on the rows 1 and 2: the source lies outside the
clip. -/
def scroll_wide_outside : condrv_scroll_params :=
  ⟨⟨0, 0, 16384, 0⟩, ⟨16384, 1⟩, ⟨0, 1, 16384, 2⟩, ⟨46, 7⟩⟩

/-- A FILL_OUTPUT request for one cell at the column -1 of the first row. -/
def fill_before_grid : condrv_fill_output_params := ⟨-1, 0, 2, 1, 0, 65, 7⟩

/-- A FILL_OUTPUT request for one cell at the column 5 of the second row. -/
def fill_after_grid : condrv_fill_output_params := ⟨5, 1, 2, 1, 0, 65, 7⟩

/-! ## Machine-integer facts -/

theorem UINT_of_nat (n : Nat) (h : n < 4294967296) : UINT (n : Int) = n := by
  unfold UINT; omega

theorem U32_of_lt (n : Nat) (h : n < 4294967296) : U32 n = n := by
  unfold U32; omega

theorem SIZE_T_of_nat (n : Nat) (h : n < 18446744073709551616) : SIZE_T (n : Int) = n := by
  unfold SIZE_T; omega

theorem SHORT_of_range (z : Int) (h0 : -32768 ≤ z) (h : z ≤ 32767) : SHORT z = z := by
  unfold SHORT; omega

/-! ## Cell stores -/

theorem length_poke (data : List char_info_t) (idx : Nat) (f : char_info_t → char_info_t) :
    (poke data idx f).length = data.length := by
  unfold poke; split <;> simp

theorem getElem?_poke (data : List char_info_t) (idx j : Nat) (f : char_info_t → char_info_t) :
    (poke data idx f)[j]? = if idx = j then data[j]?.map f else data[j]? := by
  unfold poke
  by_cases hij : idx = j
  · subst hij
    cases hc : data[idx]? with
    | none => simp [hc]
    | some c =>
      have hlt : idx < data.length := by
        by_contra hge
        rw [List.getElem?_eq_none (by omega)] at hc
        exact absurd hc (by simp)
      simp [hc, List.getElem?_set, hlt]
  · cases hc : data[idx]? with
    | none => simp [hij]
    | some c => simp [hij, List.getElem?_set]

/-! ## fill_output: the filled run -/

theorem getElem?_fill_loop (f : char_info_t → char_info_t) (d : Nat) (n : Nat) :
    ∀ (i : Nat) (data : List char_info_t) (j : Nat),
      (fill_loop f (d : Int) n i data)[j]? =
        if d + i ≤ j ∧ j < d + i + n then data[j]?.map f else data[j]? := by
  induction n with
  | zero =>
    intro i data j
    have h0 : ¬ (d + i ≤ j ∧ j < d + i) := by omega
    simp [fill_loop, h0]
  | succ n ih =>
    intro i data j
    have hidx : ((d : Int) + (i : Int)).toNat = d + i := by omega
    have hpos : (0 : Int) ≤ (d : Int) + (i : Int) := by omega
    simp only [fill_loop, ih, if_pos hpos, getElem?_poke, hidx]
    by_cases h1 : d + i = j
    · subst h1
      simp
    · by_cases h2 : d + (i + 1) ≤ j ∧ j < d + (i + 1) + n
      · have h3 : d + i ≤ j ∧ j < d + i + (n + 1) := by omega
        simp [h1, h2, h3]
      · have h3 : ¬ (d + i ≤ j ∧ j < d + i + (n + 1)) := by omega
        simp [h1, h2, h3]

/-! ## fill_output: the handler -/

theorem fill_dest_eq (sb : screen_buffer) (params : condrv_fill_output_params) (px py : Nat)
    (hx : params.x = px) (hy : params.y = py) (hb : py * sb.width < 4294967296)
    (hpy : py < 4294967296) :
    fill_dest sb params = ((py * sb.width + px : Nat) : Int) := by
  unfold fill_dest
  rw [hx, hy, UINT_of_nat _ hpy]
  have := UINT_of_nat (py * sb.width) hb
  push_cast at this ⊢
  rw [this]
  push_cast
  ring

theorem fill_end_eq (sb : screen_buffer) (params : condrv_fill_output_params) (py : Nat)
    (hy : params.y = py) (hb : (py + 1) * sb.width < 4294967296)
    (hb2 : sb.height * sb.width < 4294967296) (hpy : py + 1 < 4294967296) :
    fill_end sb params =
      ((if params.wrap ≠ 0 then sb.width * sb.height else (py + 1) * sb.width : Nat) : Int) := by
  unfold fill_end
  have h1 := UINT_of_nat (sb.height * sb.width) hb2
  have h2 := UINT_of_nat (py + 1) hpy
  have h3 := UINT_of_nat ((py + 1) * sb.width) hb
  push_cast at h1 h2 h3
  split
  · rw [h1]; push_cast; ring
  · rw [hy, h2]; push_cast; rw [h3]; push_cast; ring

theorem fill_count_eq (sb : screen_buffer) (params : condrv_fill_output_params) (c s e : Nat)
    (hc : params.count = c) (hc4 : c < 4294967296) (hd : fill_dest sb params = (s : Int))
    (he : fill_end sb params = (e : Int)) (hse : s ≤ e) (he4 : e < 4294967296) :
    fill_count sb params = min c (e - s) := by
  unfold fill_count
  rw [hd, he, hc, UINT_of_nat _ hc4]
  have hu : UINT ((e : Int) - (s : Int)) = e - s := by
    have := UINT_of_nat (e - s) (by omega)
    rw [← this]; congr 1; omega
  rw [hu]
  split <;> omega

/-- C1: `fill_output` started inside the buffer (`0 <= x < W`, `0 <= y < H`)
with a count `>= 0` and one of the four modes clamps the count to
`n = min (count, E - (y*W + x))`, where `E` is `W*H` when `wrap` is set and
`(y+1)*W` otherwise, replies `n`, updates exactly the cells with row-major
index `y*W + x .. y*W + x + n - 1` (TEXT: `ch`; ATTR: `attr`; TEXTATTR: both;
TEXTSTDATTR: `ch` and the default attribute of the buffer) and leaves every
other cell and every other field of the buffer unchanged. -/
theorem fill_output_run (sb : screen_buffer) (params : condrv_fill_output_params)
    (hlen : sb.data.length = sb.width * sb.height)
    (hsz : sb.width * sb.height < 4294967296)
    (hx : 0 ≤ params.x) (hxW : params.x < sb.width)
    (hy : 0 ≤ params.y) (hyH : params.y < sb.height)
    (hc : 0 ≤ params.count) (hcmax : params.count ≤ 2147483647)
    (hmode : 0 ≤ params.mode ∧ params.mode ≤ 3) :
    let start := params.y.toNat * sb.width + params.x.toNat
    let E := if params.wrap ≠ 0 then sb.width * sb.height else (params.y.toNat + 1) * sb.width
    let n := min params.count.toNat (E - start)
    ∃ r, fill_output sb params = some r ∧
    r.status = STATUS_SUCCESS ∧ r.result = some n ∧
    r.sb = { sb with data := r.sb.data } ∧
    (∀ j, start ≤ j → j < start + n → ∃ c, sb.data[j]? = some c ∧
      ∃ c1, r.sb.data[j]? = some c1 ∧
        (params.mode = 0 → c1 = ⟨params.ch, c.attr⟩) ∧
        (params.mode = 1 → c1 = ⟨c.ch, params.attr⟩) ∧
        (params.mode = 2 → c1 = ⟨params.ch, params.attr⟩) ∧
        (params.mode = 3 → c1 = ⟨params.ch, sb.attr⟩)) ∧
    (∀ j, ¬ (start ≤ j ∧ j < start + n) → r.sb.data[j]? = sb.data[j]?) := by
  intro start E n
  obtain ⟨px, hpx⟩ := Int.eq_ofNat_of_zero_le hx
  obtain ⟨py, hpy⟩ := Int.eq_ofNat_of_zero_le hy
  obtain ⟨cnt, hcnt⟩ := Int.eq_ofNat_of_zero_le hc
  have hxW' : px < sb.width := by omega
  have hyH' : py < sb.height := by omega
  have hrow : (py + 1) * sb.width ≤ sb.height * sb.width := Nat.mul_le_mul_right _ (by omega)
  have hcomm : sb.height * sb.width = sb.width * sb.height := Nat.mul_comm _ _
  have hexp : (py + 1) * sb.width = py * sb.width + sb.width := by ring
  have hH4 : sb.height < 4294967296 := by nlinarith
  have hstart : start = py * sb.width + px := by
    simp only [start, hpx, hpy]; simp
  have hE : E = if params.wrap ≠ 0 then sb.width * sb.height else (py + 1) * sb.width := by
    simp only [E, hpy]; simp
  have hE2 : start ≤ E ∧ E < 4294967296 ∧ E ≤ sb.width * sb.height := by
    rw [hE, hstart]; split <;> omega
  have hn : n = min cnt (E - start) := by
    simp only [n, hcnt]; simp
  have hd := fill_dest_eq sb params px py hpx hpy (by omega) (by omega)
  have he := fill_end_eq sb params py hpy (by omega) (by omega) (by omega)
  rw [← hE] at he
  rw [← hstart] at hd
  have hcount := fill_count_eq sb params cnt start E hcnt (by omega) hd he hE2.1 hE2.2.1
  rw [← hn] at hcount
  have hUy : UINT params.y = py := by rw [hpy]; exact UINT_of_nat _ (by omega)
  have hm : params.mode = 0 ∨ params.mode = 1 ∨ params.mode = 2 ∨ params.mode = 3 := by omega
  obtain ⟨f, hf, hfc⟩ : ∃ f, fill_cell sb params = some f ∧
      ∀ c, (params.mode = 0 → f c = ⟨params.ch, c.attr⟩) ∧
        (params.mode = 1 → f c = ⟨c.ch, params.attr⟩) ∧
        (params.mode = 2 → f c = ⟨params.ch, params.attr⟩) ∧
        (params.mode = 3 → f c = ⟨params.ch, sb.attr⟩) := by
    unfold fill_cell
    rcases hm with h | h | h | h <;>
      simp [h, CHAR_INFO_MODE_TEXT, CHAR_INFO_MODE_ATTR, CHAR_INFO_MODE_TEXTATTR,
        CHAR_INFO_MODE_TEXTSTDATTR, set_ch, set_attr]
  have hin : run_inside sb.data (start : Int) n := by
    unfold run_inside
    right
    refine ⟨by omega, ?_⟩
    have hle : start + n ≤ sb.data.length := by omega
    exact_mod_cast hle
  have hr : fill_output sb params =
      some ⟨STATUS_SUCCESS, { sb with data := fill_loop f (start : Int) n 0 sb.data },
        some n⟩ := by
    simp only [fill_output, hUy, hf, hcount, hd]
    rw [if_neg (by omega), if_pos hin]
  have hget := getElem?_fill_loop f start n 0 sb.data
  refine ⟨_, hr, rfl, rfl, rfl, ?_, ?_⟩
  · intro j h1 h2
    have hj : j < sb.data.length := by omega
    refine ⟨sb.data[j], List.getElem?_eq_getElem hj, f sb.data[j], ?_, hfc _⟩
    simp only [hget]
    rw [if_pos (by omega), List.getElem?_eq_getElem hj]
    rfl
  · intro j hj
    simp only [hget]
    rw [if_neg (by omega)]

/-- The first scenario of the specification: filling an 8 x 4 buffer with 32
cells `('A', 0x07)` from the origin succeeds and replies 32. -/
theorem fill_output_run_witness :
    ∃ r, fill_output blank_8x4 ⟨0, 0, 2, 32, 1, 65, 7⟩ = some r ∧
      r.status = STATUS_SUCCESS ∧ r.result = some 32 :=
  have h := fill_output_run blank_8x4 ⟨0, 0, 2, 32, 1, 65, 7⟩ (by decide) (by decide)
    (by decide) (by decide) (by decide) (by decide) (by decide) (by decide) (by decide)
  h.imp (fun _ hr => ⟨hr.1, hr.2.1, hr.2.2.1⟩)

/-! ## write_output: the store loop -/

theorem write_output_loop_skip (sb : screen_buffer) (params : condrv_output_params)
    (src : List Nat) (n i : Nat) (data : List char_info_t) (stored : List Nat)
    (h : write_addr sb params i = none) :
    write_output_loop sb params src (n + 1) i data stored =
      write_output_loop sb params src n (i + 1) data stored := by
  simp [write_output_loop, h]

theorem write_output_loop_break (sb : screen_buffer) (params : condrv_output_params)
    (src : List Nat) (n i : Nat) (data : List char_info_t) (stored : List Nat)
    (h : write_break sb params i) :
    write_output_loop sb params src (n + 1) i data stored = ⟨data, i, stored, false⟩ := by
  obtain ⟨x, y, hxy, hy⟩ := h
  simp [write_output_loop, hxy, hy]

theorem write_output_loop_store (sb : screen_buffer) (params : condrv_output_params)
    (src : List Nat) (n i : Nat) (data : List char_info_t) (stored : List Nat) (j : Nat)
    (f : char_info_t → char_info_t)
    (h : write_target sb params i = some j)
    (hf : write_cell sb.attr params.mode src i = some f) :
    write_output_loop sb params src (n + 1) i data stored =
      write_output_loop sb params src n (i + 1) (poke data j f) (stored ++ [j]) := by
  unfold write_target at h
  cases hxy : write_addr sb params i with
  | none => simp [hxy] at h
  | some p =>
    obtain ⟨x, y⟩ := p
    simp only [hxy] at h
    by_cases hy : y ≥ sb.height
    · simp [hy] at h
    · simp only [hy, if_false, Option.some.injEq] at h
      subst h
      simp [write_output_loop, hxy, hy, hf]

theorem write_target_cases (sb : screen_buffer) (params : condrv_output_params) (i : Nat) :
    (write_addr sb params i = none ∧ write_target sb params i = none) ∨
    (write_break sb params i ∧ write_target sb params i = none) ∨
    (∃ j, write_target sb params i = some j ∧ ¬ write_break sb params i) := by
  unfold write_target write_break
  cases hxy : write_addr sb params i with
  | none => left; simp
  | some p =>
    obtain ⟨x, y⟩ := p
    by_cases hy : y ≥ sb.height
    · right; left
      exact ⟨⟨x, y, rfl, hy⟩, by simp [hy]⟩
    · right; right
      refine ⟨U32 (y * sb.width + x), by simp [hy], ?_⟩
      rintro ⟨x1, y1, h1, h2⟩
      simp only [Option.some.injEq, Prod.mk.injEq] at h1
      omega

/-- The store loop with a valid mode: it never leaves through the `default:`
label, it stops at the first `break` or at `i + n`, and no counter before
the final one met the `break`. -/
theorem write_output_loop_counter (sb : screen_buffer) (params : condrv_output_params)
    (src : List Nat) (f : Nat → char_info_t → char_info_t)
    (hf : ∀ k, write_cell sb.attr params.mode src k = some (f k)) (n : Nat) :
    ∀ (i : Nat) (data : List char_info_t) (stored : List Nat),
      let r := write_output_loop sb params src n i data stored
      r.invalid = false ∧ i ≤ r.i ∧ r.i ≤ i + n ∧
      (r.i < i + n → write_break sb params r.i) ∧
      (∀ k, i ≤ k → k < r.i → ¬ write_break sb params k) ∧
      r.data.length = data.length := by
  induction n with
  | zero =>
    intro i data stored
    simp only [write_output_loop]
    exact ⟨trivial, le_refl _, le_refl _, fun h => absurd h (by omega), fun k h1 h2 => by omega, trivial⟩
  | succ n ih =>
    intro i data stored
    rcases write_target_cases sb params i with ⟨h1, h2⟩ | ⟨h1, h2⟩ | ⟨j, h1, h2⟩
    · simp only [write_output_loop_skip sb params src n i data stored h1]
      obtain ⟨a, b, c, d, e, g⟩ := ih (i + 1) data stored
      refine ⟨a, by omega, by omega, fun h => d (by omega), ?_, g⟩
      intro k hk1 hk2
      by_cases hki : k = i
      · subst hki
        rintro ⟨x, y, hxy, _⟩
        simp [h1] at hxy
      · exact e k (by omega) hk2
    · simp only [write_output_loop_break sb params src n i data stored h1]
      exact ⟨trivial, le_refl _, by omega, fun _ => h1, fun k h1 h2 => by omega, trivial⟩
    · simp only [write_output_loop_store sb params src n i data stored j (f i) h1 (hf i)]
      obtain ⟨a, b, c, d, e, g⟩ := ih (i + 1) (poke data j (f i)) (stored ++ [j])
      refine ⟨a, by omega, by omega, fun h => d (by omega), ?_, by rw [g, length_poke]⟩
      intro k hk1 hk2
      by_cases hki : k = i
      · subst hki; exact h2
      · exact e k (by omega) hk2

/-- The grid after the store loop, when no two counters of the run target
the same cell: a cell that is the target of counter `k` holds the old cell
updated with entry `k`, and a cell that is no target is unchanged. -/
theorem write_output_loop_data (sb : screen_buffer) (params : condrv_output_params)
    (src : List Nat) (f : Nat → char_info_t → char_info_t)
    (hf : ∀ k, write_cell sb.attr params.mode src k = some (f k)) (n : Nat) :
    ∀ (i : Nat) (data : List char_info_t) (stored : List Nat),
      (∀ k k1 j, i ≤ k → k < k1 → k1 < i + n → write_target sb params k = some j →
        write_target sb params k1 ≠ some j) →
      let r := write_output_loop sb params src n i data stored
      (∀ j, (∀ k, i ≤ k → k < r.i → write_target sb params k ≠ some j) →
        r.data[j]? = data[j]?) ∧
      (∀ k j, i ≤ k → k < r.i → write_target sb params k = some j →
        r.data[j]? = data[j]?.map (f k)) := by
  induction n with
  | zero =>
    intro i data stored hinj
    simp only [write_output_loop]
    exact ⟨fun j _ => trivial, fun k j h1 h2 => by omega⟩
  | succ n ih =>
    intro i data stored hinj
    rcases write_target_cases sb params i with ⟨h1, h2⟩ | ⟨h1, h2⟩ | ⟨j0, h1, h2⟩
    · simp only [write_output_loop_skip sb params src n i data stored h1]
      obtain ⟨ih1, ih2⟩ := ih (i + 1) data stored
        (fun k k1 j a b c => hinj k k1 j (by omega) b (by omega))
      refine ⟨fun j hj => ih1 j (fun k a b => hj k (by omega) b), ?_⟩
      intro k j a b c
      by_cases hki : k = i
      · subst hki; rw [h2] at c; exact absurd c (by simp)
      · exact ih2 k j (by omega) b c
    · simp only [write_output_loop_break sb params src n i data stored h1]
      exact ⟨fun j _ => trivial, fun k j a b => by omega⟩
    · simp only [write_output_loop_store sb params src n i data stored j0 (f i) h1 (hf i)]
      have hb := (write_output_loop_counter sb params src f hf n (i + 1) (poke data j0 (f i))
        (stored ++ [j0]))
      obtain ⟨ih1, ih2⟩ := ih (i + 1) (poke data j0 (f i)) (stored ++ [j0])
        (fun k k1 j a b c => hinj k k1 j (by omega) b (by omega))
      simp only at hb ih1 ih2 ⊢
      constructor
      · intro j hj
        rw [ih1 j (fun k a b => hj k (by omega) b), getElem?_poke]
        have hne : j0 ≠ j := by
          intro h
          exact hj i (le_refl _) (by omega) (h ▸ h1)
        rw [if_neg hne]
      · intro k j a b c
        by_cases hki : k = i
        · subst hki
          have hj : j = j0 := by rw [h1] at c; exact (Option.some.inj c).symm
          subst hj
          rw [ih1 j (fun k1 a1 b1 => hinj k k1 j (le_refl _) (by omega) (by omega) h1),
            getElem?_poke, if_pos rfl]
        · rw [ih2 k j (by omega) b c, getElem?_poke]
          have hne : j0 ≠ j := by
            intro h
            exact hinj i k j0 (le_refl _) (by omega) (by omega) h1 (h ▸ c)
          rw [if_neg hne]

/-! ## write_output: the handler -/

theorem write_cell_valid (attr mode : Nat) (src : List Nat) (hm : mode ≤ 3) :
    ∃ f : Nat → char_info_t → char_info_t,
      (∀ k, write_cell attr mode src k = some (f k)) ∧
      ∀ k c, (mode = 0 → f k c = ⟨src.getD k 0, c.attr⟩) ∧
        (mode = 1 → f k c = ⟨c.ch, src.getD k 0⟩) ∧
        (mode = 2 → f k c = ⟨src.getD (2 * k) 0, src.getD (2 * k + 1) 0⟩) ∧
        (mode = 3 → f k c = ⟨src.getD k 0, attr⟩) := by
  have h : mode = 0 ∨ mode = 1 ∨ mode = 2 ∨ mode = 3 := by omega
  rcases h with h | h | h | h
  · exact ⟨fun k => set_ch (src.getD k 0),
      fun k => by simp [write_cell, h, CHAR_INFO_MODE_TEXT],
      fun k c => by simp [h, set_ch]⟩
  · exact ⟨fun k => set_attr (src.getD k 0),
      fun k => by simp [write_cell, h, CHAR_INFO_MODE_TEXT, CHAR_INFO_MODE_ATTR],
      fun k c => by simp [h, set_attr]⟩
  · exact ⟨fun k _ => ⟨src.getD (2 * k) 0, src.getD (2 * k + 1) 0⟩,
      fun k => by
        simp [write_cell, h, CHAR_INFO_MODE_TEXT, CHAR_INFO_MODE_ATTR, CHAR_INFO_MODE_TEXTATTR],
      fun k c => by simp [h]⟩
  · exact ⟨fun k c => set_attr attr (set_ch (src.getD k 0) c),
      fun k => by
        simp [write_cell, h, CHAR_INFO_MODE_TEXT, CHAR_INFO_MODE_ATTR, CHAR_INFO_MODE_TEXTATTR,
          CHAR_INFO_MODE_TEXTSTDATTR],
      fun k c => by simp [h, set_ch, set_attr]⟩

theorem write_entry_cnt_eq (params : condrv_output_params) (src : List Nat)
    (hin : src.length < 2147483648) :
    write_entry_cnt params src = if params.mode = 2 then src.length / 2 else src.length := by
  unfold write_entry_cnt
  simp only [sizeof_condrv_output_params, sizeof_WCHAR, sizeof_char_info_t,
    CHAR_INFO_MODE_TEXTATTR]
  split
  · rw [U32_of_lt _ (by omega)]; omega
  · rw [U32_of_lt _ (by omega)]; omega

theorem write_output_eq (sb : screen_buffer) (params : condrv_output_params) (src : List Nat)
    (out_size : Nat) (hx : params.x < sb.width) (hm : params.mode ≤ 3)
    (hdiv : out_size = sizeof_SMALL_RECT → params.width ≠ 0) :
    ∃ r, write_output sb params src out_size = some r ∧ r.status = STATUS_SUCCESS ∧
      r.sb = { sb with data := (write_output_loop sb params src (write_entry_cnt params src) 0
        sb.data []).data } ∧
      r.stored = (write_output_loop sb params src (write_entry_cnt params src) 0
        sb.data []).stored ∧
      r.out_size = out_size ∧
      (out_size ≠ sizeof_SMALL_RECT → r.reply = ioctl_reply.dword
        (write_output_loop sb params src (write_entry_cnt params src) 0 sb.data []).i) ∧
      (out_size = sizeof_SMALL_RECT → r.reply = ioctl_reply.region
        { Left := SHORT params.x
          Top := SHORT params.y
          Right := SHORT (UINT ((min (U32 (params.x + params.width)) sb.width : Int) - 1))
          Bottom := SHORT (UINT ((min (U32 (params.y + write_entry_cnt params src / params.width))
            sb.height : Int) - 1)) }) := by
  obtain ⟨f, hf, _⟩ := write_cell_valid sb.attr params.mode src hm
  have hinv := (write_output_loop_counter sb params src f hf (write_entry_cnt params src) 0
    sb.data []).1
  simp only at hinv
  unfold write_output
  simp only [ge_iff_le, not_le.mpr hx, if_false, hinv, Bool.false_eq_true]
  by_cases ho : out_size = sizeof_SMALL_RECT
  · simp [ho, hdiv ho]
  · simp [ho]

theorem write_output_loop_of_break (sb : screen_buffer) (params : condrv_output_params)
    (src : List Nat) (n i : Nat) (data : List char_info_t) (stored : List Nat)
    (h : write_break sb params i) :
    (write_output_loop sb params src n i data stored).data = data ∧
    (write_output_loop sb params src n i data stored).i = i ∧
    (write_output_loop sb params src n i data stored).stored = stored := by
  cases n with
  | zero => simp [write_output_loop]
  | succ n => simp [write_output_loop_break sb params src n i data stored h]

theorem write_break_zero (sb : screen_buffer) (params : condrv_output_params)
    (hx : params.x < sb.width) (hy : params.y < 4294967296) (hyH : sb.height ≤ params.y)
    (hW : sb.width ≤ 65535) : write_break sb params 0 := by
  refine ⟨params.x, params.y, ?_, hyH⟩
  unfold write_addr
  have h1 : U32 params.x = params.x := U32_of_lt _ (by omega)
  have h2 : U32 params.y = params.y := U32_of_lt _ hy
  by_cases hw : params.width = 0
  · simp [hw, h1, h2, Nat.mod_eq_of_lt hx, Nat.div_eq_of_lt hx]
  · simp [hw, h1, h2, Nat.not_le.mpr hx]

theorem write_addr_wrapped (sb : screen_buffer) (params : condrv_output_params) (i : Nat)
    (hw : params.width = 0) (hx : params.x < sb.width) (hy : params.y < sb.height)
    (hW : sb.width ≤ 65535) (hH : sb.height ≤ 65535) (hi : i < 2147483648) :
    write_addr sb params i =
      some ((params.x + i) % sb.width, params.y + (params.x + i) / sb.width) := by
  unfold write_addr
  have h1 : U32 (params.x + i) = params.x + i := U32_of_lt _ (by omega)
  have hd : (params.x + i) / sb.width ≤ params.x + i := Nat.div_le_self _ _
  have h2 : U32 (params.y + (params.x + i) / sb.width) = params.y + (params.x + i) / sb.width :=
    U32_of_lt _ (by omega)
  simp [hw, h1, h2]

theorem write_addr_rect (sb : screen_buffer) (params : condrv_output_params) (i : Nat)
    (hw : params.width ≠ 0) (hx : params.x < sb.width) (hy : params.y < sb.height)
    (hW : sb.width ≤ 65535) (hH : sb.height ≤ 65535) (hi : i < 2147483648) :
    write_addr sb params i =
      if sb.width ≤ params.x + i % params.width then none
      else some (params.x + i % params.width, params.y + i / params.width) := by
  unfold write_addr
  have hm : i % params.width ≤ i := Nat.mod_le _ _
  have hd : i / params.width ≤ i := Nat.div_le_self _ _
  have h1 : U32 (params.x + i % params.width) = params.x + i % params.width :=
    U32_of_lt _ (by omega)
  have h2 : U32 (params.y + i / params.width) = params.y + i / params.width :=
    U32_of_lt _ (by omega)
  simp [hw, h1, h2]

/-- Row-major indices of cells inside their rows are unique. -/
theorem row_col_unique (W a b a1 b1 : Nat) (hb : b < W) (hb1 : b1 < W)
    (h : a * W + b = a1 * W + b1) : a = a1 ∧ b = b1 := by
  have hW : 0 < W := by omega
  have e1 : (a * W + b) / W = a := by
    rw [Nat.mul_comm, Nat.mul_add_div hW, Nat.div_eq_of_lt hb, Nat.add_zero]
  have e2 : (a1 * W + b1) / W = a1 := by
    rw [Nat.mul_comm, Nat.mul_add_div hW, Nat.div_eq_of_lt hb1, Nat.add_zero]
  have ha : a = a1 := by rw [← e1, ← e2, h]
  subst ha
  exact ⟨rfl, by omega⟩

theorem cell_index_lt (W H x y : Nat) (hx : x < W) (hy : y < H) : y * W + x < W * H := by
  have : (y + 1) * W ≤ H * W := Nat.mul_le_mul_right _ (by omega)
  have e : (y + 1) * W = y * W + W := by ring
  have c : H * W = W * H := Nat.mul_comm _ _
  omega

theorem grid_size_lt (W H : Nat) (hW : W ≤ 65535) (hH : H ≤ 65535) : W * H < 4294967296 := by
  have : W * H ≤ 65535 * 65535 := Nat.mul_le_mul hW hH
  omega

/-- The grid after `write_output`, in terms of the targets of the entries:
when no two entries share a target and no entry behind a `break` has one,
every entry with a target is stored there and all other cells are kept. -/
theorem write_output_cells (sb : screen_buffer) (params : condrv_output_params)
    (src : List Nat) (out_size : Nat) (hx : params.x < sb.width) (hm : params.mode ≤ 3)
    (hdiv : out_size = sizeof_SMALL_RECT → params.width ≠ 0)
    (hinj : ∀ k k1 j, k < k1 → k1 < write_entry_cnt params src →
      write_target sb params k = some j → write_target sb params k1 ≠ some j)
    (hstop : ∀ k i, k ≤ i → i < write_entry_cnt params src → write_break sb params k →
      write_target sb params i = none)
    (hin : ∀ i j, i < write_entry_cnt params src → write_target sb params i = some j →
      j < sb.data.length) :
    ∃ r, write_output sb params src out_size = some r ∧ r.status = STATUS_SUCCESS ∧
      r.sb = { sb with data := r.sb.data } ∧ r.out_size = out_size ∧
      (∀ i j, i < write_entry_cnt params src → write_target sb params i = some j →
        ∃ c c1, sb.data[j]? = some c ∧ r.sb.data[j]? = some c1 ∧
          (params.mode = 0 → c1 = ⟨src.getD i 0, c.attr⟩) ∧
          (params.mode = 1 → c1 = ⟨c.ch, src.getD i 0⟩) ∧
          (params.mode = 2 → c1 = ⟨src.getD (2 * i) 0, src.getD (2 * i + 1) 0⟩) ∧
          (params.mode = 3 → c1 = ⟨src.getD i 0, sb.attr⟩)) ∧
      (∀ j, (∀ i, i < write_entry_cnt params src → write_target sb params i ≠ some j) →
        r.sb.data[j]? = sb.data[j]?) := by
  obtain ⟨f, hf, hfc⟩ := write_cell_valid sb.attr params.mode src hm
  obtain ⟨r, hr, hst, hsb, hstored, hos, _, _⟩ := write_output_eq sb params src out_size hx hm hdiv
  have hcnt := write_output_loop_counter sb params src f hf (write_entry_cnt params src) 0
    sb.data []
  have hdata := write_output_loop_data sb params src f hf (write_entry_cnt params src) 0
    sb.data [] (fun k k1 j _ b c => hinj k k1 j b (by omega))
  simp only at hcnt hdata
  obtain ⟨_, _, hle, hbrk, _, _⟩ := hcnt
  obtain ⟨hd1, hd2⟩ := hdata
  have hdat : r.sb.data = (write_output_loop sb params src (write_entry_cnt params src) 0
      sb.data []).data := by rw [hsb]
  have hreach : ∀ i j, i < write_entry_cnt params src → write_target sb params i = some j →
      i < (write_output_loop sb params src (write_entry_cnt params src) 0 sb.data []).i := by
    intro i j hi ht
    by_contra hge
    have hb := hbrk (by omega)
    have := hstop _ i (by omega) hi hb
    rw [this] at ht
    exact absurd ht (by simp)
  refine ⟨r, hr, hst, ?_, hos, ?_, ?_⟩
  · rw [hsb]
  · intro i j hi ht
    have hj := hin i j hi ht
    refine ⟨sb.data[j], f i sb.data[j], List.getElem?_eq_getElem hj, ?_, hfc i _⟩
    rw [hdat, hd2 i j (Nat.zero_le _) (hreach i j hi ht) ht, List.getElem?_eq_getElem hj]
    rfl
  · intro j hj
    rw [hdat]
    exact hd1 j (fun k _ hk => hj k (by omega))

theorem write_target_wrapped (sb : screen_buffer) (params : condrv_output_params) (i : Nat)
    (hw : params.width = 0) (hx : params.x < sb.width) (hy : params.y < sb.height)
    (hW : sb.width ≤ 65535) (hH : sb.height ≤ 65535) (hi : i < 2147483648) :
    write_target sb params i =
      if sb.height ≤ params.y + (params.x + i) / sb.width then none
      else some ((params.y + (params.x + i) / sb.width) * sb.width +
        (params.x + i) % sb.width) := by
  unfold write_target
  rw [write_addr_wrapped sb params i hw hx hy hW hH hi]
  simp only [ge_iff_le]
  split
  · rfl
  · rename_i h
    have hlt := cell_index_lt sb.width sb.height ((params.x + i) % sb.width)
      (params.y + (params.x + i) / sb.width) (Nat.mod_lt _ (by omega)) (by omega)
    have := grid_size_lt sb.width sb.height hW hH
    rw [U32_of_lt _ (by omega)]

theorem write_break_wrapped (sb : screen_buffer) (params : condrv_output_params) (i : Nat)
    (hw : params.width = 0) (hx : params.x < sb.width) (hy : params.y < sb.height)
    (hW : sb.width ≤ 65535) (hH : sb.height ≤ 65535) (hi : i < 2147483648) :
    write_break sb params i ↔ sb.height ≤ params.y + (params.x + i) / sb.width := by
  unfold write_break
  rw [write_addr_wrapped sb params i hw hx hy hW hH hi]
  constructor
  · rintro ⟨x, y, h1, h2⟩
    simp only [Option.some.injEq, Prod.mk.injEq] at h1
    omega
  · intro h
    exact ⟨_, _, rfl, h⟩

/-- C2: `write_output` in wrapped mode (`params.width == 0`, `x < W`) stores
entry `i` of the payload at the cell in column `(x+i) mod W` of row
`y + (x+i) div W`, for every `i` whose row is `< H`, changing only the
fields the mode selects (TEXT: `ch`; ATTR: `attr`; TEXTATTR: both;
TEXTSTDATTR: `ch` and the default attribute of the buffer); no other cell
and no other field of the buffer changes. The payload has `m` entries,
`src.length / 2` cell entries in TEXTATTR mode and `src.length` 16-bit
entries otherwise, and the reply is the `DWORD` one. -/
theorem write_output_wrapped (sb : screen_buffer) (params : condrv_output_params)
    (src : List Nat) (out_size : Nat)
    (hlen : sb.data.length = sb.width * sb.height)
    (hW : sb.width ≤ 65535) (hH : sb.height ≤ 65535)
    (hw : params.width = 0) (hx : params.x < sb.width) (hy : params.y < 4294967296)
    (hm : params.mode ≤ 3) (hin : src.length < 2147483648)
    (hout : out_size ≠ sizeof_SMALL_RECT) :
    let m := if params.mode = 2 then src.length / 2 else src.length
    ∃ r, write_output sb params src out_size = some r ∧ r.status = STATUS_SUCCESS ∧
      r.sb = { sb with data := r.sb.data } ∧
      (∀ i, i < m → params.y + (params.x + i) / sb.width < sb.height →
        ∃ c c1,
          sb.data[(params.y + (params.x + i) / sb.width) * sb.width +
            (params.x + i) % sb.width]? = some c ∧
          r.sb.data[(params.y + (params.x + i) / sb.width) * sb.width +
            (params.x + i) % sb.width]? = some c1 ∧
          (params.mode = 0 → c1 = ⟨src.getD i 0, c.attr⟩) ∧
          (params.mode = 1 → c1 = ⟨c.ch, src.getD i 0⟩) ∧
          (params.mode = 2 → c1 = ⟨src.getD (2 * i) 0, src.getD (2 * i + 1) 0⟩) ∧
          (params.mode = 3 → c1 = ⟨src.getD i 0, sb.attr⟩)) ∧
      (∀ j, (∀ i, i < m → params.y + (params.x + i) / sb.width < sb.height →
          j ≠ (params.y + (params.x + i) / sb.width) * sb.width + (params.x + i) % sb.width) →
        r.sb.data[j]? = sb.data[j]?) := by
  intro m
  have hm_eq : write_entry_cnt params src = m := write_entry_cnt_eq params src hin
  have hm_lt : m < 2147483648 := by
    simp only [m]; split <;> omega
  by_cases hyH : params.y < sb.height
  · have htgt : ∀ i, i < m → write_target sb params i =
        if sb.height ≤ params.y + (params.x + i) / sb.width then none
        else some ((params.y + (params.x + i) / sb.width) * sb.width +
          (params.x + i) % sb.width) :=
      fun i hi => write_target_wrapped sb params i hw hx hyH hW hH (by omega)
    have hidx : ∀ i, (params.y + (params.x + i) / sb.width) * sb.width +
        (params.x + i) % sb.width = params.y * sb.width + (params.x + i) := by
      intro i
      have := Nat.div_add_mod (params.x + i) sb.width
      have e : (params.y + (params.x + i) / sb.width) * sb.width =
        params.y * sb.width + sb.width * ((params.x + i) / sb.width) := by ring
      omega
    obtain ⟨r, hr, hst, hsb, _, hcells, hframe⟩ := write_output_cells sb params src out_size hx hm
      (fun h => absurd h hout)
      (by
        rw [hm_eq]
        intro k k1 j hk hk1 h1 h2
        rw [htgt k (by omega)] at h1
        rw [htgt k1 hk1] at h2
        split at h1
        · exact absurd h1 (by simp)
        · split at h2
          · exact absurd h2 (by simp)
          · rw [hidx] at h1 h2
            have e1 := Option.some.inj h1
            have e2 := Option.some.inj h2
            omega)
      (by
        rw [hm_eq]
        intro k i hki hi hb
        rw [write_break_wrapped sb params k hw hx hyH hW hH (by omega)] at hb
        rw [htgt i hi, if_pos]
        have : (params.x + k) / sb.width ≤ (params.x + i) / sb.width :=
          Nat.div_le_div_right (by omega)
        omega)
      (by
        rw [hm_eq]
        intro i j hi h
        rw [htgt i hi] at h
        split at h
        · exact absurd h (by simp)
        · have := Option.some.inj h
          rw [← this, hlen]
          exact cell_index_lt _ _ _ _ (Nat.mod_lt _ (by omega)) (by omega))
    refine ⟨r, hr, hst, hsb, ?_, ?_⟩
    · intro i hi hrow
      exact hcells i _ (by omega) (by rw [htgt i hi, if_neg (by omega)])
    · intro j hj
      apply hframe
      rw [hm_eq]
      intro i hi h
      rw [htgt i hi] at h
      split at h
      · exact absurd h (by simp)
      · exact hj i hi (by omega) (Option.some.inj h).symm
  · obtain ⟨r, hr, hst, hsb, _⟩ := write_output_eq sb params src out_size hx hm
      (fun h => absurd h hout)
    have hb := write_break_zero sb params hx hy (by omega) hW
    have hl := write_output_loop_of_break sb params src (write_entry_cnt params src) 0
      sb.data [] hb
    refine ⟨r, hr, hst, by rw [hsb], ?_, ?_⟩
    · intro i _ hrow
      have h0 : 0 ≤ (params.x + i) / sb.width := Nat.zero_le _
      omega
    · intro j _
      rw [hsb]
      simp only [hl.1]

theorem write_target_rect (sb : screen_buffer) (params : condrv_output_params) (i : Nat)
    (hw : params.width ≠ 0) (hx : params.x < sb.width) (hy : params.y < sb.height)
    (hW : sb.width ≤ 65535) (hH : sb.height ≤ 65535) (hi : i < 2147483648) :
    write_target sb params i =
      if sb.width ≤ params.x + i % params.width then none
      else if sb.height ≤ params.y + i / params.width then none
      else some ((params.y + i / params.width) * sb.width + (params.x + i % params.width)) := by
  unfold write_target
  rw [write_addr_rect sb params i hw hx hy hW hH hi]
  by_cases hcol : sb.width ≤ params.x + i % params.width
  · simp only [hcol, if_true]
  · simp only [hcol, if_false, ge_iff_le]
    by_cases hrow : sb.height ≤ params.y + i / params.width
    · simp only [hrow, if_true]
    · simp only [hrow, if_false]
      have hlt := cell_index_lt sb.width sb.height (params.x + i % params.width)
        (params.y + i / params.width) (by omega) (by omega)
      have := grid_size_lt sb.width sb.height hW hH
      rw [U32_of_lt _ (by omega)]

theorem write_break_rect (sb : screen_buffer) (params : condrv_output_params) (i : Nat)
    (hw : params.width ≠ 0) (hx : params.x < sb.width) (hy : params.y < sb.height)
    (hW : sb.width ≤ 65535) (hH : sb.height ≤ 65535) (hi : i < 2147483648) :
    write_break sb params i ↔
      params.x + i % params.width < sb.width ∧ sb.height ≤ params.y + i / params.width := by
  unfold write_break
  rw [write_addr_rect sb params i hw hx hy hW hH hi]
  constructor
  · rintro ⟨x, y, h1, h2⟩
    split at h1
    · exact absurd h1 (by simp)
    · simp only [Option.some.injEq, Prod.mk.injEq] at h1
      omega
  · rintro ⟨h1, h2⟩
    exact ⟨_, _, by rw [if_neg (by omega)], h2⟩

/-- The targets of a rectangle write on a buffer with `y < H` are pairwise
different. -/
theorem write_target_rect_inj (sb : screen_buffer) (params : condrv_output_params)
    (m : Nat) (hw : params.width ≠ 0) (hx : params.x < sb.width) (hy : params.y < sb.height)
    (hW : sb.width ≤ 65535) (hH : sb.height ≤ 65535) (hm : m < 2147483648) :
    ∀ k k1 j, k < k1 → k1 < m →
      write_target sb params k = some j → write_target sb params k1 ≠ some j := by
  intro k k1 j hk hk1 h1 h2
  rw [write_target_rect sb params k hw hx hy hW hH (by omega)] at h1
  rw [write_target_rect sb params k1 hw hx hy hW hH (by omega)] at h2
  split at h1
  · exact absurd h1 (by simp)
  · split at h1
    · exact absurd h1 (by simp)
    · split at h2
      · exact absurd h2 (by simp)
      · split at h2
        · exact absurd h2 (by simp)
        · have e1 := Option.some.inj h1
          have e2 := Option.some.inj h2
          obtain ⟨ha, hb⟩ := row_col_unique sb.width _ _ _ _ (by omega) (by omega)
            (e1.trans e2.symm)
          have d1 := Nat.div_add_mod k params.width
          have d2 := Nat.div_add_mod k1 params.width
          have : k / params.width = k1 / params.width := by omega
          rw [this] at d1
          omega

/-- The targets of a rectangle write on a buffer with `y < H`: they are
pairwise different, an entry behind a `break` has none, and they all lie in
the grid. -/
theorem write_target_rect_props (sb : screen_buffer) (params : condrv_output_params)
    (m : Nat) (hlen : sb.data.length = sb.width * sb.height)
    (hw : params.width ≠ 0) (hx : params.x < sb.width) (hy : params.y < sb.height)
    (hW : sb.width ≤ 65535) (hH : sb.height ≤ 65535) (hm : m < 2147483648) :
    (∀ k k1 j, k < k1 → k1 < m →
      write_target sb params k = some j → write_target sb params k1 ≠ some j) ∧
    (∀ k i, k ≤ i → i < m → write_break sb params k → write_target sb params i = none) ∧
    (∀ i j, i < m → write_target sb params i = some j → j < sb.data.length) := by
  have htgt := fun i (hi : i < m) =>
    write_target_rect sb params i hw hx hy hW hH (by omega)
  refine ⟨write_target_rect_inj sb params m hw hx hy hW hH hm, ?_, ?_⟩
  · intro k i hki hi hb
    rw [write_break_rect sb params k hw hx hy hW hH (by omega)] at hb
    have : k / params.width ≤ i / params.width := Nat.div_le_div_right hki
    rw [htgt i hi]
    split
    · rfl
    · rw [if_pos (by omega)]
  · intro i j hi h
    rw [htgt i hi] at h
    split at h
    · exact absurd h (by simp)
    · split at h
      · exact absurd h (by simp)
      · rw [← Option.some.inj h, hlen]
        exact cell_index_lt _ _ _ _ (by omega) (by omega)

/-- A rectangle write that starts in a row of the buffer (`y < H`): the
entries inside the buffer are stored at their cells, all other cells are
kept. -/
theorem write_output_rect_inside (sb : screen_buffer) (params : condrv_output_params)
    (src : List Nat) (out_size : Nat)
    (hlen : sb.data.length = sb.width * sb.height)
    (hW : sb.width ≤ 65535) (hH : sb.height ≤ 65535)
    (hw : params.width ≠ 0) (hx : params.x < sb.width) (hyH : params.y < sb.height)
    (hm : params.mode ≤ 3) (hin : src.length < 2147483648) :
    let m := if params.mode = 2 then src.length / 2 else src.length
    ∃ r, write_output sb params src out_size = some r ∧ r.status = STATUS_SUCCESS ∧
      r.sb = { sb with data := r.sb.data } ∧
      (∀ i, i < m → params.x + i % params.width < sb.width →
        params.y + i / params.width < sb.height →
        ∃ c c1,
          sb.data[(params.y + i / params.width) * sb.width +
            (params.x + i % params.width)]? = some c ∧
          r.sb.data[(params.y + i / params.width) * sb.width +
            (params.x + i % params.width)]? = some c1 ∧
          (params.mode = 0 → c1 = ⟨src.getD i 0, c.attr⟩) ∧
          (params.mode = 1 → c1 = ⟨c.ch, src.getD i 0⟩) ∧
          (params.mode = 2 → c1 = ⟨src.getD (2 * i) 0, src.getD (2 * i + 1) 0⟩) ∧
          (params.mode = 3 → c1 = ⟨src.getD i 0, sb.attr⟩)) ∧
      (∀ j, (∀ i, i < m → params.x + i % params.width < sb.width →
          params.y + i / params.width < sb.height →
          j ≠ (params.y + i / params.width) * sb.width + (params.x + i % params.width)) →
        r.sb.data[j]? = sb.data[j]?) := by
  intro m
  have hm_eq : write_entry_cnt params src = m := write_entry_cnt_eq params src hin
  have hm_lt : m < 2147483648 := by
    simp only [m]; split <;> omega
  have htgt := fun i (hi : i < m) =>
    write_target_rect sb params i hw hx hyH hW hH (by omega)
  obtain ⟨p1, p2, p3⟩ := write_target_rect_props sb params m hlen hw hx hyH hW hH hm_lt
  obtain ⟨r, hr, hst, hsb, _, hcells, hframe⟩ := write_output_cells sb params src out_size hx hm
    (fun _ => hw) (by rw [hm_eq]; exact p1) (by rw [hm_eq]; exact p2)
    (by rw [hm_eq]; exact p3)
  refine ⟨r, hr, hst, hsb, ?_, ?_⟩
  · intro i hi hcol hrow
    exact hcells i _ (by omega)
      (by rw [htgt i hi, if_neg (by omega), if_neg (by omega)])
  · intro j hj
    apply hframe
    rw [hm_eq]
    intro i hi h
    rw [htgt i hi] at h
    split at h
    · exact absurd h (by simp)
    · split at h
      · exact absurd h (by simp)
      · exact hj i hi (by omega) (by omega) (Option.some.inj h).symm

/-- C3: `write_output` in rectangle mode (`params.width = w > 0`, `x < W`):
entry `i` targets column `x + (i mod w)` of row `y + (i div w)`; every entry
whose column is `< W` and whose row is `< H` is stored at exactly that cell
(with the fields the mode selects), and every cell that is not such a
target is unchanged, so an entry whose column is `>= W` is skipped rather
than wrapped and an entry whose row is `>= H` is not written. -/
theorem write_output_rect (sb : screen_buffer) (params : condrv_output_params)
    (src : List Nat) (out_size : Nat)
    (hlen : sb.data.length = sb.width * sb.height)
    (hW : sb.width ≤ 65535) (hH : sb.height ≤ 65535)
    (hw : params.width ≠ 0) (hx : params.x < sb.width) (hy : params.y < 4294967296)
    (hm : params.mode ≤ 3) (hin : src.length < 2147483648) :
    let m := if params.mode = 2 then src.length / 2 else src.length
    ∃ r, write_output sb params src out_size = some r ∧ r.status = STATUS_SUCCESS ∧
      r.sb = { sb with data := r.sb.data } ∧
      (∀ i, i < m → params.x + i % params.width < sb.width →
        params.y + i / params.width < sb.height →
        ∃ c c1,
          sb.data[(params.y + i / params.width) * sb.width +
            (params.x + i % params.width)]? = some c ∧
          r.sb.data[(params.y + i / params.width) * sb.width +
            (params.x + i % params.width)]? = some c1 ∧
          (params.mode = 0 → c1 = ⟨src.getD i 0, c.attr⟩) ∧
          (params.mode = 1 → c1 = ⟨c.ch, src.getD i 0⟩) ∧
          (params.mode = 2 → c1 = ⟨src.getD (2 * i) 0, src.getD (2 * i + 1) 0⟩) ∧
          (params.mode = 3 → c1 = ⟨src.getD i 0, sb.attr⟩)) ∧
      (∀ j, (∀ i, i < m → params.x + i % params.width < sb.width →
          params.y + i / params.width < sb.height →
          j ≠ (params.y + i / params.width) * sb.width + (params.x + i % params.width)) →
        r.sb.data[j]? = sb.data[j]?) := by
  intro m
  by_cases hyH : params.y < sb.height
  · exact write_output_rect_inside sb params src out_size hlen hW hH hw hx hyH hm hin
  · obtain ⟨r, hr, hst, hsb, _⟩ := write_output_eq sb params src out_size hx hm (fun _ => hw)
    have hb := write_break_zero sb params hx hy (by omega) hW
    have hl := write_output_loop_of_break sb params src (write_entry_cnt params src) 0
      sb.data [] hb
    refine ⟨r, hr, hst, by rw [hsb], ?_, ?_⟩
    · intro i _ _ hrow
      have h0 : 0 ≤ i / params.width := Nat.zero_le _
      omega
    · intro j _
      rw [hsb]
      simp only [hl.1]

/-- The second scenario of the specification: the wrapped write of `XYZW` at
`(6,0)` of the filled 8 x 4 buffer in TEXT mode succeeds. -/
theorem write_output_wrapped_witness :
    ∃ r, write_output filled_8x4 ⟨6, 0, 0, 0⟩ [88, 89, 90, 87] 4 = some r ∧
      r.status = STATUS_SUCCESS ∧ r.sb = { filled_8x4 with data := r.sb.data } := by
  obtain ⟨r, h1, h2, h3, _⟩ := write_output_wrapped filled_8x4 ⟨6, 0, 0, 0⟩ [88, 89, 90, 87] 4
    (by decide) (by decide) (by decide) (by decide) (by decide) (by decide) (by decide)
    (by decide) (by decide)
  exact ⟨r, h1, h2, h3⟩

/-- A rectangle write of width 2 at column 1 of a 2 x 2 buffer succeeds. -/
theorem write_output_rect_witness :
    ∃ r, write_output blank_2x2 ⟨1, 0, 2, 2⟩ [88, 1, 89, 2] 8 = some r ∧
      r.status = STATUS_SUCCESS ∧ r.sb = { blank_2x2 with data := r.sb.data } := by
  obtain ⟨r, h1, h2, h3, _⟩ := write_output_rect blank_2x2 ⟨1, 0, 2, 2⟩ [88, 1, 89, 2] 8
    (by decide) (by decide) (by decide) (by decide) (by decide) (by decide) (by decide)
    (by decide)
  exact ⟨r, h1, h2, h3⟩

/-! ## write_output: the DWORD reply -/

/-- C5 at its failing input: three cells written with rectangle width 2 at
the origin of a 2 x 2 buffer. The third entry is stored in row 1 (cell index
2 changes from a blank to `('Z', 3)`), and the replied rectangle is
`{0, 0, 1, 0}`, whose `Bottom` is row 0. -/
theorem write_output_region_partial_row :
    ∃ r, write_output blank_2x2 ⟨0, 0, 2, 2⟩ [88, 1, 89, 2, 90, 3] 8 = some r ∧
      r.status = STATUS_SUCCESS ∧
      r.reply = ioctl_reply.region ⟨0, 0, 1, 0⟩ ∧
      blank_2x2.data[1 * 2 + 0]? = some ⟨32, 7⟩ ∧
      r.sb.data[1 * 2 + 0]? = some ⟨90, 3⟩ :=
  ⟨_, rfl, rfl, rfl, rfl, rfl⟩

/-! ## read_output: the flat run of the TEXT and ATTR modes -/

theorem read_run_length (f : char_info_t → Nat) (grid : List char_info_t) (src : Int)
    (count : Nat) : (read_run f grid src count).length = count := by
  simp [read_run]

theorem read_run_getElem? (f : char_info_t → Nat) (grid : List char_info_t) (s count j : Nat)
    (hj : j < count) (hs : s + count ≤ grid.length) :
    ∃ c, grid[s + j]? = some c ∧ (read_run f grid (s : Int) count)[j]? = some (f c) := by
  have hlt : s + j < grid.length := by omega
  refine ⟨grid[s + j], List.getElem?_eq_getElem hlt, ?_⟩
  have hidx : ((s : Int) + (j : Int)).toNat = s + j := by omega
  simp [read_run, List.getElem?_range hj, hidx,
    List.getD_eq_getElem?_getD, List.getElem?_eq_getElem hlt]

/-- The count and source offset of the flat run. -/
theorem read_src_count_eq (sb : screen_buffer) (x y out_size : Nat)
    (hsz : sb.width * sb.height < 4294967296) (hx : x < sb.width) (hy : y < sb.height) :
    read_src sb x y = ((y * sb.width + x : Nat) : Int) ∧
    read_count sb x y out_size =
      min (sb.width * sb.height - (y * sb.width + x)) (out_size / 2) := by
  have hidx := cell_index_lt sb.width sb.height x y hx hy
  have hcomm : sb.height * sb.width = sb.width * sb.height := Nat.mul_comm _ _
  have h1 : U32 (y * sb.width) = y * sb.width := U32_of_lt _ (by omega)
  have h2 : U32 (sb.height * sb.width) = sb.width * sb.height := by
    rw [U32_of_lt _ (by omega), hcomm]
  have hs : read_src sb x y = ((y * sb.width + x : Nat) : Int) := by
    unfold read_src; rw [h1]; push_cast; ring
  refine ⟨hs, ?_⟩
  unfold read_count
  rw [hs, h2]
  have h3 : ((sb.width * sb.height : Nat) : Int) - ((y * sb.width + x : Nat) : Int) =
      ((sb.width * sb.height - (y * sb.width + x) : Nat) : Int) := by omega
  rw [h3, SIZE_T_of_nat _ (by omega)]
  simp only [sizeof_WCHAR]
  exact U32_of_lt _ (by omega)

/-- C7: `read_output` in TEXT (mode 0) or ATTR (mode 1) mode with reply
capacity `C = out_size` bytes. If `x >= W` or `y >= H` the reply is empty
(`*out_size` is 0) with success. Otherwise the reply holds exactly
`k = min (W*H - (y*W + x), C div 2)` values, value `j` being the code unit
(resp. the attribute) of the cell with row-major index `y*W + x + j`. The
handler has no access to change the buffer: its result carries none. -/
theorem read_output_run (sb : screen_buffer) (params : condrv_output_params) (out_size : Nat)
    (hlen : sb.data.length = sb.width * sb.height)
    (hsz : sb.width * sb.height < 4294967296)
    (hmode : params.mode = 0 ∨ params.mode = 1) :
    ((sb.width ≤ params.x ∨ sb.height ≤ params.y) →
      read_output sb params out_size = ⟨STATUS_SUCCESS, 0, ioctl_reply.unwritten⟩) ∧
    (params.x < sb.width → params.y < sb.height →
      let k := min (sb.width * sb.height - (params.y * sb.width + params.x)) (out_size / 2)
      ∃ l, read_output sb params out_size = ⟨STATUS_SUCCESS, k * 2, ioctl_reply.wchars l⟩ ∧
        l.length = k ∧
        ∀ j, j < k → ∃ c, sb.data[params.y * sb.width + params.x + j]? = some c ∧
          l[j]? = some (if params.mode = 0 then c.ch else c.attr)) := by
  constructor
  · intro h
    rcases hmode with hm | hm
    · simp [read_output, hm, CHAR_INFO_MODE_TEXT, h]
    · simp [read_output, hm, CHAR_INFO_MODE_TEXT, CHAR_INFO_MODE_ATTR, h]
  · intro hx hy k
    obtain ⟨e1, e2⟩ := read_src_count_eq sb params.x params.y out_size hsz hx hy
    have hnot : ¬ (sb.width ≤ params.x ∨ sb.height ≤ params.y) := by omega
    have hk : params.y * sb.width + params.x + k ≤ sb.data.length := by
      have := cell_index_lt sb.width sb.height params.x params.y hx hy
      simp only [k]; omega
    rcases hmode with hm | hm
    · refine ⟨read_run (fun c => c.ch) sb.data
        ((params.y * sb.width + params.x : Nat) : Int) k, ?_, read_run_length _ _ _ _, ?_⟩
      · simp only [read_output, hm, CHAR_INFO_MODE_TEXT, if_true, ge_iff_le, hnot, if_false,
          e1, e2, sizeof_WCHAR]
      · intro j hj
        obtain ⟨c, hc1, hc2⟩ := read_run_getElem? (fun c => c.ch) sb.data
          (params.y * sb.width + params.x) k j hj hk
        exact ⟨c, hc1, by simpa [hm] using hc2⟩
    · refine ⟨read_run (fun c => c.attr) sb.data
        ((params.y * sb.width + params.x : Nat) : Int) k, ?_, read_run_length _ _ _ _, ?_⟩
      · simp only [read_output, hm, CHAR_INFO_MODE_TEXT, CHAR_INFO_MODE_ATTR, if_true,
          ge_iff_le, hnot, if_false, e1, e2, sizeof_WCHAR]
        rw [if_neg (by decide)]
      · intro j hj
        obtain ⟨c, hc1, hc2⟩ := read_run_getElem? (fun c => c.attr) sb.data
          (params.y * sb.width + params.x) k j hj hk
        exact ⟨c, hc1, by simpa [hm] using hc2⟩

/-- Reads on the filled 8 x 4 buffer: a start outside the buffer gives the
empty reply, a TEXT read at `(6,3)` gives the last two cells. -/
theorem read_output_run_witness :
    read_output filled_8x4 ⟨8, 0, 0, 0⟩ 16 = ⟨STATUS_SUCCESS, 0, ioctl_reply.unwritten⟩ ∧
    ∃ l, read_output filled_8x4 ⟨6, 3, 0, 0⟩ 100 =
      ⟨STATUS_SUCCESS, 4, ioctl_reply.wchars l⟩ ∧ l.length = 2 := by
  refine ⟨(read_output_run filled_8x4 ⟨8, 0, 0, 0⟩ 16 (by decide) (by decide) (by decide)).1
    (by decide), ?_⟩
  obtain ⟨l, h1, h2, _⟩ := (read_output_run filled_8x4 ⟨6, 3, 0, 0⟩ 100 (by decide) (by decide)
    (by decide)).2 (by decide) (by decide)
  exact ⟨l, h1, h2⟩

/-! ## read_output: the rectangle of the TEXTATTR mode -/

theorem read_cells_length (grid : List char_info_t) (src n : Nat) :
    (read_cells grid src n).length = n := by
  simp [read_cells]

theorem read_cells_getElem? (grid : List char_info_t) (src n c : Nat) (hc : c < n) :
    (read_cells grid src n)[c]? = some (grid.getD (src + c) default) := by
  simp [read_cells, List.getElem?_range hc]

theorem read_rows_length (sb : screen_buffer) (x y w : Nat) (n : Nat) :
    ∀ i, (read_rows sb x y w n i).length = n * w := by
  induction n with
  | zero => intro i; simp [read_rows]
  | succ n ih =>
    intro i
    simp only [read_rows, List.length_append, read_cells_length, ih]
    ring

theorem read_rows_getElem? (sb : screen_buffer) (x y w : Nat) (n : Nat) :
    ∀ i r c, r < n → c < w →
      (read_rows sb x y w n i)[r * w + c]? =
        some (sb.data.getD (U32 (U32 (y + (i + r)) * sb.width + x) + c) default) := by
  induction n with
  | zero => intro i r c hr; omega
  | succ n ih =>
    intro i r c hr hc
    simp only [read_rows]
    cases r with
    | zero =>
      rw [List.getElem?_append_left (by rw [read_cells_length]; omega)]
      simpa using read_cells_getElem? sb.data _ w c hc
    | succ r =>
      have hge : (read_cells sb.data (U32 (U32 (y + i) * sb.width + x)) w).length ≤
          (r + 1) * w + c := by
        rw [read_cells_length]
        have : (r + 1) * w = r * w + w := by ring
        omega
      rw [List.getElem?_append_right hge, read_cells_length]
      have e : (r + 1) * w + c - w = r * w + c := by
        have : (r + 1) * w = r * w + w := by ring
        omega
      rw [e, ih (i + 1) r c (by omega) hc]
      have e2 : i + 1 + r = i + (r + 1) := by omega
      rw [e2]

/-- The TEXTATTR case of `read_output` on a request inside the buffer: the
header is the clamped rectangle and the cells are its rows. -/
theorem read_output_rect (sb : screen_buffer) (x y w C : Nat)
    (hlen : sb.data.length = sb.width * sb.height)
    (hW : sb.width ≤ 32767) (hH : sb.height ≤ 32767)
    (hx : x < sb.width) (hy : y < sb.height) (hw : 0 < w) (hC : 8 ≤ C) :
    let h1 := min ((C - 8) / (w * 4)) (sb.height - y)
    let w1 := min w (sb.width - x)
    ∃ cells, read_output sb ⟨x, y, 2, w⟩ C =
        ⟨STATUS_SUCCESS, 8 + w1 * h1 * 4,
          ioctl_reply.region_cells ⟨x, y, ((x + w1 : Nat) : Int) - 1, ((y + h1 : Nat) : Int) - 1⟩
            cells⟩ ∧
      cells.length = h1 * w1 ∧
      ∀ r c, r < h1 → c < w1 →
        ∃ cell, sb.data[(y + r) * sb.width + (x + c)]? = some cell ∧
          cells[r * w1 + c]? = some cell := by
  intro h1 w1
  have hsz := grid_size_lt sb.width sb.height (by omega) (by omega)
  have hcount : read_rect_count sb y w C = h1 := by
    unfold read_rect_count
    simp only [sizeof_SMALL_RECT, sizeof_char_info_t]
    rw [U32_of_lt (sb.height - y) (by omega), U32_of_lt _ (by omega)]
  have hwidth : read_rect_width sb x w = w1 := by
    unfold read_rect_width
    rw [U32_of_lt (sb.width - x) (by omega)]
  have hw1 : w1 ≤ sb.width - x := Nat.min_le_right _ _
  have hh1 : h1 ≤ sb.height - y := Nat.min_le_right _ _
  have hw1pos : 0 < w1 := by simp only [w1]; omega
  have hprod : w1 * h1 ≤ sb.width * sb.height := Nat.mul_le_mul (by omega) (by omega)
  refine ⟨read_rows sb x y w1 h1 0, ?_, read_rows_length sb x y w1 h1 0, ?_⟩
  · have hnot : ¬ (w = 0 ∨ C < 8 ∨ sb.width ≤ x ∨ sb.height ≤ y) := by omega
    simp only [read_output, CHAR_INFO_MODE_TEXT, CHAR_INFO_MODE_ATTR, CHAR_INFO_MODE_TEXTATTR,
      sizeof_SMALL_RECT, sizeof_char_info_t, ge_iff_le, hnot, if_false, if_true, hcount, hwidth]
    have e1 : SHORT (x : Int) = x := SHORT_of_range _ (by omega) (by omega)
    have e2 : SHORT (y : Int) = y := SHORT_of_range _ (by omega) (by omega)
    have e3 : SHORT (UINT ((U32 (x + w1) : Int) - 1)) = ((x + w1 : Nat) : Int) - 1 := by
      rw [U32_of_lt _ (by omega)]
      unfold SHORT UINT
      omega
    have e4 : SHORT (UINT ((U32 (y + h1) : Int) - 1)) = ((y + h1 : Nat) : Int) - 1 := by
      rw [U32_of_lt _ (by omega)]
      unfold SHORT UINT
      omega
    rw [e1, e2, e3, e4, U32_of_lt _ (by omega)]
    rw [if_neg (by decide), if_neg (by decide)]
  · intro r c hr hc
    have hidx := cell_index_lt sb.width sb.height (x + c) (y + r) (by omega) (by omega)
    have hrow := cell_index_lt sb.width sb.height x (y + r) (by omega) (by omega)
    have hmul : (y + r) * sb.width ≤ (y + r) * sb.width + x := Nat.le_add_right _ _
    have hin : (y + r) * sb.width + (x + c) < sb.data.length := by omega
    refine ⟨sb.data[(y + r) * sb.width + (x + c)], List.getElem?_eq_getElem hin, ?_⟩
    rw [read_rows_getElem? sb x y w1 h1 0 r c hr hc]
    have e5 : U32 (y + (0 + r)) = y + r := by
      rw [Nat.zero_add]; exact U32_of_lt _ (by omega)
    rw [e5, U32_of_lt _ (by omega), List.getD_eq_getElem?_getD]
    have e6 : (y + r) * sb.width + x + c = (y + r) * sb.width + (x + c) := by omega
    rw [e6, List.getElem?_eq_getElem (by omega)]
    rfl

theorem write_output_data_length (sb : screen_buffer) (params : condrv_output_params)
    (src : List Nat) (out_size : Nat) (r : write_result) (hx : params.x < sb.width)
    (hm : params.mode ≤ 3) (h : write_output sb params src out_size = some r) :
    r.sb.data.length = sb.data.length := by
  obtain ⟨f, hf, _⟩ := write_cell_valid sb.attr params.mode src hm
  have hcnt := (write_output_loop_counter sb params src f hf (write_entry_cnt params src) 0
    sb.data [])
  simp only at hcnt
  obtain ⟨hinv, _, _, _, _, hl⟩ := hcnt
  unfold write_output at h
  simp only [ge_iff_le, not_le.mpr hx, if_false, hinv, Bool.false_eq_true] at h
  split at h
  · split at h
    · exact absurd h (by simp)
    · rw [← Option.some.inj h]; exact hl
  · rw [← Option.some.inj h]; exact hl

/-- The round trip on a buffer with dimensions that fit a `SHORT`
(at most 32767 columns and rows): for an origin `(x, y)` inside it, a rectangle of width `w > 0` and height `h > 0`
and a payload `D` of `w*h` cells, WRITE_OUTPUT (TEXTATTR, `x`, `y`, width
`w`, `D`) followed by READ_OUTPUT (TEXTATTR, `x`, `y`, width `w`) with reply
capacity `8 + 4*w*h` returns the header `{x, y, x+w1-1, y+h1-1}` with
`w1 = min (w, W-x)` and `h1 = min (h, H-y)`, followed by `h1` rows of `w1`
cells, the cell in row `r` and column `c` being `D[r*w + c]`. -/
theorem write_read_roundtrip (sb : screen_buffer) (x y w h : Nat) (src : List Nat)
    (out_size : Nat)
    (hlen : sb.data.length = sb.width * sb.height)
    (hW : sb.width ≤ 32767) (hH : sb.height ≤ 32767)
    (hx : x < sb.width) (hy : y < sb.height) (hw : 0 < w)
    (hsrc : src.length = 2 * (w * h)) (hin : src.length < 2147483648) :
    let w1 := min w (sb.width - x)
    let h1 := min h (sb.height - y)
    ∃ r cells, write_output sb ⟨x, y, 2, w⟩ src out_size = some r ∧
      r.status = STATUS_SUCCESS ∧
      read_output r.sb ⟨x, y, 2, w⟩ (8 + 4 * (w * h)) =
        ⟨STATUS_SUCCESS, 8 + w1 * h1 * 4,
          ioctl_reply.region_cells ⟨x, y, ((x + w1 : Nat) : Int) - 1, ((y + h1 : Nat) : Int) - 1⟩
            cells⟩ ∧
      cells.length = h1 * w1 ∧
      ∀ r0 c, r0 < h1 → c < w1 →
        cells[r0 * w1 + c]? =
          some ⟨src.getD (2 * (r0 * w + c)) 0, src.getD (2 * (r0 * w + c) + 1) 0⟩ := by
  intro w1 h1
  obtain ⟨r, hr, hst, hsb, hcells, _⟩ := write_output_rect_inside sb ⟨x, y, 2, w⟩ src out_size
    hlen (by omega) (by omega) (by simp only; omega) hx hy (by simp only; omega) hin
  simp only at hcells
  have hwd : r.sb.width = sb.width := (congrArg screen_buffer.width hsb).trans rfl
  have hht : r.sb.height = sb.height := (congrArg screen_buffer.height hsb).trans rfl
  have hdl := write_output_data_length sb ⟨x, y, 2, w⟩ src out_size r hx (by simp only; omega) hr
  have hdiv : (8 + 4 * (w * h) - 8) / (w * 4) = h := by
    have e : 8 + 4 * (w * h) - 8 = w * 4 * h := by
      have : 4 * (w * h) = w * 4 * h := by ring
      omega
    rw [e, Nat.mul_div_cancel_left _ (by omega)]
  obtain ⟨cells, hread, hclen, hcget⟩ := read_output_rect r.sb x y w (8 + 4 * (w * h))
    (by rw [hdl, hwd, hht, hlen]) (by omega) (by omega) (by omega) (by omega) hw (by omega)
  simp only [hdiv, hwd, hht] at hread hclen hcget
  refine ⟨r, cells, hr, hst, hread, hclen, ?_⟩
  intro r0 c hr0 hc
  obtain ⟨cell, hcell, hget⟩ := hcget r0 c hr0 hc
  rw [hget]
  have hw1 : w1 ≤ w := Nat.min_le_left _ _
  have hw1' : w1 ≤ sb.width - x := Nat.min_le_right _ _
  have hh1 : h1 ≤ h := Nat.min_le_left _ _
  have hh1' : h1 ≤ sb.height - y := Nat.min_le_right _ _
  have hmod : (r0 * w + c) % w = c := by
    rw [Nat.add_comm, Nat.add_mul_mod_self_right, Nat.mod_eq_of_lt (by omega)]
  have hdv : (r0 * w + c) / w = r0 := by
    rw [Nat.add_comm, Nat.add_mul_div_right _ _ hw, Nat.div_eq_of_lt (by omega)]
    omega
  have hi : r0 * w + c < src.length / 2 := by
    have : (r0 + 1) * w ≤ h * w := Nat.mul_le_mul_right _ (by omega)
    have e : (r0 + 1) * w = r0 * w + w := by ring
    have e2 : h * w = w * h := Nat.mul_comm _ _
    omega
  obtain ⟨c0, c1, _, h2, _, _, h5, _⟩ := hcells (r0 * w + c) (by simpa using hi)
    (by rw [hmod]; omega) (by rw [hdv]; omega)
  rw [hmod, hdv, hcell] at h2
  rw [h2, h5 trivial]

/-- A round trip on the 2 x 2 buffer with a rectangle of width 2 starting in
column 1: the data comes back truncated to one column. -/
theorem write_read_roundtrip_witness :
    ∃ r cells, write_output blank_2x2 ⟨1, 0, 2, 2⟩ [88, 1, 89, 2] 8 = some r ∧
      read_output r.sb ⟨1, 0, 2, 2⟩ 16 =
        ⟨STATUS_SUCCESS, 12, ioctl_reply.region_cells ⟨1, 0, 1, 0⟩ cells⟩ ∧
      cells[0]? = some ⟨88, 1⟩ := by
  obtain ⟨r, cells, h1, _, h3, _, h5⟩ := write_read_roundtrip blank_2x2 1 0 2 1 [88, 1, 89, 2] 8
    (by decide) (by decide) (by decide) (by decide) (by decide) (by decide)
    (by decide) (by decide)
  exact ⟨r, cells, h1, h3, h5 0 0 (by decide) (by decide)⟩

/-! ## The round trip on a buffer wider than a SHORT -/

/-- The TEXTATTR read of the last cell of a row of 40000 cells: the header
is made of `SHORT`s, and the column 39999 is stored as -25537. -/
theorem read_output_wide (sb : screen_buffer) (c : char_info_t)
    (hW : sb.width = 40000) (hH : sb.height = 1) (h : sb.data[39999]? = some c) :
    read_output sb ⟨39999, 0, 2, 1⟩ 12 =
      ⟨STATUS_SUCCESS, 12, ioctl_reply.region_cells ⟨-25537, 0, -25537, 0⟩ [c]⟩ := by
  have hcount : read_rect_count sb 0 1 12 = 1 := by
    unfold read_rect_count; rw [hH]; decide
  have hwidth : read_rect_width sb 39999 1 = 1 := by
    unfold read_rect_width; rw [hW]; decide
  have hrows : read_rows sb 39999 0 1 1 0 = [c] := by
    have hr : List.range 1 = [0] := rfl
    simp only [read_rows, read_cells, hr, List.map_cons, List.map_nil, List.append_nil]
    rw [hW]
    have hidx : U32 (U32 (0 + 0) * 40000 + 39999) + 0 = 39999 := by decide
    rw [hidx, List.getD_eq_getElem?_getD, h]
    rfl
  unfold read_output
  dsimp only
  rw [hW, hH, if_neg (by decide), if_neg (by decide), if_pos (by decide), if_neg (by decide)]
  rw [hcount, hwidth, hrows]
  have h1 : sizeof_SMALL_RECT + U32 (1 * 1) * sizeof_char_info_t = 12 := by decide
  have h2 : SHORT ((39999 : Nat) : Int) = -25537 := by decide
  have h3 : SHORT ((0 : Nat) : Int) = 0 := by decide
  have h4 : SHORT ((UINT ((U32 (39999 + 1) : Int) - 1) : Nat) : Int) = -25537 := by decide
  have h5 : SHORT ((UINT ((U32 (0 + 1) : Int) - 1) : Nat) : Int) = 0 := by decide
  rw [h1, h2, h3, h4, h5]

/-- C6 at its failing input: on a buffer of one row of 40000 cells, which
`--width 40000` creates, the cell `('A', 7)` is written to the last column
(x = 39999, y = 0, width 1, TEXTATTR) and read back with a reply capacity of
`8 + 4*1*1 = 12` bytes. The cell comes back, but the header is
{-25537, 0, -25537, 0}, not {39999, 0, 39999, 0}: its fields are `SHORT`s
and 39999 does not fit. -/
theorem write_read_header_wraps :
    wide_40000.width = 40000 ∧ wide_40000.height = 1 ∧
    ∃ r, write_output wide_40000 ⟨39999, 0, 2, 1⟩ [65, 7] sizeof_DWORD = some r ∧
      r.status = STATUS_SUCCESS ∧
      read_output r.sb ⟨39999, 0, 2, 1⟩ (8 + 4 * (1 * 1)) =
        ⟨STATUS_SUCCESS, 12, ioctl_reply.region_cells ⟨-25537, 0, -25537, 0⟩ [⟨65, 7⟩]⟩ ∧
      SHORT 39999 = -25537 := by
  have hW : wide_40000.width = 40000 := rfl
  have hH : wide_40000.height = 1 := rfl
  have hlen : wide_40000.data.length = wide_40000.width * wide_40000.height := by
    rw [hW, hH]
    show (List.replicate 40000 empty_char_info).length = 40000 * 1
    rw [List.length_replicate]
  obtain ⟨r, hr, hst, hsb, hcells, _⟩ := write_output_rect_inside wide_40000 ⟨39999, 0, 2, 1⟩
    [65, 7] sizeof_DWORD hlen (by rw [hW]; decide) (by rw [hH]; decide) (by decide)
    (by rw [hW]; decide) (by rw [hH]; decide) (by decide) (by decide)
  refine ⟨hW, hH, r, hr, hst, ?_, by decide⟩
  have hrW : r.sb.width = 40000 := by rw [hsb]; exact hW
  have hrH : r.sb.height = 1 := by rw [hsb]; exact hH
  obtain ⟨c, c1, _, hc1, _, _, hmode, _⟩ := hcells 0 (by decide) (by rw [hW]; decide)
    (by rw [hH]; decide)
  have hcell : c1 = ⟨65, 7⟩ := hmode rfl
  rw [hcell] at hc1
  have hidx : (0 + 0 / 1) * wide_40000.width + (39999 + 0 % 1) = 39999 := by rw [hW]
  dsimp only at hc1
  rw [hidx] at hc1
  exact read_output_wide r.sb ⟨65, 7⟩ hrW hrH hc1

/-! ## scroll_output: block copies -/

theorem length_write_cells (blk : List char_info_t) :
    ∀ (data : List char_info_t) (dst : Nat), (write_cells data dst blk).length = data.length := by
  induction blk with
  | nil => intro data dst; rfl
  | cons c cs ih => intro data dst; simp [write_cells, ih]

theorem getElem?_write_cells (blk : List char_info_t) :
    ∀ (data : List char_info_t) (dst j : Nat),
      (write_cells data dst blk)[j]? =
        if dst ≤ j ∧ j < dst + blk.length ∧ j < data.length then blk[j - dst]? else data[j]? := by
  induction blk with
  | nil =>
    intro data dst j
    have h0 : ¬ (dst ≤ j ∧ j < dst + 0 ∧ j < data.length) := by omega
    simp only [write_cells, List.length_nil]
    rw [if_neg h0]
  | cons c cs ih =>
    intro data dst j
    simp only [write_cells, ih, List.length_set, List.length_cons]
    by_cases hj : j = dst
    · subst hj
      have h1 : ¬ (j + 1 ≤ j ∧ j < j + 1 + cs.length ∧ j < data.length) := by omega
      rw [if_neg h1]
      by_cases hlt : j < data.length
      · rw [if_pos ⟨le_refl _, by omega, hlt⟩]
        simp [List.getElem?_set, hlt]
      · rw [if_neg (by omega)]
        simp [List.getElem?_set, hlt]
        omega
    · by_cases h2 : dst + 1 ≤ j ∧ j < dst + 1 + cs.length ∧ j < data.length
      · rw [if_pos h2, if_pos ⟨by omega, by omega, h2.2.2⟩]
        have e : j - dst = (j - (dst + 1)) + 1 := by omega
        rw [e, List.getElem?_cons_succ]
      · rw [if_neg h2, if_neg (by omega)]
        rw [List.getElem?_set_ne (Ne.symm hj)]

theorem getElem?_memmove (data : List char_info_t) (pd ps n j : Nat)
    (hs : ps + n ≤ data.length) (hd : pd + n ≤ data.length) :
    (memmove data (pd : Int) (ps : Int) n)[j]? =
      if pd ≤ j ∧ j < pd + n then data[ps + (j - pd)]? else data[j]? := by
  unfold memmove
  simp only [Int.toNat_ofNat, getElem?_write_cells, read_cells_length]
  by_cases h : pd ≤ j ∧ j < pd + n
  · rw [if_pos ⟨h.1, h.2, by omega⟩, if_pos h]
    rw [read_cells_getElem? _ _ _ _ (by omega), List.getD_eq_getElem?_getD]
    rw [List.getElem?_eq_getElem (by omega)]
    rfl
  · rw [if_neg (by omega), if_neg h]

theorem length_memmove (data : List char_info_t) (pd ps : Int) (n : Nat) :
    (memmove data pd ps n).length = data.length := by
  unfold memmove; exact length_write_cells _ _ _

theorem row_succ_le (k n W : Nat) (h : k < n) : k * W + W ≤ n * W := by
  have : (k + 1) * W ≤ n * W := Nat.mul_le_mul_right _ (by omega)
  have e : (k + 1) * W = k * W + W := by ring
  omega

/-- The forward row loop: every destination row holds the old source row,
provided a destination row does not reach into the next source row. -/
theorem scroll_copy_forward_spec (W w : Nat) (hwW : w ≤ W) (n : Nat) :
    ∀ (pd ps : Nat) (data : List char_info_t),
      pd + w ≤ ps + W →
      (n ≠ 0 → ps + n * W + w ≤ data.length + W) →
      (n ≠ 0 → pd + n * W + w ≤ data.length + W) →
      (scroll_copy_forward W w n (pd : Int) (ps : Int) data).length = data.length ∧
      (∀ j, (∀ k, k < n → ¬ (pd + k * W ≤ j ∧ j < pd + k * W + w)) →
        (scroll_copy_forward W w n (pd : Int) (ps : Int) data)[j]? = data[j]?) ∧
      (∀ k c, k < n → c < w →
        (scroll_copy_forward W w n (pd : Int) (ps : Int) data)[pd + k * W + c]? =
          data[ps + k * W + c]?) := by
  induction n with
  | zero =>
    intro pd ps data _ _ _
    simp only [scroll_copy_forward]
    exact ⟨trivial, fun j _ => trivial, fun k c hk => by omega⟩
  | succ n ih =>
    intro pd ps data h1 hbs hbd
    have hbs1 := hbs (by omega)
    have hbd1 := hbd (by omega)
    have en : (n + 1) * W = n * W + W := by ring
    have e1 : ((pd : Int) + (W : Int)) = ((pd + W : Nat) : Int) := by push_cast; rfl
    have e2 : ((ps : Int) + (W : Int)) = ((ps + W : Nat) : Int) := by push_cast; rfl
    simp only [scroll_copy_forward, e1, e2]
    have hmm := fun j => getElem?_memmove data pd ps w j (by omega) (by omega)
    obtain ⟨il, ifr, icp⟩ := ih (pd + W) (ps + W) (memmove data (pd : Int) (ps : Int) w)
      (by omega)
      (fun hn => by rw [length_memmove]; omega)
      (fun hn => by rw [length_memmove]; omega)
    refine ⟨by rw [il, length_memmove], ?_, ?_⟩
    · intro j hj
      rw [ifr j (fun k hk hc => hj (k + 1) (by omega) (by
        have : (k + 1) * W = k * W + W := by ring
        omega))]
      rw [hmm j, if_neg (by
        have := hj 0 (by omega)
        simpa using this)]
    · intro k c hk hc
      cases k with
      | zero =>
        simp only [Nat.zero_mul, Nat.add_zero]
        rw [ifr (pd + c) (fun k hk hcon => by omega)]
        rw [hmm (pd + c), if_pos (by omega)]
        have : ps + (pd + c - pd) = ps + c := by omega
        rw [this]
      | succ k =>
        have ek : (k + 1) * W = k * W + W := by ring
        have e3 : pd + (k + 1) * W + c = pd + W + k * W + c := by omega
        have e4 : ps + (k + 1) * W + c = ps + W + k * W + c := by omega
        rw [e3, e4, icp k c (by omega) hc, hmm, if_neg (by omega)]

/-- The backward row loop, started at the last rows `bd + (y-1)*W` and
`bs + (y-1)*W`: every destination row holds the old source row, provided a
source row does not reach into the next destination row. -/
theorem scroll_copy_backward_spec (W w : Nat) (hwW : w ≤ W) (y : Nat) :
    ∀ (bd bs : Nat) (data : List char_info_t),
      bs + w ≤ bd + W →
      (y ≠ 0 → bs + y * W + w ≤ data.length + W) →
      (y ≠ 0 → bd + y * W + w ≤ data.length + W) →
      (scroll_copy_backward W w y ((bd : Int) + ((y : Int) - 1) * (W : Int))
        ((bs : Int) + ((y : Int) - 1) * (W : Int)) data).length = data.length ∧
      (∀ j, (∀ k, k < y → ¬ (bd + k * W ≤ j ∧ j < bd + k * W + w)) →
        (scroll_copy_backward W w y ((bd : Int) + ((y : Int) - 1) * (W : Int))
          ((bs : Int) + ((y : Int) - 1) * (W : Int)) data)[j]? = data[j]?) ∧
      (∀ k c, k < y → c < w →
        (scroll_copy_backward W w y ((bd : Int) + ((y : Int) - 1) * (W : Int))
          ((bs : Int) + ((y : Int) - 1) * (W : Int)) data)[bd + k * W + c]? =
          data[bs + k * W + c]?) := by
  induction y with
  | zero =>
    intro bd bs data _ _ _
    simp only [scroll_copy_backward]
    exact ⟨trivial, fun j _ => trivial, fun k c hk => by omega⟩
  | succ y ih =>
    intro bd bs data h1 hbs hbd
    have hbs1 := hbs (by omega)
    have hbd1 := hbd (by omega)
    have en : (y + 1) * W = y * W + W := by ring
    have e1 : (bd : Int) + (((y + 1 : Nat) : Int) - 1) * (W : Int) = ((bd + y * W : Nat) : Int) := by
      push_cast; ring
    have e2 : (bs : Int) + (((y + 1 : Nat) : Int) - 1) * (W : Int) = ((bs + y * W : Nat) : Int) := by
      push_cast; ring
    have e3 : ((bd + y * W : Nat) : Int) - (W : Int) = (bd : Int) + ((y : Int) - 1) * (W : Int) := by
      push_cast; ring
    have e4 : ((bs + y * W : Nat) : Int) - (W : Int) = (bs : Int) + ((y : Int) - 1) * (W : Int) := by
      push_cast; ring
    rw [e1, e2]
    simp only [scroll_copy_backward, memcpy, e3, e4]
    have hmm := fun j => getElem?_memmove data (bd + y * W) (bs + y * W) w j (by omega) (by omega)
    obtain ⟨il, ifr, icp⟩ := ih bd bs
      (memmove data ((bd + y * W : Nat) : Int) ((bs + y * W : Nat) : Int) w) h1
      (fun hn => by rw [length_memmove]; omega)
      (fun hn => by rw [length_memmove]; omega)
    refine ⟨by rw [il, length_memmove], ?_, ?_⟩
    · intro j hj
      rw [ifr j (fun k hk => hj k (by omega))]
      rw [hmm j, if_neg (hj y (by omega))]
    · intro k c hk hc
      by_cases hky : k = y
      · subst hky
        rw [ifr (bd + k * W + c) (fun k1 hk1 hcon => by
          have := row_succ_le k1 k W hk1
          omega)]
        rw [hmm, if_pos (by omega)]
        have : bs + k * W + (bd + k * W + c - (bd + k * W)) = bs + k * W + c := by omega
        rw [this]
      · have hlt : k < y := by omega
        have := row_succ_le k y W hlt
        rw [icp k c hlt hc, hmm, if_neg (by omega)]

/-! ## scroll_output: the fill -/

theorem getElem?_scroll_fill_row (W : Nat) (fill : char_info_t) (yy : Nat) (n : Nat) :
    ∀ (xx : Nat) (data : List char_info_t) (j : Nat),
      yy * W + xx + n ≤ 4294967296 →
      (scroll_fill_row W fill (yy : Int) n (xx : Int) data)[j]? =
        if yy * W + xx ≤ j ∧ j < yy * W + xx + n then data[j]?.map (fun _ => fill)
        else data[j]? := by
  induction n with
  | zero =>
    intro xx data j _
    have h0 : ¬ (yy * W + xx ≤ j ∧ j < yy * W + xx + 0) := by omega
    simp only [scroll_fill_row]
    rw [if_neg h0]
  | succ n ih =>
    intro xx data j hb
    have e1 : UINT ((yy : Int) * (W : Int) + (xx : Int)) = yy * W + xx := by
      have := UINT_of_nat (yy * W + xx) (by omega)
      push_cast at this
      exact this
    have e2 : ((xx : Int) + 1) = ((xx + 1 : Nat) : Int) := by push_cast; rfl
    simp only [scroll_fill_row, e1, e2]
    rw [ih (xx + 1) _ j (by omega), getElem?_poke]
    by_cases h1 : yy * W + xx = j
    · subst h1
      rw [if_neg (by omega), if_pos rfl, if_pos (by omega)]
    · by_cases h2 : yy * W + (xx + 1) ≤ j ∧ j < yy * W + (xx + 1) + n
      · rw [if_pos h2, if_neg h1, if_pos (by omega)]
      · rw [if_neg h2, if_neg h1, if_neg (by omega)]

/-- The fill loop leaves every cell alone that is not in the span
`left .. right` of one of its rows. -/
theorem scroll_fill_frame (W H : Nat) (fill : char_info_t) (src dst : SMALL_RECT)
    (hsz : W * H ≤ 4294967296) (hl : 0 ≤ src.Left) (hr : src.Right < W) (n : Nat) :
    ∀ (y0 : Nat) (data : List char_info_t) (j : Nat),
      y0 + n ≤ H →
      (∀ yy xx : Nat, y0 ≤ yy → yy < y0 + n →
        scroll_fill_left src dst yy ≤ xx → (xx : Int) ≤ scroll_fill_right src dst yy →
        j ≠ yy * W + xx) →
      (scroll_fill W fill src dst n (y0 : Int) data)[j]? = data[j]? := by
  induction n with
  | zero =>
    intro y0 data j _ _
    simp only [scroll_fill]
  | succ n ih =>
    intro y0 data j hy hj
    have e1 : ((y0 : Int) + 1) = ((y0 + 1 : Nat) : Int) := by push_cast; rfl
    simp only [scroll_fill, e1]
    rw [ih (y0 + 1) _ j (by omega) (fun yy xx a b c d => hj yy xx (by omega) (by omega) c d)]
    have hL : 0 ≤ scroll_fill_left src dst y0 := by
      unfold scroll_fill_left
      simp only
      split
      · split
        · exact le_trans hl (le_max_left _ _)
        · exact hl
      · exact hl
    have hR : scroll_fill_right src dst y0 < W := by
      unfold scroll_fill_right
      simp only
      split
      · split
        · exact lt_of_le_of_lt (min_le_left _ _) hr
        · exact hr
      · exact hr
    obtain ⟨L, hLe⟩ := Int.eq_ofNat_of_zero_le hL
    by_cases hn : (scroll_fill_right src dst ↑y0 - scroll_fill_left src dst ↑y0 + 1).toNat = 0
    · rw [hn]
      simp only [scroll_fill_row]
    · rw [hLe, getElem?_scroll_fill_row W fill y0 _ L data j (by
        have : (y0 + 1) * W ≤ H * W := Nat.mul_le_mul_right _ (by omega)
        have e : (y0 + 1) * W = y0 * W + W := by ring
        have c : H * W = W * H := Nat.mul_comm _ _
        omega)]
      rw [if_neg]
      intro hcon
      have := hj y0 (j - y0 * W) (le_refl _) (by omega) (by omega) (by omega)
      omega

/-! ## scroll_output: the rectangles of an accepted request -/

/-- The right (or bottom) edge of the normalised clip as the handler
computes it for a buffer dimension `n`: an edge below 0 is replaced by
`n - 1`, like an edge beyond `n - 1`. -/
theorem umin_edge (a : Int) (n : Nat) (ha : is_short a) (hn1 : 1 ≤ n) (hn : n ≤ 16384) :
    SHORT (umin a (UINT ((n : Int) - 1))) = if 0 ≤ a ∧ a < (n : Int) - 1 then a else (n : Int) - 1 := by
  unfold is_short at ha
  unfold umin SHORT UINT
  split <;> split <;> omega

theorem scroll_clip_eq (sb : screen_buffer) (params : condrv_scroll_params)
    (ht : scroll_params_typed params)
    (hW1 : 1 ≤ sb.width) (hW : sb.width ≤ 16384) (hH1 : 1 ≤ sb.height) (hH : sb.height ≤ 16384) :
    scroll_clip sb params =
      ⟨max params.clip.Left 0, max params.clip.Top 0,
        if 0 ≤ params.clip.Right ∧ params.clip.Right < (sb.width : Int) - 1
          then params.clip.Right else (sb.width : Int) - 1,
        if 0 ≤ params.clip.Bottom ∧ params.clip.Bottom < (sb.height : Int) - 1
          then params.clip.Bottom else (sb.height : Int) - 1⟩ := by
  obtain ⟨_, _, _, _, _, _, h7, h8, h9, h10⟩ := ht
  unfold scroll_clip
  rw [umin_edge _ _ h9 hW1 hW, umin_edge _ _ h10 hH1 hH]
  have e1 : SHORT (max params.clip.Left 0) = max params.clip.Left 0 := by
    unfold is_short at h7; unfold SHORT; omega
  have e2 : SHORT (max params.clip.Top 0) = max params.clip.Top 0 := by
    unfold is_short at h8; unfold SHORT; omega
  rw [e1, e2]

/-- What the rejection test leaves for an accepted request. -/
theorem scroll_accepted (sb : screen_buffer) (params : condrv_scroll_params)
    (ht : scroll_params_typed params) (hacc : ¬ scroll_invalid sb params) :
    0 ≤ params.scroll.Left ∧ params.scroll.Left ≤ params.scroll.Right ∧
    params.scroll.Right < sb.width ∧
    0 ≤ params.scroll.Top ∧ params.scroll.Top ≤ params.scroll.Bottom ∧
    params.scroll.Bottom < sb.height ∧
    0 ≤ params.origin.X ∧ params.origin.X < sb.width ∧
    0 ≤ params.origin.Y ∧ params.origin.Y < sb.height ∧
    (scroll_clip sb params).Left ≤ (scroll_clip sb params).Right ∧
    (scroll_clip sb params).Top ≤ (scroll_clip sb params).Bottom := by
  obtain ⟨h1, h2, h3, h4, h5, h6, _, _, _, _⟩ := ht
  unfold is_short at h1 h2 h3 h4 h5 h6
  unfold scroll_invalid at hacc
  simp only [not_or, not_lt, not_le, ge_iff_le, gt_iff_lt] at hacc
  obtain ⟨a1, a2, a3, a4, a5, a6, a7, a8, a9, a10, a11, a12⟩ := hacc
  unfold UINT at a5 a6 a10 a12
  refine ⟨by omega, by omega, by omega, by omega, by omega, by omega, by omega, by omega,
    by omega, by omega, a1, a2⟩

/-- The variables of an accepted request after the destination has been
cut to the clip, in closed form. -/
theorem scroll_clip_dst_eq (clip : SMALL_RECT) (params : condrv_scroll_params) (W H : Int)
    (hW : W ≤ 16384) (hH : H ≤ 16384)
    (h1 : 0 ≤ params.scroll.Left) (h2 : params.scroll.Left ≤ params.scroll.Right)
    (h3 : params.scroll.Right < W) (h4 : 0 ≤ params.scroll.Top)
    (h5 : params.scroll.Top ≤ params.scroll.Bottom) (h6 : params.scroll.Bottom < H)
    (h7 : 0 ≤ params.origin.X) (h8 : params.origin.X < W)
    (h9 : 0 ≤ params.origin.Y) (h10 : params.origin.Y < H) :
    scroll_clip_dst clip (scroll_init params) =
      { xsrc := params.scroll.Left + (max params.origin.X clip.Left - params.origin.X)
        ysrc := params.scroll.Top + (max params.origin.Y clip.Top - params.origin.Y)
        w := min (params.origin.X + (params.scroll.Right - params.scroll.Left)) clip.Right -
          max params.origin.X clip.Left + 1
        h := min (params.origin.Y + (params.scroll.Bottom - params.scroll.Top)) clip.Bottom -
          max params.origin.Y clip.Top + 1
        dst :=
          { Left := max params.origin.X clip.Left
            Top := max params.origin.Y clip.Top
            Right := params.origin.X + (params.scroll.Right - params.scroll.Left)
            Bottom := params.origin.Y + (params.scroll.Bottom - params.scroll.Top) } } := by
  have e1 : SHORT (params.origin.X + (params.scroll.Right - params.scroll.Left + 1) - 1) =
      params.origin.X + (params.scroll.Right - params.scroll.Left) := by
    unfold SHORT; omega
  have e2 : SHORT (params.origin.Y + (params.scroll.Bottom - params.scroll.Top + 1) - 1) =
      params.origin.Y + (params.scroll.Bottom - params.scroll.Top) := by
    unfold SHORT; omega
  have hinit : scroll_init params =
      ⟨params.scroll.Left, params.scroll.Top, params.scroll.Right - params.scroll.Left + 1,
        params.scroll.Bottom - params.scroll.Top + 1,
        ⟨params.origin.X, params.origin.Y,
          params.origin.X + (params.scroll.Right - params.scroll.Left),
          params.origin.Y + (params.scroll.Bottom - params.scroll.Top)⟩⟩ := by
    simp only [scroll_init, e1, e2]
  rw [hinit]
  unfold scroll_clip_dst
  dsimp only
  by_cases c1 : params.origin.X < clip.Left <;> by_cases c2 : params.origin.Y < clip.Top <;>
    simp only [c1, c2, if_true, if_false] <;>
    by_cases c3 : params.origin.X + (params.scroll.Right - params.scroll.Left) > clip.Right <;>
    by_cases c4 : params.origin.Y + (params.scroll.Bottom - params.scroll.Top) > clip.Bottom <;>
    simp only [c3, c4, if_true, if_false, scroll_vars.mk.injEq, SMALL_RECT.mk.injEq] <;>
    refine ⟨?_, ?_, ?_, ?_, ?_, ?_, ?_, ?_⟩ <;> first | trivial | omega

/-- The copy of `scroll_output` for a block of `wN` columns and `hN` rows
that lies inside the grid at its source `(xs, ys)` and at its destination
`(dl, dt)`: the destination block holds the old source block, everything
else is unchanged. -/
theorem scroll_copy_spec (sb : screen_buffer) (xs ys wN hN dl dt : Nat) (r b : Int)
    (hlen : sb.data.length = sb.width * sb.height)
    (hsz : sb.width * sb.height < 4294967296)
    (hxs : xs + wN ≤ sb.width) (hys : ys + hN ≤ sb.height)
    (hdl : dl + wN ≤ sb.width) (hdt : dt + hN ≤ sb.height) :
    (scroll_copy sb ⟨xs, ys, wN, hN, ⟨dl, dt, r, b⟩⟩).length = sb.data.length ∧
    (∀ j, (∀ k c, k < hN → c < wN → j ≠ (dt + k) * sb.width + (dl + c)) →
      (scroll_copy sb ⟨xs, ys, wN, hN, ⟨dl, dt, r, b⟩⟩)[j]? = sb.data[j]?) ∧
    (∀ k c, k < hN → c < wN →
      (scroll_copy sb ⟨xs, ys, wN, hN, ⟨dl, dt, r, b⟩⟩)[(dt + k) * sb.width + (dl + c)]? =
        sb.data[(ys + k) * sb.width + (xs + c)]?) := by
  unfold scroll_copy
  dsimp only
  by_cases hpos : (wN : Int) > 0 ∧ (hN : Int) > 0
  · rw [if_pos hpos]
    have hw0 : 0 < wN := by omega
    have hh0 : 0 < hN := by omega
    have hcomm : sb.height * sb.width = sb.width * sb.height := Nat.mul_comm _ _
    have hsrows : (ys + hN) * sb.width ≤ sb.height * sb.width := Nat.mul_le_mul_right _ hys
    have hdrows : (dt + hN) * sb.width ≤ sb.height * sb.width := Nat.mul_le_mul_right _ hdt
    have es : (ys + hN) * sb.width = ys * sb.width + hN * sb.width := by ring
    have ed : (dt + hN) * sb.width = dt * sb.width + hN * sb.width := by ring
    have hrow : ∀ a k : Nat, (a + k) * sb.width = a * sb.width + k * sb.width := by
      intro a k; ring
    have hidx : ∀ a k x c : Nat, (a + k) * sb.width + (x + c) = a * sb.width + x + k * sb.width + c := by
      intro a k x c; rw [hrow]; omega
    simp only [Int.toNat_ofNat]
    by_cases hdir : (ys : Int) < (dt : Int)
    · rw [if_pos hdir]
      have hlt : ys < dt := by omega
      have hrl := row_succ_le ys dt sb.width hlt
      have e1 : ((UINT (((ys : Int) + (hN : Int) - 1) * (sb.width : Int) + (xs : Int)) : Nat) : Int)
          = ((ys * sb.width + xs : Nat) : Int) + ((hN : Int) - 1) * (sb.width : Int) := by
        have h0 : ((ys : Int) + (hN : Int) - 1) * (sb.width : Int) + (xs : Int) =
            (((ys + (hN - 1)) * sb.width + xs : Nat) : Int) := by
          have : ((hN - 1 : Nat) : Int) = (hN : Int) - 1 := by omega
          push_cast; rw [this]; ring
        have h1 := row_succ_le (ys + (hN - 1)) (ys + hN) sb.width (by omega)
        rw [h0, UINT_of_nat _ (by omega)]
        have : ((hN - 1 : Nat) : Int) = (hN : Int) - 1 := by omega
        push_cast; rw [this]; ring
      have e2 : ((UINT (((dt : Int) + (hN : Int) - 1) * (sb.width : Int) + (dl : Int)) : Nat) : Int)
          = ((dt * sb.width + dl : Nat) : Int) + ((hN : Int) - 1) * (sb.width : Int) := by
        have h0 : ((dt : Int) + (hN : Int) - 1) * (sb.width : Int) + (dl : Int) =
            (((dt + (hN - 1)) * sb.width + dl : Nat) : Int) := by
          have : ((hN - 1 : Nat) : Int) = (hN : Int) - 1 := by omega
          push_cast; rw [this]; ring
        have h1 := row_succ_le (dt + (hN - 1)) (dt + hN) sb.width (by omega)
        rw [h0, UINT_of_nat _ (by omega)]
        have : ((hN - 1 : Nat) : Int) = (hN : Int) - 1 := by omega
        push_cast; rw [this]; ring
      rw [e1, e2]
      obtain ⟨q1, q2, q3⟩ := scroll_copy_backward_spec sb.width wN (by omega) hN
        (dt * sb.width + dl) (ys * sb.width + xs) sb.data (by omega) (fun _ => by omega)
        (fun _ => by omega)
      refine ⟨q1, ?_, ?_⟩
      · intro j hj
        apply q2
        intro k hk hcon
        exact hj k (j - (dt * sb.width + dl + k * sb.width)) hk (by omega)
          (by rw [hidx]; omega)
      · intro k c hk hc
        rw [hidx, hidx]
        exact q3 k c hk hc
    · rw [if_neg hdir]
      have hge : dt ≤ ys := by omega
      have hrl : dt * sb.width ≤ ys * sb.width := Nat.mul_le_mul_right _ hge
      have h1 := row_succ_le ys (ys + hN) sb.width (by omega)
      have h2 := row_succ_le dt (dt + hN) sb.width (by omega)
      have e1 : ((UINT ((ys : Int) * (sb.width : Int) + (xs : Int)) : Nat) : Int)
          = ((ys * sb.width + xs : Nat) : Int) := by
        have h0 : (ys : Int) * (sb.width : Int) + (xs : Int) = ((ys * sb.width + xs : Nat) : Int) := by
          push_cast; ring
        rw [h0, UINT_of_nat _ (by omega)]
      have e2 : ((UINT ((dt : Int) * (sb.width : Int) + (dl : Int)) : Nat) : Int)
          = ((dt * sb.width + dl : Nat) : Int) := by
        have h0 : (dt : Int) * (sb.width : Int) + (dl : Int) = ((dt * sb.width + dl : Nat) : Int) := by
          push_cast; ring
        rw [h0, UINT_of_nat _ (by omega)]
      rw [e1, e2]
      obtain ⟨q1, q2, q3⟩ := scroll_copy_forward_spec sb.width wN (by omega) hN
        (dt * sb.width + dl) (ys * sb.width + xs) sb.data (by omega) (fun _ => by omega)
        (fun _ => by omega)
      refine ⟨q1, ?_, ?_⟩
      · intro j hj
        apply q2
        intro k hk hcon
        exact hj k (j - (dt * sb.width + dl + k * sb.width)) hk (by omega)
          (by rw [hidx]; omega)
      · intro k c hk hc
        rw [hidx, hidx]
        exact q3 k c hk hc
  · rw [if_neg hpos]
    refine ⟨rfl, fun j _ => rfl, ?_⟩
    intro k c hk hc
    omega

theorem scroll_src_eq (sb : screen_buffer) (params : condrv_scroll_params)
    (ht : scroll_params_typed params)
    (hc1 : is_short (scroll_clip sb params).Left) (hc2 : is_short (scroll_clip sb params).Top)
    (hc3 : is_short (scroll_clip sb params).Right)
    (hc4 : is_short (scroll_clip sb params).Bottom) :
    scroll_src sb params =
      ⟨max params.scroll.Left (scroll_clip sb params).Left,
        max params.scroll.Top (scroll_clip sb params).Top,
        min params.scroll.Right (scroll_clip sb params).Right,
        min params.scroll.Bottom (scroll_clip sb params).Bottom⟩ := by
  obtain ⟨h1, h2, h3, h4, _⟩ := ht
  unfold is_short at h1 h2 h3 h4 hc1 hc2 hc3 hc4
  unfold scroll_src
  simp only [SMALL_RECT.mk.injEq]
  unfold SHORT
  refine ⟨?_, ?_, ?_, ?_⟩ <;> omega

theorem scroll_output_accepted (sb : screen_buffer) (params : condrv_scroll_params)
    (hacc : (scroll_output sb params).status = STATUS_SUCCESS) :
    ¬ scroll_invalid sb params ∧
    (scroll_output sb params).sb =
      { sb with data :=
          (scroll_fill sb.width params.fill (scroll_src sb params)
            (scroll_clip_dst (scroll_clip sb params) (scroll_init params)).dst
            ((scroll_src sb params).Bottom - (scroll_src sb params).Top + 1).toNat
            (scroll_src sb params).Top
            (scroll_copy sb (scroll_clip_dst (scroll_clip sb params) (scroll_init params)))) } := by
  by_cases hinv : scroll_invalid sb params
  · simp [scroll_output, hinv] at hacc
  · exact ⟨hinv, by simp [scroll_output, hinv]⟩

/-! ## scroll_output: the handler -/

/-- The copy of `scroll_output` on a buffer of at most 16384 columns and
rows, where the corner of the shifted rectangle fits a `SHORT`. For every
accepted request and every cell `(dx, dy)` of the shifted rectangle `S' = {D.x, D.y, D.x+w-1, D.y+h-1}`
that lies inside the clip rectangle cut to the buffer bounds, the cell holds
after the call the value the cell `(dx - D.x + S.Left, dy - D.y + S.Top)`
held before it, whatever the direction of the shift and whether or not
source and destination overlap. -/
theorem scroll_output_copy (sb : screen_buffer) (params : condrv_scroll_params)
    (hlen : sb.data.length = sb.width * sb.height)
    (hW : sb.width ≤ 16384) (hH : sb.height ≤ 16384)
    (ht : scroll_params_typed params)
    (hacc : (scroll_output sb params).status = STATUS_SUCCESS)
    (dx dy sx sy : Nat)
    (hx1 : params.origin.X ≤ dx)
    (hx2 : dx ≤ params.origin.X + (params.scroll.Right - params.scroll.Left))
    (hy1 : params.origin.Y ≤ dy)
    (hy2 : dy ≤ params.origin.Y + (params.scroll.Bottom - params.scroll.Top))
    (hcx1 : max params.clip.Left 0 ≤ dx) (hcx2 : dx ≤ min params.clip.Right ((sb.width : Int) - 1))
    (hcy1 : max params.clip.Top 0 ≤ dy) (hcy2 : dy ≤ min params.clip.Bottom ((sb.height : Int) - 1))
    (hsx : (sx : Int) = dx - params.origin.X + params.scroll.Left)
    (hsy : (sy : Int) = dy - params.origin.Y + params.scroll.Top) :
    ∃ c, sb.data[sy * sb.width + sx]? = some c ∧
      (scroll_output sb params).sb.data[dy * sb.width + dx]? = some c := by
  obtain ⟨hninv, hsb⟩ := scroll_output_accepted sb params hacc
  have hW1 : 1 ≤ sb.width := by omega
  have hH1 : 1 ≤ sb.height := by omega
  have hsz := grid_size_lt sb.width sb.height (by omega) (by omega)
  obtain ⟨f1, f2, f3, f4, f5, f6, f7, f8, f9, f10, f11, f12⟩ :=
    scroll_accepted sb params ht hninv
  have hclip := scroll_clip_eq sb params ht hW1 hW hH1 hH
  have kL : (scroll_clip sb params).Left = max params.clip.Left 0 := by rw [hclip]
  have kT : (scroll_clip sb params).Top = max params.clip.Top 0 := by rw [hclip]
  have kR : (dx : Int) ≤ (scroll_clip sb params).Right ∧
      (scroll_clip sb params).Right ≤ (sb.width : Int) - 1 := by
    rw [hclip]; dsimp only; split <;> omega
  have kB : (dy : Int) ≤ (scroll_clip sb params).Bottom ∧
      (scroll_clip sb params).Bottom ≤ (sb.height : Int) - 1 := by
    rw [hclip]; dsimp only; split <;> omega
  have hv := scroll_clip_dst_eq (scroll_clip sb params) params sb.width sb.height
    (by omega) (by omega) f1 f2 f3 f4 f5 f6 f7 f8 f9 f10
  have hsrc := scroll_src_eq sb params ht (by unfold is_short; omega) (by unfold is_short; omega)
    (by unfold is_short; omega) (by unfold is_short; omega)
  -- the variables of the copy as natural numbers
  obtain ⟨xs, hxs⟩ := Int.eq_ofNat_of_zero_le (a := params.scroll.Left +
    (max params.origin.X (scroll_clip sb params).Left - params.origin.X)) (by omega)
  obtain ⟨ys, hys⟩ := Int.eq_ofNat_of_zero_le (a := params.scroll.Top +
    (max params.origin.Y (scroll_clip sb params).Top - params.origin.Y)) (by omega)
  obtain ⟨wN, hwN⟩ := Int.eq_ofNat_of_zero_le (a :=
    min (params.origin.X + (params.scroll.Right - params.scroll.Left))
      (scroll_clip sb params).Right - max params.origin.X (scroll_clip sb params).Left + 1)
    (by omega)
  obtain ⟨hN, hhN⟩ := Int.eq_ofNat_of_zero_le (a :=
    min (params.origin.Y + (params.scroll.Bottom - params.scroll.Top))
      (scroll_clip sb params).Bottom - max params.origin.Y (scroll_clip sb params).Top + 1)
    (by omega)
  obtain ⟨dl, hdl⟩ := Int.eq_ofNat_of_zero_le
    (a := max params.origin.X (scroll_clip sb params).Left) (by omega)
  obtain ⟨dt, hdt⟩ := Int.eq_ofNat_of_zero_le
    (a := max params.origin.Y (scroll_clip sb params).Top) (by omega)
  rw [hxs, hys, hwN, hhN, hdl, hdt] at hv
  obtain ⟨q1, q2, q3⟩ := scroll_copy_spec sb xs ys wN hN dl dt
    (params.origin.X + (params.scroll.Right - params.scroll.Left))
    (params.origin.Y + (params.scroll.Bottom - params.scroll.Top))
    hlen hsz (by omega) (by omega) (by omega) (by omega)
  have hk : dt + (dy - dt) = dy := by omega
  have hc : dl + (dx - dl) = dx := by omega
  have hks : ys + (dy - dt) = sy := by omega
  have hcs : xs + (dx - dl) = sx := by omega
  have hcopy := q3 (dy - dt) (dx - dl) (by omega) (by omega)
  rw [hk, hc, hks, hcs] at hcopy
  have hsidx := cell_index_lt sb.width sb.height sx sy (by omega) (by omega)
  have hin : sy * sb.width + sx < sb.data.length := by omega
  refine ⟨sb.data[sy * sb.width + sx], List.getElem?_eq_getElem hin, ?_⟩
  rw [← List.getElem?_eq_getElem (by omega), ← hcopy, hsb]
  dsimp only
  rw [hv]
  dsimp only
  obtain ⟨y0, hy0⟩ := Int.eq_ofNat_of_zero_le (a := (scroll_src sb params).Top)
    (by rw [hsrc]; dsimp only; omega)
  rw [hy0]
  apply scroll_fill_frame sb.width sb.height params.fill _ _ (by omega)
    (by rw [hsrc]; dsimp only; omega) (by rw [hsrc]; dsimp only; omega)
  · rw [hsrc] at hy0 ⊢
    dsimp only at hy0 ⊢
    omega
  · intro yy xx a1 a2 a3 a4 heq
    have hxxW : xx < sb.width := by
      have : scroll_fill_right (scroll_src sb params)
          ⟨(dl : Int), (dt : Int), params.origin.X + (params.scroll.Right - params.scroll.Left),
            params.origin.Y + (params.scroll.Bottom - params.scroll.Top)⟩ (yy : Int)
          ≤ (scroll_src sb params).Right := by
        unfold scroll_fill_right
        dsimp only
        split
        · split
          · exact min_le_left _ _
          · exact le_refl _
        · exact le_refl _
      have hR : (scroll_src sb params).Right =
          min params.scroll.Right (scroll_clip sb params).Right := by rw [hsrc]
      omega
    obtain ⟨e1, e2⟩ := row_col_unique sb.width dy dx yy xx (by omega) hxxW heq
    subst e1 e2
    unfold scroll_fill_left at a3
    unfold scroll_fill_right at a4
    rw [hsrc] at a3 a4
    dsimp only at a3 a4
    rw [if_pos (by omega)] at a3 a4
    split at a3
    · omega
    · rw [if_pos (by omega)] at a4
      omega

/-- The third scenario of the specification, scrolling the rows of the 4 x 4
buffer up by one: the cell `(0,0)` holds afterwards what `(0,1)` held. -/
theorem scroll_output_copy_witness :
    ∃ c, rows_4x4.data[1 * 4 + 0]? = some c ∧
      (scroll_output rows_4x4 ⟨⟨0, 1, 3, 3⟩, ⟨0, 0⟩, ⟨0, 0, 3, 3⟩, ⟨32, 7⟩⟩).sb.data[0 * 4 + 0]?
        = some c :=
  scroll_output_copy rows_4x4 ⟨⟨0, 1, 3, 3⟩, ⟨0, 0⟩, ⟨0, 0, 3, 3⟩, ⟨32, 7⟩⟩ (by decide)
    (by decide) (by decide) (by decide) (by decide) 0 0 0 1 (by decide) (by decide) (by decide)
    (by decide) (by decide) (by decide) (by decide) (by decide) (by decide) (by decide)

/-- The frame of `scroll_output` with respect to the clip rectangle the
handler works with (`scroll_clip`, conhost.c 929-932): for every accepted
request, a cell of the buffer outside that rectangle has the same value
after the call as before it. -/
theorem scroll_output_clipped (sb : screen_buffer) (params : condrv_scroll_params)
    (hlen : sb.data.length = sb.width * sb.height)
    (hW : sb.width ≤ 16384) (hH : sb.height ≤ 16384)
    (ht : scroll_params_typed params)
    (hacc : (scroll_output sb params).status = STATUS_SUCCESS)
    (x y : Nat) (hx : x < sb.width) (hy : y < sb.height)
    (hout : ¬ ((scroll_clip sb params).Left ≤ x ∧ (x : Int) ≤ (scroll_clip sb params).Right ∧
      (scroll_clip sb params).Top ≤ y ∧ (y : Int) ≤ (scroll_clip sb params).Bottom)) :
    (scroll_output sb params).sb.data[y * sb.width + x]? = sb.data[y * sb.width + x]? := by
  obtain ⟨hninv, hsb⟩ := scroll_output_accepted sb params hacc
  have hW1 : 1 ≤ sb.width := by omega
  have hH1 : 1 ≤ sb.height := by omega
  have hsz := grid_size_lt sb.width sb.height (by omega) (by omega)
  obtain ⟨f1, f2, f3, f4, f5, f6, f7, f8, f9, f10, f11, f12⟩ :=
    scroll_accepted sb params ht hninv
  have hclip := scroll_clip_eq sb params ht hW1 hW hH1 hH
  have kL : 0 ≤ (scroll_clip sb params).Left := by rw [hclip]; dsimp only; omega
  have kT : 0 ≤ (scroll_clip sb params).Top := by rw [hclip]; dsimp only; omega
  have kR : (scroll_clip sb params).Right ≤ (sb.width : Int) - 1 := by
    rw [hclip]; dsimp only; split <;> omega
  have kB : (scroll_clip sb params).Bottom ≤ (sb.height : Int) - 1 := by
    rw [hclip]; dsimp only; split <;> omega
  have hv := scroll_clip_dst_eq (scroll_clip sb params) params sb.width sb.height
    (by omega) (by omega) f1 f2 f3 f4 f5 f6 f7 f8 f9 f10
  have hsrc := scroll_src_eq sb params ht (by unfold is_short; omega) (by unfold is_short; omega)
    (by unfold is_short; omega) (by unfold is_short; omega)
  have sL : (scroll_src sb params).Left = max params.scroll.Left (scroll_clip sb params).Left := by
    rw [hsrc]
  have sT : (scroll_src sb params).Top = max params.scroll.Top (scroll_clip sb params).Top := by
    rw [hsrc]
  have sR : (scroll_src sb params).Right =
      min params.scroll.Right (scroll_clip sb params).Right := by rw [hsrc]
  have sB : (scroll_src sb params).Bottom =
      min params.scroll.Bottom (scroll_clip sb params).Bottom := by rw [hsrc]
  -- the copy leaves the cell alone
  have hcopy : (scroll_copy sb (scroll_clip_dst (scroll_clip sb params) (scroll_init params)))[
      y * sb.width + x]? = sb.data[y * sb.width + x]? := by
    rw [hv]
    by_cases hpos : min (params.origin.X + (params.scroll.Right - params.scroll.Left))
          (scroll_clip sb params).Right - max params.origin.X (scroll_clip sb params).Left + 1 > 0 ∧
        min (params.origin.Y + (params.scroll.Bottom - params.scroll.Top))
          (scroll_clip sb params).Bottom - max params.origin.Y (scroll_clip sb params).Top + 1 > 0
    · obtain ⟨xs, hxs⟩ := Int.eq_ofNat_of_zero_le (a := params.scroll.Left +
        (max params.origin.X (scroll_clip sb params).Left - params.origin.X)) (by omega)
      obtain ⟨ys, hys⟩ := Int.eq_ofNat_of_zero_le (a := params.scroll.Top +
        (max params.origin.Y (scroll_clip sb params).Top - params.origin.Y)) (by omega)
      obtain ⟨wN, hwN⟩ := Int.eq_ofNat_of_zero_le (a :=
        min (params.origin.X + (params.scroll.Right - params.scroll.Left))
          (scroll_clip sb params).Right - max params.origin.X (scroll_clip sb params).Left + 1)
        (by omega)
      obtain ⟨hN, hhN⟩ := Int.eq_ofNat_of_zero_le (a :=
        min (params.origin.Y + (params.scroll.Bottom - params.scroll.Top))
          (scroll_clip sb params).Bottom - max params.origin.Y (scroll_clip sb params).Top + 1)
        (by omega)
      obtain ⟨dl, hdl⟩ := Int.eq_ofNat_of_zero_le
        (a := max params.origin.X (scroll_clip sb params).Left) (by omega)
      obtain ⟨dt, hdt⟩ := Int.eq_ofNat_of_zero_le
        (a := max params.origin.Y (scroll_clip sb params).Top) (by omega)
      rw [hxs, hys, hwN, hhN, hdl, hdt]
      obtain ⟨_, q2, _⟩ := scroll_copy_spec sb xs ys wN hN dl dt
        (params.origin.X + (params.scroll.Right - params.scroll.Left))
        (params.origin.Y + (params.scroll.Bottom - params.scroll.Top))
        hlen hsz (by omega) (by omega) (by omega) (by omega)
      apply q2
      intro k c hk hc heq
      obtain ⟨e1, e2⟩ := row_col_unique sb.width y x (dt + k) (dl + c) hx (by omega) heq
      apply hout
      omega
    · unfold scroll_copy
      dsimp only
      rw [if_neg hpos]
  rw [hsb]
  dsimp only
  rw [← hcopy]
  obtain ⟨y0, hy0⟩ := Int.eq_ofNat_of_zero_le (a := (scroll_src sb params).Top) (by omega)
  rw [hy0]
  apply scroll_fill_frame sb.width sb.height params.fill _ _ (by omega) (by omega) (by omega)
  · omega
  · intro yy xx a1 a2 a3 a4 heq
    have hRle : scroll_fill_right (scroll_src sb params)
        (scroll_clip_dst (scroll_clip sb params) (scroll_init params)).dst (yy : Int)
        ≤ (scroll_src sb params).Right := by
      unfold scroll_fill_right
      dsimp only
      split
      · split
        · exact min_le_left _ _
        · exact le_refl _
      · exact le_refl _
    have hLge : (scroll_src sb params).Left ≤ scroll_fill_left (scroll_src sb params)
        (scroll_clip_dst (scroll_clip sb params) (scroll_init params)).dst (yy : Int) := by
      unfold scroll_fill_left
      dsimp only
      split
      · split
        · exact le_max_left _ _
        · exact le_refl _
      · exact le_refl _
    obtain ⟨e1, e2⟩ := row_col_unique sb.width y x yy xx hx (by omega) heq
    apply hout
    omega

/-- C9 at its failing input: on the row `abcdefgh`, the source columns 2..5
are scrolled to column 0 with the clip columns 3..7 and the fill cell
`('.', 7)`. The copy writes column 3 only; the columns 4 and 5 lie in the
source and in the clip and are not written by the copy, yet they keep `e`
and `f` instead of the fill cell. -/
theorem scroll_output_fill_gap :
    (scroll_output row_abcdefgh ⟨⟨2, 0, 5, 0⟩, ⟨0, 0⟩, ⟨3, 0, 7, 0⟩, ⟨46, 7⟩⟩).status
      = STATUS_SUCCESS ∧
    (scroll_output row_abcdefgh ⟨⟨2, 0, 5, 0⟩, ⟨0, 0⟩, ⟨3, 0, 7, 0⟩, ⟨46, 7⟩⟩).sb.data
      = text_cells 7 [97, 98, 99, 102, 101, 102, 103, 104] := by
  decide

/-- C10 at its failing input: on the row `abcd`, the source columns 0..1 are
scrolled to column 2 with a clip whose `Right` is -1, so that the clip does
not meet the buffer. The request is accepted and all four cells change. -/
theorem scroll_output_negative_clip :
    (scroll_output row_abcd ⟨⟨0, 0, 1, 0⟩, ⟨2, 0⟩, ⟨0, 0, -1, 0⟩, ⟨46, 7⟩⟩).status
      = STATUS_SUCCESS ∧
    (scroll_output row_abcd ⟨⟨0, 0, 1, 0⟩, ⟨2, 0⟩, ⟨0, 0, -1, 0⟩, ⟨46, 7⟩⟩).sb.data
      = text_cells 7 [46, 46, 97, 98] := by
  decide

/-! ## scroll_output: a shifted rectangle that leaves the SHORT range -/

theorem getElem?_malloc_cells (fresh : Nat → char_info_t) (n j : Nat) (h : j < n) :
    (malloc_cells fresh n)[j]? = some (fresh j) := by
  unfold malloc_cells
  rw [List.getElem?_map, List.getElem?_range h]
  rfl

/-- C8 at its failing input: on a buffer of 3 rows of 16385 cells the first
two rows are scrolled to the origin (16384, 0), the clip being the whole
buffer. The request is accepted. The corner `D.x + w - 1 = 32768` of the
shifted rectangle is stored into the `SHORT` `dst.Right` as -32768, so that
the test `dst.Right > clip.Right` fails and `w` stays 16385: every row copy
runs over the end of its row. The cell (16384, 1) lies in the shifted
rectangle and in the clip, and its source cell (0, 1) held the character
16385; after the call it holds the character 1 of the cell (1, 0). -/
theorem scroll_output_corner_wraps :
    indexed_16385x3.width = 16385 ∧ indexed_16385x3.height = 3 ∧
    (scroll_output indexed_16385x3 scroll_wide).status = STATUS_SUCCESS ∧
    scroll_clip_dst (scroll_clip indexed_16385x3 scroll_wide) (scroll_init scroll_wide) =
      ⟨0, 0, 16385, 2, ⟨16384, 0, -32768, 1⟩⟩ ∧
    indexed_16385x3.data[1 * 16385 + 0]? = some ⟨16385, 7⟩ ∧
    (scroll_output indexed_16385x3 scroll_wide).sb.data[1 * 16385 + 16384]? = some ⟨1, 7⟩ := by
  have hW : indexed_16385x3.width = 16385 := rfl
  have hH : indexed_16385x3.height = 3 := rfl
  have hdata : indexed_16385x3.data = malloc_cells (fun k => ⟨k, 7⟩) 49155 := by
    simp only [indexed_16385x3, test_buffer]
  have hlen : indexed_16385x3.data.length = 49155 := by
    rw [hdata]; simp only [malloc_cells, List.length_map, List.length_range]
  have hacc : (scroll_output indexed_16385x3 scroll_wide).status = STATUS_SUCCESS := by
    have hninv : ¬ scroll_invalid indexed_16385x3 scroll_wide := by
      unfold scroll_invalid scroll_clip
      rw [hW, hH]
      decide
    simp [scroll_output, hninv]
  have hv : scroll_clip_dst (scroll_clip indexed_16385x3 scroll_wide) (scroll_init scroll_wide) =
      ⟨0, 0, 16385, 2, ⟨16384, 0, -32768, 1⟩⟩ := by
    unfold scroll_clip
    rw [hW, hH]
    decide
  have hsrc : scroll_src indexed_16385x3 scroll_wide = ⟨0, 0, 16384, 1⟩ := by
    unfold scroll_src scroll_clip
    rw [hW, hH]
    decide
  refine ⟨hW, hH, hacc, hv, ?_, ?_⟩
  · rw [hdata, getElem?_malloc_cells _ _ _ (by decide)]
  · obtain ⟨_, hsb⟩ := scroll_output_accepted indexed_16385x3 scroll_wide hacc
    rw [hsb, hv, hsrc]
    dsimp only
    rw [hW]
    have hcopy : scroll_copy indexed_16385x3 ⟨0, 0, 16385, 2, ⟨16384, 0, -32768, 1⟩⟩ =
        memmove (memmove indexed_16385x3.data ((16384 : Nat) : Int) 0 16385)
          ((32769 : Nat) : Int) ((16385 : Nat) : Int) 16385 := by
      unfold scroll_copy
      dsimp only
      rw [if_pos (by decide), if_neg (by decide), hW]
      have e1 : ((UINT ((0 : Int) * ((16385 : Nat) : Int) + 0) : Nat) : Int) = 0 := by
        decide
      have e2 : ((UINT ((0 : Int) * ((16385 : Nat) : Int) + 16384) : Nat) : Int) =
          ((16384 : Nat) : Int) := by decide
      have e3 : (16385 : Int).toNat = 16385 := by decide
      have e4 : (2 : Int).toNat = 1 + 1 := by decide
      have e5 : ((16384 : Nat) : Int) + ((16385 : Nat) : Int) = ((32769 : Nat) : Int) := by decide
      have e6 : (0 : Int) + ((16385 : Nat) : Int) = ((16385 : Nat) : Int) := by decide
      rw [e1, e2, e3, e4]
      simp only [scroll_copy_forward]
      rw [e5, e6]
    have e7 : ((1 : Int) - 0 + 1).toNat = 2 := by decide
    rw [hcopy, e7]
    have hfr := scroll_fill_frame 16385 3 scroll_wide.fill ⟨0, 0, 16384, 1⟩
      ⟨16384, 0, -32768, 1⟩ (by decide) (by decide) (by decide) 2 0
      (memmove (memmove indexed_16385x3.data ((16384 : Nat) : Int) ((0 : Nat) : Int) 16385)
        ((32769 : Nat) : Int) ((16385 : Nat) : Int) 16385)
      (1 * 16385 + 16384) (by decide)
      (by
        intro yy xx _ hyy hl hr
        unfold scroll_fill_right at hr
        unfold scroll_fill_left at hl
        dsimp only at hr hl
        split_ifs at hr hl <;> omega)
    rw [Nat.cast_zero] at hfr
    rw [hfr]
    rw [getElem?_memmove _ 32769 16385 16385 _ (by rw [length_memmove, hlen]; decide)
      (by rw [length_memmove, hlen]; decide)]
    rw [if_pos (by decide)]
    have hm1 := getElem?_memmove indexed_16385x3.data 16384 0 16385 (16385 + (1 * 16385 + 16384 - 32769))
      (by rw [hlen]; decide) (by rw [hlen]; decide)
    rw [Nat.cast_zero] at hm1
    rw [hm1, if_pos (by decide), hdata, getElem?_malloc_cells _ _ _ (by decide)]

/-- On the buffer of 3 rows of 16385 cells the first row, which lies
outside the clip (rows 1 and 2), is scrolled to the origin (16384, 1). The
request is accepted; the corner `D.x + w - 1 = 32768` wraps in `dst.Right`,
`w` stays 16385, and the copy of the row runs from the cell (16384, 1) over
the whole of row 2: the cell (0, 2), which is not in row 1 of the shifted
rectangle, held the character 32770 and holds the character 1 afterwards. -/
theorem scroll_output_wide_outside_clip :
    (∀ sy : Int, 0 ≤ sy → sy ≤ 0 → ¬ (1 ≤ sy ∧ sy ≤ 2)) ∧
    (scroll_output indexed_16385x3 scroll_wide_outside).status = STATUS_SUCCESS ∧
    scroll_clip_dst (scroll_clip indexed_16385x3 scroll_wide_outside)
      (scroll_init scroll_wide_outside) = ⟨0, 0, 16385, 1, ⟨16384, 1, -32768, 1⟩⟩ ∧
    indexed_16385x3.data[2 * 16385 + 0]? = some ⟨32770, 7⟩ ∧
    (scroll_output indexed_16385x3 scroll_wide_outside).sb.data[2 * 16385 + 0]? =
      some ⟨1, 7⟩ := by
  have hW : indexed_16385x3.width = 16385 := rfl
  have hH : indexed_16385x3.height = 3 := rfl
  have hdata : indexed_16385x3.data = malloc_cells (fun k => ⟨k, 7⟩) 49155 := by
    simp only [indexed_16385x3, test_buffer]
  have hlen : indexed_16385x3.data.length = 49155 := by
    rw [hdata]; simp only [malloc_cells, List.length_map, List.length_range]
  have hacc : (scroll_output indexed_16385x3 scroll_wide_outside).status = STATUS_SUCCESS := by
    have hninv : ¬ scroll_invalid indexed_16385x3 scroll_wide_outside := by
      unfold scroll_invalid scroll_clip
      rw [hW, hH]
      decide
    simp [scroll_output, hninv]
  have hv : scroll_clip_dst (scroll_clip indexed_16385x3 scroll_wide_outside)
      (scroll_init scroll_wide_outside) = ⟨0, 0, 16385, 1, ⟨16384, 1, -32768, 1⟩⟩ := by
    unfold scroll_clip
    rw [hW, hH]
    decide
  have hsrc : scroll_src indexed_16385x3 scroll_wide_outside = ⟨0, 1, 16384, 0⟩ := by
    unfold scroll_src scroll_clip
    rw [hW, hH]
    decide
  refine ⟨by intro sy h0 h1 h; omega, hacc, hv, ?_, ?_⟩
  · rw [hdata, getElem?_malloc_cells _ _ _ (by decide)]
  · obtain ⟨_, hsb⟩ := scroll_output_accepted indexed_16385x3 scroll_wide_outside hacc
    rw [hsb, hv, hsrc]
    dsimp only
    rw [hW]
    have hcopy : scroll_copy indexed_16385x3 ⟨0, 0, 16385, 1, ⟨16384, 1, -32768, 1⟩⟩ =
        memmove indexed_16385x3.data ((32769 : Nat) : Int) ((0 : Nat) : Int) 16385 := by
      unfold scroll_copy
      dsimp only
      rw [if_pos (by decide), if_pos (by decide), hW]
      have e1 : ((UINT (((0 : Int) + 1 - 1) * ((16385 : Nat) : Int) + 0) : Nat) : Int) =
          ((0 : Nat) : Int) := by decide
      have e2 : ((UINT (((1 : Int) + 1 - 1) * ((16385 : Nat) : Int) + 16384) : Nat) : Int) =
          ((32769 : Nat) : Int) := by decide
      have e3 : (16385 : Int).toNat = 16385 := by decide
      have e4 : (1 : Int).toNat = 0 + 1 := by decide
      rw [e1, e2, e3, e4]
      simp only [scroll_copy_backward, memcpy]
    have e7 : ((0 : Int) - 1 + 1).toNat = 0 := by decide
    rw [hcopy, e7]
    simp only [scroll_fill]
    rw [getElem?_memmove _ 32769 0 16385 _ (by rw [hlen]; decide) (by rw [hlen]; decide)]
    rw [if_pos (by decide), hdata, getElem?_malloc_cells _ _ _ (by decide)]

/-! ## scroll_output: a source outside the clip -/

/-- C11 as stated fails: on the row `abcdefgh`, the source columns 0..1 lie
outside the clip columns 3..7 and are scrolled to column 4. The request is
accepted and the copy writes `a`, `b` to the columns 4 and 5, which lie in
the clip. On a buffer of 3 rows of 16385 cells the copy is not confined to
the shifted rectangle either: the row 0, outside the clip rows 1..2, is
scrolled to (16384, 1), the corner `16384 + 16385 - 1` wraps to -32768 in
`dst.Right`, and the cell (0, 2), outside the row 1 of the shifted
rectangle, changes from the character 32770 to the character 1. -/
theorem scroll_output_source_outside_clip_counterexample :
    (∀ x : Int, 0 ≤ x → x ≤ 1 → ¬ (3 ≤ x ∧ x ≤ 7)) ∧
    (scroll_output row_abcdefgh ⟨⟨0, 0, 1, 0⟩, ⟨4, 0⟩, ⟨3, 0, 7, 0⟩, ⟨46, 7⟩⟩).status
      = STATUS_SUCCESS ∧
    (scroll_output row_abcdefgh ⟨⟨0, 0, 1, 0⟩, ⟨4, 0⟩, ⟨3, 0, 7, 0⟩, ⟨46, 7⟩⟩).sb.data
      = text_cells 7 [97, 98, 99, 100, 97, 98, 103, 104] ∧
    (scroll_output row_abcdefgh ⟨⟨0, 0, 1, 0⟩, ⟨4, 0⟩, ⟨3, 0, 7, 0⟩, ⟨46, 7⟩⟩).sb.data[4]?
      ≠ row_abcdefgh.data[4]? ∧
    (∀ sy : Int, 0 ≤ sy → sy ≤ 0 → ¬ (1 ≤ sy ∧ sy ≤ 2)) ∧
    (scroll_output indexed_16385x3 scroll_wide_outside).status = STATUS_SUCCESS ∧
    scroll_clip_dst (scroll_clip indexed_16385x3 scroll_wide_outside)
      (scroll_init scroll_wide_outside) = ⟨0, 0, 16385, 1, ⟨16384, 1, -32768, 1⟩⟩ ∧
    indexed_16385x3.data[2 * 16385 + 0]? = some ⟨32770, 7⟩ ∧
    (scroll_output indexed_16385x3 scroll_wide_outside).sb.data[2 * 16385 + 0]? =
      some ⟨1, 7⟩ := by
  refine ⟨?_, by decide, by decide, by decide, scroll_output_wide_outside_clip⟩
  intro x h0 h1 h
  omega

/-- C11, amended: on a buffer of at most 16384 columns and rows, for every
accepted request whose source rectangle `S` has no cell inside the clip
rectangle cut to the buffer bounds (the clip having `Right` and `Bottom`
not below 0), no cell is filled and the copy is the only change: every cell
of the buffer outside the shifted rectangle
`S' = {D.x, D.y, D.x+w-1, D.y+h-1}` cut to the clip is unchanged. -/
theorem scroll_output_source_outside_clip (sb : screen_buffer) (params : condrv_scroll_params)
    (hlen : sb.data.length = sb.width * sb.height)
    (hW : sb.width ≤ 16384) (hH : sb.height ≤ 16384)
    (ht : scroll_params_typed params)
    (hacc : (scroll_output sb params).status = STATUS_SUCCESS)
    (hR : 0 ≤ params.clip.Right) (hB : 0 ≤ params.clip.Bottom)
    (hsrc : ∀ sx sy : Int, params.scroll.Left ≤ sx → sx ≤ params.scroll.Right →
      params.scroll.Top ≤ sy → sy ≤ params.scroll.Bottom →
      ¬ (max params.clip.Left 0 ≤ sx ∧ sx ≤ min params.clip.Right ((sb.width : Int) - 1) ∧
        max params.clip.Top 0 ≤ sy ∧ sy ≤ min params.clip.Bottom ((sb.height : Int) - 1)))
    (x y : Nat) (hx : x < sb.width) (hy : y < sb.height)
    (hdst : ¬ ((params.origin.X ≤ x ∧
        (x : Int) ≤ params.origin.X + (params.scroll.Right - params.scroll.Left) ∧
        params.origin.Y ≤ y ∧
        (y : Int) ≤ params.origin.Y + (params.scroll.Bottom - params.scroll.Top)) ∧
      (max params.clip.Left 0 ≤ x ∧ (x : Int) ≤ min params.clip.Right ((sb.width : Int) - 1) ∧
        max params.clip.Top 0 ≤ y ∧ (y : Int) ≤ min params.clip.Bottom ((sb.height : Int) - 1)))) :
    (scroll_output sb params).sb.data[y * sb.width + x]? = sb.data[y * sb.width + x]? := by
  obtain ⟨hninv, hsb⟩ := scroll_output_accepted sb params hacc
  have hW1 : 1 ≤ sb.width := by omega
  have hH1 : 1 ≤ sb.height := by omega
  have hsz := grid_size_lt sb.width sb.height (by omega) (by omega)
  obtain ⟨f1, f2, f3, f4, f5, f6, f7, f8, f9, f10, f11, f12⟩ :=
    scroll_accepted sb params ht hninv
  have hclip := scroll_clip_eq sb params ht hW1 hW hH1 hH
  have kL : (scroll_clip sb params).Left = max params.clip.Left 0 := by rw [hclip]
  have kT : (scroll_clip sb params).Top = max params.clip.Top 0 := by rw [hclip]
  have kR : (scroll_clip sb params).Right = min params.clip.Right ((sb.width : Int) - 1) := by
    rw [hclip]; dsimp only; split <;> omega
  have kB : (scroll_clip sb params).Bottom = min params.clip.Bottom ((sb.height : Int) - 1) := by
    rw [hclip]; dsimp only; split <;> omega
  have k1 : 0 ≤ (scroll_clip sb params).Left := by omega
  have k2 : 0 ≤ (scroll_clip sb params).Top := by omega
  have k3 : (scroll_clip sb params).Right ≤ (sb.width : Int) - 1 := by omega
  have k4 : (scroll_clip sb params).Bottom ≤ (sb.height : Int) - 1 := by omega
  simp only [← kL, ← kT, ← kR, ← kB] at hsrc hdst
  clear kL kT kR kB hclip hR hB
  have hv := scroll_clip_dst_eq (scroll_clip sb params) params sb.width sb.height
    (by omega) (by omega) f1 f2 f3 f4 f5 f6 f7 f8 f9 f10
  have hs := scroll_src_eq sb params ht (by unfold is_short; omega) (by unfold is_short; omega)
    (by unfold is_short; omega) (by unfold is_short; omega)
  have sL : (scroll_src sb params).Left = max params.scroll.Left (scroll_clip sb params).Left := by
    rw [hs]
  have sT : (scroll_src sb params).Top = max params.scroll.Top (scroll_clip sb params).Top := by
    rw [hs]
  have sR : (scroll_src sb params).Right =
      min params.scroll.Right (scroll_clip sb params).Right := by rw [hs]
  have sB : (scroll_src sb params).Bottom =
      min params.scroll.Bottom (scroll_clip sb params).Bottom := by rw [hs]
  -- the copy leaves the cell alone
  have hcopy : (scroll_copy sb (scroll_clip_dst (scroll_clip sb params) (scroll_init params)))[
      y * sb.width + x]? = sb.data[y * sb.width + x]? := by
    rw [hv]
    by_cases hpos : min (params.origin.X + (params.scroll.Right - params.scroll.Left))
          (scroll_clip sb params).Right - max params.origin.X (scroll_clip sb params).Left + 1 > 0 ∧
        min (params.origin.Y + (params.scroll.Bottom - params.scroll.Top))
          (scroll_clip sb params).Bottom - max params.origin.Y (scroll_clip sb params).Top + 1 > 0
    · obtain ⟨xs, hxs⟩ := Int.eq_ofNat_of_zero_le (a := params.scroll.Left +
        (max params.origin.X (scroll_clip sb params).Left - params.origin.X)) (by omega)
      obtain ⟨ys, hys⟩ := Int.eq_ofNat_of_zero_le (a := params.scroll.Top +
        (max params.origin.Y (scroll_clip sb params).Top - params.origin.Y)) (by omega)
      obtain ⟨wN, hwN⟩ := Int.eq_ofNat_of_zero_le (a :=
        min (params.origin.X + (params.scroll.Right - params.scroll.Left))
          (scroll_clip sb params).Right - max params.origin.X (scroll_clip sb params).Left + 1)
        (by omega)
      obtain ⟨hN, hhN⟩ := Int.eq_ofNat_of_zero_le (a :=
        min (params.origin.Y + (params.scroll.Bottom - params.scroll.Top))
          (scroll_clip sb params).Bottom - max params.origin.Y (scroll_clip sb params).Top + 1)
        (by omega)
      obtain ⟨dl, hdl⟩ := Int.eq_ofNat_of_zero_le
        (a := max params.origin.X (scroll_clip sb params).Left) (by omega)
      obtain ⟨dt, hdt⟩ := Int.eq_ofNat_of_zero_le
        (a := max params.origin.Y (scroll_clip sb params).Top) (by omega)
      rw [hxs, hys, hwN, hhN, hdl, hdt]
      obtain ⟨_, q2, _⟩ := scroll_copy_spec sb xs ys wN hN dl dt
        (params.origin.X + (params.scroll.Right - params.scroll.Left))
        (params.origin.Y + (params.scroll.Bottom - params.scroll.Top))
        hlen hsz (by omega) (by omega) (by omega) (by omega)
      apply q2
      intro k c hk hc heq
      obtain ⟨e1, e2⟩ := row_col_unique sb.width y x (dt + k) (dl + c) hx (by omega) heq
      apply hdst
      omega
    · unfold scroll_copy
      dsimp only
      rw [if_neg hpos]
  rw [hsb]
  dsimp only
  rw [← hcopy]
  obtain ⟨y0, hy0⟩ := Int.eq_ofNat_of_zero_le (a := (scroll_src sb params).Top) (by omega)
  rw [hy0]
  apply scroll_fill_frame sb.width sb.height params.fill _ _ (by omega) (by omega) (by omega)
  · omega
  · intro yy xx a1 a2 a3 a4 heq
    have hRle : scroll_fill_right (scroll_src sb params)
        (scroll_clip_dst (scroll_clip sb params) (scroll_init params)).dst (yy : Int)
        ≤ (scroll_src sb params).Right := by
      unfold scroll_fill_right
      dsimp only
      split
      · split
        · exact min_le_left _ _
        · exact le_refl _
      · exact le_refl _
    have hLge : (scroll_src sb params).Left ≤ scroll_fill_left (scroll_src sb params)
        (scroll_clip_dst (scroll_clip sb params) (scroll_init params)).dst (yy : Int) := by
      unfold scroll_fill_left
      dsimp only
      split
      · split
        · exact le_max_left _ _
        · exact le_refl _
      · exact le_refl _
    apply hsrc (xx : Int) (yy : Int) (by omega) (by omega) (by omega) (by omega)
    omega

/-- The request of the counterexample: the column 3 lies in the clip and
outside the shifted rectangle (columns 4..5), and keeps its cell. -/
theorem scroll_output_source_outside_clip_witness :
    (scroll_output row_abcdefgh ⟨⟨0, 0, 1, 0⟩, ⟨4, 0⟩, ⟨3, 0, 7, 0⟩, ⟨46, 7⟩⟩).sb.data[0 * 8 + 3]?
      = row_abcdefgh.data[0 * 8 + 3]? :=
  scroll_output_source_outside_clip row_abcdefgh ⟨⟨0, 0, 1, 0⟩, ⟨4, 0⟩, ⟨3, 0, 7, 0⟩, ⟨46, 7⟩⟩
    (by decide) (by decide) (by decide) (by decide) (by decide) (by decide) (by decide)
    (by intro sx sy h1 h2 h3 h4 h; simp only [row_abcdefgh, test_buffer] at *; omega)
    3 0 (by decide) (by decide) (by decide)

/-! ## scroll_output: the rejections -/

/-- The rejections of `scroll_output` that work: a request whose source
rectangle is inverted or not inside the buffer, whose origin is outside the
buffer, or whose clip has a `Right` (or `Bottom`) not below 0 and does not
meet the buffer columns (or rows), is refused and leaves the buffer as it
was. -/
theorem scroll_output_rejects (sb : screen_buffer) (params : condrv_scroll_params)
    (hW1 : 1 ≤ sb.width) (hW : sb.width ≤ 16384) (hH1 : 1 ≤ sb.height) (hH : sb.height ≤ 16384)
    (ht : scroll_params_typed params)
    (hbad : (params.scroll.Right < params.scroll.Left ∨ params.scroll.Bottom < params.scroll.Top) ∨
      (params.scroll.Left < 0 ∨ params.scroll.Top < 0 ∨ params.scroll.Right ≥ sb.width ∨
        params.scroll.Bottom ≥ sb.height) ∨
      (params.origin.X < 0 ∨ params.origin.X ≥ sb.width ∨ params.origin.Y < 0 ∨
        params.origin.Y ≥ sb.height) ∨
      (0 ≤ params.clip.Right ∧
        max params.clip.Left 0 > min params.clip.Right ((sb.width : Int) - 1)) ∨
      (0 ≤ params.clip.Bottom ∧
        max params.clip.Top 0 > min params.clip.Bottom ((sb.height : Int) - 1))) :
    scroll_output sb params = ⟨STATUS_INVALID_PARAMETER, sb⟩ := by
  have hinv : scroll_invalid sb params := by
    have hclip := scroll_clip_eq sb params ht hW1 hW hH1 hH
    obtain ⟨h1, h2, h3, h4, h5, h6, h7, h8, h9, h10⟩ := ht
    unfold is_short at h1 h2 h3 h4 h5 h6 h7 h8 h9 h10
    have hu : ∀ z : Int, ∀ n : Nat, -32768 ≤ z → z ≤ 32767 → n ≤ 16384 → (z < 0 ∨ z ≥ n) →
        z < 0 ∨ UINT z ≥ n := by
      intro z n a b c d
      unfold UINT
      omega
    unfold scroll_invalid
    dsimp only
    rw [hclip]
    dsimp only
    rcases hbad with h | h | h | h | h
    · rcases h with h | h
      · right; right; right; right; right; right; left; exact h
      · right; right; right; right; right; right; right; left; exact h
    · rcases h with h | h | h | h
      · right; right; left; exact h
      · right; right; right; left; exact h
      · right; right; right; right; left
        exact (hu _ _ h3.1 h3.2 hW (Or.inr h)).resolve_left (by omega)
      · right; right; right; right; right; left
        exact (hu _ _ h4.1 h4.2 hH (Or.inr h)).resolve_left (by omega)
    · rcases h with h | h | h | h
      · right; right; right; right; right; right; right; right; left; exact h
      · right; right; right; right; right; right; right; right; right; left
        exact (hu _ _ h5.1 h5.2 hW (Or.inr h)).resolve_left (by omega)
      · right; right; right; right; right; right; right; right; right; right; left; exact h
      · right; right; right; right; right; right; right; right; right; right; right
        exact (hu _ _ h6.1 h6.2 hH (Or.inr h)).resolve_left (by omega)
    · left
      obtain ⟨ha, hb⟩ := h
      split <;> omega
    · right; left
      obtain ⟨ha, hb⟩ := h
      split <;> omega
  unfold scroll_output
  dsimp only
  rw [if_pos hinv]

/-- C12 at its failing input: on the 4 x 4 buffer of rows `AAAA` .. `DDDD`,
the rows 1..3 are scrolled to row 0 with a clip whose `Bottom` is -1, so
that the clip cut to the buffer bounds is empty. The request is accepted
and all sixteen cells change. -/
theorem scroll_output_negative_clip_bottom :
    max (0 : Int) 0 > min (-1) ((rows_4x4.height : Int) - 1) ∧
    (scroll_output rows_4x4 ⟨⟨0, 1, 3, 3⟩, ⟨0, 0⟩, ⟨0, 0, 3, -1⟩, ⟨32, 7⟩⟩).status
      = STATUS_SUCCESS ∧
    (scroll_output rows_4x4 ⟨⟨0, 1, 3, 3⟩, ⟨0, 0⟩, ⟨0, 0, 3, -1⟩, ⟨32, 7⟩⟩).sb.data
      = text_cells 7 [66, 66, 66, 66, 67, 67, 67, 67, 68, 68, 68, 68, 32, 32, 32, 32] := by
  decide

/-! ## write_output: an unknown mode -/

/-- Every mode value above `CHAR_INFO_MODE_TEXTSTDATTR` takes the `default:`
label of the switch. -/
theorem write_cell_unknown (attr mode : Nat) (src : List Nat) (i : Nat) (hm : 3 < mode) :
    write_cell attr mode src i = none := by
  unfold write_cell
  simp only [CHAR_INFO_MODE_TEXT, CHAR_INFO_MODE_ATTR, CHAR_INFO_MODE_TEXTATTR,
    CHAR_INFO_MODE_TEXTSTDATTR]
  rw [if_neg (by omega), if_neg (by omega), if_neg (by omega), if_neg (by omega)]

/-- With an unknown mode the store loop of `write_output` never stores. -/
theorem write_output_loop_unknown (sb : screen_buffer) (params : condrv_output_params)
    (src : List Nat) (hm : 3 < params.mode) (n : Nat) :
    ∀ (i : Nat) (data : List char_info_t) (stored : List Nat),
      (write_output_loop sb params src n i data stored).data = data ∧
      (write_output_loop sb params src n i data stored).stored = stored := by
  induction n with
  | zero => intro i data stored; simp [write_output_loop]
  | succ n ih =>
    intro i data stored
    unfold write_output_loop
    cases h : write_addr sb params i with
    | none => exact ih (i + 1) data stored
    | some p =>
      obtain ⟨x, y⟩ := p
      dsimp only
      by_cases hy : y ≥ sb.height
      · rw [if_pos hy]; exact ⟨rfl, rfl⟩
      · rw [if_neg hy, write_cell_unknown _ _ _ _ hm]; exact ⟨rfl, rfl⟩

/-- The first entry of a payload addresses the start position. -/
theorem write_addr_zero (sb : screen_buffer) (params : condrv_output_params)
    (hx : params.x < sb.width) (hx32 : params.x < 4294967296) (hy32 : params.y < 4294967296) :
    write_addr sb params 0 = some (params.x, params.y) := by
  unfold write_addr U32
  by_cases hw : params.width ≠ 0
  · rw [if_pos hw]
    simp only [Nat.zero_mod, Nat.zero_div, Nat.add_zero]
    rw [Nat.mod_eq_of_lt hx32, Nat.mod_eq_of_lt hy32, if_neg (by omega)]
  · rw [if_neg hw]
    simp only [Nat.add_zero]
    rw [Nat.mod_eq_of_lt hx32, Nat.mod_eq_of_lt hx, Nat.div_eq_of_lt hx, Nat.add_zero,
      Nat.mod_eq_of_lt hy32]

/-- C15 as stated fails: on the 2 x 2 buffer, a request with the unknown
mode 4 returns `STATUS_SUCCESS` when its payload is empty, when its start
column is outside the buffer and when its start row is outside the buffer. -/
theorem write_output_unknown_mode_counterexample :
    write_output blank_2x2 ⟨0, 0, 4, 0⟩ [] 4
      = some ⟨STATUS_SUCCESS, blank_2x2, 4, ioctl_reply.dword 0, []⟩ ∧
    write_output blank_2x2 ⟨2, 0, 4, 0⟩ [65] 4
      = some ⟨STATUS_SUCCESS, blank_2x2, 0, ioctl_reply.unwritten, []⟩ ∧
    write_output blank_2x2 ⟨0, 2, 4, 0⟩ [65] 4
      = some ⟨STATUS_SUCCESS, blank_2x2, 4, ioctl_reply.dword 0, []⟩ := by
  decide

/-- C15, amended: WRITE_OUTPUT with an unknown mode (a mode value above
TEXTSTDATTR) never changes the buffer. It returns `STATUS_INVALID_PARAMETER`
when the payload is not empty and the start position is inside the buffer
(`x < width`, `y < height`). It returns `STATUS_SUCCESS` when `x >= width`,
and also when the payload is empty or `y >= height`, provided the reply can
be computed (`out_size` is not `sizeof(SMALL_RECT)`, or `width` is not 0). -/
theorem write_output_unknown_mode (sb : screen_buffer) (params : condrv_output_params)
    (src : List Nat) (out_size : Nat) (hm : 3 < params.mode)
    (hx32 : params.x < 4294967296) (hy32 : params.y < 4294967296)
    (hin : src.length < 2147483648) :
    (∀ r, write_output sb params src out_size = some r → r.sb = sb) ∧
    (params.x < sb.width → params.y < sb.height → src ≠ [] →
      ∃ r, write_output sb params src out_size = some r ∧
        r.status = STATUS_INVALID_PARAMETER ∧ r.sb = sb) ∧
    (sb.width ≤ params.x →
      ∃ r, write_output sb params src out_size = some r ∧ r.status = STATUS_SUCCESS ∧ r.sb = sb) ∧
    (src = [] ∨ sb.height ≤ params.y → (out_size = sizeof_SMALL_RECT → params.width ≠ 0) →
      ∃ r, write_output sb params src out_size = some r ∧ r.status = STATUS_SUCCESS ∧ r.sb = sb) := by
  have hcnt : write_entry_cnt params src = src.length := by
    rw [write_entry_cnt_eq params src hin, if_neg (by omega)]
  have hloop := write_output_loop_unknown sb params src hm (write_entry_cnt params src) 0 sb.data []
  have hsb : ({ sb with data := (write_output_loop sb params src (write_entry_cnt params src) 0
      sb.data []).data } : screen_buffer) = sb := by
    rw [hloop.1]
  refine ⟨?_, ?_, ?_, ?_⟩
  · intro r hr
    unfold write_output at hr
    dsimp only at hr
    rw [hsb] at hr
    split at hr
    · rw [← Option.some.inj hr]
    · split at hr
      · rw [← Option.some.inj hr]
      · split at hr
        · split at hr
          · exact absurd hr (by simp)
          · rw [← Option.some.inj hr]
        · rw [← Option.some.inj hr]
  · intro hx hy hne
    have hpos : 0 < src.length := List.length_pos.mpr hne
    obtain ⟨n, hn⟩ : ∃ n, write_entry_cnt params src = n + 1 := ⟨src.length - 1, by omega⟩
    have hinv : (write_output_loop sb params src (write_entry_cnt params src) 0
        sb.data []).invalid = true := by
      rw [hn]
      unfold write_output_loop
      rw [write_addr_zero sb params hx hx32 hy32]
      dsimp only
      rw [if_neg (by omega), write_cell_unknown _ _ _ _ hm]
    unfold write_output
    dsimp only
    rw [hsb, if_neg (by omega), if_pos hinv]
    exact ⟨_, rfl, rfl, rfl⟩
  · intro hx
    unfold write_output
    dsimp only
    rw [if_pos hx]
    exact ⟨_, rfl, rfl, rfl⟩
  · intro hcase hdiv
    by_cases hx : params.x ≥ sb.width
    · unfold write_output
      dsimp only
      rw [if_pos hx]
      exact ⟨_, rfl, rfl, rfl⟩
    · have hinv : (write_output_loop sb params src (write_entry_cnt params src) 0
          sb.data []).invalid = false := by
        rcases hcase with h | h
        · rw [hcnt, h]
          rfl
        · cases hc : write_entry_cnt params src with
          | zero => rfl
          | succ n =>
            unfold write_output_loop
            rw [write_addr_zero sb params (by omega) hx32 hy32]
            dsimp only
            rw [if_pos h]
      unfold write_output
      dsimp only
      rw [hsb, if_neg hx, hinv]
      simp only [Bool.false_eq_true, if_false]
      by_cases ho : out_size = sizeof_SMALL_RECT
      · rw [if_pos ho, if_neg (hdiv ho)]
        exact ⟨_, rfl, rfl, rfl⟩
      · rw [if_neg ho]
        exact ⟨_, rfl, rfl, rfl⟩

/-- One entry written with the unknown mode 4 at the origin of the 2 x 2
buffer is rejected. -/
theorem write_output_unknown_mode_witness :
    ∃ r, write_output blank_2x2 ⟨0, 0, 4, 0⟩ [65] 4 = some r ∧
      r.status = STATUS_INVALID_PARAMETER ∧ r.sb = blank_2x2 :=
  (write_output_unknown_mode blank_2x2 ⟨0, 0, 4, 0⟩ [65] 4 (by decide) (by decide) (by decide)
    (by decide)).2.1 (by decide) (by decide) (by decide)

/-! ## Block copies between two blocks -/

theorem length_malloc_cells (fresh : Nat → char_info_t) (n : Nat) :
    (malloc_cells fresh n).length = n := by
  simp [malloc_cells]

theorem length_memcpy_from (dst : List char_info_t) (pd : Int) (src : List char_info_t)
    (ps : Int) (n : Nat) : (memcpy_from dst pd src ps n).length = dst.length := by
  unfold memcpy_from; exact length_write_cells _ _ _

theorem getElem?_memcpy_from (dst src : List char_info_t) (pd ps n j : Nat)
    (hs : ps + n ≤ src.length) (hd : pd + n ≤ dst.length) :
    (memcpy_from dst (pd : Int) src (ps : Int) n)[j]? =
      if pd ≤ j ∧ j < pd + n then src[ps + (j - pd)]? else dst[j]? := by
  unfold memcpy_from
  simp only [Int.toNat_ofNat, getElem?_write_cells, read_cells_length]
  by_cases h : pd ≤ j ∧ j < pd + n
  · rw [if_pos ⟨h.1, h.2, by omega⟩, if_pos h]
    rw [read_cells_getElem? _ _ _ _ (by omega), List.getD_eq_getElem?_getD]
    rw [List.getElem?_eq_getElem (by omega)]
    rfl
  · rw [if_neg (by omega), if_neg h]

theorem length_fill_loop (f : char_info_t → char_info_t) (dest : Int) (n : Nat) :
    ∀ (i : Nat) (data : List char_info_t), (fill_loop f dest n i data).length = data.length := by
  induction n with
  | zero => intro i data; rfl
  | succ n ih =>
    intro i data
    simp only [fill_loop, ih]
    split
    · exact length_poke _ _ _
    · rfl

/-- A cell index determines its row: a cell of row `y` that lies in the
span of row `r` is a cell of that row. -/
theorem row_of_index (W r y x j : Nat) (hx : x < W) (hj : j = y * W + x)
    (h1 : r * W ≤ j) (h2 : j < r * W + W) : r = y := by
  have := row_col_unique W y x r (j - r * W) hx (by omega) (by omega)
  exact this.1.symm

/-! ## change_screen_buffer_size: the loops -/

/-- The row loop of the resize: the first `cw` cells of the rows `i ..
i + n - 1` of the new block hold the cells of the same rows of the old
grid, every other cell of the new block is as before. -/
theorem resize_copy_rows_spec (data : List char_info_t) (ow nw cw : Nat) (hcn : cw ≤ nw)
    (hco : cw ≤ ow) (n : Nat) :
    ∀ (i : Nat) (new_data : List char_info_t),
      (i + n) * ow ≤ data.length → (i + n) * nw ≤ new_data.length →
      (resize_copy_rows data (ow : Int) (nw : Int) (cw : Int) n (i : Int) new_data).length
        = new_data.length ∧
      (∀ j, (∀ r, i ≤ r → r < i + n → ¬ (r * nw ≤ j ∧ j < r * nw + cw)) →
        (resize_copy_rows data (ow : Int) (nw : Int) (cw : Int) n (i : Int) new_data)[j]?
          = new_data[j]?) ∧
      (∀ r c, i ≤ r → r < i + n → c < cw →
        (resize_copy_rows data (ow : Int) (nw : Int) (cw : Int) n (i : Int) new_data)[r * nw + c]?
          = data[r * ow + c]?) := by
  induction n with
  | zero =>
    intro i new_data _ _
    simp only [resize_copy_rows]
    exact ⟨trivial, fun j _ => trivial, fun r c h1 h2 => by omega⟩
  | succ n ih =>
    intro i new_data h1 h2
    have e1 : ((i : Int) + 1) = ((i + 1 : Nat) : Int) := by push_cast; rfl
    have e2 : (i : Int) * (nw : Int) = ((i * nw : Nat) : Int) := by push_cast; rfl
    have e3 : (i : Int) * (ow : Int) = ((i * ow : Nat) : Int) := by push_cast; rfl
    simp only [resize_copy_rows, e1, e2, e3, Int.toNat_ofNat]
    have ro := row_succ_le i (i + (n + 1)) ow (by omega)
    have rn := row_succ_le i (i + (n + 1)) nw (by omega)
    have hmm := fun j => getElem?_memcpy_from new_data data (i * nw) (i * ow) cw j (by omega)
      (by omega)
    obtain ⟨il, ifr, icp⟩ := ih (i + 1)
      (memcpy_from new_data ((i * nw : Nat) : Int) data ((i * ow : Nat) : Int) cw)
      (by rw [show i + 1 + n = i + (n + 1) by omega]; exact h1)
      (by rw [length_memcpy_from, show i + 1 + n = i + (n + 1) by omega]; exact h2)
    refine ⟨by rw [il, length_memcpy_from], ?_, ?_⟩
    · intro j hj
      rw [ifr j (fun r hr1 hr2 => hj r (by omega) (by omega))]
      rw [hmm j, if_neg (by
        have := hj i (le_refl _) (by omega)
        omega)]
    · intro r c hr1 hr2 hc
      by_cases hri : r = i
      · subst hri
        rw [ifr (r * nw + c) (fun r1 hr1 hr2 hcon => by
          have := row_succ_le r r1 nw (by omega)
          omega)]
        rw [hmm, if_pos (by omega)]
        have : r * ow + (r * nw + c - r * nw) = r * ow + c := by omega
        rw [this]
      · exact icp r c (by omega) (by omega) hc

/-- The column loop of the resize: the cells `ow .. nw - 1` of the rows `i ..
i + n - 1` hold the cells `ow .. nw - 1` of row 0, every other cell is as
before. -/
theorem resize_clear_columns_spec (ow nw : Nat) (hlt : ow ≤ nw) (n : Nat) :
    ∀ (i : Nat) (d : List char_info_t), 1 ≤ i → (i + n) * nw ≤ d.length →
      (resize_clear_columns (ow : Int) (nw : Int) n (i : Int) d).length = d.length ∧
      (∀ j, (∀ r, i ≤ r → r < i + n → ¬ (r * nw + ow ≤ j ∧ j < r * nw + nw)) →
        (resize_clear_columns (ow : Int) (nw : Int) n (i : Int) d)[j]? = d[j]?) ∧
      (∀ r c, i ≤ r → r < i + n → ow ≤ c → c < nw →
        (resize_clear_columns (ow : Int) (nw : Int) n (i : Int) d)[r * nw + c]? = d[c]?) := by
  induction n with
  | zero =>
    intro i d _ _
    simp only [resize_clear_columns]
    exact ⟨trivial, fun j _ => trivial, fun r c h1 h2 => by omega⟩
  | succ n ih =>
    intro i d hi h2
    have e1 : ((i : Int) + 1) = ((i + 1 : Nat) : Int) := by push_cast; rfl
    have e2 : (i : Int) * (nw : Int) + (ow : Int) = ((i * nw + ow : Nat) : Int) := by
      push_cast; rfl
    have e3 : ((nw : Int) - (ow : Int)).toNat = nw - ow := by omega
    simp only [resize_clear_columns, memcpy, e1, e2, e3]
    have rn := row_succ_le i (i + (n + 1)) nw (by omega)
    have r1 := row_succ_le 0 i nw (by omega)
    have hmm := fun j => getElem?_memmove d (i * nw + ow) ow (nw - ow) j (by omega) (by omega)
    obtain ⟨il, ifr, icp⟩ := ih (i + 1)
      (memmove d ((i * nw + ow : Nat) : Int) (ow : Int) (nw - ow)) (by omega)
      (by rw [length_memmove, show i + 1 + n = i + (n + 1) by omega]; exact h2)
    refine ⟨by rw [il, length_memmove], ?_, ?_⟩
    · intro j hj
      rw [ifr j (fun r hr1 hr2 => hj r (by omega) (by omega))]
      rw [hmm j, if_neg (by
        have := hj i (le_refl _) (by omega)
        omega)]
    · intro r c hr1 hr2 hc1 hc2
      by_cases hri : r = i
      · subst hri
        rw [ifr (r * nw + c) (fun r1 hr1 hr2 hcon => by
          have := row_succ_le r r1 nw (by omega)
          omega)]
        rw [hmm, if_pos (by omega)]
        have : ow + (r * nw + c - (r * nw + ow)) = c := by omega
        rw [this]
      · rw [icp r c (by omega) (by omega) hc1 hc2, hmm, if_neg (by omega)]

/-- The last row loop of the resize: the rows `i .. i + n - 1` hold the
cells of row `oh`, every other cell is as before. -/
theorem resize_clear_rows_spec (oh nw : Nat) (n : Nat) :
    ∀ (i : Nat) (d : List char_info_t), oh < i → (i + n) * nw ≤ d.length →
      (resize_clear_rows (oh : Int) (nw : Int) n (i : Int) d).length = d.length ∧
      (∀ j, (∀ r, i ≤ r → r < i + n → ¬ (r * nw ≤ j ∧ j < r * nw + nw)) →
        (resize_clear_rows (oh : Int) (nw : Int) n (i : Int) d)[j]? = d[j]?) ∧
      (∀ r c, i ≤ r → r < i + n → c < nw →
        (resize_clear_rows (oh : Int) (nw : Int) n (i : Int) d)[r * nw + c]? = d[oh * nw + c]?) := by
  induction n with
  | zero =>
    intro i d _ _
    simp only [resize_clear_rows]
    exact ⟨trivial, fun j _ => trivial, fun r c h1 h2 => by omega⟩
  | succ n ih =>
    intro i d hi h2
    have e1 : ((i : Int) + 1) = ((i + 1 : Nat) : Int) := by push_cast; rfl
    have e2 : (i : Int) * (nw : Int) = ((i * nw : Nat) : Int) := by push_cast; rfl
    have e3 : (oh : Int) * (nw : Int) = ((oh * nw : Nat) : Int) := by push_cast; rfl
    simp only [resize_clear_rows, memcpy, e1, e2, e3, Int.toNat_ofNat]
    have rn := row_succ_le i (i + (n + 1)) nw (by omega)
    have r1 := row_succ_le oh i nw (by omega)
    have hmm := fun j => getElem?_memmove d (i * nw) (oh * nw) nw j (by omega) (by omega)
    obtain ⟨il, ifr, icp⟩ := ih (i + 1)
      (memmove d ((i * nw : Nat) : Int) ((oh * nw : Nat) : Int) nw) (by omega)
      (by rw [length_memmove, show i + 1 + n = i + (n + 1) by omega]; exact h2)
    refine ⟨by rw [il, length_memmove], ?_, ?_⟩
    · intro j hj
      rw [ifr j (fun r hr1 hr2 => hj r (by omega) (by omega))]
      rw [hmm j, if_neg (by
        have := hj i (le_refl _) (by omega)
        omega)]
    · intro r c hr1 hr2 hc
      by_cases hri : r = i
      · subst hri
        rw [ifr (r * nw + c) (fun r1 hr1 hr2 hcon => by
          have := row_succ_le r r1 nw (by omega)
          omega)]
        rw [hmm, if_pos (by omega)]
        have : oh * nw + (r * nw + c - r * nw) = oh * nw + c := by omega
        rw [this]
      · rw [icp r c (by omega) (by omega) hc, hmm, if_neg (by omega)]

/-- The second stage of the resize (conhost.c 517-525) on a block of `nh`
rows of `nw` cells: the columns `ow .. nw - 1` of the first `ch` rows become
empty cells, the columns below `ow` are as before. -/
theorem resize_columns_stage (ow nw ch nh : Nat) (d : List char_info_t)
    (hlen : d.length = nw * nh) (hch : ch ≤ nh) (hnh : 1 ≤ nh) (how : ow < nw) :
    (resize_clear_columns (ow : Int) (nw : Int) (ch - 1) ((1 : Nat) : Int)
      (fill_loop (fun _ => empty_char_info) (ow : Int) (nw - ow) 0 d)).length = nw * nh ∧
    (∀ x y, x < ow → y < nh →
      (resize_clear_columns (ow : Int) (nw : Int) (ch - 1) ((1 : Nat) : Int)
        (fill_loop (fun _ => empty_char_info) (ow : Int) (nw - ow) 0 d))[y * nw + x]?
        = d[y * nw + x]?) ∧
    (∀ x y, ow ≤ x → x < nw → y < ch →
      (resize_clear_columns (ow : Int) (nw : Int) (ch - 1) ((1 : Nat) : Int)
        (fill_loop (fun _ => empty_char_info) (ow : Int) (nw - ow) 0 d))[y * nw + x]?
        = some empty_char_info) := by
  have hfl := length_fill_loop (fun _ => empty_char_info) (ow : Int) (nw - ow) 0 d
  have hfg := getElem?_fill_loop (fun _ => empty_char_info) ow (nw - ow) 0 d
  have hcomm : nh * nw = nw * nh := Nat.mul_comm _ _
  have hrows : (1 + (ch - 1)) * nw ≤
      (fill_loop (fun _ => empty_char_info) (ow : Int) (nw - ow) 0 d).length := by
    rw [hfl, hlen, ← hcomm]
    exact Nat.mul_le_mul_right _ (by omega)
  have hnwle : nw ≤ nw * nh := Nat.le_mul_of_pos_right nw (by omega)
  obtain ⟨l2, f2, c2⟩ := resize_clear_columns_spec ow nw (by omega) (ch - 1) 1
    (fill_loop (fun _ => empty_char_info) (ow : Int) (nw - ow) 0 d) (le_refl _) hrows
  refine ⟨by rw [l2, hfl, hlen], ?_, ?_⟩
  · intro x y hx hy
    rw [f2 _ (fun r hr1 hr2 hcon => by
      have := row_of_index nw r y x (y * nw + x) (by omega) rfl (by omega) (by omega)
      subst this
      omega)]
    rw [hfg, if_neg]
    intro hcon
    have := row_of_index nw 0 y x (y * nw + x) (by omega) rfl (by omega) (by omega)
    subst this
    omega
  · intro x y hx1 hx2 hy
    have hx : (fill_loop (fun _ => empty_char_info) (ow : Int) (nw - ow) 0 d)[x]?
        = some empty_char_info := by
      rw [hfg, if_pos (by omega), List.getElem?_eq_getElem (by omega)]
      rfl
    by_cases hy0 : y = 0
    · subst hy0
      rw [f2 _ (fun r hr1 hr2 hcon => by
        have := row_of_index nw r 0 x (0 * nw + x) (by omega) rfl (by omega) (by omega)
        omega)]
      simp only [Nat.zero_mul, Nat.zero_add]
      exact hx
    · rw [c2 y x (by omega) (by omega) hx1 hx2]
      exact hx

/-- The third stage of the resize (conhost.c 528-536) on a block of `nh`
rows of `nw` cells: the rows `oh .. nh - 1` become empty cells, the rows
below `oh` are as before. -/
theorem resize_rows_stage (oh nw nh : Nat) (d : List char_info_t)
    (hlen : d.length = nw * nh) (hoh : oh < nh) :
    (resize_clear_rows (oh : Int) (nw : Int) (nh - (oh + 1)) ((oh + 1 : Nat) : Int)
      (fill_loop (fun _ => empty_char_info) ((oh * nw : Nat) : Int) nw 0 d)).length = nw * nh ∧
    (∀ x y, x < nw → y < oh →
      (resize_clear_rows (oh : Int) (nw : Int) (nh - (oh + 1)) ((oh + 1 : Nat) : Int)
        (fill_loop (fun _ => empty_char_info) ((oh * nw : Nat) : Int) nw 0 d))[y * nw + x]?
        = d[y * nw + x]?) ∧
    (∀ x y, x < nw → oh ≤ y → y < nh →
      (resize_clear_rows (oh : Int) (nw : Int) (nh - (oh + 1)) ((oh + 1 : Nat) : Int)
        (fill_loop (fun _ => empty_char_info) ((oh * nw : Nat) : Int) nw 0 d))[y * nw + x]?
        = some empty_char_info) := by
  have hfl := length_fill_loop (fun _ => empty_char_info) ((oh * nw : Nat) : Int) nw 0 d
  have hfg := getElem?_fill_loop (fun _ => empty_char_info) (oh * nw) nw 0 d
  have hcomm : nh * nw = nw * nh := Nat.mul_comm _ _
  have hrows : (oh + 1 + (nh - (oh + 1))) * nw ≤
      (fill_loop (fun _ => empty_char_info) ((oh * nw : Nat) : Int) nw 0 d).length := by
    rw [hfl, hlen, ← hcomm]
    exact Nat.mul_le_mul_right _ (by omega)
  have hrow := row_succ_le oh nh nw hoh
  obtain ⟨l3, f3, c3⟩ := resize_clear_rows_spec oh nw (nh - (oh + 1)) (oh + 1)
    (fill_loop (fun _ => empty_char_info) ((oh * nw : Nat) : Int) nw 0 d) (by omega) hrows
  refine ⟨by rw [l3, hfl, hlen], ?_, ?_⟩
  · intro x y hx hy
    rw [f3 _ (fun r hr1 hr2 hcon => by
      have := row_of_index nw r y x (y * nw + x) hx rfl (by omega) (by omega)
      omega)]
    rw [hfg, if_neg]
    intro hcon
    have := row_of_index nw oh y x (y * nw + x) hx rfl (by omega) (by omega)
    omega
  · intro x y hx hy1 hy2
    have hxe : (fill_loop (fun _ => empty_char_info) ((oh * nw : Nat) : Int) nw 0 d)[oh * nw + x]?
        = some empty_char_info := by
      rw [hfg, if_pos (by omega), List.getElem?_eq_getElem (by omega)]
      rfl
    by_cases hy0 : y = oh
    · subst hy0
      rw [f3 _ (fun r hr1 hr2 hcon => by
        have := row_of_index nw r y x (y * nw + x) hx rfl (by omega) (by omega)
        omega)]
      exact hxe
    · rw [c3 y x (by omega) (by omega) hx]
      exact hxe

/-! ## change_screen_buffer_size: the new grid -/

theorem INT_of_nat (n : Nat) (h : n < 2147483648) : INT (n : Int) = n := by
  unfold INT; omega

/-- C13: resize content preservation. For a buffer of size `(ow, oh)` and a
new size `(nw, nh)` with `nw, nh >= 1`, `change_screen_buffer_size` returns
`STATUS_SUCCESS`, the buffer has the new size, the grid has exactly `nw*nh`
cells and, for every `x < nw` and `y < nh`, the cell `(x, y)` is the old
cell `(x, y)` when `x < ow` and `y < oh`, and the default empty cell
`(' ', 0x0007)` otherwise, whatever the fresh block held. -/
theorem change_screen_buffer_size_cells (fresh : Nat → char_info_t) (sb : screen_buffer)
    (nw nh : Nat)
    (hlen : sb.data.length = sb.width * sb.height)
    (hW : sb.width < 2147483648) (hH : sb.height < 2147483648)
    (hnw : 1 ≤ nw) (hnh : 1 ≤ nh) (hsz : nw * nh < 2147483648) :
    (change_screen_buffer_size fresh sb nw nh).1 = STATUS_SUCCESS ∧
    (change_screen_buffer_size fresh sb nw nh).2.width = nw ∧
    (change_screen_buffer_size fresh sb nw nh).2.height = nh ∧
    (change_screen_buffer_size fresh sb nw nh).2.data.length = nw * nh ∧
    ∀ x y, x < nw → y < nh →
      (x < sb.width ∧ y < sb.height →
        ∃ c, sb.data[y * sb.width + x]? = some c ∧
          (change_screen_buffer_size fresh sb nw nh).2.data[y * nw + x]? = some c) ∧
      (¬ (x < sb.width ∧ y < sb.height) →
        (change_screen_buffer_size fresh sb nw nh).2.data[y * nw + x]? = some empty_char_info) := by
  have hnw32 : nw < 2147483648 := by
    have := Nat.le_mul_of_pos_right nw (show 0 < nh by omega)
    omega
  have hnh32 : nh < 2147483648 := by
    have := Nat.le_mul_of_pos_left nh (show 0 < nw by omega)
    omega
  have hprod : ¬ ((nw : Int) * (nh : Int) < 0) := by
    have : (0 : Int) ≤ (nw : Int) * (nh : Int) := by positivity
    omega
  have eprod : ((nw : Int) * (nh : Int)).toNat = nw * nh := by
    have := Int.toNat_ofNat (nw * nh)
    push_cast at this
    exact this
  have eow := INT_of_nat sb.width hW
  have eoh := INT_of_nat sb.height hH
  have ecw : min (sb.width : Int) (nw : Int) = ((min sb.width nw : Nat) : Int) := by omega
  have ech : (min (sb.height : Int) (nh : Int)).toNat = min sb.height nh := by omega
  have ech1 : (min (sb.height : Int) (nh : Int) - 1).toNat = min sb.height nh - 1 := by omega
  have enwow : ((nw : Int) - (sb.width : Int)).toNat = nw - sb.width := by omega
  have enhoh : ((nh : Int) - ((sb.height + 1 : Nat) : Int)).toNat = nh - (sb.height + 1) := by
    omega
  have eoh1 : ((sb.height : Int) + 1) = ((sb.height + 1 : Nat) : Int) := by push_cast; rfl
  have eohnw : (sb.height : Int) * (nw : Int) = ((sb.height * nw : Nat) : Int) := by
    push_cast; rfl
  have e1 : ((1 : Nat) : Int) = 1 := rfl
  have e0 : ((0 : Nat) : Int) = 0 := rfl
  have egt1 : ((nw : Int) > (sb.width : Int)) ↔ sb.width < nw := by omega
  have egt2 : ((nh : Int) > (sb.height : Int)) ↔ sb.height < nh := by omega
  -- the stages
  have hd0 := length_malloc_cells fresh (nw * nh)
  have hcomm : nh * nw = nw * nh := Nat.mul_comm _ _
  have hrows1 : (0 + min sb.height nh) * sb.width ≤ sb.data.length := by
    rw [hlen, Nat.zero_add, Nat.mul_comm sb.width sb.height]
    exact Nat.mul_le_mul_right _ (Nat.min_le_left _ _)
  have hrows2 : (0 + min sb.height nh) * nw ≤ (malloc_cells fresh (nw * nh)).length := by
    rw [hd0, Nat.zero_add, ← hcomm]
    exact Nat.mul_le_mul_right _ (Nat.min_le_right _ _)
  obtain ⟨l1, f1, c1⟩ := resize_copy_rows_spec sb.data sb.width nw (min sb.width nw)
    (Nat.min_le_right _ _) (Nat.min_le_left _ _) (min sb.height nh) 0
    (malloc_cells fresh (nw * nh)) hrows1 hrows2
  rw [hd0] at l1
  have hres : change_screen_buffer_size fresh sb nw nh =
      (STATUS_SUCCESS,
        { sb with
          data :=
            (if sb.height < nh then
              resize_clear_rows (sb.height : Int) (nw : Int) (nh - (sb.height + 1))
                ((sb.height + 1 : Nat) : Int)
                (fill_loop (fun _ => empty_char_info) ((sb.height * nw : Nat) : Int) nw 0
                  (if sb.width < nw then
                    resize_clear_columns (sb.width : Int) (nw : Int) (min sb.height nh - 1)
                      ((1 : Nat) : Int)
                      (fill_loop (fun _ => empty_char_info) (sb.width : Int) (nw - sb.width) 0
                        (resize_copy_rows sb.data (sb.width : Int) (nw : Int)
                          ((min sb.width nw : Nat) : Int) (min sb.height nh) ((0 : Nat) : Int)
                          (malloc_cells fresh (nw * nh))))
                  else
                    resize_copy_rows sb.data (sb.width : Int) (nw : Int)
                      ((min sb.width nw : Nat) : Int) (min sb.height nh) ((0 : Nat) : Int)
                      (malloc_cells fresh (nw * nh))))
            else
              (if sb.width < nw then
                resize_clear_columns (sb.width : Int) (nw : Int) (min sb.height nh - 1)
                  ((1 : Nat) : Int)
                  (fill_loop (fun _ => empty_char_info) (sb.width : Int) (nw - sb.width) 0
                    (resize_copy_rows sb.data (sb.width : Int) (nw : Int)
                      ((min sb.width nw : Nat) : Int) (min sb.height nh) ((0 : Nat) : Int)
                      (malloc_cells fresh (nw * nh))))
              else
                resize_copy_rows sb.data (sb.width : Int) (nw : Int)
                  ((min sb.width nw : Nat) : Int) (min sb.height nh) ((0 : Nat) : Int)
                  (malloc_cells fresh (nw * nh))))
          width := nw
          height := nh }) := by
    unfold change_screen_buffer_size
    rw [if_neg hprod]
    simp only [eprod, eow, eoh, ecw, ech, ech1, enwow, eoh1, enhoh, eohnw, egt1, egt2, e1, e0,
      Int.toNat_ofNat, UINT_of_nat nw (by omega), UINT_of_nat nh (by omega)]
  rw [hres]
  dsimp only
  -- the second stage
  have hst2 : ∃ d2 : List char_info_t,
      d2 = (if sb.width < nw then
        resize_clear_columns (sb.width : Int) (nw : Int) (min sb.height nh - 1)
          ((1 : Nat) : Int)
          (fill_loop (fun _ => empty_char_info) (sb.width : Int) (nw - sb.width) 0
            (resize_copy_rows sb.data (sb.width : Int) (nw : Int)
              ((min sb.width nw : Nat) : Int) (min sb.height nh) ((0 : Nat) : Int)
              (malloc_cells fresh (nw * nh))))
      else
        resize_copy_rows sb.data (sb.width : Int) (nw : Int)
          ((min sb.width nw : Nat) : Int) (min sb.height nh) ((0 : Nat) : Int)
          (malloc_cells fresh (nw * nh))) ∧
      d2.length = nw * nh ∧
      (∀ x y, x < nw → y < nh → x < sb.width → y < sb.height →
        d2[y * nw + x]? = sb.data[y * sb.width + x]?) ∧
      (∀ x y, x < nw → y < nh → sb.width ≤ x → y < sb.height →
        d2[y * nw + x]? = some empty_char_info) := by
    refine ⟨_, rfl, ?_⟩
    by_cases how : sb.width < nw
    · rw [if_pos how]
      obtain ⟨l2, f2, c2⟩ := resize_columns_stage sb.width nw (min sb.height nh) nh _ l1
        (Nat.min_le_right _ _) hnh how
      refine ⟨l2, ?_, ?_⟩
      · intro x y hx hy hxo hyo
        rw [f2 x y hxo hy]
        exact c1 y x (Nat.zero_le _) (by omega) (by omega)
      · intro x y hx hy hxo hyo
        exact c2 x y hxo hx (by omega)
    · rw [if_neg how]
      refine ⟨l1, ?_, ?_⟩
      · intro x y hx hy hxo hyo
        exact c1 y x (Nat.zero_le _) (by omega) (by omega)
      · intro x y hx hy hxo hyo
        omega
  obtain ⟨d2, hd2, l2, c2, z2⟩ := hst2
  rw [← hd2]
  have hold : ∀ x y, x < sb.width → y < sb.height → y * sb.width + x < sb.data.length := by
    intro x y hx hy
    rw [hlen]
    exact cell_index_lt sb.width sb.height x y hx hy
  by_cases hoh : sb.height < nh
  · rw [if_pos hoh]
    obtain ⟨l3, f3, c3⟩ := resize_rows_stage sb.height nw nh d2 l2 hoh
    refine ⟨rfl, rfl, rfl, l3, ?_⟩
    intro x y hx hy
    refine ⟨?_, ?_⟩
    · intro hxy
      have hin : y * sb.width + x < sb.data.length := hold x y hxy.1 hxy.2
      refine ⟨sb.data[y * sb.width + x], List.getElem?_eq_getElem hin, ?_⟩
      rw [f3 x y hx hxy.2, c2 x y hx hy hxy.1 hxy.2]
      exact List.getElem?_eq_getElem hin
    · intro hxy
      by_cases hyo : y < sb.height
      · rw [f3 x y hx hyo]
        exact z2 x y hx hy (by omega) hyo
      · exact c3 x y hx (by omega) hy
  · rw [if_neg hoh]
    refine ⟨rfl, rfl, rfl, l2, ?_⟩
    intro x y hx hy
    refine ⟨?_, ?_⟩
    · intro hxy
      have hin : y * sb.width + x < sb.data.length := hold x y hxy.1 hxy.2
      refine ⟨sb.data[y * sb.width + x], List.getElem?_eq_getElem hin, ?_⟩
      rw [c2 x y hx hy hxy.1 hxy.2]
      exact List.getElem?_eq_getElem hin
    · intro hxy
      exact z2 x y hx hy (by omega) (by omega)

/-- The 4 x 4 buffer of rows `AAAA` .. `DDDD` resized to 5 x 2: the grid has
ten cells, the cell `(0, 1)` keeps the `B` of the old cell `(0, 1)` and the
new cell `(4, 1)` is empty. -/
theorem change_screen_buffer_size_cells_witness :
    (change_screen_buffer_size fresh_zero rows_4x4 5 2).2.data.length = 5 * 2 ∧
    (∃ c, rows_4x4.data[1 * rows_4x4.width + 0]? = some c ∧
      (change_screen_buffer_size fresh_zero rows_4x4 5 2).2.data[1 * 5 + 0]? = some c) ∧
    (change_screen_buffer_size fresh_zero rows_4x4 5 2).2.data[1 * 5 + 4]?
      = some empty_char_info :=
  ⟨(change_screen_buffer_size_cells fresh_zero rows_4x4 5 2 (by decide) (by decide) (by decide)
      (by decide) (by decide) (by decide)).2.2.2.1,
    ((change_screen_buffer_size_cells fresh_zero rows_4x4 5 2 (by decide) (by decide) (by decide)
      (by decide) (by decide) (by decide)).2.2.2.2 0 1 (by decide) (by decide)).1 (by decide),
    ((change_screen_buffer_size_cells fresh_zero rows_4x4 5 2 (by decide) (by decide) (by decide)
      (by decide) (by decide) (by decide)).2.2.2.2 4 1 (by decide) (by decide)).2 (by decide)⟩

/-! ## set_output_info: a refused request -/

/-- The cursor geometry block changes the cursor size and visibility only. -/
theorem set_info_cursor_geom_frame (sb sb1 : screen_buffer) (info : condrv_output_info)
    (h : set_info_cursor_geom sb info = some sb1) :
    sb1.id = sb.id ∧ sb1.mode = sb.mode ∧ sb1.max_width = sb.max_width ∧
    sb1.max_height = sb.max_height ∧ sb1.color_map = sb.color_map ∧ sb1.font = sb.font := by
  unfold set_info_cursor_geom at h
  split at h
  · exact absurd h (by simp)
  · rw [← Option.some.inj h]
    exact ⟨rfl, rfl, rfl, rfl, rfl, rfl⟩

/-- The cursor position block changes the cursor position only. -/
theorem set_info_cursor_pos_frame (sb sb1 : screen_buffer) (info : condrv_output_info)
    (h : set_info_cursor_pos sb info = some sb1) :
    sb1.id = sb.id ∧ sb1.mode = sb.mode ∧ sb1.max_width = sb.max_width ∧
    sb1.max_height = sb.max_height ∧ sb1.color_map = sb.color_map ∧ sb1.font = sb.font := by
  unfold set_info_cursor_pos at h
  split at h
  · exact absurd h (by simp)
  · split at h
    · rw [← Option.some.inj h]
      exact ⟨rfl, rfl, rfl, rfl, rfl, rfl⟩
    · rw [← Option.some.inj h]
      exact ⟨rfl, rfl, rfl, rfl, rfl, rfl⟩

/-- The resize leaves the settings of the buffer alone. -/
theorem change_screen_buffer_size_frame (fresh : Nat → char_info_t) (sb : screen_buffer)
    (new_width new_height : Int) :
    (change_screen_buffer_size fresh sb new_width new_height).2.id = sb.id ∧
    (change_screen_buffer_size fresh sb new_width new_height).2.mode = sb.mode ∧
    (change_screen_buffer_size fresh sb new_width new_height).2.max_width = sb.max_width ∧
    (change_screen_buffer_size fresh sb new_width new_height).2.max_height = sb.max_height ∧
    (change_screen_buffer_size fresh sb new_width new_height).2.color_map = sb.color_map ∧
    (change_screen_buffer_size fresh sb new_width new_height).2.font = sb.font := by
  unfold change_screen_buffer_size
  split
  · exact ⟨rfl, rfl, rfl, rfl, rfl, rfl⟩
  · exact ⟨rfl, rfl, rfl, rfl, rfl, rfl⟩

/-- The size block leaves the settings of the buffer alone. -/
theorem set_info_size_frame (fresh : Nat → char_info_t) (sb sb1 : screen_buffer)
    (info : condrv_output_info) (h : set_info_size fresh sb info = Except.ok sb1) :
    sb1.id = sb.id ∧ sb1.mode = sb.mode ∧ sb1.max_width = sb.max_width ∧
    sb1.max_height = sb.max_height ∧ sb1.color_map = sb.color_map ∧ sb1.font = sb.font := by
  unfold set_info_size at h
  split at h
  · exact absurd h (by simp)
  · dsimp only at h
    split at h
    · exact absurd h (by simp)
    · rw [← Except.ok.inj h]
      exact change_screen_buffer_size_frame fresh sb info.width info.height

/-- C14 as stated fails: on the 2 x 2 buffer with a 2 x 2 window, a request
with the flags for the cursor geometry and the size, a cursor size of 50
and the new size 1 x 1 is refused with `STATUS_INVALID_PARAMETER` (the size
is smaller than the window), yet the cursor size has changed from 100 to
50. -/
theorem set_output_info_rejected_counterexample :
    (set_output_info fresh_zero false 0 window_2x2
      ⟨SET_CONSOLE_OUTPUT_INFO_CURSOR_GEOM ||| SET_CONSOLE_OUTPUT_INFO_SIZE,
        { info_2x2 with cursor_size := 50, width := 1, height := 1 }⟩
      sizeof_condrv_output_info_params []).status = STATUS_INVALID_PARAMETER ∧
    window_2x2.cursor_size = 100 ∧
    (set_output_info fresh_zero false 0 window_2x2
      ⟨SET_CONSOLE_OUTPUT_INFO_CURSOR_GEOM ||| SET_CONSOLE_OUTPUT_INFO_SIZE,
        { info_2x2 with cursor_size := 50, width := 1, height := 1 }⟩
      sizeof_condrv_output_info_params []).sb.cursor_size = 50 := by
  decide

/-- What a refused request leaves alone: if `set_output_info` returns
`STATUS_INVALID_PARAMETER`, then max size, palette and font are unchanged,
and the whole buffer is unchanged when the mask holds a single flag. -/
theorem set_output_info_refused_frame (fresh : Nat → char_info_t) (active : Bool)
    (console_mode : Nat) (sb : screen_buffer) (params : condrv_output_info_params)
    (in_size : Nat) (face : List Nat)
    (h : (set_output_info fresh active console_mode sb params in_size face).status
      = STATUS_INVALID_PARAMETER) :
    ((set_output_info fresh active console_mode sb params in_size face).sb.max_width
        = sb.max_width ∧
      (set_output_info fresh active console_mode sb params in_size face).sb.max_height
        = sb.max_height ∧
      (set_output_info fresh active console_mode sb params in_size face).sb.color_map
        = sb.color_map ∧
      (set_output_info fresh active console_mode sb params in_size face).sb.font = sb.font) ∧
    (params.mask = SET_CONSOLE_OUTPUT_INFO_CURSOR_GEOM ∨
      params.mask = SET_CONSOLE_OUTPUT_INFO_CURSOR_POS ∨
      params.mask = SET_CONSOLE_OUTPUT_INFO_SIZE ∨
      params.mask = SET_CONSOLE_OUTPUT_INFO_ATTR ∨
      params.mask = SET_CONSOLE_OUTPUT_INFO_DISPLAY_WINDOW ∨
      params.mask = SET_CONSOLE_OUTPUT_INFO_MAX_SIZE ∨
      params.mask = SET_CONSOLE_OUTPUT_INFO_FONT ∨
      params.mask = SET_CONSOLE_OUTPUT_INFO_COLORTABLE ∨
      params.mask = SET_CONSOLE_OUTPUT_INFO_POPUP_ATTR →
      (set_output_info fresh active console_mode sb params in_size face).sb = sb) := by
  obtain ⟨mask, info⟩ := params
  generalize hr : set_output_info fresh active console_mode sb ⟨mask, info⟩ in_size face = r
    at h ⊢
  unfold set_output_info at hr
  dsimp only at hr
  split at hr
  · -- the cursor geometry is refused
    subst hr
    exact ⟨⟨rfl, rfl, rfl, rfl⟩, fun _ => rfl⟩
  · rename_i sb1 h1
    have g1 : (sb1.id = sb.id ∧ sb1.mode = sb.mode ∧ sb1.max_width = sb.max_width ∧
        sb1.max_height = sb.max_height ∧ sb1.color_map = sb.color_map ∧ sb1.font = sb.font) ∧
        (¬ mask_has mask SET_CONSOLE_OUTPUT_INFO_CURSOR_GEOM → sb1 = sb) := by
      split at h1
      · exact ⟨set_info_cursor_geom_frame sb sb1 _ h1, fun hn => absurd (by assumption) hn⟩
      · rw [← Option.some.inj h1]
        exact ⟨⟨rfl, rfl, rfl, rfl, rfl, rfl⟩, fun _ => rfl⟩
    obtain ⟨⟨_, _, a3, a4, a5, a6⟩, u1⟩ := g1
    split at hr
    · -- the cursor position is refused
      rename_i h2
      subst hr
      have m2 : mask_has mask SET_CONSOLE_OUTPUT_INFO_CURSOR_POS := by
        by_contra hn
        rw [if_neg hn] at h2
        exact absurd h2 (by simp)
      refine ⟨⟨a3, a4, a5, a6⟩, fun hm => u1 ?_⟩
      rcases hm with rfl | rfl | rfl | rfl | rfl | rfl | rfl | rfl | rfl <;> revert m2 <;> decide
    · rename_i sb2 h2
      have g2 : (sb2.id = sb1.id ∧ sb2.mode = sb1.mode ∧ sb2.max_width = sb1.max_width ∧
          sb2.max_height = sb1.max_height ∧ sb2.color_map = sb1.color_map ∧
          sb2.font = sb1.font) ∧
          (¬ mask_has mask SET_CONSOLE_OUTPUT_INFO_CURSOR_POS → sb2 = sb1) := by
        split at h2
        · exact ⟨set_info_cursor_pos_frame sb1 sb2 _ h2, fun hn => absurd (by assumption) hn⟩
        · rw [← Option.some.inj h2]
          exact ⟨⟨rfl, rfl, rfl, rfl, rfl, rfl⟩, fun _ => rfl⟩
      obtain ⟨⟨_, _, b3, b4, b5, b6⟩, u2⟩ := g2
      split at hr
      · -- the size is refused
        rename_i status h3
        subst hr
        have m3 : mask_has mask SET_CONSOLE_OUTPUT_INFO_SIZE := by
          by_contra hn
          rw [if_neg hn] at h3
          exact absurd h3 (by simp)
        refine ⟨⟨b3.trans a3, b4.trans a4, b5.trans a5, b6.trans a6⟩, fun hm => ?_⟩
        have hno : ¬ mask_has mask SET_CONSOLE_OUTPUT_INFO_CURSOR_GEOM ∧
            ¬ mask_has mask SET_CONSOLE_OUTPUT_INFO_CURSOR_POS := by
          rcases hm with rfl | rfl | rfl | rfl | rfl | rfl | rfl | rfl | rfl <;> revert m3 <;>
            decide
        exact (u2 hno.2).trans (u1 hno.1)
      · rename_i sb3 h3
        have g3 : (sb3.id = sb2.id ∧ sb3.mode = sb2.mode ∧ sb3.max_width = sb2.max_width ∧
            sb3.max_height = sb2.max_height ∧ sb3.color_map = sb2.color_map ∧
            sb3.font = sb2.font) ∧
            (¬ mask_has mask SET_CONSOLE_OUTPUT_INFO_SIZE → sb3 = sb2) := by
          split at h3
          · exact ⟨set_info_size_frame fresh sb2 sb3 _ h3, fun hn => absurd (by assumption) hn⟩
          · rw [← Except.ok.inj h3]
            exact ⟨⟨rfl, rfl, rfl, rfl, rfl, rfl⟩, fun _ => rfl⟩
        obtain ⟨⟨_, _, c3, c4, c5, c6⟩, u3⟩ := g3
        split at hr
        · -- the window is refused
          rename_i h6
          subst hr
          have m6 : mask_has mask SET_CONSOLE_OUTPUT_INFO_DISPLAY_WINDOW := by
            by_contra hn
            rw [if_neg hn] at h6
            exact absurd h6 (by simp)
          dsimp only
          refine ⟨⟨?_, ?_, ?_, ?_⟩, fun hm => ?_⟩
          · split <;> split <;> exact c3.trans (b3.trans a3)
          · split <;> split <;> exact c4.trans (b4.trans a4)
          · split <;> split <;> exact c5.trans (b5.trans a5)
          · split <;> split <;> exact c6.trans (b6.trans a6)
          · have hno : ¬ mask_has mask SET_CONSOLE_OUTPUT_INFO_CURSOR_GEOM ∧
                ¬ mask_has mask SET_CONSOLE_OUTPUT_INFO_CURSOR_POS ∧
                ¬ mask_has mask SET_CONSOLE_OUTPUT_INFO_SIZE ∧
                ¬ mask_has mask SET_CONSOLE_OUTPUT_INFO_ATTR ∧
                ¬ mask_has mask SET_CONSOLE_OUTPUT_INFO_POPUP_ATTR := by
              rcases hm with rfl | rfl | rfl | rfl | rfl | rfl | rfl | rfl | rfl <;>
                revert m6 <;> decide
            rw [if_neg hno.2.2.2.2, if_neg hno.2.2.2.1, u3 hno.2.2.1, u2 hno.2.1, u1 hno.1]
        · subst hr
          exact absurd h (by simp)

/-- A resize of the 2 x 2 buffer to 1 x 1, smaller than its 2 x 2 window and
requested alone, is refused and leaves the buffer as it was. -/
theorem set_output_info_refused_frame_example :
    (set_output_info fresh_zero false 0 window_2x2
      ⟨SET_CONSOLE_OUTPUT_INFO_SIZE, { info_2x2 with width := 1, height := 1 }⟩
      sizeof_condrv_output_info_params []).sb = window_2x2 :=
  (set_output_info_refused_frame fresh_zero false 0 window_2x2
    ⟨SET_CONSOLE_OUTPUT_INFO_SIZE, { info_2x2 with width := 1, height := 1 }⟩
    sizeof_condrv_output_info_params [] (by decide)).2 (by decide)

/-! ## set_output_info: the run of the blocks -/

theorem run_blocks_cons (mask flag : Nat) (block : screen_buffer → Option screen_buffer)
    (rest : List (Nat × (screen_buffer → Option screen_buffer))) (sb : screen_buffer) :
    run_blocks mask ((flag, block) :: rest) sb =
      match (if mask_has mask flag then block sb else some sb) with
      | none => (some flag, sb)
      | some sb1 => run_blocks mask rest sb1 := by
  by_cases hm : mask_has mask flag
  · simp only [run_blocks, if_pos hm]
  · simp only [run_blocks, if_neg hm]

theorem run_blocks_cons_total (mask flag : Nat) (g : screen_buffer → screen_buffer)
    (rest : List (Nat × (screen_buffer → Option screen_buffer))) (sb : screen_buffer) :
    run_blocks mask ((flag, fun s => some (g s)) :: rest) sb =
      run_blocks mask rest (if mask_has mask flag then g sb else sb) := by
  by_cases hm : mask_has mask flag
  · simp only [run_blocks, if_pos hm]
  · simp only [run_blocks, if_neg hm]

/-- A run in which a block refuses: the list splits at that block, the
block is selected, the blocks before it ran without a refusal and made the
buffer that the run leaves, and the block refuses that buffer. -/
theorem run_blocks_refused (mask : Nat) :
    ∀ (blocks : List (Nat × (screen_buffer → Option screen_buffer))) (sb sb1 : screen_buffer)
      (flag : Nat), run_blocks mask blocks sb = (some flag, sb1) →
      ∃ pre block post, blocks = pre ++ (flag, block) :: post ∧ mask_has mask flag ∧
        run_blocks mask pre sb = (none, sb1) ∧ block sb1 = none := by
  intro blocks
  induction blocks with
  | nil =>
    intro sb sb1 flag h
    simp [run_blocks] at h
  | cons b rest ih =>
    intro sb sb1 flag h
    obtain ⟨fl, block⟩ := b
    by_cases hm : mask_has mask fl
    · simp only [run_blocks, if_pos hm] at h
      cases hb : block sb with
      | none =>
        rw [hb] at h
        simp only [Prod.mk.injEq, Option.some.injEq] at h
        obtain ⟨h1, h2⟩ := h
        subst h1; subst h2
        exact ⟨[], block, rest, rfl, hm, rfl, hb⟩
      | some sb2 =>
        rw [hb] at h
        obtain ⟨pre, blk, post, e, hsel, hrun, href⟩ := ih sb2 sb1 flag h
        refine ⟨(fl, block) :: pre, blk, post, by rw [e]; rfl, hsel, ?_, href⟩
        simp only [run_blocks, if_pos hm, hb]
        exact hrun
    · simp only [run_blocks, if_neg hm] at h
      obtain ⟨pre, blk, post, e, hsel, hrun, href⟩ := ih sb sb1 flag h
      refine ⟨(fl, block) :: pre, blk, post, by rw [e]; rfl, hsel, ?_, href⟩
      simp only [run_blocks, if_neg hm]
      exact hrun

/-- The blocks that the mask does not select leave the buffer as it is. -/
theorem run_blocks_unselected (mask : Nat) :
    ∀ (blocks : List (Nat × (screen_buffer → Option screen_buffer))) (sb : screen_buffer),
      (∀ q ∈ blocks, ¬ mask_has mask q.1) → run_blocks mask blocks sb = (none, sb) := by
  intro blocks
  induction blocks with
  | nil => intro sb _; rfl
  | cons b rest ih =>
    intro sb h
    obtain ⟨fl, block⟩ := b
    have hm : ¬ mask_has mask fl := h (fl, block) (List.mem_cons_self _ _)
    simp only [run_blocks, if_neg hm]
    exact ih sb (fun q hq => h q (List.mem_cons_of_mem _ hq))

theorem run_blocks_cons_except (mask flag : Nat) (f : screen_buffer → Except NTSTATUS screen_buffer)
    (rest : List (Nat × (screen_buffer → Option screen_buffer))) (sb : screen_buffer) :
    run_blocks mask ((flag, fun s => (f s).toOption) :: rest) sb =
      match (if mask_has mask flag then f sb else Except.ok sb) with
      | Except.error _ => (some flag, sb)
      | Except.ok sb1 => run_blocks mask rest sb1 := by
  by_cases hm : mask_has mask flag
  · simp only [run_blocks, if_pos hm]
    cases f sb <;> rfl
  · simp only [run_blocks, if_neg hm]

theorem set_info_size_error (fresh : Nat → char_info_t) (sb : screen_buffer)
    (info : condrv_output_info) (status : NTSTATUS)
    (h : set_info_size fresh sb info = Except.error status) : status ≠ STATUS_SUCCESS := by
  unfold set_info_size at h
  split at h
  · rw [← Except.error.inj h]; decide
  · dsimp only at h
    split at h
    · rename_i hne
      rw [← Except.error.inj h]; exact hne
    · cases h

/-- The function `set_output_info` is the run of its blocks: the buffer it
leaves is the buffer after the run, and the status is `STATUS_SUCCESS`
exactly when no block refused. -/
theorem set_output_info_blocks (fresh : Nat → char_info_t) (active : Bool)
    (console_mode : Nat) (sb : screen_buffer) (params : condrv_output_info_params)
    (in_size : Nat) (face : List Nat) :
    (set_output_info fresh active console_mode sb params in_size face).sb =
      (run_blocks params.mask
        (info_blocks fresh params.info
          (SIZE_T ((in_size : Int) - sizeof_condrv_output_info_params)) face) sb).2 ∧
    ((set_output_info fresh active console_mode sb params in_size face).status = STATUS_SUCCESS ↔
      (run_blocks params.mask
        (info_blocks fresh params.info
          (SIZE_T ((in_size : Int) - sizeof_condrv_output_info_params)) face) sb).1 = none) := by
  obtain ⟨mask, info⟩ := params
  unfold set_output_info info_blocks
  dsimp only
  rw [run_blocks_cons]
  cases h1 : (if mask_has mask SET_CONSOLE_OUTPUT_INFO_CURSOR_GEOM then
      set_info_cursor_geom sb info else some sb) with
  | none => exact ⟨rfl, by simp⟩
  | some sb1 =>
    try dsimp only
    rw [run_blocks_cons]
    cases h2 : (if mask_has mask SET_CONSOLE_OUTPUT_INFO_CURSOR_POS then
        set_info_cursor_pos sb1 info else some sb1) with
    | none => exact ⟨rfl, by simp⟩
    | some sb2 =>
      try dsimp only
      rw [run_blocks_cons_except mask _ (fun s => set_info_size fresh s info)]
      cases h3 : (if mask_has mask SET_CONSOLE_OUTPUT_INFO_SIZE then
          set_info_size fresh sb2 info else Except.ok sb2) with
      | error status =>
        have hst : status ≠ STATUS_SUCCESS := by
          by_cases m3 : mask_has mask SET_CONSOLE_OUTPUT_INFO_SIZE
          · rw [if_pos m3] at h3
            exact set_info_size_error fresh sb2 info status h3
          · rw [if_neg m3] at h3
            cases h3
        exact ⟨rfl, by simp [hst]⟩
      | ok sb3 =>
        try dsimp only
        rw [run_blocks_cons_total mask _ (fun s => { s with attr := WORD info.attr }),
          run_blocks_cons_total mask _ (fun s => { s with popup_attr := WORD info.popup_attr }),
          run_blocks_cons]
        try dsimp only
        cases h6 : (if mask_has mask SET_CONSOLE_OUTPUT_INFO_DISPLAY_WINDOW then
            set_info_display_window
              (if mask_has mask SET_CONSOLE_OUTPUT_INFO_POPUP_ATTR then
                { (if mask_has mask SET_CONSOLE_OUTPUT_INFO_ATTR then
                    { sb3 with attr := WORD info.attr } else sb3) with
                  popup_attr := WORD info.popup_attr }
              else (if mask_has mask SET_CONSOLE_OUTPUT_INFO_ATTR then
                { sb3 with attr := WORD info.attr } else sb3)) info
          else some
            (if mask_has mask SET_CONSOLE_OUTPUT_INFO_POPUP_ATTR then
              { (if mask_has mask SET_CONSOLE_OUTPUT_INFO_ATTR then
                  { sb3 with attr := WORD info.attr } else sb3) with
                popup_attr := WORD info.popup_attr }
            else (if mask_has mask SET_CONSOLE_OUTPUT_INFO_ATTR then
              { sb3 with attr := WORD info.attr } else sb3))) with
        | none => exact ⟨rfl, by simp⟩
        | some sb6 =>
          try dsimp only
          rw [run_blocks_cons_total mask _
              (fun s => { s with
                max_width := UINT info.max_width
                max_height := UINT info.max_height }),
            run_blocks_cons_total mask _ (fun s => { s with color_map := info.color_map }),
            run_blocks_cons_total mask _
              (fun s => set_info_font s info
                (SIZE_T ((in_size : Int) - sizeof_condrv_output_info_params)) face)]
          exact ⟨rfl, by simp [run_blocks]⟩

/-- C14, amended: `set_output_info` runs the blocks that the mask selects in
the order cursor geometry, cursor position, size, attributes, popup
attributes, display window, max size, palette, font, and a block that fails
validation ends the request, leaving the changes of the selected blocks
before it in place and the blocks after it undone. If the status is
`STATUS_INVALID_PARAMETER`, then the list of the blocks splits at a selected
block that refused, the buffer is what the run of the blocks before it made
of the old buffer, and the refused block refused that buffer; the buffer is
unchanged when no selected block comes before the refused one (a refused
resize under the flags for size and attributes, say), and when the mask
holds a single flag; max size, palette and font are unchanged in every
case. -/
theorem set_output_info_rejected (fresh : Nat → char_info_t) (active : Bool)
    (console_mode : Nat) (sb : screen_buffer) (params : condrv_output_info_params)
    (in_size : Nat) (face : List Nat)
    (h : (set_output_info fresh active console_mode sb params in_size face).status
      = STATUS_INVALID_PARAMETER) :
    (∃ pre flag block post,
      info_blocks fresh params.info
        (SIZE_T ((in_size : Int) - sizeof_condrv_output_info_params)) face =
          pre ++ (flag, block) :: post ∧
      mask_has params.mask flag ∧
      run_blocks params.mask pre sb =
        (none, (set_output_info fresh active console_mode sb params in_size face).sb) ∧
      block (set_output_info fresh active console_mode sb params in_size face).sb = none ∧
      ((∀ q ∈ pre, ¬ mask_has params.mask q.1) →
        (set_output_info fresh active console_mode sb params in_size face).sb = sb)) ∧
    ((set_output_info fresh active console_mode sb params in_size face).sb.max_width
        = sb.max_width ∧
      (set_output_info fresh active console_mode sb params in_size face).sb.max_height
        = sb.max_height ∧
      (set_output_info fresh active console_mode sb params in_size face).sb.color_map
        = sb.color_map ∧
      (set_output_info fresh active console_mode sb params in_size face).sb.font = sb.font) ∧
    (params.mask = SET_CONSOLE_OUTPUT_INFO_CURSOR_GEOM ∨
      params.mask = SET_CONSOLE_OUTPUT_INFO_CURSOR_POS ∨
      params.mask = SET_CONSOLE_OUTPUT_INFO_SIZE ∨
      params.mask = SET_CONSOLE_OUTPUT_INFO_ATTR ∨
      params.mask = SET_CONSOLE_OUTPUT_INFO_DISPLAY_WINDOW ∨
      params.mask = SET_CONSOLE_OUTPUT_INFO_MAX_SIZE ∨
      params.mask = SET_CONSOLE_OUTPUT_INFO_FONT ∨
      params.mask = SET_CONSOLE_OUTPUT_INFO_COLORTABLE ∨
      params.mask = SET_CONSOLE_OUTPUT_INFO_POPUP_ATTR →
      (set_output_info fresh active console_mode sb params in_size face).sb = sb) := by
  obtain ⟨hsb, hst⟩ := set_output_info_blocks fresh active console_mode sb params in_size face
  obtain ⟨hframe, hsingle⟩ :=
    set_output_info_refused_frame fresh active console_mode sb params in_size face h
  refine ⟨?_, hframe, hsingle⟩
  generalize hrun : run_blocks params.mask
    (info_blocks fresh params.info
      (SIZE_T ((in_size : Int) - sizeof_condrv_output_info_params)) face) sb = res at hsb hst
  obtain ⟨refused, sb1⟩ := res
  dsimp only at hsb hst
  cases refused with
  | none =>
    have hs := hst.mpr rfl
    rw [h] at hs
    cases hs
  | some flag =>
    obtain ⟨pre, block, post, e, hsel, hpre, href⟩ :=
      run_blocks_refused params.mask _ sb sb1 flag hrun
    rw [hsb]
    refine ⟨pre, flag, block, post, e, hsel, hpre, href, ?_⟩
    intro hun
    have := run_blocks_unselected params.mask pre sb hun
    rw [hpre] at this
    exact (Prod.mk.inj this).2

/-- The request of the counterexample: the list of the blocks splits at the
size block, which refused; the cursor geometry block before it has run, and
the buffer is what that block made of the old one. -/
theorem set_output_info_rejected_witness :
    (∃ pre flag block post,
      info_blocks fresh_zero
        { info_2x2 with cursor_size := 50, width := 1, height := 1 }
        (SIZE_T (((sizeof_condrv_output_info_params : Nat) : Int) -
          sizeof_condrv_output_info_params)) [] =
          pre ++ (flag, block) :: post ∧
      mask_has (SET_CONSOLE_OUTPUT_INFO_CURSOR_GEOM ||| SET_CONSOLE_OUTPUT_INFO_SIZE) flag ∧
      run_blocks (SET_CONSOLE_OUTPUT_INFO_CURSOR_GEOM ||| SET_CONSOLE_OUTPUT_INFO_SIZE) pre
        window_2x2 =
        (none, (set_output_info fresh_zero false 0 window_2x2
          ⟨SET_CONSOLE_OUTPUT_INFO_CURSOR_GEOM ||| SET_CONSOLE_OUTPUT_INFO_SIZE,
            { info_2x2 with cursor_size := 50, width := 1, height := 1 }⟩
          sizeof_condrv_output_info_params []).sb) ∧
      block (set_output_info fresh_zero false 0 window_2x2
          ⟨SET_CONSOLE_OUTPUT_INFO_CURSOR_GEOM ||| SET_CONSOLE_OUTPUT_INFO_SIZE,
            { info_2x2 with cursor_size := 50, width := 1, height := 1 }⟩
          sizeof_condrv_output_info_params []).sb = none ∧
      ((∀ q ∈ pre, ¬ mask_has
          (SET_CONSOLE_OUTPUT_INFO_CURSOR_GEOM ||| SET_CONSOLE_OUTPUT_INFO_SIZE) q.1) →
        (set_output_info fresh_zero false 0 window_2x2
          ⟨SET_CONSOLE_OUTPUT_INFO_CURSOR_GEOM ||| SET_CONSOLE_OUTPUT_INFO_SIZE,
            { info_2x2 with cursor_size := 50, width := 1, height := 1 }⟩
          sizeof_condrv_output_info_params []).sb = window_2x2)) :=
  (set_output_info_rejected fresh_zero false 0 window_2x2
    ⟨SET_CONSOLE_OUTPUT_INFO_CURSOR_GEOM ||| SET_CONSOLE_OUTPUT_INFO_SIZE,
      { info_2x2 with cursor_size := 50, width := 1, height := 1 }⟩
    sizeof_condrv_output_info_params [] (by decide)).1

/-- A resize that is refused under the flags for the size and the
attributes: the size block is the first selected block, so that the buffer
is unchanged; the attribute block, which comes after it, has not run. -/
theorem set_output_info_refused_resize_example :
    (set_output_info fresh_zero false 0 window_2x2
      ⟨SET_CONSOLE_OUTPUT_INFO_SIZE ||| SET_CONSOLE_OUTPUT_INFO_ATTR,
        { info_2x2 with width := 1, height := 1, attr := 0x1f }⟩
      sizeof_condrv_output_info_params []) =
      ⟨STATUS_INVALID_PARAMETER, window_2x2, none⟩ := by
  decide

/-! ## Lengths of the grids the handlers leave -/

theorem length_resize_copy_rows (data : List char_info_t) (ow nw cw : Int) (n : Nat) :
    ∀ (i : Int) (new_data : List char_info_t),
      (resize_copy_rows data ow nw cw n i new_data).length = new_data.length := by
  induction n with
  | zero => intro i new_data; rfl
  | succ n ih => intro i new_data; simp only [resize_copy_rows, ih, length_memcpy_from]

theorem length_resize_clear_columns (ow nw : Int) (n : Nat) :
    ∀ (i : Int) (d : List char_info_t), (resize_clear_columns ow nw n i d).length = d.length := by
  induction n with
  | zero => intro i d; rfl
  | succ n ih => intro i d; simp only [resize_clear_columns, ih, memcpy, length_memmove]

theorem length_resize_clear_rows (oh nw : Int) (n : Nat) :
    ∀ (i : Int) (d : List char_info_t), (resize_clear_rows oh nw n i d).length = d.length := by
  induction n with
  | zero => intro i d; rfl
  | succ n ih => intro i d; simp only [resize_clear_rows, ih, memcpy, length_memmove]

/-- The grid `change_screen_buffer_size` installs has as many cells as were
allocated for it. -/
theorem change_screen_buffer_size_length (fresh : Nat → char_info_t) (sb : screen_buffer)
    (new_width new_height : Int) (h : 0 ≤ new_width * new_height) :
    (change_screen_buffer_size fresh sb new_width new_height).1 = STATUS_SUCCESS ∧
    (change_screen_buffer_size fresh sb new_width new_height).2.data.length
      = (new_width * new_height).toNat ∧
    (change_screen_buffer_size fresh sb new_width new_height).2.width = UINT new_width ∧
    (change_screen_buffer_size fresh sb new_width new_height).2.height = UINT new_height ∧
    (change_screen_buffer_size fresh sb new_width new_height).2.cursor_x = sb.cursor_x ∧
    (change_screen_buffer_size fresh sb new_width new_height).2.cursor_y = sb.cursor_y ∧
    (change_screen_buffer_size fresh sb new_width new_height).2.cursor_size = sb.cursor_size ∧
    (change_screen_buffer_size fresh sb new_width new_height).2.win = sb.win := by
  unfold change_screen_buffer_size
  rw [if_neg (by omega)]
  refine ⟨rfl, ?_, rfl, rfl, rfl, rfl, rfl, rfl⟩
  dsimp only
  split <;> split <;>
    simp only [length_resize_clear_rows, length_resize_clear_columns, length_fill_loop,
      length_resize_copy_rows, length_malloc_cells]

theorem length_write_output_loop (sb : screen_buffer) (params : condrv_output_params)
    (src : List Nat) (n : Nat) :
    ∀ (i : Nat) (data : List char_info_t) (stored : List Nat),
      (write_output_loop sb params src n i data stored).data.length = data.length := by
  induction n with
  | zero => intro i data stored; rfl
  | succ n ih =>
    intro i data stored
    unfold write_output_loop
    cases write_addr sb params i with
    | none => exact ih (i + 1) data stored
    | some p =>
      obtain ⟨x, y⟩ := p
      dsimp only
      split
      · rfl
      · cases write_cell sb.attr params.mode src i with
        | none => rfl
        | some f =>
          dsimp only
          rw [ih, length_poke]

theorem length_scroll_copy_forward (width w : Nat) (n : Nat) :
    ∀ (pdst psrc : Int) (data : List char_info_t),
      (scroll_copy_forward width w n pdst psrc data).length = data.length := by
  induction n with
  | zero => intro pdst psrc data; rfl
  | succ n ih => intro pdst psrc data; simp only [scroll_copy_forward, ih, length_memmove]

theorem length_scroll_copy_backward (width w : Nat) (n : Nat) :
    ∀ (pdst psrc : Int) (data : List char_info_t),
      (scroll_copy_backward width w n pdst psrc data).length = data.length := by
  induction n with
  | zero => intro pdst psrc data; rfl
  | succ n ih =>
    intro pdst psrc data
    simp only [scroll_copy_backward, ih, memcpy, length_memmove]

theorem length_scroll_fill_row (width : Nat) (fill : char_info_t) (y : Int) (n : Nat) :
    ∀ (x : Int) (data : List char_info_t),
      (scroll_fill_row width fill y n x data).length = data.length := by
  induction n with
  | zero => intro x data; rfl
  | succ n ih => intro x data; simp only [scroll_fill_row, ih, length_poke]

theorem length_scroll_fill (width : Nat) (fill : char_info_t) (src dst : SMALL_RECT) (n : Nat) :
    ∀ (y : Int) (data : List char_info_t),
      (scroll_fill width fill src dst n y data).length = data.length := by
  induction n with
  | zero => intro y data; rfl
  | succ n ih => intro y data; simp only [scroll_fill, ih, length_scroll_fill_row]

theorem length_scroll_copy (sb : screen_buffer) (v : scroll_vars) :
    (scroll_copy sb v).length = sb.data.length := by
  unfold scroll_copy
  split
  · split
    · exact length_scroll_copy_backward _ _ _ _ _ _
    · exact length_scroll_copy_forward _ _ _ _ _ _
  · rfl

/-! ## The handlers change the grid only: what they leave of the buffer -/

/-- Except for the cells, `write_output` returns the buffer it was given,
and the grid keeps its length. -/
theorem write_output_buffer (sb : screen_buffer) (params : condrv_output_params)
    (src : List Nat) (out_size : Nat) (r : write_result)
    (h : write_output sb params src out_size = some r) :
    ∃ data, r.sb = { sb with data := data } ∧ data.length = sb.data.length := by
  have hl := length_write_output_loop sb params src (write_entry_cnt params src) 0 sb.data []
  unfold write_output at h
  dsimp only at h
  split at h
  · rw [← Option.some.inj h]
    exact ⟨sb.data, rfl, rfl⟩
  · split at h
    · rw [← Option.some.inj h]
      exact ⟨_, rfl, hl⟩
    · split at h
      · split at h
        · exact absurd h (by simp)
        · rw [← Option.some.inj h]
          exact ⟨_, rfl, hl⟩
      · rw [← Option.some.inj h]
        exact ⟨_, rfl, hl⟩

/-- Except for the cells, `fill_output` returns the buffer it was given,
and the grid keeps its length. -/
theorem fill_output_buffer (sb : screen_buffer) (params : condrv_fill_output_params)
    (r : fill_result) (h : fill_output sb params = some r) :
    ∃ data, r.sb = { sb with data := data } ∧ data.length = sb.data.length := by
  unfold fill_output at h
  dsimp only at h
  split at h
  · rw [← Option.some.inj h]
    exact ⟨sb.data, rfl, rfl⟩
  · split at h
    · rw [← Option.some.inj h]
      exact ⟨sb.data, rfl, rfl⟩
    · split at h
      · rw [← Option.some.inj h]
        exact ⟨_, rfl, length_fill_loop _ _ _ _ _⟩
      · cases h

/-- Except for the cells, `scroll_output` returns the buffer it was given,
and the grid keeps its length. -/
theorem scroll_output_buffer (sb : screen_buffer) (params : condrv_scroll_params) :
    ∃ data, (scroll_output sb params).sb = { sb with data := data } ∧
      data.length = sb.data.length := by
  unfold scroll_output
  dsimp only
  split
  · exact ⟨sb.data, rfl, rfl⟩
  · exact ⟨_, rfl, by rw [length_scroll_fill, length_scroll_copy]⟩

/-! ## set_output_info: the buffer invariants -/

/-- The cursor geometry block keeps the buffer invariants. -/
theorem set_info_cursor_geom_invariant (sb sb1 : screen_buffer) (info : condrv_output_info)
    (hinv : buffer_invariant sb) (h : set_info_cursor_geom sb info = some sb1) :
    buffer_invariant sb1 := by
  unfold buffer_invariant at hinv ⊢
  unfold set_info_cursor_geom at h
  split at h
  · exact absurd h (by simp)
  · rename_i hc
    rw [← Option.some.inj h]
    dsimp only
    unfold UINT
    omega

/-- The cursor position block keeps the buffer invariants. -/
theorem set_info_cursor_pos_invariant (sb sb1 : screen_buffer) (info : condrv_output_info)
    (hinv : buffer_invariant sb) (h : set_info_cursor_pos sb info = some sb1) :
    buffer_invariant sb1 := by
  unfold set_info_cursor_pos at h
  split at h
  · exact absurd h (by simp)
  · rename_i hc
    split at h
    · rw [← Option.some.inj h]
      unfold buffer_invariant at hinv ⊢
      dsimp only
      omega
    · rw [← Option.some.inj h]
      exact hinv

/-- The size block keeps the buffer invariants: the new grid has the new
size, the cursor is clamped and the window is moved back into the buffer. -/
theorem set_info_size_invariant (fresh : Nat → char_info_t) (sb sb1 : screen_buffer)
    (info : condrv_output_info) (hinv : buffer_invariant sb)
    (htw : is_short info.width) (hth : is_short info.height)
    (h : set_info_size fresh sb info = Except.ok sb1) : buffer_invariant sb1 := by
  unfold buffer_invariant at hinv
  obtain ⟨i1, i2, i3, i4, i5, i6, i7, i8, i9, i10, i11, i12, i13⟩ := hinv
  unfold is_short at htw hth
  unfold set_info_size at h
  split at h
  · exact absurd h (by simp)
  · rename_i hc
    dsimp only at h
    split at h
    · exact absurd h (by simp)
    · obtain ⟨W, hWe⟩ := Int.eq_ofNat_of_zero_le (a := info.width) (by omega)
      obtain ⟨H, hHe⟩ := Int.eq_ofNat_of_zero_le (a := info.height) (by omega)
      have hprod : (0 : Int) ≤ info.width * info.height := by
        rw [hWe, hHe]; positivity
      obtain ⟨_, c2, c3, c4, c5, c6, c7, c8⟩ :=
        change_screen_buffer_size_length fresh sb info.width info.height hprod
      have eW : UINT info.width = W := by rw [hWe]; exact UINT_of_nat W (by omega)
      have eH : UINT info.height = H := by rw [hHe]; exact UINT_of_nat H (by omega)
      have eP : (info.width * info.height).toNat = W * H := by
        rw [hWe, hHe]
        have := Int.toNat_ofNat (W * H)
        push_cast at this
        exact this
      have eW1 : UINT (info.width - 1) = W - 1 := by
        have : info.width - 1 = ((W - 1 : Nat) : Int) := by omega
        rw [this]; exact UINT_of_nat _ (by omega)
      have eH1 : UINT (info.height - 1) = H - 1 := by
        have : info.height - 1 = ((H - 1 : Nat) : Int) := by omega
        rw [this]; exact UINT_of_nat _ (by omega)
      rw [← Except.ok.inj h]
      unfold buffer_invariant set_info_size_adjust
      dsimp only
      rw [c2, c3, c4, c5, c6, c8, eW, eH, eP, eW1, eH1]
      refine ⟨by omega, by omega, rfl, ?_, ?_, ?_, ?_, ?_, ?_, ?_, ?_, ?_, ?_⟩
      · split <;> omega
      · split <;> omega
      · rw [c7]; exact i6
      · rw [c7]; exact i7
      · split <;> split <;> (try dsimp only at *) <;> omega
      · split <;> split <;> (try dsimp only at *) <;> (try unfold INT) <;> omega
      · split <;> split <;> (try dsimp only at *) <;> (try unfold INT) <;> omega
      · split <;> split <;> (try dsimp only at *) <;> omega
      · split <;> split <;> (try dsimp only at *) <;> (try unfold INT) <;> omega
      · split <;> split <;> (try dsimp only at *) <;> (try unfold INT) <;> omega

/-- The window block keeps the buffer invariants. -/
theorem set_info_display_window_invariant (sb sb1 : screen_buffer) (info : condrv_output_info)
    (hinv : buffer_invariant sb) (htr : is_short info.win_right)
    (htb : is_short info.win_bottom) (h : set_info_display_window sb info = some sb1) :
    buffer_invariant sb1 := by
  unfold is_short at htr htb
  unfold set_info_display_window at h
  split at h
  · exact absurd h (by simp)
  · rename_i hc
    split at h
    · rw [← Option.some.inj h]
      unfold buffer_invariant at hinv ⊢
      dsimp only
      unfold UINT at hc
      omega
    · rw [← Option.some.inj h]
      exact hinv

/-- The function `set_output_info` keeps the buffer invariants, whatever
the mask and whatever status it returns. -/
theorem set_output_info_invariant (fresh : Nat → char_info_t) (active : Bool)
    (console_mode : Nat) (sb : screen_buffer) (params : condrv_output_info_params)
    (in_size : Nat) (face : List Nat) (hinv : buffer_invariant sb)
    (ht : output_info_typed params.info) :
    buffer_invariant (set_output_info fresh active console_mode sb params in_size face).sb := by
  obtain ⟨_, _, _, _, t5, t6, _, _, _, _, t11, t12, _⟩ := ht
  generalize hr : set_output_info fresh active console_mode sb params in_size face = r
  unfold set_output_info at hr
  dsimp only at hr
  split at hr
  · subst hr
    exact hinv
  · rename_i sb1 h1
    have g1 : buffer_invariant sb1 := by
      split at h1
      · exact set_info_cursor_geom_invariant sb sb1 _ hinv h1
      · rw [← Option.some.inj h1]
        exact hinv
    split at hr
    · subst hr
      exact g1
    · rename_i sb2 h2
      have g2 : buffer_invariant sb2 := by
        split at h2
        · exact set_info_cursor_pos_invariant sb1 sb2 _ g1 h2
        · rw [← Option.some.inj h2]
          exact g1
      split at hr
      · subst hr
        exact g2
      · rename_i sb3 h3
        have g3 : buffer_invariant sb3 := by
          split at h3
          · exact set_info_size_invariant fresh sb2 sb3 _ g2 t5 t6 h3
          · rw [← Except.ok.inj h3]
            exact g2
        have g5 : buffer_invariant
            (if mask_has params.mask SET_CONSOLE_OUTPUT_INFO_POPUP_ATTR then
              { (if mask_has params.mask SET_CONSOLE_OUTPUT_INFO_ATTR then
                  { sb3 with attr := WORD params.info.attr }
                else sb3) with popup_attr := WORD params.info.popup_attr }
            else
              (if mask_has params.mask SET_CONSOLE_OUTPUT_INFO_ATTR then
                { sb3 with attr := WORD params.info.attr }
              else sb3)) := by
          split <;> split <;> exact g3
        split at hr
        · subst hr
          exact g5
        · rename_i sb6 h6
          have g6 : buffer_invariant sb6 := by
            split at h6
            · exact set_info_display_window_invariant _ sb6 _ g5 t11 t12 h6
            · rw [← Option.some.inj h6]
              exact g5
          subst hr
          dsimp only
          unfold set_info_font
          dsimp only
          split <;> split <;> split <;> (try split) <;> exact g6

/-- The invariants of a screen buffer are kept by the handlers where they
have a result in the embedding. If a buffer satisfies `width, height >= 1`,
`|cells| = width*height`, `cursor.x < width`, `cursor.y < height`,
`1 <= cursor_size <= 100`, `0 <= win.left <= win.right < width` and
`0 <= win.top <= win.bottom < height`, then so does the buffer left by
`set_output_info` (any mask, any status), by `write_output` and
`fill_output` when they have a result, by `scroll_output` and by the
SET_MODE case. A FILL_OUTPUT request that stores outside the grid has no
result and is not covered; the copy of a SCROLL request that leaves the
grid (the corner of the shifted rectangle wraps on a buffer of more than
16384 columns or rows) is covered as the embedding has it, without the
stores outside the grid. -/
theorem buffer_invariant_kept (sb : screen_buffer)
    (hw : 1 ≤ sb.width) (hh : 1 ≤ sb.height)
    (hlen : sb.data.length = sb.width * sb.height)
    (hcx : sb.cursor_x < sb.width) (hcy : sb.cursor_y < sb.height)
    (hcs : 1 ≤ sb.cursor_size ∧ sb.cursor_size ≤ 100)
    (hwx : 0 ≤ sb.win.left ∧ sb.win.left ≤ sb.win.right ∧ sb.win.right < sb.width)
    (hwy : 0 ≤ sb.win.top ∧ sb.win.top ≤ sb.win.bottom ∧ sb.win.bottom < sb.height)
    (sb1 : screen_buffer)
    (hreq :
      (∃ fresh active console_mode params in_size face, output_info_typed params.info ∧
        sb1 = (set_output_info fresh active console_mode sb params in_size face).sb) ∨
      (∃ params src out_size r, write_output sb params src out_size = some r ∧ sb1 = r.sb) ∨
      (∃ params r, fill_output sb params = some r ∧ sb1 = r.sb) ∨
      (∃ params, sb1 = (scroll_output sb params).sb) ∨
      (∃ in_size out_size mode, sb1 = (ioctl_set_mode sb in_size out_size mode).2)) :
    1 ≤ sb1.width ∧ 1 ≤ sb1.height ∧ sb1.data.length = sb1.width * sb1.height ∧
    sb1.cursor_x < sb1.width ∧ sb1.cursor_y < sb1.height ∧
    1 ≤ sb1.cursor_size ∧ sb1.cursor_size ≤ 100 ∧
    0 ≤ sb1.win.left ∧ sb1.win.left ≤ sb1.win.right ∧ sb1.win.right < sb1.width ∧
    0 ≤ sb1.win.top ∧ sb1.win.top ≤ sb1.win.bottom ∧ sb1.win.bottom < sb1.height := by
  have hinv : buffer_invariant sb :=
    ⟨hw, hh, hlen, hcx, hcy, hcs.1, hcs.2, hwx.1, hwx.2.1, hwx.2.2, hwy.1, hwy.2.1, hwy.2.2⟩
  have hdata : ∀ data : List char_info_t, data.length = sb.data.length →
      buffer_invariant { sb with data := data } := by
    intro data hd
    unfold buffer_invariant at hinv ⊢
    dsimp only
    rw [hd]
    exact hinv
  rcases hreq with ⟨fresh, active, console_mode, params, in_size, face, ht, rfl⟩ |
    ⟨params, src, out_size, r, hr, rfl⟩ | ⟨params, r, hr, rfl⟩ | ⟨params, rfl⟩ |
    ⟨in_size, out_size, mode, rfl⟩
  · exact set_output_info_invariant fresh active console_mode sb params in_size face hinv ht
  · obtain ⟨data, e, hd⟩ := write_output_buffer sb params src out_size r hr
    rw [e]
    exact hdata data hd
  · obtain ⟨data, e, hd⟩ := fill_output_buffer sb params r hr
    rw [e]
    exact hdata data hd
  · obtain ⟨data, e, hd⟩ := scroll_output_buffer sb params
    rw [e]
    exact hdata data hd
  · unfold ioctl_set_mode
    split
    · exact hinv
    · exact hinv

/-- A resize of the 4 x 4 buffer to 2 x 2, which clamps the cursor and moves
the window: the buffer it leaves satisfies the invariants. -/
theorem buffer_invariant_kept_example :
    buffer_invariant
      (set_output_info fresh_zero false 0 corner_4x4
        ⟨SET_CONSOLE_OUTPUT_INFO_SIZE, info_2x2⟩ sizeof_condrv_output_info_params []).sb ∧
    (set_output_info fresh_zero false 0 corner_4x4
      ⟨SET_CONSOLE_OUTPUT_INFO_SIZE, info_2x2⟩ sizeof_condrv_output_info_params []).sb.cursor_x
      = 1 ∧
    (set_output_info fresh_zero false 0 corner_4x4
      ⟨SET_CONSOLE_OUTPUT_INFO_SIZE, info_2x2⟩ sizeof_condrv_output_info_params []).sb.win
      = ⟨0, 0, 1, 1⟩ :=
  ⟨buffer_invariant_kept corner_4x4 (by decide) (by decide) (by decide) (by decide)
    (by decide) (by decide) (by decide) (by decide) _
    (Or.inl ⟨fresh_zero, false, 0, ⟨SET_CONSOLE_OUTPUT_INFO_SIZE, info_2x2⟩,
      sizeof_condrv_output_info_params, [], by decide, rfl⟩), by decide, by decide⟩

/-! ## fill_output: a run outside the grid -/

/-- C16 at its failing input: the 2 x 2 buffer with the window
{0, 0, 1, 1} satisfies the invariants, and FILL_OUTPUT (TEXTATTR, x = -1,
y = 0, count = 1) passes the only test of the handler, the test of `y`. The
pointer `dest` is `data - 1`, the count stays 1 and the loop stores one cell
before the block of the grid: the call has no defined result. The same
holds for x = 5, y = 1, count = 1, where `dest` is `data + 7`, three cells
after `end = data + 4`: the clamp sets the count to
`(DWORD)(-3) = 4294967293` and the loop stores after the block. -/
theorem fill_output_outside_grid :
    buffer_invariant window_2x2 ∧
    UINT fill_before_grid.y < window_2x2.height ∧
    fill_dest window_2x2 fill_before_grid = -1 ∧
    fill_count window_2x2 fill_before_grid = 1 ∧
    ¬ run_inside window_2x2.data (fill_dest window_2x2 fill_before_grid)
      (fill_count window_2x2 fill_before_grid) ∧
    fill_output window_2x2 fill_before_grid = none ∧
    UINT fill_after_grid.y < window_2x2.height ∧
    fill_dest window_2x2 fill_after_grid = 7 ∧
    fill_end window_2x2 fill_after_grid = 4 ∧
    fill_count window_2x2 fill_after_grid = 4294967293 ∧
    fill_output window_2x2 fill_after_grid = none := by
  decide

/-! ## create_screen_buffer -/

/-- The row loop of `create_screen_buffer`: the rows `i .. i + n - 1` hold
the cells of row 0, every other cell is as before. -/
theorem create_copy_rows_spec (W : Nat) (n : Nat) :
    ∀ (i : Nat) (d : List char_info_t), 1 ≤ i → (i + n) * W ≤ d.length →
      d.length < 4294967296 →
      (create_copy_rows W n i d).length = d.length ∧
      (∀ j, (∀ r, i ≤ r → r < i + n → ¬ (r * W ≤ j ∧ j < r * W + W)) →
        (create_copy_rows W n i d)[j]? = d[j]?) ∧
      (∀ r c, i ≤ r → r < i + n → c < W → (create_copy_rows W n i d)[r * W + c]? = d[c]?) := by
  induction n with
  | zero =>
    intro i d _ _ _
    simp only [create_copy_rows]
    exact ⟨trivial, fun j _ => trivial, fun r c h1 h2 => by omega⟩
  | succ n ih =>
    intro i d hi h2 h32
    have rn := row_succ_le i (i + (n + 1)) W (by omega)
    have r1 := row_succ_le 0 i W (by omega)
    have e1 : U32 (i * W) = i * W := U32_of_lt _ (by omega)
    have e0 : (0 : Int) = ((0 : Nat) : Int) := rfl
    simp only [create_copy_rows, memcpy, e1]
    rw [e0]
    have hmm := fun j => getElem?_memmove d (i * W) 0 W j (by omega) (by omega)
    obtain ⟨il, ifr, icp⟩ := ih (i + 1)
      (memmove d ((i * W : Nat) : Int) ((0 : Nat) : Int) W) (by omega)
      (by rw [length_memmove, show i + 1 + n = i + (n + 1) by omega]; exact h2)
      (by rw [length_memmove]; exact h32)
    refine ⟨by rw [il, length_memmove], ?_, ?_⟩
    · intro j hj
      rw [ifr j (fun r hr1 hr2 => hj r (by omega) (by omega))]
      rw [hmm j, if_neg (by
        have := hj i (le_refl _) (by omega)
        omega)]
    · intro r c hr1 hr2 hc
      by_cases hri : r = i
      · subst hri
        rw [ifr (r * W + c) (fun r1 hr1 hr2 hcon => by
          have := row_succ_le r r1 W (by omega)
          omega)]
        rw [hmm, if_pos (by omega)]
        have : 0 + (r * W + c - r * W) = c := by omega
        rw [this]
      · rw [icp r c (by omega) (by omega) hc, hmm, if_neg (by omega)]

/-- What `create_screen_buffer` builds for a size from 1 x 1 to 65535 x
65535 and an id that is not in use: a grid of `width * height` empty cells,
the cursor at `(0, 0)` with size 100, and the window `{0, 0, 79, 24}`
whatever the size is. -/
theorem create_screen_buffer_spec (screen_buffer_map : List Nat) (fresh : Nat → char_info_t)
    (id : Int) (width height : Nat) (hid : UINT id ∉ screen_buffer_map)
    (hw1 : 1 ≤ width) (hw : width ≤ 65535) (hh1 : 1 ≤ height) (hh : height ≤ 65535) :
    ∃ sb, create_screen_buffer screen_buffer_map fresh id width height = some sb ∧
      sb.width = width ∧ sb.height = height ∧ sb.data.length = width * height ∧
      (∀ x y, x < width → y < height → sb.data[y * width + x]? = some empty_char_info) ∧
      sb.cursor_x = 0 ∧ sb.cursor_y = 0 ∧ sb.cursor_size = 100 ∧ sb.win = ⟨0, 0, 79, 24⟩ := by
  have hsz := grid_size_lt width height hw hh
  have eW : UINT (width : Int) = width := UINT_of_nat _ (by omega)
  have eH : UINT (height : Int) = height := UINT_of_nat _ (by omega)
  have eP : U32 (width * height) = width * height := U32_of_lt _ hsz
  have hd0 := length_malloc_cells fresh (width * height)
  have hfl := length_fill_loop (fun _ => empty_char_info) 0 width 0
    (malloc_cells fresh (width * height))
  have hfg := getElem?_fill_loop (fun _ => empty_char_info) 0 width 0
    (malloc_cells fresh (width * height))
  have hcomm : height * width = width * height := Nat.mul_comm _ _
  have hrows : (1 + (height - 1)) * width ≤
      (fill_loop (fun _ => empty_char_info) 0 width 0
        (malloc_cells fresh (width * height))).length := by
    rw [hfl, hd0, ← hcomm]
    exact Nat.mul_le_mul_right _ (by omega)
  have hwle : width ≤ width * height := Nat.le_mul_of_pos_right width (by omega)
  obtain ⟨l2, f2, c2⟩ := create_copy_rows_spec width (height - 1) 1
    (fill_loop (fun _ => empty_char_info) 0 width 0 (malloc_cells fresh (width * height)))
    (le_refl _) hrows (by rw [hfl, hd0]; exact hsz)
  have hrow0 : ∀ c, c < width →
      (fill_loop (fun _ => empty_char_info) 0 width 0
        (malloc_cells fresh (width * height)))[c]? = some empty_char_info := by
    intro c hc
    have := hfg c
    simp only [Nat.cast_zero] at this
    rw [this, if_pos (by omega), List.getElem?_eq_getElem (by omega)]
    rfl
  refine ⟨_, by unfold create_screen_buffer; dsimp only; rw [if_neg hid], ?_⟩
  dsimp only
  rw [eW, eH, eP]
  refine ⟨rfl, rfl, by rw [l2, hfl, hd0], ?_, rfl, rfl, rfl, by decide⟩
  intro x y hx hy
  by_cases hy0 : y = 0
  · subst hy0
    rw [f2 _ (fun r hr1 hr2 hcon => by
      have := row_of_index width r 0 x (0 * width + x) hx rfl (by omega) (by omega)
      omega)]
    simp only [Nat.zero_mul, Nat.zero_add]
    exact hrow0 x hx
  · rw [c2 y x (by omega) (by omega) hx]
    exact hrow0 x hx

/-- C17 at its failing input: the console host started with `--width 2
--height 2` creates its first buffer with `create_screen_buffer (console,
1, 2, 2)`. The buffer is 2 x 2 and its window is `{0, 0, 79, 24}`, which is
not inside the buffer. -/
theorem create_screen_buffer_window :
    ∃ sb, create_screen_buffer [] fresh_zero 1 2 2 = some sb ∧
      sb.width = 2 ∧ sb.height = 2 ∧ sb.win = ⟨0, 0, 79, 24⟩ ∧
      ¬ (sb.win.right < sb.width) ∧ ¬ (sb.win.bottom < sb.height) :=
  ⟨_, rfl, by decide⟩

/-! ## The input queue: block copies -/

theorem length_write_records (blk : List INPUT_RECORD) :
    ∀ (array : List INPUT_RECORD) (dst : Nat),
      (write_records array dst blk).length = array.length := by
  induction blk with
  | nil => intro array dst; rfl
  | cons c cs ih => intro array dst; simp [write_records, ih]

theorem getElem?_write_records (blk : List INPUT_RECORD) :
    ∀ (array : List INPUT_RECORD) (dst j : Nat),
      (write_records array dst blk)[j]? =
        if dst ≤ j ∧ j < dst + blk.length ∧ j < array.length then blk[j - dst]? else array[j]? := by
  induction blk with
  | nil =>
    intro array dst j
    have h0 : ¬ (dst ≤ j ∧ j < dst + 0 ∧ j < array.length) := by omega
    simp only [write_records, List.length_nil]
    rw [if_neg h0]
  | cons c cs ih =>
    intro array dst j
    simp only [write_records, ih, List.length_set, List.length_cons]
    by_cases hj : j = dst
    · subst hj
      have h1 : ¬ (j + 1 ≤ j ∧ j < j + 1 + cs.length ∧ j < array.length) := by omega
      rw [if_neg h1]
      by_cases hlt : j < array.length
      · rw [if_pos ⟨le_refl _, by omega, hlt⟩]
        simp [List.getElem?_set, hlt]
      · rw [if_neg (by omega)]
        simp [List.getElem?_set, hlt]
        omega
    · by_cases h2 : dst + 1 ≤ j ∧ j < dst + 1 + cs.length ∧ j < array.length
      · rw [if_pos h2, if_pos ⟨by omega, by omega, h2.2.2⟩]
        have e : j - dst = (j - (dst + 1)) + 1 := by omega
        rw [e, List.getElem?_cons_succ]
      · rw [if_neg h2, if_neg (by omega)]
        rw [List.getElem?_set_ne (Ne.symm hj)]

theorem read_records_all (records : List INPUT_RECORD) :
    read_records records 0 records.length = records := by
  apply List.ext_getElem?
  intro j
  unfold read_records
  rw [List.getElem?_map]
  by_cases hj : j < records.length
  · rw [List.getElem?_range hj, List.getElem?_eq_getElem hj]
    simp [List.getD_eq_getElem?_getD, List.getElem?_eq_getElem hj]
  · rw [List.getElem?_eq_none (by simpa using hj), List.getElem?_eq_none (by omega)]
    rfl

theorem length_realloc_records (fresh : Nat → INPUT_RECORD) (old : List INPUT_RECORD) (n : Nat) :
    (realloc_records fresh old n).length = n := by
  simp [realloc_records]

theorem getElem?_realloc_records (fresh : Nat → INPUT_RECORD) (old : List INPUT_RECORD)
    (n j : Nat) (hj : j < old.length) (hn : old.length ≤ n) :
    (realloc_records fresh old n)[j]? = old[j]? := by
  unfold realloc_records
  rw [List.getElem?_map, List.getElem?_range (by omega)]
  simp [List.getD_eq_getElem?_getD, List.getElem?_eq_getElem hj]

/-- The entries in use followed by the records written behind them. -/
theorem take_write_records (array blk : List INPUT_RECORD) (rc : Nat)
    (h : rc + blk.length ≤ array.length) :
    (write_records array rc blk).take (rc + blk.length) = array.take rc ++ blk := by
  apply List.ext_getElem?
  intro j
  rw [List.getElem?_take, getElem?_write_records, List.getElem?_append, List.length_take,
    List.getElem?_take, Nat.min_eq_left (by omega)]
  by_cases h1 : j < rc
  · rw [if_pos (by omega), if_neg (by omega), if_pos h1, if_pos h1]
  · by_cases h2 : j < rc + blk.length
    · rw [if_pos h2, if_pos ⟨by omega, h2, by omega⟩, if_neg h1]
    · rw [if_neg h2, if_neg h1, List.getElem?_eq_none (by omega)]

/-! ## write_console_input without processed input -/

/-- C18: `write_console_input` without processed input. When
`ENABLE_PROCESSED_INPUT` is clear and no read is parked, for a queue with
`record_count <= record_size` and `n >= 1` written records, the call
returns `STATUS_SUCCESS`, the queue afterwards is the old queue followed by
the `n` records in order, `record_size` is unchanged if `record_count + n <=
record_size` and is `2*record_size + n` otherwise, `record_count <=
record_size` still holds, and no request is sent to the server. -/
theorem write_console_input_append (fresh : Nat → INPUT_RECORD) (server_status : NTSTATUS)
    (con : console) (records : List INPUT_RECORD)
    (hmode : ¬ mask_has con.mode ENABLE_PROCESSED_INPUT)
    (hpend : con.pending_read = 0)
    (hcap : con.record_count ≤ con.record_size)
    (harr : con.records.length = con.record_size)
    (hn : 1 ≤ records.length)
    (h32 : con.record_size * 2 + records.length < 4294967296) :
    (write_console_input fresh server_status con records records.length).status
      = STATUS_SUCCESS ∧
    input_queue (write_console_input fresh server_status con records records.length).console
      = input_queue con ++ records ∧
    (write_console_input fresh server_status con records records.length).console.record_size
      = (if con.record_count + records.length ≤ con.record_size then con.record_size
        else 2 * con.record_size + records.length) ∧
    (write_console_input fresh server_status con records records.length).console.record_count
      ≤ (write_console_input fresh server_status con records records.length).console.record_size ∧
    (write_console_input fresh server_status con records records.length).requests = [] := by
  have e1 : U32 (con.record_count + records.length) = con.record_count + records.length :=
    U32_of_lt _ (by omega)
  have e2 : U32 (con.record_size * 2 + records.length) = con.record_size * 2 + records.length :=
    U32_of_lt _ h32
  have hfin : ¬ (records.length ≠ 0 ∧ con.pending_read ≠ 0) := by omega
  have hcnt : ¬ (records.length = 0) := by omega
  unfold write_console_input input_queue
  rw [if_neg hcnt]
  dsimp only
  rw [read_records_all, e1, e2]
  by_cases hg : con.record_count + records.length ≤ con.record_size
  · have hA : ¬ (con.record_count + records.length > con.record_size) := by omega
    rw [if_neg hA, if_neg hmode, if_pos hg]
    dsimp only
    rw [e1, if_neg hfin]
    refine ⟨rfl, ?_, rfl, hg, rfl⟩
    dsimp only
    exact take_write_records _ _ _ (by omega)
  · have hA : con.record_count + records.length > con.record_size := by omega
    rw [if_pos hA, if_neg hg]
    dsimp only
    rw [if_neg hmode]
    dsimp only
    rw [e1, if_neg hfin]
    refine ⟨rfl, ?_, by dsimp only; omega, by dsimp only; omega, rfl⟩
    dsimp only
    rw [take_write_records _ _ _ (by rw [length_realloc_records]; omega)]
    congr 1
    apply List.ext_getElem?
    intro j
    rw [List.getElem?_take, List.getElem?_take]
    by_cases hj : j < con.record_count
    · rw [if_pos hj, if_pos hj, getElem?_realloc_records _ _ _ _ (by omega) (by omega)]
    · rw [if_neg hj, if_neg hj]

/-- Two key records written to the empty queue of a fresh console: the array
grows from 0 to 2 entries and holds the two records. -/
theorem write_console_input_append_witness :
    input_queue (write_console_input fresh_record STATUS_SUCCESS console_raw
      [key_record 97 1, key_record 97 0] 2).console
      = [key_record 97 1, key_record 97 0] ∧
    (write_console_input fresh_record STATUS_SUCCESS console_raw
      [key_record 97 1, key_record 97 0] 2).console.record_size = 2 :=
  ⟨(write_console_input_append fresh_record STATUS_SUCCESS console_raw
      [key_record 97 1, key_record 97 0] (by decide) (by decide) (by decide) (by decide)
      (by decide) (by decide)).2.1,
    (write_console_input_append fresh_record STATUS_SUCCESS console_raw
      [key_record 97 1, key_record 97 0] (by decide) (by decide) (by decide) (by decide)
      (by decide) (by decide)).2.2.1⟩

/-! ## write_console_input: the loop over the written records -/

/-- The loop steps over records that are not Ctrl-C records. -/
theorem ctrl_c_loop_skip (records : List INPUT_RECORD) (rc : Nat) (m : Nat) :
    ∀ (n : Nat) (s : ctrl_c_state),
      (∀ j, s.i ≤ j → j < s.i + m → ¬ is_ctrl_c (records.getD j default)) →
      ctrl_c_loop records rc (m + n) s = ctrl_c_loop records rc n { s with i := s.i + m } := by
  induction m with
  | zero => intro n s _; simp
  | succ m ih =>
    intro n s h
    have e : m + 1 + n = (m + n) + 1 := by omega
    rw [e]
    simp only [ctrl_c_loop]
    rw [if_neg (h s.i (le_refl _) (by omega))]
    rw [ih n { s with i := s.i + 1 } (fun j h1 h2 => h j (by dsimp only at h1; omega)
      (by dsimp only at h2; omega))]
    have e2 : s.i + 1 + m = s.i + (m + 1) := by omega
    simp only [e2]

/-- The loop at a Ctrl-C record: the test reads the record of the request
again after every removal, so every further iteration removes one more
entry and sends one more request when the key is down. The entries below
the one the loop stands at are not touched. -/
theorem ctrl_c_loop_stuck (records : List INPUT_RECORD) (rc : Nat) (n : Nat) :
    ∀ (s : ctrl_c_state), is_ctrl_c (records.getD s.i default) →
      U32 (rc + s.i) = rc + s.i →
      (ctrl_c_loop records rc n s).i = s.i ∧
      (ctrl_c_loop records rc n s).count = s.count - n ∧
      (ctrl_c_loop records rc n s).requests = s.requests ++
        List.replicate (if (records.getD s.i default).bKeyDown ≠ 0 then n else 0)
          (server_request.ctrl_event CTRL_C_EVENT 0) ∧
      ∀ j, j < rc + s.i → (ctrl_c_loop records rc n s).array[j]? = s.array[j]? := by
  induction n with
  | zero =>
    intro s _ _
    simp [ctrl_c_loop]
  | succ n ih =>
    intro s hc h32
    unfold ctrl_c_loop
    rw [if_pos hc]
    dsimp only
    obtain ⟨i1, i2, i3, i4⟩ := ih
      { s with
        array :=
          (if s.i ≠ s.count - 1 then
            write_records s.array (U32 (rc + s.i))
              (read_records s.array (U32 (U32 (rc + s.i) + 1)) (s.count - s.i - 1))
          else s.array)
        count := s.count - 1
        requests :=
          (if (records.getD s.i default).bKeyDown ≠ 0 then
            s.requests ++ [server_request.ctrl_event CTRL_C_EVENT 0]
          else s.requests) } hc h32
    dsimp only at i1 i2 i3 i4
    refine ⟨i1, by rw [i2]; omega, ?_, ?_⟩
    · rw [i3]
      by_cases hk : (records.getD s.i default).bKeyDown ≠ 0
      · rw [if_pos hk, if_pos hk, if_pos hk, List.append_assoc, List.replicate_succ]
        rfl
      · rw [if_neg hk, if_neg hk, if_neg hk]
    · intro j hj
      rw [i4 j hj]
      split
      · rw [getElem?_write_records, h32, if_neg (by omega)]
      · rfl

/-- What `write_console_input` does with processed input when no read is
parked: the records before the first Ctrl-C record are appended to the
queue; the first Ctrl-C record and every record behind it are dropped, and
one `CTRL_EVENT` request is sent for each of them when that first Ctrl-C
record has its key down. `k` is the index of the first Ctrl-C record, or
the number of records when there is none. -/
theorem write_console_input_first_ctrl_c (fresh : Nat → INPUT_RECORD) (server_status : NTSTATUS)
    (con : console) (records : List INPUT_RECORD) (k : Nat)
    (hmode : mask_has con.mode ENABLE_PROCESSED_INPUT)
    (hpend : con.pending_read = 0)
    (hcap : con.record_count ≤ con.record_size)
    (harr : con.records.length = con.record_size)
    (hn : 1 ≤ records.length)
    (h32 : con.record_size * 2 + records.length < 4294967296)
    (hk : k ≤ records.length)
    (hbefore : ∀ j, j < k → ¬ is_ctrl_c (records.getD j default))
    (hat : k < records.length → is_ctrl_c (records.getD k default)) :
    input_queue (write_console_input fresh server_status con records records.length).console
      = input_queue con ++ records.take k ∧
    (write_console_input fresh server_status con records records.length).requests
      = List.replicate
          (if k < records.length ∧ (records.getD k default).bKeyDown ≠ 0
            then records.length - k else 0)
          (server_request.ctrl_event CTRL_C_EVENT 0) := by
  have e2 : U32 (con.record_size * 2 + records.length) = con.record_size * 2 + records.length :=
    U32_of_lt _ h32
  have e1 : U32 (con.record_count + records.length) = con.record_count + records.length :=
    U32_of_lt _ (by omega)
  have hcnt : ¬ (records.length = 0) := by omega
  -- the array after the records have been copied behind the queue
  obtain ⟨con1, hcon1, hm1, hp1, hc1, hl1, hq1⟩ : ∃ con1 : console,
      con1 = (if U32 (con.record_count + records.length) > con.record_size then
          { con with
            records := realloc_records fresh con.records
              (U32 (con.record_size * 2 + records.length))
            record_size := U32 (con.record_size * 2 + records.length) }
        else con) ∧
      con1.mode = con.mode ∧ con1.pending_read = con.pending_read ∧
      con1.record_count = con.record_count ∧
      con.record_count + records.length ≤ con1.records.length ∧
      con1.records.take con.record_count = con.records.take con.record_count := by
    refine ⟨_, rfl, ?_⟩
    rw [e1, e2]
    by_cases hg : con.record_count + records.length > con.record_size
    · rw [if_pos hg]
      dsimp only
      refine ⟨rfl, rfl, rfl, by rw [length_realloc_records]; omega, ?_⟩
      apply List.ext_getElem?
      intro j
      rw [List.getElem?_take, List.getElem?_take]
      by_cases hj : j < con.record_count
      · rw [if_pos hj, if_pos hj, getElem?_realloc_records _ _ _ _ (by omega) (by omega)]
      · rw [if_neg hj, if_neg hj]
    · rw [if_neg hg]
      exact ⟨rfl, rfl, rfl, by omega, rfl⟩
  -- the loop
  obtain ⟨s, hs, s1, s2, s3⟩ : ∃ s : ctrl_c_state,
      s = ctrl_c_loop records con1.record_count records.length
        ⟨write_records con1.records con1.record_count records, records.length, 0, []⟩ ∧
      s.count = k ∧
      s.requests = List.replicate
          (if k < records.length ∧ (records.getD k default).bKeyDown ≠ 0
            then records.length - k else 0)
          (server_request.ctrl_event CTRL_C_EVENT 0) ∧
      ∀ j, j < con.record_count + k →
        s.array[j]? = (write_records con1.records con1.record_count records)[j]? := by
    refine ⟨_, rfl, ?_⟩
    have hsplit : records.length = k + (records.length - k) := by omega
    rw [hsplit, ctrl_c_loop_skip records con1.record_count k (records.length - k) _
      (fun j _ h2 => hbefore j (by dsimp only at h2; omega)), ← hsplit]
    dsimp only
    rw [Nat.zero_add]
    by_cases hkn : k < records.length
    · obtain ⟨_, r2, r3, r4⟩ := ctrl_c_loop_stuck records con1.record_count
        (records.length - k)
        ⟨write_records con1.records con1.record_count records, records.length, k, []⟩
        (hat hkn) (U32_of_lt _ (by dsimp only; omega))
      dsimp only at r2 r3 r4
      refine ⟨by rw [r2]; omega, ?_, fun j hj => r4 j (by omega)⟩
      rw [r3, List.nil_append]
      by_cases hd : (records.getD k default).bKeyDown ≠ 0
      · rw [if_pos hd, if_pos ⟨hkn, hd⟩]
      · rw [if_neg hd, if_neg (fun h => hd h.2)]
    · have hz : records.length - k = 0 := by omega
      rw [hz]
      simp only [ctrl_c_loop]
      refine ⟨by omega, ?_, by intros; trivial⟩
      rw [if_neg (fun h => hkn h.1)]
      rfl
  have hfin : ¬ (s.count ≠ 0 ∧ con1.pending_read ≠ 0) := by omega
  have hmode1 : mask_has con1.mode ENABLE_PROCESSED_INPUT := by rw [hm1]; exact hmode
  unfold write_console_input input_queue
  rw [if_neg hcnt]
  dsimp only
  rw [read_records_all, ← hcon1, if_pos hmode1, ← hs]
  rw [if_neg hfin]
  dsimp only
  refine ⟨?_, s2⟩
  rw [hc1, s1, U32_of_lt _ (by omega)]
  apply List.ext_getElem?
  intro j
  rw [List.getElem?_take]
  by_cases hj : j < con.record_count + k
  · rw [if_pos hj, s3 j hj, hc1, getElem?_write_records, List.getElem?_append, List.length_take,
      Nat.min_eq_left (by omega)]
    by_cases hj1 : j < con.record_count
    · rw [if_neg (by omega), if_pos hj1, ← hq1, List.getElem?_take, if_pos hj1]
    · rw [if_pos ⟨by omega, by omega, by omega⟩, if_neg hj1, List.getElem?_take,
        if_pos (by omega)]
  · rw [if_neg hj, List.getElem?_eq_none]
    rw [List.length_append, List.length_take, List.length_take]
    omega

/-- The function `read_console_input` sends no `CTRL_EVENT` request. -/
theorem read_console_input_requests (server_status : NTSTATUS) (con : console)
    (out_size : Nat) (event : Int) (group_id : Nat) :
    server_request.ctrl_event event group_id ∉
      (read_console_input server_status con out_size).requests := by
  unfold read_console_input
  dsimp only
  split <;> simp

/-- With `ENABLE_PROCESSED_INPUT` clear, `write_console_input` sends no
`CTRL_EVENT` request, whatever is written. -/
theorem write_console_input_raw_requests (fresh : Nat → INPUT_RECORD)
    (server_status : NTSTATUS) (con : console) (records : List INPUT_RECORD) (count : Nat)
    (hmode : ¬ mask_has con.mode ENABLE_PROCESSED_INPUT) (event : Int) (group_id : Nat) :
    server_request.ctrl_event event group_id ∉
      (write_console_input fresh server_status con records count).requests := by
  unfold write_console_input
  split
  · simp
  · dsimp only
    have hm : ¬ mask_has
        (if U32 (con.record_count + count) > con.record_size then
          { con with
            records := realloc_records fresh con.records (U32 (con.record_size * 2 + count))
            record_size := U32 (con.record_size * 2 + count) }
        else con).mode ENABLE_PROCESSED_INPUT := by
      split <;> exact hmode
    rw [if_neg hm]
    dsimp only
    split <;> (try dsimp only) <;> split <;>
      first
      | (dsimp only; rw [List.nil_append]; exact read_console_input_requests _ _ _ _ _)
      | simp

/-! ## write_console_input with processed input -/

/-- C19 at its failing input: with `ENABLE_PROCESSED_INPUT` set, a Ctrl-C key
record followed by the key `a` is written to the empty queue. The written
records that are not Ctrl-C records are the record of `a`, yet the queue is
empty afterwards: the record of `a` is dropped with the Ctrl-C record. -/
theorem write_console_input_ctrl_c_drops :
    [key_record 3 1, key_record 97 1].filter (fun r => decide (¬ is_ctrl_c r))
      = [key_record 97 1] ∧
    (write_console_input fresh_record STATUS_SUCCESS console_processed
      [key_record 3 1, key_record 97 1] 2).status = STATUS_SUCCESS ∧
    input_queue (write_console_input fresh_record STATUS_SUCCESS console_processed
      [key_record 3 1, key_record 97 1] 2).console = [] := by
  decide

/-- C20 at its failing input: with `ENABLE_PROCESSED_INPUT` set, a Ctrl-C
key-down record followed by the keys `a` and `b` is written. One written
record is a Ctrl-C key record with `bKeyDown` set, yet three `CTRL_EVENT`
requests are sent to the server. -/
theorem write_console_input_ctrl_c_events :
    ([key_record 3 1, key_record 97 1, key_record 98 1].filter
      (fun r => decide (is_ctrl_c r ∧ r.bKeyDown ≠ 0))).length = 1 ∧
    (write_console_input fresh_record STATUS_SUCCESS console_processed
      [key_record 3 1, key_record 97 1, key_record 98 1] 3).requests
      = [server_request.ctrl_event CTRL_C_EVENT 0, server_request.ctrl_event CTRL_C_EVENT 0,
        server_request.ctrl_event CTRL_C_EVENT 0] := by
  decide

/-! ## The tty buffer -/

/-- A write appends its bytes to the stream towards the tty. -/
theorem tty_write_stream (t : console_tty) (b : List Nat) (h : t.tty_output = true) :
    tty_stream (tty_write t b) = tty_stream t ++ b := by
  unfold tty_write tty_stream tty_flush
  by_cases hb : b.length = 0
  · have : b = [] := List.length_eq_zero.mp hb
    subst this
    simp
  · simp only [hb, h, false_or, Bool.true_eq_false, if_true, if_false, sizeof_tty_buffer]
    split <;> split <;> (try split) <;> simp_all

/-- A write changes the buffer and the bytes written only. -/
theorem tty_write_fields (t : console_tty) (b : List Nat) :
    (tty_write t b).tty_output = t.tty_output ∧
    (tty_write t b).tty_cursor_x = t.tty_cursor_x ∧
    (tty_write t b).tty_cursor_y = t.tty_cursor_y ∧
    (tty_write t b).tty_attr = t.tty_attr ∧
    (tty_write t b).tty_cursor_visible = t.tty_cursor_visible := by
  unfold tty_write tty_flush
  dsimp only
  split
  · simp
  · split <;> split <;> (try split) <;> simp

theorem hide_tty_cursor_stream (t : console_tty) (h : t.tty_output = true) :
    tty_stream (hide_tty_cursor t) =
      tty_stream t ++ (if t.tty_cursor_visible ≠ 0 then [27, 91, 50, 53, 108] else []) := by
  unfold hide_tty_cursor
  split
  · have := tty_write_stream t [27, 91, 50, 53, 108] h
    unfold tty_stream at *
    exact this
  · simp

theorem hide_tty_cursor_fields (t : console_tty) :
    (hide_tty_cursor t).tty_output = t.tty_output ∧
    (hide_tty_cursor t).tty_cursor_x = t.tty_cursor_x ∧
    (hide_tty_cursor t).tty_cursor_y = t.tty_cursor_y ∧
    (hide_tty_cursor t).tty_attr = t.tty_attr := by
  unfold hide_tty_cursor
  have := tty_write_fields t [27, 91, 50, 53, 108]
  split
  · exact ⟨this.1, this.2.1, this.2.2.1, this.2.2.2.1⟩
  · simp

theorem sprintf_u_U32 (n : Nat) : sprintf_u (U32 n) = sprintf_u n := by
  unfold sprintf_u U32
  rw [Nat.mod_mod]

/-- The digits of `decimal_digits` are those of `n`, put before `acc`. -/
theorem decimal_digits_value (fuel : Nat) :
    ∀ (n : Nat) (acc : List Nat), n < 10 ^ fuel →
      (decimal_digits fuel n acc).foldl (fun (v d : Nat) => 10 * v + (d - 48)) 0 =
        acc.foldl (fun (v d : Nat) => 10 * v + (d - 48)) n := by
  induction fuel with
  | zero =>
    intro n acc h
    have : n = 0 := by simpa using h
    subst this
    rfl
  | succ fuel ih =>
    intro n acc h
    unfold decimal_digits
    split
    · simp
    · have h1 : n / 10 < 10 ^ fuel := by
        apply Nat.div_lt_of_lt_mul
        rw [pow_succ] at h
        omega
      rw [ih (n / 10) _ h1]
      simp only [List.foldl_cons]
      congr 1
      omega

/-- The text of `sprintf_u` is the decimal representation of its argument. -/
theorem sprintf_u_value (n : Nat) (h : n < 4294967296) : decimal_value (sprintf_u n) = n := by
  unfold decimal_value sprintf_u
  rw [U32_of_lt n h, decimal_digits_value 10 n [] (by omega)]
  rfl

/-! ## The cursor of the tty -/

/-- C28: for a console with a tty, `set_tty_cursor (x, y)` from the believed
position `(cx, cy)` appends to the tty stream the bytes the specification
lists: nothing for the same position, `"\r\n"` for the start of the next row,
`"\r"` for the start of the same row, on the same row `"\b"` for one column
back and otherwise `ESC[<n>C` or `ESC[<n>D`, `ESC[H` for the origin, and for
any other target the cursor-hide text (only when the tty cursor is marked
visible) followed by `ESC[<y+1>;<x+1>H`. Afterwards the believed position is
`(x, y)`. The coordinates are `unsigned int` values below the last one, and
the numbers are printed in decimal. -/
theorem set_tty_cursor_emits (t : console_tty) (x y : Nat)
    (htty : t.tty_output = true)
    (hx : x + 1 < 4294967296) (hy : y + 1 < 4294967296)
    (hcx : t.tty_cursor_x < 4294967296) (hcy : t.tty_cursor_y + 1 < 4294967296) :
    tty_stream (set_tty_cursor t x y) =
      tty_stream t ++
        set_tty_cursor_emission x y t.tty_cursor_x t.tty_cursor_y
          (decide (t.tty_cursor_visible ≠ 0)) ∧
    (set_tty_cursor t x y).tty_cursor_x = x ∧
    (set_tty_cursor t x y).tty_cursor_y = y ∧
    (∀ n, n ∈ [x - t.tty_cursor_x, t.tty_cursor_x - x, y + 1, x + 1] →
      decimal_value (sprintf_u n) = n) := by
  have hnum : ∀ n, n ∈ [x - t.tty_cursor_x, t.tty_cursor_x - x, y + 1, x + 1] →
      decimal_value (sprintf_u n) = n := by
    intro n hn
    apply sprintf_u_value
    simp only [List.mem_cons, List.mem_singleton, List.not_mem_nil, or_false] at hn
    omega
  suffices main : tty_stream (set_tty_cursor t x y) =
        tty_stream t ++
          set_tty_cursor_emission x y t.tty_cursor_x t.tty_cursor_y
            (decide (t.tty_cursor_visible ≠ 0)) ∧
      (set_tty_cursor t x y).tty_cursor_x = x ∧
      (set_tty_cursor t x y).tty_cursor_y = y from ⟨main.1, main.2.1, main.2.2, hnum⟩
  have e1 : U32 (t.tty_cursor_y + 1) = t.tty_cursor_y + 1 := U32_of_lt _ hcy
  have e2 : U32 (x + 1) = x + 1 := U32_of_lt _ hx
  unfold set_tty_cursor set_tty_cursor_emission
  rw [e1, e2]
  simp only [sprintf_u_U32]
  by_cases h0 : t.tty_cursor_x = x ∧ t.tty_cursor_y = y
  · rw [if_pos h0, if_pos ⟨h0.1.symm, h0.2.symm⟩]
    simp [h0.1, h0.2]
  · have h0b : ¬ (x = t.tty_cursor_x ∧ y = t.tty_cursor_y) := fun h => h0 ⟨h.1.symm, h.2.symm⟩
    rw [if_neg h0, if_neg h0b]
    have key : ∀ (t1 : console_tty) (b : List Nat), t1.tty_output = true →
        tty_stream (tty_write { t1 with tty_cursor_x := x, tty_cursor_y := y } b) =
          tty_stream t1 ++ b ∧
        (tty_write { t1 with tty_cursor_x := x, tty_cursor_y := y } b).tty_cursor_x = x ∧
        (tty_write { t1 with tty_cursor_x := x, tty_cursor_y := y } b).tty_cursor_y = y := by
      intro t1 b h1
      have hs := tty_write_stream { t1 with tty_cursor_x := x, tty_cursor_y := y } b h1
      have hf := tty_write_fields { t1 with tty_cursor_x := x, tty_cursor_y := y } b
      exact ⟨hs, hf.2.1, hf.2.2.1⟩
    by_cases h1 : x = 0 ∧ y = t.tty_cursor_y + 1
    · rw [if_pos h1, if_pos h1]
      exact key t _ htty
    · rw [if_neg h1, if_neg h1]
      by_cases h2 : x = 0 ∧ y = t.tty_cursor_y
      · rw [if_pos h2, if_pos h2]
        exact key t _ htty
      · rw [if_neg h2, if_neg h2]
        by_cases h3 : y = t.tty_cursor_y
        · rw [if_pos h3, if_pos h3]
          by_cases h4 : x + 1 = t.tty_cursor_x
          · rw [if_pos h4, if_pos h4]
            exact key t _ htty
          · rw [if_neg h4, if_neg h4]
            by_cases h5 : x > t.tty_cursor_x
            · rw [if_pos h5, if_pos h5]
              exact key t _ htty
            · rw [if_neg h5, if_neg h5]
              exact key t _ htty
        · rw [if_neg h3, if_neg h3]
          by_cases h6 : x = 0 ∧ y = 0
          · have h6b : ¬ (x ≠ 0 ∨ y ≠ 0) := by omega
            rw [if_neg h6b, if_pos h6]
            exact key t _ htty
          · have h6b : x ≠ 0 ∨ y ≠ 0 := by omega
            rw [if_pos h6b, if_neg h6]
            have hh := key (hide_tty_cursor t) ([27, 91] ++ sprintf_u (y + 1) ++ [59] ++
              sprintf_u (x + 1) ++ [72]) (by rw [(hide_tty_cursor_fields t).1]; exact htty)
            refine ⟨?_, hh.2.1, hh.2.2⟩
            rw [hh.1, hide_tty_cursor_stream t htty]
            by_cases hv : t.tty_cursor_visible ≠ 0
            · simp [hv]
            · simp [hv]

theorem set_tty_cursor_emits_witness :
    tty_stream (set_tty_cursor tty_moved 3 5) =
      tty_stream tty_moved ++
        set_tty_cursor_emission 3 5 tty_moved.tty_cursor_x tty_moved.tty_cursor_y
          (decide (tty_moved.tty_cursor_visible ≠ 0)) ∧
    (set_tty_cursor tty_moved 3 5).tty_cursor_x = 3 ∧
    (set_tty_cursor tty_moved 3 5).tty_cursor_y = 5 ∧
    (∀ n, n ∈ [3 - tty_moved.tty_cursor_x, tty_moved.tty_cursor_x - 3, 5 + 1, 3 + 1] →
      decimal_value (sprintf_u n) = n) :=
  set_tty_cursor_emits tty_moved 3 5 (by decide) (by decide) (by decide) (by decide) (by decide)

/-- The bytes for the move from (6, 2) to (3, 5): the
cursor-hide text and `ESC[6;4H`. -/
theorem set_tty_cursor_example :
    tty_stream (set_tty_cursor tty_moved 3 5) =
      [27, 91, 50, 53, 108, 27, 91, 54, 59, 52, 72] := by
  decide

/-! ## The attribute of the tty -/

/-- The number `set_tty_attr` computes is the one of the specification. -/
theorem tty_attr_number_eq (a base blue green red intensity : Nat) (h : base + 67 < 4294967296) :
    tty_attr_number a base blue green red intensity =
      sgr_number a base red green blue intensity := by
  unfold tty_attr_number sgr_number U32
  dsimp only
  split <;> split <;> split <;> split <;> omega

/-- The number of the specification is `base + c` or `base + 60 + c` with
`c` in 0..7. -/
theorem sgr_number_range (a base red green blue intensity : Nat) :
    (base ≤ sgr_number a base red green blue intensity ∧
      sgr_number a base red green blue intensity ≤ base + 7) ∨
    (base + 60 ≤ sgr_number a base red green blue intensity ∧
      sgr_number a base red green blue intensity ≤ base + 67) := by
  unfold sgr_number
  split <;> split <;> split <;> split <;> omega

/-- C29: for a console with a tty, `set_tty_attr (a)` after the attribute
`p` appends to the tty stream the foreground part followed by the background
part of the specification: the foreground part is empty when the low nibbles
agree, `ESC[m` when the new low nibble is 7 and otherwise `ESC[<n>m` with
`n = 30 + (red ? 1) + (green ? 2) + (blue ? 4) + (intensity ? 60)`, in 30..37
or 90..97; the background part is empty when the high nibbles agree or
`a = 7`, and otherwise `ESC[<n>m` with `n` formed in the same way from 40,
in 40..47 or 100..107. Afterwards `tty_attr` is `a`. -/
theorem set_tty_attr_emits (t : console_tty) (a : Nat) (htty : t.tty_output = true) :
    tty_stream (set_tty_attr t a) =
      tty_stream t ++ (set_tty_attr_foreground t.tty_attr a ++
        set_tty_attr_background t.tty_attr a) ∧
    (set_tty_attr t a).tty_attr = a ∧
    ((30 ≤ sgr_number a 30 FOREGROUND_RED FOREGROUND_GREEN FOREGROUND_BLUE FOREGROUND_INTENSITY ∧
        sgr_number a 30 FOREGROUND_RED FOREGROUND_GREEN FOREGROUND_BLUE FOREGROUND_INTENSITY ≤ 37) ∨
      (90 ≤ sgr_number a 30 FOREGROUND_RED FOREGROUND_GREEN FOREGROUND_BLUE FOREGROUND_INTENSITY ∧
        sgr_number a 30 FOREGROUND_RED FOREGROUND_GREEN FOREGROUND_BLUE FOREGROUND_INTENSITY ≤ 97)) ∧
    ((40 ≤ sgr_number a 40 BACKGROUND_RED BACKGROUND_GREEN BACKGROUND_BLUE BACKGROUND_INTENSITY ∧
        sgr_number a 40 BACKGROUND_RED BACKGROUND_GREEN BACKGROUND_BLUE BACKGROUND_INTENSITY ≤ 47) ∨
      (100 ≤ sgr_number a 40 BACKGROUND_RED BACKGROUND_GREEN BACKGROUND_BLUE
          BACKGROUND_INTENSITY ∧
        sgr_number a 40 BACKGROUND_RED BACKGROUND_GREEN BACKGROUND_BLUE BACKGROUND_INTENSITY
          ≤ 107)) := by
  refine ⟨?_, rfl, sgr_number_range a 30 _ _ _ _, sgr_number_range a 40 _ _ _ _⟩
  unfold set_tty_attr set_tty_attr_foreground set_tty_attr_background
  rw [tty_attr_number_eq a 30 _ _ _ _ (by omega), tty_attr_number_eq a 40 _ _ _ _ (by omega)]
  dsimp only
  have hw : ∀ (t1 : console_tty) (b : List Nat), t1.tty_output = true →
      (tty_write t1 b).tty_output = true ∧ (tty_write t1 b).tty_attr = t1.tty_attr ∧
        tty_stream (tty_write t1 b) = tty_stream t1 ++ b := by
    intro t1 b h1
    exact ⟨by rw [(tty_write_fields t1 b).1]; exact h1, (tty_write_fields t1 b).2.2.2.1,
      tty_write_stream t1 b h1⟩
  have hattr : ∀ (t1 : console_tty), tty_stream { t1 with tty_attr := a } = tty_stream t1 :=
    fun _ => rfl
  by_cases c1 : (a &&& 0x0f) = (t.tty_attr &&& 0x0f)
  · rw [if_neg (not_not.mpr c1), if_pos c1, List.nil_append]
    by_cases c3 : (a &&& 0xf0) = (t.tty_attr &&& 0xf0) ∨ a = 7
    · have c3b : ¬ ((a &&& 0xf0) ≠ (t.tty_attr &&& 0xf0) ∧ a ≠ 7) := by tauto
      rw [if_neg c3b, if_pos c3, hattr, List.append_nil]
    · have c3b : (a &&& 0xf0) ≠ (t.tty_attr &&& 0xf0) ∧ a ≠ 7 := by tauto
      rw [if_pos c3b, if_neg c3, hattr, (hw t _ htty).2.2]
  · rw [if_pos c1, if_neg c1]
    by_cases c2 : (a &&& 0x0f) = 7
    · rw [if_neg (not_not.mpr c2), if_pos c2]
      have h1 := hw t [27, 91, 109] htty
      rw [h1.2.1]
      by_cases c3 : (a &&& 0xf0) = (t.tty_attr &&& 0xf0) ∨ a = 7
      · have c3b : ¬ ((a &&& 0xf0) ≠ (t.tty_attr &&& 0xf0) ∧ a ≠ 7) := by tauto
        rw [if_neg c3b, if_pos c3, hattr, List.append_nil, h1.2.2]
      · have c3b : (a &&& 0xf0) ≠ (t.tty_attr &&& 0xf0) ∧ a ≠ 7 := by tauto
        rw [if_pos c3b, if_neg c3, hattr, (hw _ _ h1.1).2.2, h1.2.2, List.append_assoc]
    · rw [if_pos c2, if_neg c2]
      have h1 := hw t ([27, 91] ++ sprintf_u (sgr_number a 30 FOREGROUND_RED FOREGROUND_GREEN
        FOREGROUND_BLUE FOREGROUND_INTENSITY) ++ [109]) htty
      rw [h1.2.1]
      by_cases c3 : (a &&& 0xf0) = (t.tty_attr &&& 0xf0) ∨ a = 7
      · have c3b : ¬ ((a &&& 0xf0) ≠ (t.tty_attr &&& 0xf0) ∧ a ≠ 7) := by tauto
        rw [if_neg c3b, if_pos c3, hattr, List.append_nil, h1.2.2]
      · have c3b : (a &&& 0xf0) ≠ (t.tty_attr &&& 0xf0) ∧ a ≠ 7 := by tauto
        rw [if_pos c3b, if_neg c3, hattr, (hw _ _ h1.1).2.2, h1.2.2, List.append_assoc]

theorem set_tty_attr_emits_witness :
    tty_stream (set_tty_attr tty_moved 0xf4) =
      tty_stream tty_moved ++ (set_tty_attr_foreground tty_moved.tty_attr 0xf4 ++
        set_tty_attr_background tty_moved.tty_attr 0xf4) ∧
    (set_tty_attr tty_moved 0xf4).tty_attr = 0xf4 ∧
    ((30 ≤ sgr_number 0xf4 30 FOREGROUND_RED FOREGROUND_GREEN FOREGROUND_BLUE
          FOREGROUND_INTENSITY ∧
        sgr_number 0xf4 30 FOREGROUND_RED FOREGROUND_GREEN FOREGROUND_BLUE FOREGROUND_INTENSITY
          ≤ 37) ∨
      (90 ≤ sgr_number 0xf4 30 FOREGROUND_RED FOREGROUND_GREEN FOREGROUND_BLUE
          FOREGROUND_INTENSITY ∧
        sgr_number 0xf4 30 FOREGROUND_RED FOREGROUND_GREEN FOREGROUND_BLUE FOREGROUND_INTENSITY
          ≤ 97)) ∧
    ((40 ≤ sgr_number 0xf4 40 BACKGROUND_RED BACKGROUND_GREEN BACKGROUND_BLUE
          BACKGROUND_INTENSITY ∧
        sgr_number 0xf4 40 BACKGROUND_RED BACKGROUND_GREEN BACKGROUND_BLUE BACKGROUND_INTENSITY
          ≤ 47) ∨
      (100 ≤ sgr_number 0xf4 40 BACKGROUND_RED BACKGROUND_GREEN BACKGROUND_BLUE
          BACKGROUND_INTENSITY ∧
        sgr_number 0xf4 40 BACKGROUND_RED BACKGROUND_GREEN BACKGROUND_BLUE BACKGROUND_INTENSITY
          ≤ 107)) :=
  set_tty_attr_emits tty_moved 0xf4 (by decide)

/-- The bytes for the attribute 0xf4 after 0x1c: `ESC[31m` for
red and `ESC[107m` for the bright white background. -/
theorem set_tty_attr_example :
    tty_stream (set_tty_attr tty_moved 0xf4) = [27, 91, 51, 49, 109, 27, 91, 49, 48, 55, 109] := by
  decide

/-! ## Reading the input queue -/

/-- The records `memcpy` reads from inside the array. -/
theorem read_records_eq (array : List INPUT_RECORD) (src n : Nat)
    (h : src + n ≤ array.length) :
    read_records array src n = (array.drop src).take n := by
  apply List.ext_getElem?
  intro j
  unfold read_records
  rw [List.getElem?_map, List.getElem?_take]
  by_cases hj : j < n
  · rw [List.getElem?_range hj, if_pos hj, List.getElem?_drop]
    have hin : src + j < array.length := by omega
    simp [List.getD_eq_getElem?_getD, List.getElem?_eq_getElem hin]
  · rw [if_neg hj, List.getElem?_eq_none (by simpa using hj)]
    rfl

/-- The function `read_console_input` serves the head of the queue: with a
successful server call it sends the first `k = min (C / sizeof(INPUT_RECORD),
record_count)` records and leaves the others, in order. -/
theorem read_console_input_fifo (con : console) (out_size : Nat)
    (harr : con.record_count ≤ con.records.length)
    (h32 : con.record_count < 4294967296) :
    (read_console_input STATUS_SUCCESS con out_size).status = STATUS_SUCCESS ∧
    (read_console_input STATUS_SUCCESS con out_size).requests =
      [server_request.get_next_console_request STATUS_SUCCESS
        (decide (min (out_size / sizeof_INPUT_RECORD) con.record_count < con.record_count)) 1
        ((input_queue con).take (min (out_size / sizeof_INPUT_RECORD) con.record_count))] ∧
    input_queue (read_console_input STATUS_SUCCESS con out_size).console =
      (input_queue con).drop (min (out_size / sizeof_INPUT_RECORD) con.record_count) ∧
    (read_console_input STATUS_SUCCESS con out_size).console.record_count =
      con.record_count - min (out_size / sizeof_INPUT_RECORD) con.record_count ∧
    (read_console_input STATUS_SUCCESS con out_size).console.records.length =
      con.records.length ∧
    (read_console_input STATUS_SUCCESS con out_size).console.pending_read = con.pending_read ∧
    (read_console_input STATUS_SUCCESS con out_size).console.mode = con.mode ∧
    (read_console_input STATUS_SUCCESS con out_size).console.record_size = con.record_size := by
  generalize hk : min (out_size / sizeof_INPUT_RECORD) con.record_count = k
  have hkle : k ≤ con.record_count := by omega
  have hu : U32 (con.record_count - k) = con.record_count - k := U32_of_lt _ (by omega)
  unfold read_console_input input_queue
  simp only [hk, ne_eq, not_true_eq_false, if_true, if_false, hu]
  refine ⟨trivial, ?_, ?_, trivial, ?_, trivial, trivial, trivial⟩
  · rw [read_records_eq _ _ _ (by omega), List.drop_zero, List.take_take,
      Nat.min_eq_left hkle]
  · by_cases hlt : k < con.record_count
    · rw [if_pos hlt, read_records_eq _ _ _ (by omega)]
      have hlen : ((List.drop k con.records).take (con.record_count - k)).length =
          con.record_count - k := by
        rw [List.length_take, List.length_drop]; omega
      have := take_write_records con.records
        ((List.drop k con.records).take (con.record_count - k)) 0 (by rw [hlen]; omega)
      rw [hlen, Nat.zero_add, List.take_zero, List.nil_append] at this
      rw [this, List.drop_take]
    · rw [if_neg hlt]
      have : k = con.record_count := by omega
      rw [this]
      simp
  · split
    · rw [length_write_records]
    · rfl

/-- C21: `READ_INPUT` is first in, first out. For every queue and every
capacity `C`, a read that is accepted and not parked, with a successful
transport call, replies with exactly the first
`k = min (C / sizeof(INPUT_RECORD), record_count)` records of the queue in
order, and leaves the old queue without these `k` records. The array holds
the `record_count` entries, an `unsigned int`. -/
theorem read_input_fifo (con : console) (in_size in_data out_size : Nat)
    (haccept : in_size = 0 ∨ in_size = sizeof_unsigned_int)
    (hserved : ¬ ((in_size ≠ 0 ∧ in_data ≠ 0) ∧ con.record_count = 0 ∧ out_size ≠ 0))
    (harr : con.record_count ≤ con.records.length)
    (h32 : con.record_count < 4294967296) :
    (ioctl_read_input STATUS_SUCCESS con in_size in_data out_size).status = STATUS_SUCCESS ∧
    (ioctl_read_input STATUS_SUCCESS con in_size in_data out_size).requests =
      [server_request.get_next_console_request STATUS_SUCCESS
        (decide (min (out_size / sizeof_INPUT_RECORD) con.record_count < con.record_count)) 1
        ((input_queue con).take (min (out_size / sizeof_INPUT_RECORD) con.record_count))] ∧
    input_queue (ioctl_read_input STATUS_SUCCESS con in_size in_data out_size).console =
      (input_queue con).drop (min (out_size / sizeof_INPUT_RECORD) con.record_count) ∧
    (ioctl_read_input STATUS_SUCCESS con in_size in_data out_size).console.record_count =
      con.record_count - min (out_size / sizeof_INPUT_RECORD) con.record_count := by
  have hf := read_console_input_fifo con out_size harr h32
  have hin : ¬ (in_size ≠ 0 ∧ in_size ≠ sizeof_unsigned_int) := by omega
  have hblock : ¬ ((if in_size ≠ 0 ∧ in_data ≠ 0 then 1 else 0) ≠ 0 ∧ con.record_count = 0 ∧
      out_size ≠ 0) := by
    intro h
    apply hserved
    refine ⟨?_, h.2⟩
    by_contra hc
    rw [if_neg hc] at h
    exact h.1 rfl
  unfold ioctl_read_input
  rw [if_neg hin]
  dsimp only
  rw [if_neg hblock]
  exact ⟨hf.1, hf.2.1, hf.2.2.1, hf.2.2.2.1⟩

theorem read_input_fifo_witness :
    (ioctl_read_input STATUS_SUCCESS console_ab 4 1 30).status = STATUS_SUCCESS ∧
    (ioctl_read_input STATUS_SUCCESS console_ab 4 1 30).requests =
      [server_request.get_next_console_request STATUS_SUCCESS
        (decide (min (30 / sizeof_INPUT_RECORD) console_ab.record_count
          < console_ab.record_count)) 1
        ((input_queue console_ab).take (min (30 / sizeof_INPUT_RECORD) console_ab.record_count))] ∧
    input_queue (ioctl_read_input STATUS_SUCCESS console_ab 4 1 30).console =
      (input_queue console_ab).drop (min (30 / sizeof_INPUT_RECORD) console_ab.record_count) ∧
    (ioctl_read_input STATUS_SUCCESS console_ab 4 1 30).console.record_count =
      console_ab.record_count - min (30 / sizeof_INPUT_RECORD) console_ab.record_count :=
  read_input_fifo console_ab 4 1 30 (by decide) (by decide) (by decide) (by decide)

/-- A read from the queue of `a` and `b` in figures: a capacity of 30
bytes holds one record, `a` is sent and `b` stays. -/
theorem read_input_example :
    (ioctl_read_input STATUS_SUCCESS console_ab 4 1 30).requests =
      [server_request.get_next_console_request STATUS_SUCCESS true 1 [key_record 97 1]] ∧
    input_queue (ioctl_read_input STATUS_SUCCESS console_ab 4 1 30).console =
      [key_record 98 1] := by
  decide

/-! ## Parking a read -/

/-- C22: an accepted `READ_INPUT` request returns `STATUS_PENDING` if and
only if the blocking flag of its payload is not zero, the queue is empty and
the capacity `C` is positive; the read is then parked: `pending_read`
becomes `C`, nothing else changes and no request is sent. In every other
accepted case the read is served at once by `read_console_input`, and
`pending_read` keeps its value. The transport call of a read that is served
is taken not to return `STATUS_PENDING` itself. -/
theorem read_input_parking (server_status : NTSTATUS) (con : console)
    (in_size in_data out_size : Nat)
    (haccept : in_size = 0 ∨ in_size = sizeof_unsigned_int)
    (hserver : server_status ≠ STATUS_PENDING) :
    ((ioctl_read_input server_status con in_size in_data out_size).status = STATUS_PENDING ↔
      ((in_size ≠ 0 ∧ in_data ≠ 0) ∧ con.record_count = 0 ∧ 0 < out_size)) ∧
    (((in_size ≠ 0 ∧ in_data ≠ 0) ∧ con.record_count = 0 ∧ 0 < out_size) →
      (ioctl_read_input server_status con in_size in_data out_size).console =
        { con with pending_read := out_size } ∧
      input_queue (ioctl_read_input server_status con in_size in_data out_size).console =
        input_queue con ∧
      (ioctl_read_input server_status con in_size in_data out_size).requests = []) ∧
    (¬ ((in_size ≠ 0 ∧ in_data ≠ 0) ∧ con.record_count = 0 ∧ 0 < out_size) →
      (ioctl_read_input server_status con in_size in_data out_size).status =
        (read_console_input server_status con out_size).status ∧
      (ioctl_read_input server_status con in_size in_data out_size).console =
        (read_console_input server_status con out_size).console ∧
      (ioctl_read_input server_status con in_size in_data out_size).requests =
        (read_console_input server_status con out_size).requests ∧
      (ioctl_read_input server_status con in_size in_data out_size).requests ≠ [] ∧
      (ioctl_read_input server_status con in_size in_data out_size).console.pending_read =
        con.pending_read) := by
  have hin : ¬ (in_size ≠ 0 ∧ in_size ≠ sizeof_unsigned_int) := by omega
  have hread : (read_console_input server_status con out_size).status ≠ STATUS_PENDING ∧
      (read_console_input server_status con out_size).requests ≠ [] ∧
      (read_console_input server_status con out_size).console.pending_read =
        con.pending_read := by
    unfold read_console_input
    dsimp only
    split
    · exact ⟨hserver, by simp, rfl⟩
    · exact ⟨by simp, by simp, rfl⟩
  unfold ioctl_read_input
  rw [if_neg hin]
  dsimp only
  by_cases hp : (in_size ≠ 0 ∧ in_data ≠ 0) ∧ con.record_count = 0 ∧ 0 < out_size
  · have hb : (if in_size ≠ 0 ∧ in_data ≠ 0 then 1 else 0) ≠ 0 ∧ con.record_count = 0 ∧
        out_size ≠ 0 := by
      rw [if_pos hp.1]
      exact ⟨by decide, hp.2.1, by omega⟩
    rw [if_pos hb]
    refine ⟨⟨fun _ => hp, fun _ => rfl⟩, fun _ => ⟨rfl, rfl, rfl⟩, fun h => absurd hp h⟩
  · have hb : ¬ ((if in_size ≠ 0 ∧ in_data ≠ 0 then 1 else 0) ≠ 0 ∧ con.record_count = 0 ∧
        out_size ≠ 0) := by
      intro h
      apply hp
      refine ⟨?_, h.2.1, by omega⟩
      by_contra hc
      rw [if_neg hc] at h
      exact h.1 rfl
    rw [if_neg hb]
    refine ⟨⟨fun h => absurd h hread.1, fun h => absurd h hp⟩, fun h => absurd h hp,
      fun _ => ⟨rfl, rfl, rfl, hread.2.1, hread.2.2⟩⟩

theorem read_input_parking_witness :
    ((ioctl_read_input STATUS_SUCCESS console_raw 4 1 30).status = STATUS_PENDING ↔
      (((4 : Nat) ≠ 0 ∧ (1 : Nat) ≠ 0) ∧ console_raw.record_count = 0 ∧ 0 < 30)) ∧
    ((((4 : Nat) ≠ 0 ∧ (1 : Nat) ≠ 0) ∧ console_raw.record_count = 0 ∧ 0 < 30) →
      (ioctl_read_input STATUS_SUCCESS console_raw 4 1 30).console =
        { console_raw with pending_read := 30 } ∧
      input_queue (ioctl_read_input STATUS_SUCCESS console_raw 4 1 30).console =
        input_queue console_raw ∧
      (ioctl_read_input STATUS_SUCCESS console_raw 4 1 30).requests = []) ∧
    (¬ (((4 : Nat) ≠ 0 ∧ (1 : Nat) ≠ 0) ∧ console_raw.record_count = 0 ∧ 0 < 30) →
      (ioctl_read_input STATUS_SUCCESS console_raw 4 1 30).status =
        (read_console_input STATUS_SUCCESS console_raw 30).status ∧
      (ioctl_read_input STATUS_SUCCESS console_raw 4 1 30).console =
        (read_console_input STATUS_SUCCESS console_raw 30).console ∧
      (ioctl_read_input STATUS_SUCCESS console_raw 4 1 30).requests =
        (read_console_input STATUS_SUCCESS console_raw 30).requests ∧
      (ioctl_read_input STATUS_SUCCESS console_raw 4 1 30).requests ≠ [] ∧
      (ioctl_read_input STATUS_SUCCESS console_raw 4 1 30).console.pending_read =
        console_raw.pending_read) :=
  read_input_parking STATUS_SUCCESS console_raw 4 1 30 (by decide) (by decide)

/-- A blocking read from an empty queue in figures, and the same
read without the blocking flag, which is served with no record. -/
theorem read_input_parking_example :
    (ioctl_read_input STATUS_SUCCESS console_raw 4 1 30).status = STATUS_PENDING ∧
    (ioctl_read_input STATUS_SUCCESS console_raw 4 1 30).console.pending_read = 30 ∧
    (ioctl_read_input STATUS_SUCCESS console_raw 4 0 30).status = STATUS_SUCCESS ∧
    (ioctl_read_input STATUS_SUCCESS console_raw 4 0 30).requests =
      [server_request.get_next_console_request STATUS_SUCCESS false 1 []] := by
  decide

/-! ## Peeking at the input queue -/

/-- A `PEEK` request leaves the console as it is. -/
theorem ioctl_peek_console (con : console) (in_size out_size : Nat) :
    (ioctl_peek con in_size out_size).console = con := by
  unfold ioctl_peek
  split <;> rfl

/-- A `PEEK` request whose capacity is a multiple of the record size replies
with the first `min (C / sizeof(INPUT_RECORD), record_count)` records, whole. -/
theorem ioctl_peek_whole_records (con : console) (out_size : Nat)
    (hmul : out_size % sizeof_INPUT_RECORD = 0)
    (harr : con.record_count ≤ con.records.length)
    (h32 : con.record_count < 4294967296) :
    (ioctl_peek con 0 out_size).status = STATUS_SUCCESS ∧
    (ioctl_peek con 0 out_size).out_size =
      sizeof_INPUT_RECORD * min (out_size / sizeof_INPUT_RECORD) con.record_count ∧
    (ioctl_peek con 0 out_size).records =
      (input_queue con).take (min (out_size / sizeof_INPUT_RECORD) con.record_count) ∧
    (ioctl_peek con 0 out_size).tail = 0 ∧
    (ioctl_peek con 0 out_size).cut_record = none := by
  have hs : SIZE_T ((con.record_count * sizeof_INPUT_RECORD : Nat) : Int) =
      con.record_count * sizeof_INPUT_RECORD :=
    SIZE_T_of_nat _ (by unfold sizeof_INPUT_RECORD; omega)
  have hs2 : SIZE_T ((con.record_count : Int) * (sizeof_INPUT_RECORD : Int)) =
      con.record_count * sizeof_INPUT_RECORD := by
    rw [← hs]; push_cast; rfl
  unfold ioctl_peek input_queue
  simp only [ne_eq, not_true_eq_false, if_true, if_false]
  have hm : min out_size (con.record_count * sizeof_INPUT_RECORD) =
      sizeof_INPUT_RECORD * min (out_size / sizeof_INPUT_RECORD) con.record_count := by
    unfold sizeof_INPUT_RECORD at *
    omega
  have hd : sizeof_INPUT_RECORD * min (out_size / sizeof_INPUT_RECORD) con.record_count /
      sizeof_INPUT_RECORD = min (out_size / sizeof_INPUT_RECORD) con.record_count := by
    unfold sizeof_INPUT_RECORD
    omega
  have hr : sizeof_INPUT_RECORD * min (out_size / sizeof_INPUT_RECORD) con.record_count %
      sizeof_INPUT_RECORD = 0 := by
    unfold sizeof_INPUT_RECORD
    omega
  rw [hs2, hm, hd, hr]
  refine ⟨trivial, rfl, ?_, rfl, ?_⟩
  · generalize hk : min (out_size / sizeof_INPUT_RECORD) con.record_count = k
    have hkle : k ≤ con.record_count := by omega
    rw [read_records_eq _ _ _ (by omega), List.drop_zero, List.take_take,
      Nat.min_eq_left hkle]
  · simp

/-- C24 at its failing input: the reply of `PEEK` is not made of whole
records when the capacity is not a multiple of the record size. With the
records `a` and `b` queued and a capacity of 30 bytes the reply has 30
bytes, the record `a` and the first 10 bytes of `b`, where the first
`min (30 / sizeof(INPUT_RECORD), record_count) = 1` whole record has 20
bytes. The queue, `record_count` and `pending_read` keep their values. -/
theorem ioctl_peek_cut_record :
    (ioctl_peek console_ab 0 30).status = STATUS_SUCCESS ∧
    (ioctl_peek console_ab 0 30).out_size = 30 ∧
    (ioctl_peek console_ab 0 30).records = [key_record 97 1] ∧
    (ioctl_peek console_ab 0 30).tail = 10 ∧
    (ioctl_peek console_ab 0 30).cut_record = some (key_record 98 1) ∧
    sizeof_INPUT_RECORD * min (30 / sizeof_INPUT_RECORD) console_ab.record_count = 20 ∧
    (ioctl_peek console_ab 0 30).console = console_ab := by
  decide

/-! ## Release of a parked read -/

/-- The loop of `write_console_input` never increases `count` and keeps the
length of the array. -/
theorem ctrl_c_loop_bounds (records : List INPUT_RECORD) (rc : Nat) (n : Nat) :
    ∀ (s : ctrl_c_state), (ctrl_c_loop records rc n s).count ≤ s.count ∧
      (ctrl_c_loop records rc n s).array.length = s.array.length := by
  induction n with
  | zero => intro s; simp [ctrl_c_loop]
  | succ n ih =>
    intro s
    simp only [ctrl_c_loop]
    split
    · refine ⟨le_trans (ih _).1 (by dsimp only; omega), ?_⟩
      rw [(ih _).2]
      dsimp only
      split
      · rw [length_write_records]
      · rfl
    · exact ih _

/-- The parts of `write_console_input` for a request with records: the
array `arr` of `size` entries, the number `cnt` of records appended and the
requests `reqs` do not depend on `pending_read`; a parked read is served by
`read_console_input` when a record was appended. -/
theorem write_console_input_parts (fresh : Nat → INPUT_RECORD) (server_status : NTSTATUS)
    (con : console) (records : List INPUT_RECORD) (n : Nat) (hn : n ≠ 0)
    (hcap : con.record_count ≤ con.record_size)
    (harr : con.records.length = con.record_size)
    (h32 : con.record_size * 2 + n < 4294967296) :
    ∃ (arr : List INPUT_RECORD) (size cnt : Nat) (reqs : List server_request),
      cnt ≤ n ∧ arr.length = size ∧ con.record_count + n ≤ size ∧ size < 4294967296 ∧
      ∀ (p : Nat),
        write_console_input fresh server_status { con with pending_read := p } records n =
          if cnt ≠ 0 ∧ p ≠ 0 then
            ⟨STATUS_SUCCESS,
              { (read_console_input server_status
                  ⟨con.mode, arr, con.record_count + cnt, size, p⟩ p).console with
                pending_read := 0 },
              reqs ++ (read_console_input server_status
                  ⟨con.mode, arr, con.record_count + cnt, size, p⟩ p).requests⟩
          else ⟨STATUS_SUCCESS, ⟨con.mode, arr, con.record_count + cnt, size, p⟩, reqs⟩ := by
  have e1 : U32 (con.record_count + n) = con.record_count + n := U32_of_lt _ (by omega)
  have e2 : U32 (con.record_size * 2 + n) = con.record_size * 2 + n := U32_of_lt _ h32
  by_cases hg : con.record_count + n > con.record_size
  · obtain ⟨s, hs⟩ : ∃ s : ctrl_c_state, s =
        (if mask_has con.mode ENABLE_PROCESSED_INPUT then
          ctrl_c_loop records con.record_count n
            ⟨write_records (realloc_records fresh con.records (con.record_size * 2 + n))
              con.record_count (read_records records 0 n), n, 0, []⟩
        else ⟨write_records (realloc_records fresh con.records (con.record_size * 2 + n))
              con.record_count (read_records records 0 n), n, 0, []⟩) := ⟨_, rfl⟩
    have hb : s.count ≤ n ∧ s.array.length = con.record_size * 2 + n := by
      rw [hs]
      split
      · have := ctrl_c_loop_bounds records con.record_count n
          ⟨write_records (realloc_records fresh con.records (con.record_size * 2 + n))
              con.record_count (read_records records 0 n), n, 0, []⟩
        refine ⟨this.1, ?_⟩
        rw [this.2, length_write_records, length_realloc_records]
      · refine ⟨le_refl _, ?_⟩
        rw [length_write_records, length_realloc_records]
    have e3 : U32 (con.record_count + s.count) = con.record_count + s.count :=
      U32_of_lt _ (by omega)
    refine ⟨s.array, con.record_size * 2 + n, s.count, s.requests, hb.1, hb.2, by omega, h32, ?_⟩
    intro p
    unfold write_console_input
    rw [if_neg hn]
    dsimp only
    rw [e1, if_pos hg]
    dsimp only
    rw [e2, ← hs, e3]
  · obtain ⟨s, hs⟩ : ∃ s : ctrl_c_state, s =
        (if mask_has con.mode ENABLE_PROCESSED_INPUT then
          ctrl_c_loop records con.record_count n
            ⟨write_records con.records con.record_count (read_records records 0 n), n, 0, []⟩
        else ⟨write_records con.records con.record_count (read_records records 0 n),
          n, 0, []⟩) := ⟨_, rfl⟩
    have hb : s.count ≤ n ∧ s.array.length = con.record_size := by
      rw [hs]
      split
      · have := ctrl_c_loop_bounds records con.record_count n
          ⟨write_records con.records con.record_count (read_records records 0 n), n, 0, []⟩
        refine ⟨this.1, ?_⟩
        rw [this.2, length_write_records, harr]
      · refine ⟨le_refl _, ?_⟩
        rw [length_write_records, harr]
    have e3 : U32 (con.record_count + s.count) = con.record_count + s.count :=
      U32_of_lt _ (by omega)
    refine ⟨s.array, con.record_size, s.count, s.requests, hb.1, hb.2, by omega, by omega, ?_⟩
    intro p
    unfold write_console_input
    rw [if_neg hn]
    dsimp only
    rw [e1, if_neg hg]
    dsimp only
    rw [← hs, e3]

/-- C23 as stated fails: a `WRITE_INPUT` request without records returns
success and leaves a parked read parked: `pending_read` keeps its value 20 and no request is sent
to the server. -/
theorem write_input_releases_read_counterexample :
    (ioctl_write_input fresh_record STATUS_SUCCESS console_parked 0 [] 0).status
      = STATUS_SUCCESS ∧
    (ioctl_write_input fresh_record STATUS_SUCCESS console_parked 0 [] 0).console.pending_read
      = 20 ∧
    (ioctl_write_input fresh_record STATUS_SUCCESS console_parked 0 [] 0).requests = [] := by
  decide

/-- C23, amended: release of a parked read. Take an accepted `WRITE_INPUT`
request that appends at least one record while a read of capacity `C > 0`
is parked, the transport call being successful. Let `w` be the outcome of
the same request on the console without the parked read and `q` its queue,
the queue as it stands after the append. Then the request returns success,
the parked read is handed the first `k = min (C / sizeof(INPUT_RECORD),
record_count)` records of `q` in the request that follows those of `w`,
these records are removed, and `pending_read` is 0 afterwards. -/
theorem write_input_releases_read (fresh : Nat → INPUT_RECORD) (con : console)
    (in_size : Nat) (in_data : List INPUT_RECORD) (w : input_ioctl_result)
    (q : List INPUT_RECORD)
    (hsize : in_size % sizeof_INPUT_RECORD = 0)
    (hpend : 0 < con.pending_read)
    (hcap : con.record_count ≤ con.record_size)
    (harr : con.records.length = con.record_size)
    (h32 : con.record_size * 2 + in_size / sizeof_INPUT_RECORD < 4294967296)
    (hw : ioctl_write_input fresh STATUS_SUCCESS { con with pending_read := 0 } in_size in_data 0
      = w)
    (hq : input_queue w.console = q)
    (happ : w.console.record_count ≠ con.record_count) :
    (ioctl_write_input fresh STATUS_SUCCESS con in_size in_data 0).status = STATUS_SUCCESS ∧
    (ioctl_write_input fresh STATUS_SUCCESS con in_size in_data 0).requests =
      w.requests ++
        [server_request.get_next_console_request STATUS_SUCCESS
          (decide (min (con.pending_read / sizeof_INPUT_RECORD) q.length < q.length)) 1
          (q.take (min (con.pending_read / sizeof_INPUT_RECORD) q.length))] ∧
    input_queue (ioctl_write_input fresh STATUS_SUCCESS con in_size in_data 0).console =
      q.drop (min (con.pending_read / sizeof_INPUT_RECORD) q.length) ∧
    (ioctl_write_input fresh STATUS_SUCCESS con in_size in_data 0).console.pending_read
      = 0 := by
  have hacc : ¬ (in_size % sizeof_INPUT_RECORD ≠ 0 ∨ (0 : Nat) ≠ 0) := by omega
  have en : U32 (in_size / sizeof_INPUT_RECORD) = in_size / sizeof_INPUT_RECORD :=
    U32_of_lt _ (by omega)
  have hcon : con = { con with pending_read := con.pending_read } := rfl
  unfold ioctl_write_input at hw ⊢
  rw [if_neg hacc] at hw ⊢
  dsimp only at hw ⊢
  rw [en] at hw ⊢
  by_cases hn : in_size / sizeof_INPUT_RECORD = 0
  · exfalso
    apply happ
    rw [← hw, hn]
    rfl
  · obtain ⟨arr, size, cnt, reqs, hcnt, hlen, hroom, hsz, hall⟩ :=
      write_console_input_parts fresh STATUS_SUCCESS con in_data _ hn hcap harr h32
    have h0 := hall 0
    rw [if_neg (by omega)] at h0
    rw [h0] at hw
    have hcnt0 : cnt ≠ 0 := by
      intro hc
      apply happ
      rw [← hw, hc]
      rfl
    have hC := hall con.pending_read
    rw [← hcon, if_pos ⟨hcnt0, by omega⟩] at hC
    rw [hC]
    dsimp only
    have hf := read_console_input_fifo
      ⟨con.mode, arr, con.record_count + cnt, size, con.pending_read⟩ con.pending_read
      (by dsimp only; omega) (by dsimp only; omega)
    have hq2 : input_queue ⟨con.mode, arr, con.record_count + cnt, size, con.pending_read⟩
        = q := by
      rw [← hq, ← hw]
      rfl
    have hql : q.length = con.record_count + cnt := by
      rw [← hq2]
      unfold input_queue
      rw [List.length_take]
      dsimp only
      omega
    have hk : min (con.pending_read / sizeof_INPUT_RECORD) (con.record_count + cnt) =
        min (con.pending_read / sizeof_INPUT_RECORD) q.length := by rw [hql]
    rw [hq2] at hf
    dsimp only at hf
    rw [hk] at hf
    refine ⟨rfl, ?_, hf.2.2.1, rfl⟩
    rw [hf.2.1, ← hw, ← hql]

theorem write_input_releases_read_witness :
    (ioctl_write_input fresh_record STATUS_SUCCESS console_parked 40
      [key_record 97 1, key_record 98 1] 0).status = STATUS_SUCCESS ∧
    (ioctl_write_input fresh_record STATUS_SUCCESS console_parked 40
      [key_record 97 1, key_record 98 1] 0).requests =
      (ioctl_write_input fresh_record STATUS_SUCCESS { console_parked with pending_read := 0 } 40
        [key_record 97 1, key_record 98 1] 0).requests ++
        [server_request.get_next_console_request STATUS_SUCCESS
          (decide (min (console_parked.pending_read / sizeof_INPUT_RECORD)
            [key_record 97 1, key_record 98 1].length
              < [key_record 97 1, key_record 98 1].length)) 1
          ([key_record 97 1, key_record 98 1].take
            (min (console_parked.pending_read / sizeof_INPUT_RECORD)
              [key_record 97 1, key_record 98 1].length))] ∧
    input_queue (ioctl_write_input fresh_record STATUS_SUCCESS console_parked 40
      [key_record 97 1, key_record 98 1] 0).console =
      [key_record 97 1, key_record 98 1].drop
        (min (console_parked.pending_read / sizeof_INPUT_RECORD)
          [key_record 97 1, key_record 98 1].length) ∧
    (ioctl_write_input fresh_record STATUS_SUCCESS console_parked 40
      [key_record 97 1, key_record 98 1] 0).console.pending_read = 0 :=
  write_input_releases_read fresh_record console_parked 40 [key_record 97 1, key_record 98 1]
    _ [key_record 97 1, key_record 98 1]
    (by decide) (by decide) (by decide) (by decide) (by decide) rfl (by decide) (by decide)

/-- The release of a parked read in figures: of the records `a` and `b` the
parked read of 20 bytes receives `a`, and `b` stays in the queue. -/
theorem write_input_releases_read_example :
    (ioctl_write_input fresh_record STATUS_SUCCESS console_parked 40
      [key_record 97 1, key_record 98 1] 0).requests =
      [server_request.get_next_console_request STATUS_SUCCESS true 1 [key_record 97 1]] ∧
    input_queue (ioctl_write_input fresh_record STATUS_SUCCESS console_parked 40
      [key_record 97 1, key_record 98 1] 0).console = [key_record 98 1] ∧
    (ioctl_write_input fresh_record STATUS_SUCCESS console_parked 40
      [key_record 97 1, key_record 98 1] 0).console.pending_read = 0 := by
  decide

/-- A `WRITE_INPUT` request with processed input whose only record is a
Ctrl-C key leaves the parked read parked as well. -/
theorem write_input_ctrl_c_keeps_read_parked :
    (ioctl_write_input fresh_record STATUS_SUCCESS
      { console_processed with pending_read := 20 } 20 [key_record 3 1] 0).status
      = STATUS_SUCCESS ∧
    (ioctl_write_input fresh_record STATUS_SUCCESS
      { console_processed with pending_read := 20 } 20 [key_record 3 1] 0).console.pending_read
      = 20 := by
  decide

/-! ## The history -/

theorem length_history_copy (history : List (Option (List Nat))) (delta : Int) (n : Nat) :
    ∀ (i : Int) (mem : List (Option (List Nat))),
      (history_copy history delta n i mem).length = mem.length := by
  induction n with
  | zero => intro i mem; rfl
  | succ n ih =>
    intro i mem
    simp only [history_copy]
    rw [ih]
    unfold history_store
    split
    · rw [List.length_set]
    · rfl

/-- The loop moves the entries `i .. i + n - 1` of the old array to the
places `i - delta ..` of the new one. -/
theorem getElem?_history_copy (history : List (Option (List Nat))) (delta : Nat) (n : Nat) :
    ∀ (i : Nat) (mem : List (Option (List Nat))) (j : Nat),
      delta ≤ i → i + n < 2147483648 →
      (history_copy history delta n i mem)[j]? =
        if i - delta ≤ j ∧ j < i - delta + n ∧ j < mem.length then
          some (history.getD (j + delta) none)
        else mem[j]? := by
  induction n with
  | zero =>
    intro i mem j _ _
    have h0 : ¬ (i - delta ≤ j ∧ j < i - delta + 0 ∧ j < mem.length) := by omega
    simp only [history_copy]
    rw [if_neg h0]
  | succ n ih =>
    intro i mem j hd hi
    simp only [history_copy]
    have e1 : INT ((i : Int) + 1) = ((i + 1 : Nat) : Int) := by
      rw [← INT_of_nat (i + 1) (by omega)]
      rfl
    rw [e1, ih (i + 1) _ j (by omega) (by omega)]
    have hs : history_store mem ((i : Int) - (delta : Int)) (history_load history (i : Int)) =
        mem.set (i - delta) (history.getD i none) := by
      unfold history_store history_load
      rw [if_pos (by omega), if_pos (by omega)]
      have : ((i : Int) - (delta : Int)).toNat = i - delta := by omega
      rw [this, Int.toNat_ofNat]
    rw [hs, List.length_set]
    by_cases hj : j = i - delta
    · subst hj
      by_cases hlen : i - delta < mem.length
      · rw [if_neg (by omega), if_pos ⟨le_refl _, by omega, hlen⟩, List.getElem?_set]
        rw [if_pos rfl, if_pos hlen]
        have : i - delta + delta = i := by omega
        rw [this]
      · rw [if_neg (by omega), if_neg (by omega), List.getElem?_eq_none (by simp; omega),
          List.getElem?_eq_none (by omega)]
    · have hset : (mem.set (i - delta) (history.getD i none))[j]? = mem[j]? := by
        have hne : ¬ (i - delta = j) := by omega
        rw [List.getElem?_set, if_neg hne]
      rw [hset]
      by_cases hc : i + 1 - delta ≤ j ∧ j < i + 1 - delta + n ∧ j < mem.length
      · rw [if_pos hc, if_pos ⟨by omega, by omega, hc.2.2⟩]
      · rw [if_neg hc, if_neg (by omega)]

/-- The assignments for the other flags leave the history as it is. -/
theorem set_input_info_modes_frame (c : console_info) (params : condrv_input_info_params) :
    (set_input_info_modes c params).history = c.history ∧
    (set_input_info_modes c params).history_size = c.history_size ∧
    (set_input_info_modes c params).history_index = c.history_index := by
  unfold set_input_info_modes
  dsimp only
  split <;> split <;> split <;> split <;> exact ⟨rfl, rfl, rfl⟩

/-- The resize block keeps the newest entries. -/
theorem set_input_info_history_spec (c : console_info) (n : Nat)
    (hidx : c.history_index ≤ c.history.length)
    (h31 : c.history_index < 2147483648) :
    (set_input_info_history c n).history_size = n ∧
    (set_input_info_history c n).history_index = min c.history_index n ∧
    (set_input_info_history c n).history.length = n ∧
    (∀ j, j < min c.history_index n →
      (set_input_info_history c n).history[j]? =
        c.history[c.history_index - min c.history_index n + j]?) := by
  have hd : INT (if c.history_index > n then ((U32 (c.history_index - n) : Nat) : Int) else 0) =
      ((c.history_index - min c.history_index n : Nat) : Int) := by
    split
    · rw [U32_of_lt _ (by omega), INT_of_nat _ (by omega)]
      congr 1
      omega
    · rw [show c.history_index - min c.history_index n = 0 by omega]
      rfl
  unfold set_input_info_history
  dsimp only
  rw [hd]
  have ht : ((c.history_index : Int) - ((c.history_index - min c.history_index n : Nat) : Int)).toNat
      = min c.history_index n := by omega
  have hu : UINT ((c.history_index : Int) - ((c.history_index - min c.history_index n : Nat) : Int))
      = min c.history_index n := by
    unfold UINT
    omega
  rw [ht, hu]
  refine ⟨rfl, rfl, ?_, ?_⟩
  · rw [length_history_copy, List.length_replicate]
  · intro j hj
    rw [getElem?_history_copy _ _ _ _ _ _ (le_refl _) (by omega), List.length_replicate]
    rw [if_pos ⟨by omega, by omega, by omega⟩]
    have hin : c.history_index - min c.history_index n + j < c.history.length := by omega
    rw [List.getElem?_eq_getElem hin, List.getD_eq_getElem?_getD,
      show j + (c.history_index - min c.history_index n) =
        c.history_index - min c.history_index n + j by omega,
      List.getElem?_eq_getElem hin]
    rfl

/-- C25: a history resize keeps the newest entries. For every console with
`history_index <= history_size` and every accepted `SET_INPUT_INFO` with the
history-size flag and the new size `n`, `n = 0` included, afterwards
`history_size = n`, `history_index = min (old history_index, n)`, the new
array has `n` entries of which the entries `0 .. history_index - 1` are the
last `min (old history_index, n)` old entries in their order, and a
`GET_INPUT_INFO` that follows reports these values of `history_size` and
`history_index`. The old array has `history_size` entries and the index is
below 2^31. -/
theorem history_resize_keeps_newest (con : console) (info : console_info)
    (params : condrv_input_info_params)
    (hidx : info.history_index ≤ info.history_size)
    (hlen : info.history.length = info.history_size)
    (h31 : info.history_index < 2147483648)
    (hmask : mask_has params.mask SET_CONSOLE_INPUT_INFO_HISTORY_SIZE) :
    (ioctl_set_input_info info sizeof_condrv_input_info_params params 0).1 = STATUS_SUCCESS ∧
    (ioctl_set_input_info info sizeof_condrv_input_info_params params 0).2.history_size
      = params.info.history_size ∧
    (ioctl_set_input_info info sizeof_condrv_input_info_params params 0).2.history_index
      = min info.history_index params.info.history_size ∧
    (ioctl_set_input_info info sizeof_condrv_input_info_params params 0).2.history.length
      = params.info.history_size ∧
    (∀ j, j < min info.history_index params.info.history_size →
      (ioctl_set_input_info info sizeof_condrv_input_info_params params 0).2.history[j]? =
        info.history[info.history_index - min info.history_index params.info.history_size
          + j]?) ∧
    (ioctl_get_input_info con
        (ioctl_set_input_info info sizeof_condrv_input_info_params params 0).2 0
        sizeof_condrv_input_info).1 = STATUS_SUCCESS ∧
    (∃ reply, (ioctl_get_input_info con
        (ioctl_set_input_info info sizeof_condrv_input_info_params params 0).2 0
        sizeof_condrv_input_info).2 = some reply ∧
      reply.history_size = params.info.history_size ∧
      reply.history_index = min info.history_index params.info.history_size) := by
  have hacc : ¬ (sizeof_condrv_input_info_params ≠ sizeof_condrv_input_info_params ∨
      (0 : Nat) ≠ 0) := by simp
  have hget : ¬ ((0 : Nat) ≠ 0 ∨ sizeof_condrv_input_info ≠ sizeof_condrv_input_info) := by simp
  unfold ioctl_get_input_info ioctl_set_input_info
  rw [if_neg hacc, if_neg hget]
  dsimp only
  rw [(set_input_info_modes_frame _ params).1, (set_input_info_modes_frame _ params).2.1,
    (set_input_info_modes_frame _ params).2.2]
  have key : ∀ (c1 : console_info), c1.history = info.history →
      c1.history_size = info.history_size → c1.history_index = info.history_index →
      (STATUS_SUCCESS = STATUS_SUCCESS ∧
      (if mask_has params.mask SET_CONSOLE_INPUT_INFO_HISTORY_SIZE ∧
          c1.history_size ≠ params.info.history_size then
        set_input_info_history c1 params.info.history_size else c1).history_size
        = params.info.history_size ∧
      (if mask_has params.mask SET_CONSOLE_INPUT_INFO_HISTORY_SIZE ∧
          c1.history_size ≠ params.info.history_size then
        set_input_info_history c1 params.info.history_size else c1).history_index
        = min info.history_index params.info.history_size ∧
      (if mask_has params.mask SET_CONSOLE_INPUT_INFO_HISTORY_SIZE ∧
          c1.history_size ≠ params.info.history_size then
        set_input_info_history c1 params.info.history_size else c1).history.length
        = params.info.history_size ∧
      (∀ j, j < min info.history_index params.info.history_size →
        (if mask_has params.mask SET_CONSOLE_INPUT_INFO_HISTORY_SIZE ∧
            c1.history_size ≠ params.info.history_size then
          set_input_info_history c1 params.info.history_size else c1).history[j]? =
          info.history[info.history_index - min info.history_index params.info.history_size
            + j]?) ∧
      STATUS_SUCCESS = STATUS_SUCCESS ∧
      (∃ reply : condrv_input_info,
        some
          ({ history_mode := (set_input_info_modes
                (if mask_has params.mask SET_CONSOLE_INPUT_INFO_HISTORY_SIZE ∧
                    c1.history_size ≠ params.info.history_size then
                  set_input_info_history c1 params.info.history_size else c1) params).history_mode
             history_size := (if mask_has params.mask SET_CONSOLE_INPUT_INFO_HISTORY_SIZE ∧
                    c1.history_size ≠ params.info.history_size then
                  set_input_info_history c1 params.info.history_size else c1).history_size
             history_index := (if mask_has params.mask SET_CONSOLE_INPUT_INFO_HISTORY_SIZE ∧
                    c1.history_size ≠ params.info.history_size then
                  set_input_info_history c1 params.info.history_size else c1).history_index
             edition_mode := (set_input_info_modes
                (if mask_has params.mask SET_CONSOLE_INPUT_INFO_HISTORY_SIZE ∧
                    c1.history_size ≠ params.info.history_size then
                  set_input_info_history c1 params.info.history_size else c1) params).edition_mode
             input_cp := (set_input_info_modes
                (if mask_has params.mask SET_CONSOLE_INPUT_INFO_HISTORY_SIZE ∧
                    c1.history_size ≠ params.info.history_size then
                  set_input_info_history c1 params.info.history_size else c1) params).input_cp
             output_cp := (set_input_info_modes
                (if mask_has params.mask SET_CONSOLE_INPUT_INFO_HISTORY_SIZE ∧
                    c1.history_size ≠ params.info.history_size then
                  set_input_info_history c1 params.info.history_size else c1) params).output_cp
             win := (set_input_info_modes
                (if mask_has params.mask SET_CONSOLE_INPUT_INFO_HISTORY_SIZE ∧
                    c1.history_size ≠ params.info.history_size then
                  set_input_info_history c1 params.info.history_size else c1) params).win
             input_count := con.record_count } : condrv_input_info) = some reply ∧
        reply.history_size = params.info.history_size ∧
        reply.history_index = min info.history_index params.info.history_size)) := by
    intro c1 e1 e2 e3
    have hsp := set_input_info_history_spec c1 params.info.history_size
      (by rw [e3, e1, hlen]; exact hidx) (by rw [e3]; exact h31)
    rw [e3, e1] at hsp
    by_cases hne : c1.history_size ≠ params.info.history_size
    · rw [if_pos ⟨hmask, hne⟩]
      exact ⟨rfl, hsp.1, hsp.2.1, hsp.2.2.1, hsp.2.2.2, rfl, ⟨_, rfl, hsp.1, hsp.2.1⟩⟩
    · rw [if_neg (fun h => hne h.2)]
      have heq : info.history_size = params.info.history_size := by
        rw [← e2]; exact not_not.mp hne
      have hmin : min info.history_index params.info.history_size = info.history_index := by
        omega
      rw [hmin, e1, e2, e3, hlen]
      refine ⟨rfl, heq, rfl, heq, ?_, rfl, ⟨_, rfl, heq, rfl⟩⟩
      intro j _
      rw [Nat.sub_self, Nat.zero_add]
  by_cases hm : mask_has params.mask SET_CONSOLE_INPUT_INFO_HISTORY_MODE
  · rw [if_pos hm]
    exact key _ rfl rfl rfl
  · rw [if_neg hm]
    exact key _ rfl rfl rfl

theorem history_resize_keeps_newest_witness :
    (ioctl_set_input_info history_3of5 sizeof_condrv_input_info_params (history_size_params 2)
      0).1 = STATUS_SUCCESS ∧
    (ioctl_set_input_info history_3of5 sizeof_condrv_input_info_params (history_size_params 2)
      0).2.history_size = (history_size_params 2).info.history_size ∧
    (ioctl_set_input_info history_3of5 sizeof_condrv_input_info_params (history_size_params 2)
      0).2.history_index
      = min history_3of5.history_index (history_size_params 2).info.history_size ∧
    (ioctl_set_input_info history_3of5 sizeof_condrv_input_info_params (history_size_params 2)
      0).2.history.length = (history_size_params 2).info.history_size ∧
    (∀ j, j < min history_3of5.history_index (history_size_params 2).info.history_size →
      (ioctl_set_input_info history_3of5 sizeof_condrv_input_info_params (history_size_params 2)
        0).2.history[j]? =
        history_3of5.history[history_3of5.history_index -
          min history_3of5.history_index (history_size_params 2).info.history_size + j]?) ∧
    (ioctl_get_input_info console_raw
        (ioctl_set_input_info history_3of5 sizeof_condrv_input_info_params
          (history_size_params 2) 0).2 0
        sizeof_condrv_input_info).1 = STATUS_SUCCESS ∧
    (∃ reply, (ioctl_get_input_info console_raw
        (ioctl_set_input_info history_3of5 sizeof_condrv_input_info_params
          (history_size_params 2) 0).2 0
        sizeof_condrv_input_info).2 = some reply ∧
      reply.history_size = (history_size_params 2).info.history_size ∧
      reply.history_index
        = min history_3of5.history_index (history_size_params 2).info.history_size) :=
  history_resize_keeps_newest console_raw history_3of5 (history_size_params 2)
    (by decide) (by decide) (by decide) (by decide)

/-- The resize of the history of three lines in figures, with the resize
to no entry: of the lines `1`, `2`, `3` the size 2 keeps `2` and `3`. -/
theorem history_resize_example :
    (ioctl_set_input_info history_3of5 sizeof_condrv_input_info_params (history_size_params 2)
      0).2 = ⟨[some [50], some [51]], 2, 2, 0, 0, 0, 0, 0⟩ ∧
    (ioctl_set_input_info history_3of5 sizeof_condrv_input_info_params (history_size_params 0)
      0).2 = ⟨[], 0, 0, 0, 0, 0, 0, 0⟩ ∧
    (ioctl_set_input_info history_3of5 sizeof_condrv_input_info_params (history_size_params 8)
      0).2 = ⟨[some [49], some [50], some [51], none, none, none, none, none], 8, 3, 0, 0, 0, 0,
        0⟩ := by
  decide

/-! ## The active buffer -/

theorem wine_rb_get_some (m : List screen_buffer) (output : Int) (sb : screen_buffer)
    (h : wine_rb_get m output = some sb) : sb ∈ m ∧ sb.id = UINT output := by
  unfold wine_rb_get at h
  exact ⟨List.mem_of_find?_eq_some h, by simpa using List.find?_some h⟩

theorem wine_rb_get_none (m : List screen_buffer) (output : Int) :
    wine_rb_get m output = none ↔ ∀ sb, sb ∈ m → sb.id ≠ UINT output := by
  unfold wine_rb_get
  simp [List.find?_eq_none]

theorem create_screen_buffer_id (ids : List Nat) (fresh : Nat → char_info_t)
    (id width height : Int) (sb : screen_buffer)
    (h : create_screen_buffer ids fresh id width height = some sb) :
    sb.id = UINT id ∧ UINT id ∉ ids := by
  unfold create_screen_buffer at h
  dsimp only at h
  split at h
  · exact absurd h (by simp)
  · rename_i hid
    refine ⟨?_, hid⟩
    rw [← Option.some.inj h]

/-- The branch for `INIT_OUTPUT` adds at most a buffer with a new id and
leaves `active` as it is. -/
theorem init_output_spec (fresh : Nat → char_info_t) (m : buffer_map) (output : Int) :
    (init_output fresh m output).active = m.active ∧
    ((init_output fresh m output).screen_buffer_map = m.screen_buffer_map ∨
      ∃ sb, (init_output fresh m output).screen_buffer_map = sb :: m.screen_buffer_map ∧
        sb.id ∉ m.screen_buffer_map.map (fun sb => sb.id)) := by
  unfold init_output
  dsimp only
  split
  · rename_i sb hc
    refine ⟨rfl, Or.inr ⟨sb, rfl, ?_⟩⟩
    split at hc
    · have := create_screen_buffer_id _ _ _ _ _ _ hc
      rw [this.1]; exact this.2
    · have := create_screen_buffer_id _ _ _ _ _ _ hc
      rw [this.1]; exact this.2
  · exact ⟨rfl, Or.inl rfl⟩

/-- The function `destroy_screen_buffer` takes the buffer, and only it, out
of a map with distinct ids. -/
theorem destroy_screen_buffer_spec (m : buffer_map) (sb : screen_buffer)
    (hids : distinct_ids m) (hmem : sb ∈ m.screen_buffer_map) :
    distinct_ids (destroy_screen_buffer m sb) ∧
    (∀ sb1, sb1 ∈ (destroy_screen_buffer m sb).screen_buffer_map ↔
      sb1 ∈ m.screen_buffer_map ∧ sb1 ≠ sb) ∧
    (∀ sb1, sb1 ∈ (destroy_screen_buffer m sb).screen_buffer_map → sb1.id ≠ sb.id) := by
  unfold distinct_ids at *
  have hnd : m.screen_buffer_map.Nodup := List.Nodup.of_map _ hids
  have hmem_iff : ∀ sb1, sb1 ∈ m.screen_buffer_map.erase sb ↔
      sb1 ∈ m.screen_buffer_map ∧ sb1 ≠ sb := by
    intro sb1
    rw [List.Nodup.mem_erase_iff hnd]
    tauto
  refine ⟨?_, hmem_iff, ?_⟩
  · exact List.Nodup.sublist (List.Sublist.map _ (List.erase_sublist sb m.screen_buffer_map)) hids
  · intro sb1 h1 hid
    have h2 := (hmem_iff sb1).mp h1
    exact h2.2 (List.inj_on_of_nodup_map hids h2.1 hmem hid)

/-- One request keeps the ids distinct and `active` in the map. -/
theorem buffer_request_step_invariant (fresh : Nat → char_info_t) (m : buffer_map)
    (r : buffer_request) (hids : distinct_ids m) (hact : active_in_map m) :
    distinct_ids (buffer_request_step fresh m r).2 ∧
      active_in_map (buffer_request_step fresh m r).2 := by
  cases r with
  | init_output output =>
    have h := init_output_spec fresh m output
    unfold buffer_request_step
    dsimp only
    unfold distinct_ids active_in_map at *
    rw [h.1]
    rcases h.2 with h2 | ⟨sb, h2, h3⟩
    · rw [h2]; exact ⟨hids, hact⟩
    · rw [h2]
      refine ⟨?_, ?_⟩
      · rw [List.map_cons]
        exact List.nodup_cons.mpr ⟨h3, hids⟩
      · rcases hact with h4 | ⟨sb1, h4, h5⟩
        · exact Or.inl h4
        · exact Or.inr ⟨sb1, List.mem_cons_of_mem _ h4, h5⟩
  | activate output in_size out_size =>
    unfold buffer_request_step
    dsimp only
    split
    · exact ⟨hids, hact⟩
    · split
      · exact ⟨hids, hact⟩
      · rename_i sb hsb
        unfold ioctl_activate screen_buffer_activate
        split
        · exact ⟨hids, hact⟩
        · exact ⟨hids, Or.inr ⟨sb, (wine_rb_get_some _ _ _ hsb).1, rfl⟩⟩
  | close_output output in_size out_size =>
    unfold buffer_request_step
    dsimp only
    split
    · exact ⟨hids, hact⟩
    · split
      · exact ⟨hids, hact⟩
      · rename_i sb hsb
        unfold ioctl_close_output
        split
        · exact ⟨hids, hact⟩
        · have hd := destroy_screen_buffer_spec m sb hids (wine_rb_get_some _ _ _ hsb).1
          refine ⟨hd.1, ?_⟩
          unfold active_in_map at *
          by_cases ha : m.active = some sb.id
          · left
            unfold destroy_screen_buffer
            dsimp only
            rw [if_pos ha]
          · rcases hact with h4 | ⟨sb1, h4, h5⟩
            · left
              unfold destroy_screen_buffer
              dsimp only
              rw [if_neg ha]; exact h4
            · right
              refine ⟨sb1, (hd.2.1 sb1).mpr ⟨h4, ?_⟩, ?_⟩
              · intro he
                apply ha
                rw [h5, he]
              · unfold destroy_screen_buffer
                dsimp only
                rw [if_neg ha]; exact h5

theorem buffer_requests_invariant (fresh : Nat → char_info_t) (reqs : List buffer_request) :
    ∀ (m : buffer_map), distinct_ids m → active_in_map m →
      distinct_ids (buffer_requests fresh reqs m) ∧ active_in_map (buffer_requests fresh reqs m) := by
  induction reqs with
  | nil => intro m h1 h2; exact ⟨h1, h2⟩
  | cons r rs ih =>
    intro m h1 h2
    have h := buffer_request_step_invariant fresh m r h1 h2
    exact ih _ h.1 h.2

/-- C26: the active buffer is in the map. From a state in which the ids of
the map are distinct and `active` is unset or a buffer of the map, such as
the one `wmain` sets up, every sequence of `INIT_OUTPUT`, `ACTIVATE` and
`CLOSE_OUTPUT` requests leads to a state of the same kind. In particular a
`CLOSE_OUTPUT` request with empty payloads for a buffer of the map succeeds,
removes that buffer and no other from the map, unsets `active` when the
buffer was the active one and leaves `active` unchanged otherwise. -/
theorem active_buffer_in_map (fresh : Nat → char_info_t) (reqs : List buffer_request)
    (m : buffer_map) (hids : distinct_ids m) (hact : active_in_map m) :
    active_in_map (buffer_requests fresh reqs m) ∧
    distinct_ids (buffer_requests fresh reqs m) ∧
    (∀ (output : Int) (sb : screen_buffer), output ≠ 0 →
      wine_rb_get m.screen_buffer_map output = some sb →
      (buffer_request_step fresh m (.close_output output 0 0)).1 = STATUS_SUCCESS ∧
      wine_rb_get (buffer_request_step fresh m (.close_output output 0 0)).2.screen_buffer_map
        output = none ∧
      (∀ sb1, sb1 ∈ (buffer_request_step fresh m (.close_output output 0 0)).2.screen_buffer_map ↔
        sb1 ∈ m.screen_buffer_map ∧ sb1 ≠ sb) ∧
      (buffer_request_step fresh m (.close_output output 0 0)).2.active =
        if m.active = some sb.id then none else m.active) := by
  have h := buffer_requests_invariant fresh reqs m hids hact
  refine ⟨h.2, h.1, ?_⟩
  intro output sb h0 hsb
  have hg := wine_rb_get_some _ _ _ hsb
  have hd := destroy_screen_buffer_spec m sb hids hg.1
  unfold buffer_request_step
  dsimp only
  rw [if_neg h0, hsb]
  dsimp only
  unfold ioctl_close_output
  rw [if_neg (by simp)]
  dsimp only
  refine ⟨rfl, ?_, hd.2.1, rfl⟩
  rw [wine_rb_get_none]
  intro sb1 h1
  rw [← hg.2]
  exact hd.2.2 sb1 h1

theorem active_buffer_in_map_witness :
    active_in_map (buffer_requests fresh_zero
      [.init_output 2, .activate 2 0 0, .close_output 2 0 0, .close_output 1 0 0]
      buffers_initial) ∧
    distinct_ids (buffer_requests fresh_zero
      [.init_output 2, .activate 2 0 0, .close_output 2 0 0, .close_output 1 0 0]
      buffers_initial) ∧
    (∀ (output : Int) (sb : screen_buffer), output ≠ 0 →
      wine_rb_get buffers_initial.screen_buffer_map output = some sb →
      (buffer_request_step fresh_zero buffers_initial (.close_output output 0 0)).1
        = STATUS_SUCCESS ∧
      wine_rb_get (buffer_request_step fresh_zero buffers_initial
        (.close_output output 0 0)).2.screen_buffer_map output = none ∧
      (∀ sb1, sb1 ∈ (buffer_request_step fresh_zero buffers_initial
          (.close_output output 0 0)).2.screen_buffer_map ↔
        sb1 ∈ buffers_initial.screen_buffer_map ∧ sb1 ≠ sb) ∧
      (buffer_request_step fresh_zero buffers_initial (.close_output output 0 0)).2.active =
        if buffers_initial.active = some sb.id then none else buffers_initial.active) :=
  active_buffer_in_map fresh_zero
    [.init_output 2, .activate 2 0 0, .close_output 2 0 0, .close_output 1 0 0]
    buffers_initial (by decide) (by decide)

/-- The states of an example: after `INIT_OUTPUT` of the id 2 the map holds
two buffers and the buffer 1 is active; `ACTIVATE` of 2 makes 2 the active
one; `CLOSE_OUTPUT` of 2 unsets `active` and leaves the buffer 1 in the map;
a `CLOSE_OUTPUT` of the buffer 1, which is not active, leaves `active`
unset. -/
theorem active_buffer_example :
    ((buffer_requests fresh_zero [.init_output 2] buffers_initial).screen_buffer_map.map
      (fun sb => sb.id), (buffer_requests fresh_zero [.init_output 2] buffers_initial).active)
      = ([2, 1], some 1) ∧
    (buffer_requests fresh_zero [.init_output 2, .activate 2 0 0] buffers_initial).active
      = some 2 ∧
    ((buffer_requests fresh_zero [.init_output 2, .activate 2 0 0, .close_output 2 0 0]
        buffers_initial).screen_buffer_map.map (fun sb => sb.id),
      (buffer_requests fresh_zero [.init_output 2, .activate 2 0 0, .close_output 2 0 0]
        buffers_initial).active) = ([1], none) ∧
    (buffer_requests fresh_zero
      [.init_output 2, .activate 2 0 0, .close_output 2 0 0, .close_output 1 0 0]
      buffers_initial) = ⟨[], none⟩ := by
  decide

/-! ## The dispatcher -/

/-- C27: dispatch to an absent buffer. For every request whose code is not
`INIT_OUTPUT` and whose target id is not zero and not in the buffer map, the
routing gives `STATUS_INVALID_HANDLE` and leaves the state, with the screen
buffers, the input queue and the settings, as it is; the loop then reports
this status to the server with an empty reply, `out_size` being 0, whatever
the two handlers are. -/
theorem dispatch_absent_buffer (fresh : Nat → char_info_t)
    (console_input_ioctl : ioctl_handler Unit)
    (screen_buffer_ioctl : ioctl_handler screen_buffer) (st : console_state)
    (code : Nat) (output : Int) (in_data : List Nat) (in_size out_size : Nat)
    (status0 : NTSTATUS) (out_size0 : Nat)
    (hcode : code ≠ IOCTL_CONDRV_INIT_OUTPUT) (hout : output ≠ 0)
    (habsent : ∀ sb, sb ∈ st.buffers.screen_buffer_map → sb.id ≠ UINT output) :
    dispatch_request fresh console_input_ioctl screen_buffer_ioctl st code output in_data
      in_size out_size = (STATUS_INVALID_HANDLE, out_size, st) ∧
    process_console_ioctls fresh console_input_ioctl screen_buffer_ioctl
      [⟨STATUS_SUCCESS, code, output, out_size, in_size, in_data⟩] st status0 out_size0 =
      ([⟨status0, decide (st.input.record_count ≠ 0),
          if status0 ≠ STATUS_SUCCESS then 0 else out_size0⟩,
        ⟨STATUS_INVALID_HANDLE, decide (st.input.record_count ≠ 0), 0⟩], st, none) := by
  have hd : dispatch_request fresh console_input_ioctl screen_buffer_ioctl st code output in_data
      in_size out_size = (STATUS_INVALID_HANDLE, out_size, st) := by
    unfold dispatch_request
    rw [if_neg hcode, if_neg hout, (wine_rb_get_none _ _).mpr habsent]
  refine ⟨hd, ?_⟩
  simp only [process_console_ioctls]
  rw [if_neg (by decide), if_neg (by decide), if_neg (by simp), hd]
  simp

theorem dispatch_absent_buffer_witness :
    dispatch_request fresh_zero (handler_none Unit) (handler_none screen_buffer) state_initial
      0 7 [] 0 16 = (STATUS_INVALID_HANDLE, 16, state_initial) ∧
    process_console_ioctls fresh_zero (handler_none Unit) (handler_none screen_buffer)
      [⟨STATUS_SUCCESS, 0, 7, 16, 0, []⟩] state_initial STATUS_SUCCESS 0 =
      ([⟨STATUS_SUCCESS, decide (state_initial.input.record_count ≠ 0),
          if STATUS_SUCCESS ≠ STATUS_SUCCESS then 0 else 0⟩,
        ⟨STATUS_INVALID_HANDLE, decide (state_initial.input.record_count ≠ 0), 0⟩],
        state_initial, none) :=
  dispatch_absent_buffer fresh_zero (handler_none Unit) (handler_none screen_buffer)
    state_initial 0 7 [] 0 16 STATUS_SUCCESS 0 (by decide) (by decide) (by decide)

/-! ## The title -/

/-- A write that finds room in the tty buffer appends its bytes to it. -/
theorem tty_write_buffered (t : console_tty) (b : List Nat) (h : t.tty_output = true)
    (hroom : t.tty_buffer.length + b.length ≤ 4096) :
    tty_write t b = { t with tty_buffer := t.tty_buffer ++ b } := by
  unfold tty_write
  by_cases hb : b.length = 0
  · have : b = [] := List.length_eq_zero.mp hb
    subst this
    simp
  · have h1 : ¬ (b.length = 0 ∨ t.tty_output = false) := by
      rw [h]; simp [hb]
    have h2 : ¬ (t.tty_buffer.length + b.length > sizeof_tty_buffer) := by
      unfold sizeof_tty_buffer; omega
    rw [if_neg h1]
    dsimp only
    rw [if_neg h2, if_pos (by unfold sizeof_tty_buffer; omega)]

/-- The title sequence when the conversion of the title fits into the tty
buffer, which is empty at the start: `ESC ] 0 ;`, the bytes of the title and
`BEL` are put into the buffer, and `tty_sync` follows. -/
theorem set_console_title_fits (utf8 : List Nat → List Nat) (st : console_state)
    (in_title : List Nat) (size : Nat)
    (htty : st.tty.tty_output = true) (hbuf : st.tty.tty_buffer = [])
    (hsize : 2 ≤ size)
    (hfit : (utf8 (in_title.take (size / 2))).length ≤ 4091) :
    set_console_title utf8 st in_title size =
      (tty_sync (active_buffer st.buffers)
        { st.tty with
          tty_buffer := [27, 93, 48, 59] ++ utf8 (in_title.take (size / 2)) ++ [7] }).map
        (fun t4 => (STATUS_SUCCESS,
          { st with title := in_title.take (size / 2), title_len := size, tty := t4 })) := by
  have h0 : size ≠ 0 := by omega
  have h1 : ¬ (size / 2 = 0) := by omega
  unfold set_console_title
  dsimp only
  rw [if_pos h0, if_neg h1, if_pos htty]
  generalize utf8 (List.take (size / 2) in_title) = bytes at hfit ⊢
  have w1 : tty_write st.tty [27, 93, 48, 59] = { st.tty with tty_buffer := [27, 93, 48, 59] } := by
    rw [tty_write_buffered _ _ htty (by rw [hbuf]; simp), hbuf]
    rfl
  have a1 : tty_alloc_buffer { st.tty with tty_buffer := [27, 93, 48, 59] } bytes.length =
      some (4, { st.tty with tty_buffer := [27, 93, 48, 59] ++ List.replicate bytes.length 0 }) := by
    unfold tty_alloc_buffer
    rw [if_neg (by unfold sizeof_tty_buffer; simp only [List.length_cons, List.length_nil]; omega)]
    rfl
  have s1 : tty_store ([27, 93, 48, 59] ++ List.replicate bytes.length 0) 4 bytes =
      [27, 93, 48, 59] ++ bytes := by
    unfold tty_store
    rw [List.take_left' (by rfl : ([27, 93, 48, 59] : List Nat).length = 4),
      List.drop_eq_nil_of_le (by simp; omega)]
    simp
  have w2 : tty_write { st.tty with tty_buffer := [27, 93, 48, 59] ++ bytes } [7] =
      { st.tty with tty_buffer := [27, 93, 48, 59] ++ bytes ++ [7] } := by
    rw [tty_write_buffered { st.tty with tty_buffer := [27, 93, 48, 59] ++ bytes } [7] htty
      (by simp; omega)]
  rw [w1, a1]
  dsimp only
  rw [s1, w2]
  cases tty_sync (active_buffer st.buffers)
    { st.tty with tty_buffer := [27, 93, 48, 59] ++ bytes ++ [7] } <;> rfl

/-- The title sequence when the conversion of the title does not fit into
the tty buffer, which is empty at the start: `tty_alloc_buffer` returns
`NULL`, and only `ESC ] 0 ;` and `BEL` are put into the buffer. -/
theorem set_console_title_too_long (utf8 : List Nat → List Nat) (st : console_state)
    (in_title : List Nat) (size : Nat)
    (htty : st.tty.tty_output = true) (hbuf : st.tty.tty_buffer = [])
    (hsize : 2 ≤ size)
    (hlong : 4092 < (utf8 (in_title.take (size / 2))).length) :
    set_console_title utf8 st in_title size =
      (tty_sync (active_buffer st.buffers)
        { st.tty with tty_buffer := [27, 93, 48, 59, 7] }).map
        (fun t4 => (STATUS_SUCCESS,
          { st with title := in_title.take (size / 2), title_len := size, tty := t4 })) := by
  have h0 : size ≠ 0 := by omega
  have h1 : ¬ (size / 2 = 0) := by omega
  unfold set_console_title
  dsimp only
  rw [if_pos h0, if_neg h1, if_pos htty]
  generalize utf8 (List.take (size / 2) in_title) = bytes at hlong ⊢
  have w1 : tty_write st.tty [27, 93, 48, 59] = { st.tty with tty_buffer := [27, 93, 48, 59] } := by
    rw [tty_write_buffered _ _ htty (by rw [hbuf]; simp), hbuf]
    rfl
  have a1 : tty_alloc_buffer { st.tty with tty_buffer := [27, 93, 48, 59] } bytes.length =
      none := by
    unfold tty_alloc_buffer
    rw [if_pos (by unfold sizeof_tty_buffer; simp only [List.length_cons, List.length_nil]; omega)]
  have w2 : tty_write { st.tty with tty_buffer := [27, 93, 48, 59] } [7] =
      { st.tty with tty_buffer := [27, 93, 48, 59, 7] } := by
    rw [tty_write_buffered { st.tty with tty_buffer := [27, 93, 48, 59] } [7] htty (by simp)]
    rfl
  rw [w1, a1]
  dsimp only
  rw [w2]
  cases tty_sync (active_buffer st.buffers) { st.tty with tty_buffer := [27, 93, 48, 59, 7] } <;>
    rfl

/-- A short title is emitted as the specification says: for the title `Hi`
the tty receives `ESC ] 0 ; H i BEL`, and `GET_TITLE` returns the title. -/
theorem set_title_short_example :
    (ioctl_set_title utf8_ascii state_tty 4 [72, 105] 0).map
      (fun r => (r.1, tty_stream r.2.tty, r.2.title, (ioctl_get_title r.2 0 4).text)) =
      some (STATUS_SUCCESS, [27, 93, 48, 59, 72, 105, 7], [72, 105], [72, 105]) := by
  decide

/-- C30 at its failing input: a title whose conversion to UTF-8 is longer
than the free space of the tty buffer is stored but not emitted. For the
title of 4093 letters `A`, on a console with a tty, an empty tty buffer and
an active buffer, `SET_TITLE` succeeds and appends to the tty stream
`ESC ] 0 ;` and `BEL` only, not `ESC ] 0 ;`, the 4093 bytes of the title and
`BEL`; the title is stored, and `GET_TITLE` with the capacity of the title
returns it. -/
theorem set_title_long_title_not_emitted :
    ∃ st, ioctl_set_title utf8_ascii state_tty 8186 (List.replicate 4093 65) 0 =
        some (STATUS_SUCCESS, st) ∧
      tty_stream st.tty = tty_stream state_tty.tty ++ [27, 93, 48, 59, 7] ∧
      tty_stream st.tty ≠ tty_stream state_tty.tty ++
        ([27, 93, 48, 59] ++ utf8_ascii (List.replicate 4093 65) ++ [7]) ∧
      st.title = List.replicate 4093 65 ∧
      (ioctl_get_title st 0 8186).status = STATUS_SUCCESS ∧
      (ioctl_get_title st 0 8186).text = List.replicate 4093 65 := by
  have htake : List.take (8186 / 2) (List.replicate 4093 65) = List.replicate 4093 65 := by
    rw [List.take_of_length_le (by rw [List.length_replicate])]
  have hlong : 4092 < (utf8_ascii (List.take (8186 / 2) (List.replicate 4093 65))).length := by
    rw [htake]
    unfold utf8_ascii
    rw [List.length_replicate]
    omega
  have h := set_console_title_too_long utf8_ascii state_tty (List.replicate 4093 65) 8186
    rfl rfl (by omega) hlong
  have hsync : tty_sync (active_buffer state_tty.buffers)
      { state_tty.tty with tty_buffer := [27, 93, 48, 59, 7] } =
      some ⟨true, [], 0, 0, 7, 1, [27, 93, 48, 59, 7]⟩ := by
    decide
  rw [hsync, htake] at h
  refine ⟨{ state_tty with
    title := List.replicate 4093 65
    title_len := 8186
    tty := ⟨true, [], 0, 0, 7, 1, [27, 93, 48, 59, 7]⟩ }, ?_, ?_, ?_, rfl, ?_, ?_⟩
  · unfold ioctl_set_title
    rw [if_neg (by decide)]
    exact h
  · rfl
  · intro hc
    have hl := congrArg List.length hc
    rw [List.length_append, List.length_append, List.length_append] at hl
    unfold utf8_ascii at hl
    rw [List.length_replicate] at hl
    change 5 = _ at hl
    omega
  · unfold ioctl_get_title
    rfl
  · unfold ioctl_get_title
    dsimp only
    rw [if_neg (by decide)]
    dsimp only
    rw [List.take_of_length_le (by rw [List.length_replicate]; decide)]

/-! ## The fields of the tty through the rendering functions -/

theorem tty_flush_stream (t : console_tty) : tty_stream (tty_flush t) = tty_stream t := by
  unfold tty_flush tty_stream
  split <;> simp

theorem tty_flush_fields (t : console_tty) :
    (tty_flush t).tty_output = t.tty_output ∧
    (tty_flush t).tty_cursor_x = t.tty_cursor_x ∧
    (tty_flush t).tty_cursor_y = t.tty_cursor_y ∧
    (tty_flush t).tty_attr = t.tty_attr ∧
    (tty_flush t).tty_cursor_visible = t.tty_cursor_visible := by
  unfold tty_flush
  split <;> simp

theorem tty_flush_buffer (t : console_tty) (h : t.tty_output = true) :
    (tty_flush t).tty_buffer = [] := by
  unfold tty_flush
  split
  · rename_i hc
    rcases hc with hc | hc
    · rw [h] at hc; cases hc
    · exact List.length_eq_zero.mp hc
  · rfl

theorem tty_flush_buffer_le (t : console_tty) :
    (tty_flush t).tty_buffer.length ≤ t.tty_buffer.length := by
  unfold tty_flush
  split <;> simp

theorem hide_tty_cursor_visible (t : console_tty) : (hide_tty_cursor t).tty_cursor_visible = 0 := by
  unfold hide_tty_cursor
  split
  · rfl
  · rename_i h
    exact not_not.mp h

/-- After `set_tty_cursor` the console believes the cursor at `(x, y)`; the
tty handle is kept, and the cursor is marked as before or as hidden. -/
theorem set_tty_cursor_fields (t : console_tty) (x y : Nat) :
    (set_tty_cursor t x y).tty_output = t.tty_output ∧
    (set_tty_cursor t x y).tty_cursor_x = x ∧
    (set_tty_cursor t x y).tty_cursor_y = y ∧
    (set_tty_cursor t x y).tty_attr = t.tty_attr ∧
    ((set_tty_cursor t x y).tty_cursor_visible = t.tty_cursor_visible ∨
      (set_tty_cursor t x y).tty_cursor_visible = 0) := by
  unfold set_tty_cursor
  by_cases h0 : t.tty_cursor_x = x ∧ t.tty_cursor_y = y
  · rw [if_pos h0]
    exact ⟨rfl, h0.1, h0.2, rfl, Or.inl rfl⟩
  · rw [if_neg h0]
    dsimp only
    have hw := fun (s : console_tty) (b : List Nat) => tty_write_fields s b
    have hh := hide_tty_cursor_fields t
    have hv := hide_tty_cursor_visible t
    split_ifs <;>
      (refine ⟨?_, ?_, ?_, ?_, ?_⟩ <;> simp only [(hw _ _).1, (hw _ _).2.1, (hw _ _).2.2.1,
        (hw _ _).2.2.2.1, (hw _ _).2.2.2.2, hh.1, hh.2.2.2, hv, true_or, or_true])

/-! ## The attribute sequences on a terminal -/

/-- C34 at its failing input: the terminal shows red on blue (attribute
0x14) and `set_tty_attr` is called for white on blue (0x17). The foreground
differs and is 7, so that `ESC[m` is emitted, which sets the terminal to
(7, 0); the background nibble did not change, so that nothing else is
emitted. The console then believes the attribute 0x17, and the terminal
does not match it: its background is 0, not 1. In the same way nothing is
emitted from 0x17 to 7, and the terminal keeps the background 1. -/
theorem set_tty_attr_reset_loses_background :
    terminal_matches ⟨4, 1⟩ tty_red_on_blue.tty_attr ∧
    tty_stream (set_tty_attr tty_red_on_blue 0x17) = [27, 91, 109] ∧
    (set_tty_attr tty_red_on_blue 0x17).tty_attr = 0x17 ∧
    terminal_run (tty_stream (set_tty_attr tty_red_on_blue 0x17)) ⟨4, 1⟩ = ⟨7, 0⟩ ∧
    ¬ terminal_matches (terminal_run (tty_stream (set_tty_attr tty_red_on_blue 0x17)) ⟨4, 1⟩)
      0x17 ∧
    terminal_matches ⟨7, 1⟩ tty_white_on_blue.tty_attr ∧
    tty_stream (set_tty_attr tty_white_on_blue 7) = [] ∧
    ¬ terminal_matches (terminal_run (tty_stream (set_tty_attr tty_white_on_blue 7)) ⟨7, 1⟩) 7 := by
  decide

/-- The sequences of `set_tty_attr` reach the attribute on a terminal when
both nibbles change and the new foreground is not 7: from white on black to
red on blue, and to bright red on bright blue. -/
theorem set_tty_attr_terminal_example :
    terminal_run (tty_stream (set_tty_attr tty_origin 0x14)) ⟨7, 0⟩ = ⟨4, 1⟩ ∧
    terminal_run (tty_stream (set_tty_attr tty_origin 0x9c)) ⟨7, 0⟩ = ⟨12, 9⟩ := by
  decide

/-! ## The size checks of the dispatcher -/

/-- C35 at its failing input: a wrapped write (`params.width = 0`) of one
character at the cell (0, 0) of a 2 x 2 buffer with `out_size =
sizeof(SMALL_RECT)` passes the size checks of the dispatcher, and
`write_output` then evaluates `entry_cnt / width` with `width = 0` for the
reply region (conhost.c 762): the model has no result. The same request
with `out_size = sizeof(DWORD)` succeeds. -/
theorem write_output_region_divides_by_zero :
    ¬ ((sizeof_SMALL_RECT ≠ sizeof_DWORD ∧ sizeof_SMALL_RECT ≠ sizeof_SMALL_RECT) ∨
      sizeof_condrv_output_params + sizeof_WCHAR * [65].length < sizeof_condrv_output_params) ∧
    write_a_wrapped.width = 0 ∧
    ioctl_write_output blank_2x2 write_a_wrapped [65] sizeof_SMALL_RECT = none ∧
    (ioctl_write_output blank_2x2 write_a_wrapped [65] sizeof_DWORD).map
      (fun r => (r.status, r.reply)) = some (STATUS_SUCCESS, ioctl_reply.dword 1) := by
  decide

/-- C37 at its failing input: a `SET_OUTPUT_INFO` request of 100 bytes with
the font flag is accepted by the dispatcher, which compares `in_size` with
`sizeof(struct condrv_output_info)` (100) and not with the size of the
parameter block (104); `in_size - sizeof(*params)` then wraps in `size_t`,
and the number of bytes copied for the face name is 2^64 - 4, far more than
the payload holds. -/
theorem set_output_info_short_request :
    sizeof_condrv_output_info = 100 ∧ sizeof_condrv_output_info_params = 104 ∧
    (ioctl_set_output_info fresh_zero true 0 window_2x2
      ⟨SET_CONSOLE_OUTPUT_INFO_FONT, info_2x2⟩ 100 [] 0).status = STATUS_SUCCESS ∧
    (ioctl_set_output_info fresh_zero true 0 window_2x2
      ⟨SET_CONSOLE_OUTPUT_INFO_FONT, info_2x2⟩ 99 [] 0).status = STATUS_INVALID_PARAMETER ∧
    font_name_size 100 = 18446744073709551612 ∧
    ¬ (font_name_size 100 ≤ 100 - sizeof_condrv_output_info_params) := by
  decide

/-- The face name does not wrap when the request holds the whole parameter
block: the number of bytes copied is at most `in_size - sizeof(*params)`. -/
theorem font_name_size_le (in_size : Nat) (h : sizeof_condrv_output_info_params ≤ in_size)
    (hs : in_size < 18446744073709551616) :
    font_name_size in_size ≤ in_size - sizeof_condrv_output_info_params := by
  unfold font_name_size SIZE_T
  simp only [sizeof_condrv_output_info_params, sizeof_WCHAR] at *
  omega

/-! ## tty_sync without an active buffer -/

/-- C36 at its failing input: on a console with a tty, `CLOSE_OUTPUT` of the
active buffer leaves `console->active` at `NULL`, and the `SET_TITLE`
request that follows calls `tty_sync`, which reads
`console->active->cursor_visible` through that pointer: the model has no
result. -/
theorem tty_sync_without_active_buffer :
    state_tty.tty.tty_output = true ∧
    buffer_request_step fresh_zero state_tty.buffers (buffer_request.close_output 1 0 0) =
      (STATUS_SUCCESS, state_tty_closed.buffers) ∧
    state_tty_closed.buffers.active = none ∧
    tty_sync none state_tty_closed.tty = none ∧
    ioctl_set_title utf8_ascii state_tty_closed 4 [72, 105] 0 = none := by
  decide

/-! ## The update rectangles of fill_output and scroll_output -/

/-- C38 at its failing input: a wrapped fill of four cells from column 6 of
row 0 of the 8 x 4 buffer of blanks changes the cells (6, 0), (7, 0), (0, 1)
and (1, 1). The rectangle handed to `update_output` is (left 6, top 0, right
1, bottom 1): `left <= right` fails, the changed cell (0, 1) has its column
outside `[left, right]`, and `update_output` renders no cell at all. -/
theorem fill_update_rect_wrapped :
    (fill_output blank_8x4 fill_across_rows).map (fun r => (r.status, r.result)) =
      some (STATUS_SUCCESS, some 4) ∧
    blank_8x4.data[1 * 8 + 0]? = some ⟨32, 7⟩ ∧
    (fill_output blank_8x4 fill_across_rows).map (fun r => r.sb.data[1 * 8 + 0]?) =
      some (some ⟨65, 7⟩) ∧
    fill_update_rect blank_8x4 fill_across_rows = ⟨6, 0, 1, 1⟩ ∧
    ¬ ((fill_update_rect blank_8x4 fill_across_rows).left ≤
      (fill_update_rect blank_8x4 fill_across_rows).right) ∧
    ¬ ((fill_update_rect blank_8x4 fill_across_rows).left ≤ 0) ∧
    (fill_output blank_8x4 fill_across_rows).map
      (fun r => update_output utf8_ascii true r.sb
        (fill_update_rect blank_8x4 fill_across_rows) tty_origin) =
      some (hide_tty_cursor tty_origin) := by
  decide

/-- C39 at its failing input: the scroll of the whole 4 x 4 buffer to the
origin (2, 2) is accepted. The destination is (2, 2, 5, 5): only its left
and top sides are cut to the clip, so that the rectangle handed to
`update_output` is (0, 0, 5, 5), with `right >= W` and `bottom >= H`; the
cell index `3 * W + 4 = 16` read for the column 4 of the row 3 is not an
index of the grid. -/
theorem scroll_update_rect_outside :
    ¬ scroll_invalid rows_4x4 scroll_past_edge ∧
    (scroll_output rows_4x4 scroll_past_edge).status = STATUS_SUCCESS ∧
    scroll_update_rect rows_4x4 scroll_past_edge = ⟨0, 0, 5, 5⟩ ∧
    ¬ ((scroll_update_rect rows_4x4 scroll_past_edge).right < rows_4x4.width) ∧
    ¬ ((scroll_update_rect rows_4x4 scroll_past_edge).bottom < rows_4x4.height) ∧
    (scroll_output rows_4x4 scroll_past_edge).sb.data.length = 16 ∧
    (scroll_output rows_4x4 scroll_past_edge).sb.data[UINT (3 * rows_4x4.width + 4)]? = none := by
  decide

/-! ## The byte stream of the tty -/

theorem tty_write_buffer_le (t : console_tty) (b : List Nat)
    (h : t.tty_buffer.length ≤ sizeof_tty_buffer) :
    (tty_write t b).tty_buffer.length ≤ sizeof_tty_buffer := by
  unfold tty_write
  dsimp only
  by_cases h0 : b.length = 0 ∨ t.tty_output = false
  · rw [if_pos h0]; exact h
  · rw [if_neg h0]
    by_cases h1 : t.tty_buffer.length + b.length > sizeof_tty_buffer
    · simp only [if_pos h1]
      by_cases h2 : (tty_flush t).tty_buffer.length + b.length ≤ sizeof_tty_buffer
      · rw [if_pos h2]
        change ((tty_flush t).tty_buffer ++ b).length ≤ sizeof_tty_buffer
        rw [List.length_append]; exact h2
      · rw [if_neg h2]
        exact le_trans (tty_flush_buffer_le t) h
    · simp only [if_neg h1]
      have h2 : t.tty_buffer.length + b.length ≤ sizeof_tty_buffer := by omega
      rw [if_pos h2]
      change (t.tty_buffer ++ b).length ≤ sizeof_tty_buffer
      rw [List.length_append]; exact h2

theorem tty_write_assertion_holds (t : console_tty) (b : List Nat) :
    tty_write_assertion t b := by
  unfold tty_write_assertion
  dsimp only
  by_cases h0 : b.length = 0 ∨ t.tty_output = false
  · rw [if_pos h0]; trivial
  · rw [if_neg h0]
    have htty : t.tty_output = true := by
      cases ht : t.tty_output
      · exact absurd (Or.inr ht) h0
      · rfl
    by_cases h1 : t.tty_buffer.length + b.length > sizeof_tty_buffer
    · simp only [if_pos h1]
      rw [tty_flush_buffer t htty]
      split
      · trivial
      · rfl
    · simp only [if_neg h1]
      have h2 : t.tty_buffer.length + b.length ≤ sizeof_tty_buffer := by omega
      rw [if_pos h2]; trivial

/-- C40: for every sequence of `tty_write` and `tty_flush` calls on a
console with a tty whose buffer holds at most 4096 bytes, the bytes handed
to the tty followed by the bytes held in `tty_buffer` are those of before
followed by all the chunks in call order (from an empty stream: exactly the
chunks); `tty_buffer_count` is at most 4096 after every call; and the
assertion of `tty_write` holds in every call. -/
theorem tty_calls_stream (cs : List tty_call) (t : console_tty) (h : t.tty_output = true)
    (hb : t.tty_buffer.length ≤ sizeof_tty_buffer) :
    tty_stream (tty_calls cs t) = tty_stream t ++ tty_chunks cs ∧
    (∀ k, (tty_calls (cs.take k) t).tty_buffer.length ≤ sizeof_tty_buffer) ∧
    tty_calls_assertion cs t := by
  induction cs generalizing t with
  | nil =>
    refine ⟨by simp [tty_calls, tty_chunks], ?_, trivial⟩
    intro k
    simpa [tty_calls] using hb
  | cons c cs ih =>
    cases c with
    | write b =>
      have h1 : (tty_write t b).tty_output = true := by rw [(tty_write_fields t b).1]; exact h
      have hb1 := tty_write_buffer_le t b hb
      obtain ⟨i1, i2, i3⟩ := ih (tty_write t b) h1 hb1
      refine ⟨?_, ?_, ?_⟩
      · simp only [tty_calls, tty_chunks]
        rw [i1, tty_write_stream t b h, List.append_assoc]
      · intro k
        cases k with
        | zero => simpa [tty_calls] using hb
        | succ k => simpa [tty_calls] using i2 k
      · exact ⟨tty_write_assertion_holds t b, i3⟩
    | flush =>
      have h1 : (tty_flush t).tty_output = true := by rw [(tty_flush_fields t).1]; exact h
      have hb1 := le_trans (tty_flush_buffer_le t) hb
      obtain ⟨i1, i2, i3⟩ := ih (tty_flush t) h1 hb1
      refine ⟨?_, ?_, ?_⟩
      · simp only [tty_calls, tty_chunks]
        rw [i1, tty_flush_stream]
      · intro k
        cases k with
        | zero => simpa [tty_calls] using hb
        | succ k => simpa [tty_calls] using i2 k
      · exact i3

theorem tty_calls_stream_witness :
    tty_stream (tty_calls [tty_call.write [72, 105], tty_call.flush, tty_call.write [33]]
      tty_origin) = tty_stream tty_origin ++
        tty_chunks [tty_call.write [72, 105], tty_call.flush, tty_call.write [33]] ∧
    (∀ k, (tty_calls
      ([tty_call.write [72, 105], tty_call.flush, tty_call.write [33]].take k)
        tty_origin).tty_buffer.length ≤ sizeof_tty_buffer) ∧
    tty_calls_assertion [tty_call.write [72, 105], tty_call.flush, tty_call.write [33]]
      tty_origin :=
  tty_calls_stream _ tty_origin (by decide) (by decide)

/-- A chunk of 5000 bytes written after three buffered bytes: the buffer is
flushed first and the chunk goes to the tty directly, so that the order of
the bytes is kept and the buffer is empty. -/
theorem tty_write_oversized_example :
    (tty_write (tty_write tty_origin [1, 2, 3]) (List.replicate 5000 0)).tty_buffer = [] ∧
    (tty_write (tty_write tty_origin [1, 2, 3]) (List.replicate 5000 0)).written =
      [1, 2, 3] ++ List.replicate 5000 0 := by
  have h1 : tty_write tty_origin [1, 2, 3] = { tty_origin with tty_buffer := [1, 2, 3] } := by
    decide
  rw [h1]
  generalize hc : List.replicate 5000 0 = chunk
  have hl : chunk.length = 5000 := by rw [← hc, List.length_replicate]
  unfold tty_write tty_flush
  simp [sizeof_tty_buffer, tty_origin, hl]

/-! ## tty_sync -/

/-- C32 as stated fails: the active buffer has a hidden cursor at (1, 1) and
the tty believes the cursor at (0, 0); after `tty_sync` the cursor is marked
hidden and the emission buffer is empty, but the believed position is still
(0, 0), not that of the buffer. -/
theorem tty_sync_position_counterexample :
    tty_origin.tty_output = true ∧
    hidden_cursor_2x2.cursor_x = 1 ∧ hidden_cursor_2x2.cursor_y = 1 ∧
    (tty_sync (some hidden_cursor_2x2) tty_origin).map
      (fun t => (t.tty_cursor_x, t.tty_cursor_y, t.tty_cursor_visible, t.tty_buffer)) =
      some (0, 0, 0, []) := by
  decide

/-- C32, amended: for every console with a tty and an active buffer,
`tty_sync` returns; after it the emission buffer is empty, the cursor is
marked visible exactly when the cursor of the active buffer is visible, the
believed cursor position is that of the active buffer when its cursor is
visible, and it is unchanged when the cursor is hidden. -/
theorem tty_sync_converges (a : screen_buffer) (t : console_tty) (h : t.tty_output = true) :
    ∃ t1, tty_sync (some a) t = some t1 ∧ t1.tty_buffer = [] ∧
      (t1.tty_cursor_visible ≠ 0 ↔ a.cursor_visible ≠ 0) ∧
      (a.cursor_visible ≠ 0 → t1.tty_cursor_x = a.cursor_x ∧ t1.tty_cursor_y = a.cursor_y) ∧
      (a.cursor_visible = 0 →
        t1.tty_cursor_x = t.tty_cursor_x ∧ t1.tty_cursor_y = t.tty_cursor_y) := by
  unfold tty_sync
  have hne : ¬ (t.tty_output = false) := by rw [h]; decide
  rw [if_neg hne]
  dsimp only
  have hc := set_tty_cursor_fields t a.cursor_x a.cursor_y
  have hf := fun (s : console_tty) => tty_flush_fields s
  by_cases hv : a.cursor_visible ≠ 0
  · rw [if_pos hv]
    by_cases h2 : (set_tty_cursor t a.cursor_x a.cursor_y).tty_cursor_visible = 0
    · rw [if_pos h2]
      refine ⟨_, rfl, ?_, ?_, ?_, ?_⟩
      · apply tty_flush_buffer
        change (tty_write _ _).tty_output = true
        rw [(tty_write_fields _ _).1, hc.1, h]
      · rw [(hf _).2.2.2.2]
        exact ⟨fun _ => hv, fun _ => Nat.one_ne_zero⟩
      · intro _
        rw [(hf _).2.1, (hf _).2.2.1]
        change (tty_write _ _).tty_cursor_x = _ ∧ (tty_write _ _).tty_cursor_y = _
        rw [(tty_write_fields _ _).2.1, (tty_write_fields _ _).2.2.1]
        exact ⟨hc.2.1, hc.2.2.1⟩
      · intro h0; exact absurd h0 hv
    · rw [if_neg h2]
      refine ⟨_, rfl, ?_, ?_, ?_, ?_⟩
      · apply tty_flush_buffer
        rw [hc.1, h]
      · rw [(hf _).2.2.2.2]
        exact ⟨fun _ => hv, fun _ => h2⟩
      · intro _
        rw [(hf _).2.1, (hf _).2.2.1]
        exact ⟨hc.2.1, hc.2.2.1⟩
      · intro h0; exact absurd h0 hv
  · rw [if_neg hv]
    have hv0 : a.cursor_visible = 0 := not_not.mp hv
    by_cases h2 : t.tty_cursor_visible ≠ 0
    · rw [if_pos h2]
      refine ⟨_, rfl, ?_, ?_, ?_, ?_⟩
      · apply tty_flush_buffer
        rw [(hide_tty_cursor_fields t).1, h]
      · rw [(hf _).2.2.2.2, hide_tty_cursor_visible]
        simp only [hv0, ne_eq, not_true_eq_false]
      · intro h0; exact absurd hv0 h0
      · intro _
        rw [(hf _).2.1, (hf _).2.2.1]
        exact ⟨(hide_tty_cursor_fields t).2.1, (hide_tty_cursor_fields t).2.2.1⟩
    · rw [if_neg h2]
      refine ⟨_, rfl, ?_, ?_, ?_, ?_⟩
      · exact tty_flush_buffer t h
      · rw [(hf _).2.2.2.2]
        simp only [hv0, ne_eq, not_true_eq_false, iff_false, not_not]
        exact not_not.mp h2
      · intro h0; exact absurd hv0 h0
      · intro _
        rw [(hf _).2.1, (hf _).2.2.1]
        exact ⟨rfl, rfl⟩

theorem tty_sync_converges_witness :
    ∃ t1, tty_sync (some corner_4x4) tty_origin = some t1 ∧ t1.tty_buffer = [] ∧
      (t1.tty_cursor_visible ≠ 0 ↔ corner_4x4.cursor_visible ≠ 0) ∧
      (corner_4x4.cursor_visible ≠ 0 →
        t1.tty_cursor_x = corner_4x4.cursor_x ∧ t1.tty_cursor_y = corner_4x4.cursor_y) ∧
      (corner_4x4.cursor_visible = 0 →
        t1.tty_cursor_x = tty_origin.tty_cursor_x ∧ t1.tty_cursor_y = tty_origin.tty_cursor_y) :=
  tty_sync_converges corner_4x4 tty_origin (by decide)

/-- The sync of the tty at the origin with a buffer whose cursor is at
(3, 3): the cursor is hidden, moved and shown again, and the bytes are
handed to the tty. -/
theorem tty_sync_example :
    tty_sync (some corner_4x4) tty_origin =
      some ⟨true, [], 3, 3, 7, 1,
        [27, 91, 50, 53, 108, 27, 91, 52, 59, 52, 72, 27, 91, 63, 50, 53, 104]⟩ := by
  decide

/-! ## A repeated write -/

/-- A store of `write_output` overwrites what an earlier store of the same
request left in the cell: the stores of one mode set the same fields. -/
theorem write_cell_overwrite (attr mode : Nat) (src : List Nat) (k k1 : Nat)
    (f g : char_info_t → char_info_t) (hf : write_cell attr mode src k = some f)
    (hg : write_cell attr mode src k1 = some g) (c : char_info_t) : g (f c) = g c := by
  unfold write_cell at hf hg
  split_ifs at hf hg <;> simp only [Option.some.injEq] at hf hg <;>
    subst hf <;> subst hg <;> simp [set_ch, set_attr]

/-- The store loop of `write_output` reads the width, the height and the
attribute of the buffer, not its grid. -/
theorem write_output_loop_sb_data (sb : screen_buffer) (grid : List char_info_t)
    (params : condrv_output_params) (src : List Nat) (n : Nat) :
    ∀ (i : Nat) (data : List char_info_t) (stored : List Nat),
      write_output_loop { sb with data := grid } params src n i data stored =
        write_output_loop sb params src n i data stored := by
  induction n with
  | zero => intro i data stored; rfl
  | succ n ih =>
    intro i data stored
    unfold write_output_loop
    have ha : write_addr { sb with data := grid } params i = write_addr sb params i := rfl
    rw [ha]
    cases hxy : write_addr sb params i with
    | none => exact ih _ _ _
    | some p =>
      obtain ⟨x, y⟩ := p
      dsimp only
      by_cases hy : y ≥ sb.height
      · rw [if_pos hy, if_pos hy]
      · rw [if_neg hy, if_neg hy]
        cases hc : write_cell sb.attr params.mode src i with
        | none => rfl
        | some f => exact ih _ _ _

/-- The loop counter, the cells stored into and the exit of the store loop
do not depend on the grid. -/
theorem write_output_loop_control (sb : screen_buffer) (params : condrv_output_params)
    (src : List Nat) (n : Nat) :
    ∀ (i : Nat) (data data1 : List char_info_t) (stored : List Nat),
      (write_output_loop sb params src n i data stored).i =
        (write_output_loop sb params src n i data1 stored).i ∧
      (write_output_loop sb params src n i data stored).stored =
        (write_output_loop sb params src n i data1 stored).stored ∧
      (write_output_loop sb params src n i data stored).invalid =
        (write_output_loop sb params src n i data1 stored).invalid := by
  induction n with
  | zero => intro i data data1 stored; exact ⟨rfl, rfl, rfl⟩
  | succ n ih =>
    intro i data data1 stored
    unfold write_output_loop
    cases hxy : write_addr sb params i with
    | none => exact ih _ _ _ _
    | some p =>
      obtain ⟨x, y⟩ := p
      dsimp only
      by_cases hy : y ≥ sb.height
      · rw [if_pos hy, if_pos hy]; exact ⟨rfl, rfl, rfl⟩
      · rw [if_neg hy, if_neg hy]
        cases hc : write_cell sb.attr params.mode src i with
        | none => exact ⟨rfl, rfl, rfl⟩
        | some f => exact ih _ _ _ _

/-- What the store loop does to the cell with index `j`: nothing, or what
one store of the request does to it. -/
theorem write_output_loop_cell (sb : screen_buffer) (params : condrv_output_params)
    (src : List Nat) (j : Nat) (n : Nat) :
    ∀ (i : Nat), ∃ h : char_info_t → char_info_t,
      ((∀ c, h c = c) ∨
        ∃ k f, write_cell sb.attr params.mode src k = some f ∧ ∀ c, h c = f c) ∧
      ∀ (data : List char_info_t) (stored : List Nat),
        (write_output_loop sb params src n i data stored).data[j]? = data[j]?.map h := by
  induction n with
  | zero =>
    intro i
    refine ⟨id, Or.inl (fun _ => rfl), ?_⟩
    intro data stored
    simp [write_output_loop]
  | succ n ih =>
    intro i
    obtain ⟨h1, hh1, hd1⟩ := ih (i + 1)
    cases hxy : write_addr sb params i with
    | none =>
      refine ⟨h1, hh1, ?_⟩
      intro data stored
      unfold write_output_loop
      rw [hxy]
      exact hd1 _ _
    | some p =>
      obtain ⟨x, y⟩ := p
      by_cases hy : y ≥ sb.height
      · refine ⟨id, Or.inl (fun _ => rfl), ?_⟩
        intro data stored
        unfold write_output_loop
        rw [hxy]
        dsimp only
        rw [if_pos hy]
        simp
      · cases hc : write_cell sb.attr params.mode src i with
        | none =>
          refine ⟨id, Or.inl (fun _ => rfl), ?_⟩
          intro data stored
          unfold write_output_loop
          rw [hxy]
          dsimp only
          rw [if_neg hy, hc]
          simp
        | some f =>
          by_cases hj : U32 (y * sb.width + x) = j
          · refine ⟨fun c => h1 (f c), ?_, ?_⟩
            · right
              rcases hh1 with hid | ⟨k, g, hg, hgc⟩
              · exact ⟨i, f, hc, fun c => hid (f c)⟩
              · refine ⟨k, g, hg, ?_⟩
                intro c
                show h1 (f c) = g c
                rw [hgc]
                exact write_cell_overwrite _ _ _ i k f g hc hg c
            · intro data stored
              unfold write_output_loop
              rw [hxy]
              dsimp only
              rw [if_neg hy, hc]
              dsimp only
              rw [hd1, getElem?_poke, if_pos hj]
              cases data[j]? <;> simp
          · refine ⟨h1, hh1, ?_⟩
            intro data stored
            unfold write_output_loop
            rw [hxy]
            dsimp only
            rw [if_neg hy, hc]
            dsimp only
            rw [hd1, getElem?_poke, if_neg hj]

/-- The store loop of `write_output`, run again on the grid it left, ends in
the same state. -/
theorem write_output_loop_twice (sb : screen_buffer) (params : condrv_output_params)
    (src : List Nat) (n i : Nat) (data : List char_info_t) (stored : List Nat) :
    write_output_loop sb params src n i
      (write_output_loop sb params src n i data stored).data stored =
      write_output_loop sb params src n i data stored := by
  have hctl := write_output_loop_control sb params src n i
    (write_output_loop sb params src n i data stored).data data stored
  have hdata : (write_output_loop sb params src n i
      (write_output_loop sb params src n i data stored).data stored).data =
      (write_output_loop sb params src n i data stored).data := by
    apply List.ext_getElem?
    intro j
    obtain ⟨h, hh, hd⟩ := write_output_loop_cell sb params src j n i
    rw [hd, hd]
    have hidem : ∀ c, h (h c) = h c := by
      intro c
      rcases hh with hid | ⟨k, f, hf, hfc⟩
      · rw [hid, hid]
      · rw [hfc, hfc]
        exact write_cell_overwrite _ _ _ k k f f hf hf c
    cases data[j]? with
    | none => rfl
    | some c => simp [hidem]
  generalize write_output_loop sb params src n i
    (write_output_loop sb params src n i data stored).data stored = l2 at hctl hdata
  generalize write_output_loop sb params src n i data stored = l1 at hctl hdata
  obtain ⟨d2, i2, s2, v2⟩ := l2
  obtain ⟨d1, i1, s1, v1⟩ := l1
  simp only at hctl hdata
  obtain ⟨hi, hs, hv⟩ := hctl
  subst hi; subst hs; subst hv; subst hdata
  rfl

/-- The buffer a `WRITE_OUTPUT` request leaves is a fixed point of the
request: the same request on it gives the same result. -/
theorem write_output_fixed (sb : screen_buffer) (params : condrv_output_params)
    (src : List Nat) (out_size : Nat) (r : write_result)
    (h : write_output sb params src out_size = some r) :
    write_output r.sb params src out_size = some r ∧
    r.sb.width = sb.width ∧
    (params.x < sb.width →
      write_output_loop r.sb params src (write_entry_cnt params src) 0 r.sb.data [] =
        write_output_loop sb params src (write_entry_cnt params src) 0 sb.data [] ∧
      r.sb = { sb with data := (write_output_loop sb params src (write_entry_cnt params src) 0
        sb.data []).data } ∧
      (r.status = STATUS_SUCCESS ↔
        (write_output_loop sb params src (write_entry_cnt params src) 0
          sb.data []).invalid = false)) := by
  unfold write_output at h
  dsimp only at h
  by_cases hx : params.x ≥ sb.width
  · rw [if_pos hx] at h
    simp only [Option.some.injEq] at h
    subst h
    refine ⟨?_, rfl, fun hlt => absurd hx (by omega)⟩
    unfold write_output
    dsimp only
    rw [if_pos hx]
  · rw [if_neg hx] at h
    have hloop : write_output_loop
        { sb with data := (write_output_loop sb params src (write_entry_cnt params src) 0
          sb.data []).data } params src (write_entry_cnt params src) 0
        (write_output_loop sb params src (write_entry_cnt params src) 0 sb.data []).data [] =
        write_output_loop sb params src (write_entry_cnt params src) 0 sb.data [] := by
      rw [write_output_loop_sb_data]
      exact write_output_loop_twice sb params src _ 0 sb.data []
    generalize hl : write_output_loop sb params src (write_entry_cnt params src) 0 sb.data [] = l
      at h hloop
    have key :
        (write_output { sb with data := l.data } params src out_size =
          (if l.invalid then
            some ⟨STATUS_INVALID_PARAMETER, { sb with data := l.data }, out_size,
              ioctl_reply.unwritten, l.stored⟩
          else if out_size = sizeof_SMALL_RECT then
            if params.width = 0 then none
            else
              some ⟨STATUS_SUCCESS, { sb with data := l.data }, out_size,
                ioctl_reply.region
                  { Left := SHORT params.x
                    Top := SHORT params.y
                    Right := SHORT (UINT ((min (U32 (params.x + params.width)) sb.width : Int) - 1))
                    Bottom := SHORT (UINT ((min
                      (U32 (params.y + write_entry_cnt params src / params.width))
                      sb.height : Int) - 1)) },
                l.stored⟩
          else some ⟨STATUS_SUCCESS, { sb with data := l.data }, out_size,
            ioctl_reply.dword l.i, l.stored⟩)) := by
      unfold write_output
      dsimp only
      rw [if_neg hx, hloop]
    by_cases hinv : l.invalid = true
    · rw [if_pos hinv] at h
      simp only [Option.some.injEq] at h
      subst h
      refine ⟨?_, rfl, fun _ => ⟨hloop, rfl, ?_⟩⟩
      · rw [key, if_pos hinv]
      · rw [hinv]; simp
    · rw [if_neg hinv] at h
      by_cases ho : out_size = sizeof_SMALL_RECT
      · rw [if_pos ho] at h
        by_cases hw : params.width = 0
        · rw [if_pos hw] at h; cases h
        · rw [if_neg hw] at h
          simp only [Option.some.injEq] at h
          subst h
          refine ⟨?_, rfl, fun _ => ⟨hloop, rfl, ?_⟩⟩
          · rw [key, if_neg hinv, if_pos ho, if_neg hw]
          · simpa using hinv
      · rw [if_neg ho] at h
        simp only [Option.some.injEq] at h
        subst h
        refine ⟨?_, rfl, fun _ => ⟨hloop, rfl, ?_⟩⟩
        · rw [key, if_neg hinv, if_neg ho]
        · simpa using hinv

/-- The rendering of a `WRITE_OUTPUT` request on the buffer that the request
left is the rendering of the request itself. -/
theorem write_output_tty_fixed (utf8 : List Nat → List Nat) (sb : screen_buffer)
    (params : condrv_output_params) (src : List Nat) (t : console_tty)
    (l : write_loop_result)
    (hl : l = write_output_loop sb params src (write_entry_cnt params src) 0 sb.data []) :
    write_output_tty utf8 true { sb with data := l.data } params src t =
      write_output_tty utf8 true sb params src t := by
  have hloop : write_output_loop { sb with data := l.data } params src
      (write_entry_cnt params src) 0 l.data [] = l := by
    rw [write_output_loop_sb_data, hl]
    exact write_output_loop_twice sb params src _ 0 sb.data []
  unfold write_output_tty
  dsimp only
  rw [hloop, ← hl]

/-- C31 as stated fails: the text `A` is written to the cell (0, 0) of the
2 x 2 buffer of blanks, which is active, and rendered. The identical request
then leaves the buffer as it is, but `update_output` renders the rectangle
again: before the trailing sync the tty receives `ESC[25l` and the cell text
`A`, whereas a sync alone would emit nothing in that state. -/
theorem write_output_twice_counterexample :
    write_output blank_2x2 write_a_wrapped [65] sizeof_DWORD =
      some ⟨STATUS_SUCCESS, a_2x2, 4, ioctl_reply.dword 1, [0]⟩ ∧
    write_output_tty utf8_ascii true blank_2x2 write_a_wrapped [65] tty_origin =
      some tty_after_a ∧
    write_output a_2x2 write_a_wrapped [65] sizeof_DWORD =
      some ⟨STATUS_SUCCESS, a_2x2, 4, ioctl_reply.dword 1, [0]⟩ ∧
    tty_stream (update_output utf8_ascii true a_2x2 (write_update_rect a_2x2 write_a_wrapped 1 1)
      tty_after_a) = tty_stream tty_after_a ++ [27, 91, 50, 53, 108, 65] ∧
    (write_output_tty utf8_ascii true a_2x2 write_a_wrapped [65] tty_after_a).map tty_stream =
      some (tty_stream tty_after_a ++ [27, 91, 50, 53, 108, 65, 13, 27, 91, 63, 50, 53, 104]) ∧
    tty_sync (some a_2x2) tty_after_a = some tty_after_a := by
  decide

/-- C31, amended: for every `WRITE_OUTPUT` request on the active buffer
that returns, the identical request issued a second time returns the same
result and leaves the buffer as the first left it, and it emits to the tty
what the first request emits from the same tty state: when the start column
is inside the buffer, the request is valid and the loop counter is not zero,
the rendering by `update_output` of the update rectangle of the request on
that buffer (cell text and attribute sequences included), followed by the
trailing sync; otherwise nothing. -/
theorem write_output_twice (utf8 : List Nat → List Nat) (sb : screen_buffer)
    (params : condrv_output_params) (src : List Nat) (out_size : Nat) (r : write_result)
    (t : console_tty) (h : write_output sb params src out_size = some r) :
    write_output r.sb params src out_size = some r ∧
    write_output_tty utf8 true r.sb params src t = write_output_tty utf8 true sb params src t ∧
    write_output_tty utf8 true r.sb params src t =
      (if params.x < sb.width ∧ r.status = STATUS_SUCCESS ∧
          (write_output_loop sb params src (write_entry_cnt params src) 0 sb.data []).i ≠ 0 then
        tty_sync (some r.sb)
          (update_output utf8 true r.sb
            (write_update_rect r.sb params
              (write_output_loop sb params src (write_entry_cnt params src) 0 sb.data []).i
              (write_entry_cnt params src)) t)
      else some t) := by
  obtain ⟨h1, hw, h3⟩ := write_output_fixed sb params src out_size r h
  have hfirst : write_output_tty utf8 true sb params src t =
      (if params.x < sb.width ∧ r.status = STATUS_SUCCESS ∧
          (write_output_loop sb params src (write_entry_cnt params src) 0 sb.data []).i ≠ 0 then
        tty_sync (some r.sb)
          (update_output utf8 true r.sb
            (write_update_rect r.sb params
              (write_output_loop sb params src (write_entry_cnt params src) 0 sb.data []).i
              (write_entry_cnt params src)) t)
      else some t) := by
    unfold write_output_tty
    dsimp only
    by_cases hx : params.x ≥ sb.width
    · rw [if_pos hx, if_neg (by omega)]
    · rw [if_neg hx]
      obtain ⟨_, hsb, hst⟩ := h3 (by omega)
      rw [← hsb]
      by_cases hinv : (write_output_loop sb params src (write_entry_cnt params src) 0
          sb.data []).invalid = true
      · rw [if_pos hinv, if_neg]
        intro hc
        rw [hst.mp hc.2.1] at hinv
        cases hinv
      · rw [if_neg hinv]
        have hs : r.status = STATUS_SUCCESS := hst.mpr (by simpa using hinv)
        by_cases hi : (write_output_loop sb params src (write_entry_cnt params src) 0
            sb.data []).i ≠ 0
        · rw [if_pos ⟨hi, rfl⟩, if_pos ⟨by omega, hs, hi⟩]
        · rw [if_neg (fun hc => hi hc.1), if_neg (fun hc => hi hc.2.2)]
  have hsecond : write_output_tty utf8 true r.sb params src t =
      write_output_tty utf8 true sb params src t := by
    by_cases hx : params.x ≥ sb.width
    · unfold write_output_tty
      dsimp only
      rw [if_pos hx, if_pos (by rw [hw]; exact hx)]
    · obtain ⟨_, hsb, _⟩ := h3 (by omega)
      rw [hsb]
      exact write_output_tty_fixed utf8 sb params src t _ rfl
  exact ⟨h1, hsecond, hsecond.trans hfirst⟩

theorem write_output_twice_witness :
    write_output a_2x2 write_a_wrapped [65] sizeof_DWORD =
      some ⟨STATUS_SUCCESS, a_2x2, 4, ioctl_reply.dword 1, [0]⟩ ∧
    write_output_tty utf8_ascii true a_2x2 write_a_wrapped [65] tty_origin =
      write_output_tty utf8_ascii true blank_2x2 write_a_wrapped [65] tty_origin ∧
    write_output_tty utf8_ascii true a_2x2 write_a_wrapped [65] tty_origin =
      (if write_a_wrapped.x < blank_2x2.width ∧ STATUS_SUCCESS = STATUS_SUCCESS ∧
          (write_output_loop blank_2x2 write_a_wrapped [65]
            (write_entry_cnt write_a_wrapped [65]) 0 blank_2x2.data []).i ≠ 0 then
        tty_sync (some a_2x2)
          (update_output utf8_ascii true a_2x2
            (write_update_rect a_2x2 write_a_wrapped
              (write_output_loop blank_2x2 write_a_wrapped [65]
                (write_entry_cnt write_a_wrapped [65]) 0 blank_2x2.data []).i
              (write_entry_cnt write_a_wrapped [65])) tty_origin)
      else some tty_origin) :=
  write_output_twice utf8_ascii blank_2x2 write_a_wrapped [65] sizeof_DWORD
    ⟨STATUS_SUCCESS, a_2x2, 4, ioctl_reply.dword 1, [0]⟩ tty_origin (by decide)

/-! ## The rows that update_output renders -/

theorem length_grid_row (sb : screen_buffer) (y : Nat)
    (hlen : sb.data.length = sb.width * sb.height) (hy : y < sb.height) :
    (grid_row sb y).length = sb.width := by
  unfold grid_row
  rw [List.length_take, List.length_drop, hlen]
  have h1 : (y + 1) * sb.width ≤ sb.height * sb.width := Nat.mul_le_mul_right _ hy
  rw [Nat.succ_mul] at h1
  rw [Nat.mul_comm sb.width sb.height]
  omega

theorem getElem?_grid_row_reverse (sb : screen_buffer) (y k : Nat)
    (hlen : sb.data.length = sb.width * sb.height) (hy : y < sb.height) (hk : k < sb.width) :
    (grid_row sb y).reverse[k]? = sb.data[(y + 1) * sb.width - k - 1]? := by
  have hl := length_grid_row sb y hlen hy
  rw [List.getElem?_reverse (by rw [hl]; exact hk), hl]
  unfold grid_row
  rw [List.getElem?_take_of_lt (by omega), List.getElem?_drop]
  congr 1
  rw [Nat.succ_mul]
  omega

/-- The length of the longest initial part of `l` whose elements satisfy `p` is
`k` when the first `k` elements satisfy `p` and the next one, if there is
one, does not. -/
theorem length_takeWhile_of_forall {α : Type} (p : α → Bool) :
    ∀ (l : List α) (k : Nat), k ≤ l.length →
      (∀ i, i < k → ∃ c, l[i]? = some c ∧ p c = true) →
      (k < l.length → ∃ c, l[k]? = some c ∧ p c = false) →
      (l.takeWhile p).length = k := by
  intro l
  induction l with
  | nil =>
    intro k hk _ _
    simp at hk
    subst hk
    rfl
  | cons a l ih =>
    intro k hk h1 h2
    cases k with
    | zero =>
      obtain ⟨c, hc, hp⟩ := h2 (by simp)
      simp only [List.getElem?_cons_zero, Option.some.injEq] at hc
      subst hc
      rw [List.takeWhile_cons, hp]
      rfl
    | succ k =>
      obtain ⟨c, hc, hp⟩ := h1 0 (by omega)
      simp only [List.getElem?_cons_zero, Option.some.injEq] at hc
      subst hc
      rw [List.takeWhile_cons, hp]
      simp only [if_true, List.length_cons, add_left_inj]
      apply ih k (by simpa using hk)
      · intro i hi
        have := h1 (i + 1) (by omega)
        simpa using this
      · intro hlt
        have := h2 (by simpa using hlt)
        simpa using this

theorem length_takeWhile_le_length {α : Type} (p : α → Bool) (l : List α) :
    (l.takeWhile p).length ≤ l.length := by
  induction l with
  | nil => exact Nat.le_refl _
  | cons a l ih =>
    rw [List.takeWhile_cons]
    split
    · simp only [List.length_cons]; omega
    · simp

theorem row_trailing_blanks_le (sb : screen_buffer) (y : Nat)
    (hlen : sb.data.length = sb.width * sb.height) (hy : y < sb.height) :
    row_trailing_blanks sb y ≤ sb.width := by
  unfold row_trailing_blanks
  have h1 := length_takeWhile_le_length (fun c => decide (c = empty_char_info))
    (grid_row sb y).reverse
  rw [List.length_reverse, length_grid_row sb y hlen hy] at h1
  exact h1

theorem row_skipped_le (sb : screen_buffer) (y : Nat)
    (hlen : sb.data.length = sb.width * sb.height) (hy : y < sb.height) :
    row_skipped sb y ≤ sb.width := by
  unfold row_skipped
  split
  · exact row_trailing_blanks_le sb y hlen hy
  · omega

/-- The loop of `update_output` that counts the trailing blanks of row `y`
ends with the number of trailing cells of the row equal to `(' ', 7)`. -/
theorem update_trailing_spaces_eq (sb : screen_buffer) (y : Nat)
    (hlen : sb.data.length = sb.width * sb.height) (hy : y < sb.height)
    (hsize : sb.width * sb.height < 2147483648) :
    ∀ (n ts : Nat), n + ts = sb.width →
      (∀ k, k < ts → (grid_row sb y).reverse[k]? = some empty_char_info) →
      update_trailing_spaces sb (y : Int) n (ts : Int) = (row_trailing_blanks sb y : Int) := by
  have hl := length_grid_row sb y hlen hy
  have hrow : (y + 1) * sb.width ≤ sb.width * sb.height := by
    rw [Nat.mul_comm sb.width sb.height]
    exact Nat.mul_le_mul_right _ hy
  intro n
  induction n with
  | zero =>
    intro ts hts hblank
    have hts1 : ts = sb.width := by omega
    unfold update_trailing_spaces row_trailing_blanks
    rw [length_takeWhile_of_forall _ (grid_row sb y).reverse ts
      (by rw [List.length_reverse, hl, hts1])]
    · intro i hi
      exact ⟨_, hblank i hi, by simp⟩
    · intro hlt
      rw [List.length_reverse, hl] at hlt
      omega
  | succ n ih =>
    intro ts hts hblank
    have hk : ts < sb.width := by omega
    have hidx : UINT (((y : Int) + 1) * (sb.width : Int) - (ts : Int) - 1) =
        (y + 1) * sb.width - ts - 1 := by
      have hp : ((y : Int) + 1) * (sb.width : Int) = (((y + 1) * sb.width : Nat) : Int) := by
        push_cast; ring
      rw [hp]
      have hpos : ts + 1 ≤ (y + 1) * sb.width := by
        rw [Nat.succ_mul]; omega
      generalize (y + 1) * sb.width = p at *
      unfold UINT
      omega
    have hq : (y + 1) * sb.width - ts - 1 < sb.data.length := by
      rw [hlen]
      have hpos : ts + 1 ≤ (y + 1) * sb.width := by
        rw [Nat.succ_mul]; omega
      omega
    have hcell := getElem?_grid_row_reverse sb y ts hlen hy hk
    rw [List.getElem?_eq_getElem hq] at hcell
    have hget : sb.data.getD ((y + 1) * sb.width - ts - 1) default =
        sb.data[(y + 1) * sb.width - ts - 1] := by
      rw [List.getD_eq_getElem?_getD, List.getElem?_eq_getElem hq]
      rfl
    unfold update_trailing_spaces
    dsimp only
    rw [hidx, hget]
    generalize sb.data[(y + 1) * sb.width - ts - 1] = ch at hcell
    by_cases hc : ch.ch ≠ 32 ∨ ch.attr ≠ 7
    · rw [if_pos hc]
      unfold row_trailing_blanks
      rw [length_takeWhile_of_forall _ (grid_row sb y).reverse ts
        (by rw [List.length_reverse, hl]; omega)]
      · intro i hi
        exact ⟨_, hblank i hi, by simp⟩
      · intro _
        refine ⟨ch, hcell, ?_⟩
        simp only [decide_eq_false_iff_not]
        intro he
        rw [he] at hc
        simp [empty_char_info] at hc
    · rw [if_neg hc]
      have he : ch = empty_char_info := by
        obtain ⟨c, a⟩ := ch
        simp only [ne_eq, not_or, not_not] at hc
        simp only [empty_char_info, char_info_t.mk.injEq]
        exact hc
      have hcast : (ts : Int) + 1 = ((ts + 1 : Nat) : Int) := by push_cast; rfl
      rw [hcast]
      apply ih (ts + 1) (by omega)
      intro k hk1
      by_cases hkt : k = ts
      · rw [hkt, hcell, he]
      · exact hblank k (by omega)

theorem update_row_skip_eq (sb : screen_buffer) (y : Nat)
    (hlen : sb.data.length = sb.width * sb.height) (hy : y < sb.height)
    (hsize : sb.width * sb.height < 2147483648) :
    update_row_skip sb (y : Int) = (row_skipped sb y : Int) := by
  unfold update_row_skip row_skipped
  have h0 : update_trailing_spaces sb (y : Int) sb.width 0 = (row_trailing_blanks sb y : Int) :=
    update_trailing_spaces_eq sb y hlen hy hsize sb.width 0 (by omega)
      (fun k hk => absurd hk (by omega))
  rw [h0]
  split_ifs <;> omega

theorem set_tty_attr_fields (t : console_tty) (attr : Nat) :
    (set_tty_attr t attr).tty_output = t.tty_output ∧
    (set_tty_attr t attr).tty_cursor_x = t.tty_cursor_x ∧
    (set_tty_attr t attr).tty_cursor_y = t.tty_cursor_y ∧
    (set_tty_attr t attr).tty_attr = attr ∧
    (set_tty_attr t attr).tty_cursor_visible = t.tty_cursor_visible := by
  unfold set_tty_attr
  dsimp only
  have hw := fun (s : console_tty) (b : List Nat) => tty_write_fields s b
  refine ⟨?_, ?_, ?_, rfl, ?_⟩ <;> split_ifs <;>
    simp only [(hw _ _).1, (hw _ _).2.1, (hw _ _).2.2.1, (hw _ _).2.2.2.2]

/-- The body of the column loop of `update_output` for a cell that is
rendered is the rendering of the cell as the specification states it. -/
theorem update_output_cell_eq (utf8 : List Nat → List Nat) (sb : screen_buffer) (x y : Nat)
    (t : console_tty) (hx : x < 2147483648) :
    ({ tty_write (set_tty_cursor (set_tty_attr t (sb.data.getD (y * sb.width + x) default).attr)
          x y) (utf8 [(sb.data.getD (y * sb.width + x) default).ch]) with
        tty_cursor_x := U32 ((tty_write (set_tty_cursor (set_tty_attr t
          (sb.data.getD (y * sb.width + x) default).attr) x y)
          (utf8 [(sb.data.getD (y * sb.width + x) default).ch])).tty_cursor_x + 1) } :
      console_tty) = emit_cell utf8 sb y t x := by
  unfold emit_cell
  dsimp only
  rw [(tty_write_fields _ _).2.1, (set_tty_cursor_fields _ _ _).2.1, U32_of_lt _ (by omega)]

/-- One pass of the column loop of `update_output` at the column `x` of
row `y`, with the machine integers in range: `ESC[K` and the end of the loop
when the column is not below `W - skip`, the rendering of the cell
otherwise. -/
theorem update_output_columns_step (utf8 : List Nat → List Nat) (sb : screen_buffer)
    (y skip n x : Nat) (t : console_tty) (hx : x + 1 < 2147483648)
    (hxs : x + skip < 4294967296) (hy : y < 2147483648) (hidx : y * sb.width + x < 2147483648) :
    update_output_columns utf8 sb (y : Int) (skip : Int) (n + 1) (x : Int) t =
      if x + skip ≥ sb.width then
        tty_write (set_tty_cursor (set_tty_attr t
          (sb.data.getD (y * sb.width + x) default).attr) x y) [27, 91, 75]
      else
        update_output_columns utf8 sb (y : Int) (skip : Int) n ((x + 1 : Nat) : Int)
          (emit_cell utf8 sb y t x) := by
  have hidx1 : UINT ((y : Int) * (sb.width : Int) + (x : Int)) = y * sb.width + x := by
    have hp : (y : Int) * (sb.width : Int) + (x : Int) = ((y * sb.width + x : Nat) : Int) := by
      push_cast; rfl
    rw [hp, UINT_of_nat _ (by omega)]
  have hux : UINT (x : Int) = x := UINT_of_nat _ (by omega)
  have huy : UINT (y : Int) = y := UINT_of_nat _ (by omega)
  have hsum : UINT ((x : Int) + (skip : Int)) = x + skip := by
    have hp : (x : Int) + (skip : Int) = ((x + skip : Nat) : Int) := by push_cast; rfl
    rw [hp, UINT_of_nat _ (by omega)]
  have hint : INT ((x : Int) + 1) = ((x + 1 : Nat) : Int) := by
    have hp : (x : Int) + 1 = ((x + 1 : Nat) : Int) := by push_cast; rfl
    rw [hp, INT_of_nat _ (by omega)]
  have hx31 : x < 2147483648 := by omega
  rw [update_output_columns]
  dsimp only
  rw [hidx1, hux, huy, hsum, hint, update_output_cell_eq utf8 sb x y t hx31]

/-- The column loop of `update_output` for row `y`, from column `x` with `n`
iterations to run up to the column `right`: the cells below the column
`W - skip` are rendered from left to right, and `ESC[K` is emitted at the
first column that is not below it. -/
theorem update_output_columns_eq (utf8 : List Nat → List Nat) (sb : screen_buffer)
    (y right skip : Nat) (hskip : skip ≤ sb.width) (hr : right < sb.width)
    (hbound : y * sb.width + sb.width < 2147483648) :
    ∀ (n x : Nat) (t : console_tty), x + n = right + 1 →
      (x ≤ right ∨ right < sb.width - skip) →
      update_output_columns utf8 sb (y : Int) (skip : Int) n (x : Int) t =
        if sb.width - skip ≤ right then
          tty_write
            (set_tty_cursor
              (set_tty_attr
                ((List.range' x (min (right + 1) (sb.width - skip) - x)).foldl
                  (emit_cell utf8 sb y) t)
                (sb.data.getD (y * sb.width + max x (sb.width - skip)) default).attr)
              (max x (sb.width - skip)) y) [27, 91, 75]
        else
          (List.range' x (min (right + 1) (sb.width - skip) - x)).foldl
            (emit_cell utf8 sb y) t := by
  have hy : y < 2147483648 := by
    have h1 : y * 1 ≤ y * sb.width := Nat.mul_le_mul_left _ (by omega)
    omega
  generalize hp : y * sb.width = p at hbound
  intro n
  induction n with
  | zero =>
    intro x t hn hx
    have hstop : ¬ (sb.width - skip ≤ right) := by omega
    have h0 : min (right + 1) (sb.width - skip) - x = 0 := by omega
    rw [if_neg hstop, h0, List.range'_zero, List.foldl_nil]
    rfl
  | succ n ih =>
    intro x t hn hx
    have hxr : x ≤ right := by omega
    rw [update_output_columns_step utf8 sb y skip n x t (by omega) (by omega) hy
      (by rw [hp]; omega)]
    by_cases hstop : x + skip ≥ sb.width
    · have h1 : sb.width - skip ≤ right := by omega
      have h0 : min (right + 1) (sb.width - skip) - x = 0 := by omega
      have hmax : max x (sb.width - skip) = x := by omega
      rw [if_pos hstop, if_pos h1, h0, hmax, List.range'_zero, List.foldl_nil, hp]
    · have hn1 : x + 1 + n = right + 1 := by omega
      have hx1 : x + 1 ≤ right ∨ right < sb.width - skip := by omega
      have hm : min (right + 1) (sb.width - skip) - x =
          (min (right + 1) (sb.width - skip) - (x + 1)) + 1 := by omega
      rw [if_neg hstop, ih (x + 1) _ hn1 hx1]
      by_cases h1 : sb.width - skip ≤ right
      · have hmax : max (x + 1) (sb.width - skip) = max x (sb.width - skip) := by omega
        rw [if_pos h1, if_pos h1, hmax]
        generalize min (right + 1) (sb.width - skip) - (x + 1) = m at hm
        rw [hm, List.range'_succ, List.foldl_cons]
      · rw [if_neg h1, if_neg h1]
        generalize min (right + 1) (sb.width - skip) - (x + 1) = m at hm
        rw [hm, List.range'_succ, List.foldl_cons]

/-- The row loop of `update_output` renders the rows one after the other,
each as the specification states it. -/
theorem update_output_rows_eq (utf8 : List Nat → List Nat) (sb : screen_buffer) (rect : RECT)
    (left right bottom : Nat) (hleft : rect.left = (left : Int))
    (hright : rect.right = (right : Int)) (hlr : left ≤ right) (hr : right < sb.width)
    (hb : bottom < sb.height) (hlen : sb.data.length = sb.width * sb.height)
    (hsize : sb.width * sb.height < 2147483648) :
    ∀ (n y : Nat) (t : console_tty), y + n = bottom + 1 →
      update_output_rows utf8 sb rect n (y : Int) t =
        (List.range' y n).foldl (emit_row utf8 sb left right) t := by
  have hH : sb.height < 2147483648 := by
    have h1 : 1 * sb.height ≤ sb.width * sb.height := Nat.mul_le_mul_right _ (by omega)
    omega
  intro n
  induction n with
  | zero => intro y t _; rfl
  | succ n ih =>
    intro y t hn
    have hy : y < sb.height := by omega
    have hint : INT ((y : Int) + 1) = ((y + 1 : Nat) : Int) := by
      have hp : (y : Int) + 1 = ((y + 1 : Nat) : Int) := by push_cast; rfl
      rw [hp, INT_of_nat _ (by omega)]
    have hcnt : (rect.right - rect.left + 1).toNat = right - left + 1 := by
      rw [hleft, hright]; omega
    have hbound : y * sb.width + sb.width < 2147483648 := by
      have h1 : (y + 1) * sb.width ≤ sb.height * sb.width := Nat.mul_le_mul_right _ hy
      rw [Nat.succ_mul] at h1
      rw [Nat.mul_comm sb.width sb.height] at hsize
      omega
    have hn1 : y + 1 + n = bottom + 1 := by omega
    have hcols : left + (right - left + 1) = right + 1 := by omega
    unfold update_output_rows
    rw [hint, ih (y + 1) _ hn1, List.range'_succ, List.foldl_cons, hcnt, hleft,
      update_row_skip_eq sb y hlen hy hsize,
      update_output_columns_eq utf8 sb y right (row_skipped sb y)
        (row_skipped_le sb y hlen hy) hr hbound (right - left + 1) left t hcols
        (Or.inl hlr)]
    congr 1

/-- C33: for the active buffer of a console with a tty and every rectangle
inside the buffer, `update_output` hides the cursor and renders the rows of
the rectangle from top to bottom, each as follows, with `t` the number of
trailing cells of the whole row equal to `(' ', 7)` if that number is at
least 4 and 0 otherwise: the cells of the rectangle at the columns below
`W - t` from left to right, each by the attribute and cursor convergence for
the cell followed by the UTF-8 conversion of its character, after which
`tty_cursor_x` is the column plus 1; then one `ESC[K` at the first column of
the rectangle that is not below `W - t`, if there is one, and nothing for
the columns after it. The grid holds `W * H` cells, with `W * H` below
2^31. -/
theorem update_output_rows_emission (utf8 : List Nat → List Nat) (sb : screen_buffer)
    (left top right bottom : Nat) (t : console_tty) (htty : t.tty_output = true)
    (hlr : left ≤ right) (hr : right < sb.width) (htb : top ≤ bottom) (hb : bottom < sb.height)
    (hlen : sb.data.length = sb.width * sb.height)
    (hsize : sb.width * sb.height < 2147483648) :
    update_output utf8 true sb ⟨left, top, right, bottom⟩ t =
      (List.range' top (bottom - top + 1)).foldl (emit_row utf8 sb left right)
        (hide_tty_cursor t) ∧
    (∀ (s : console_tty) (x y : Nat), s.tty_output = true →
      tty_stream (emit_cell utf8 sb y s x) =
        tty_stream (set_tty_cursor (set_tty_attr s (sb.data.getD (y * sb.width + x) default).attr)
          x y) ++ utf8 [(sb.data.getD (y * sb.width + x) default).ch] ∧
      (emit_cell utf8 sb y s x).tty_cursor_x = x + 1) ∧
    (∀ (s : console_tty) (y : Nat), y < sb.height → right < sb.width - row_skipped sb y →
      emit_row utf8 sb left right s y =
        (List.range' left (right + 1 - left)).foldl (emit_cell utf8 sb y) s) ∧
    (∀ (s : console_tty) (y : Nat), y < sb.height → sb.width - row_skipped sb y ≤ left →
      emit_row utf8 sb left right s y =
        tty_write (set_tty_cursor (set_tty_attr s
          (sb.data.getD (y * sb.width + left) default).attr) left y) [27, 91, 75]) := by
  refine ⟨?_, ?_, ?_, ?_⟩
  · unfold update_output
    have hc : ¬ (true = false ∨ t.tty_output = false) := by rw [htty]; simp
    rw [if_neg hc]
    have hcnt : (((bottom : Int) - (top : Int) + 1).toNat) = bottom - top + 1 := by omega
    dsimp only
    rw [hcnt]
    exact update_output_rows_eq utf8 sb ⟨left, top, right, bottom⟩ left right bottom rfl rfl hlr hr
      hb hlen hsize (bottom - top + 1) top _ (by omega)
  · intro s x y hs
    unfold emit_cell
    dsimp only
    refine ⟨?_, ?_⟩
    · have h1 : (set_tty_cursor (set_tty_attr s (sb.data.getD (y * sb.width + x) default).attr)
          x y).tty_output = true := by
        rw [(set_tty_cursor_fields _ _ _).1, (set_tty_attr_fields _ _).1, hs]
      have := tty_write_stream _ (utf8 [(sb.data.getD (y * sb.width + x) default).ch]) h1
      unfold tty_stream at *
      exact this
    · rw [(tty_write_fields _ _).2.1, (set_tty_cursor_fields _ _ _).2.1]
  · intro s y hy hstop
    unfold emit_row
    dsimp only
    have h1 : ¬ (sb.width - row_skipped sb y ≤ right) := by omega
    have h2 : min (right + 1) (sb.width - row_skipped sb y) = right + 1 := by omega
    rw [if_neg h1, h2]
  · intro s y hy hstop
    unfold emit_row
    dsimp only
    have h1 : sb.width - row_skipped sb y ≤ right := by omega
    have h2 : min (right + 1) (sb.width - row_skipped sb y) - left = 0 := by omega
    have h3 : max left (sb.width - row_skipped sb y) = left := by omega
    rw [if_pos h1, h2, h3]
    rfl

theorem update_output_rows_emission_witness :
    update_output utf8_ascii true rows_8x2 ⟨((0 : Nat) : Int), ((0 : Nat) : Int),
        ((7 : Nat) : Int), ((1 : Nat) : Int)⟩ tty_origin =
      (List.range' 0 (1 - 0 + 1)).foldl (emit_row utf8_ascii rows_8x2 0 7)
        (hide_tty_cursor tty_origin) ∧
    (∀ (s : console_tty) (x y : Nat), s.tty_output = true →
      tty_stream (emit_cell utf8_ascii rows_8x2 y s x) =
        tty_stream (set_tty_cursor (set_tty_attr s
          (rows_8x2.data.getD (y * rows_8x2.width + x) default).attr) x y) ++
          utf8_ascii [(rows_8x2.data.getD (y * rows_8x2.width + x) default).ch] ∧
      (emit_cell utf8_ascii rows_8x2 y s x).tty_cursor_x = x + 1) ∧
    (∀ (s : console_tty) (y : Nat), y < rows_8x2.height →
      7 < rows_8x2.width - row_skipped rows_8x2 y →
      emit_row utf8_ascii rows_8x2 0 7 s y =
        (List.range' 0 (7 + 1 - 0)).foldl (emit_cell utf8_ascii rows_8x2 y) s) ∧
    (∀ (s : console_tty) (y : Nat), y < rows_8x2.height →
      rows_8x2.width - row_skipped rows_8x2 y ≤ 0 →
      emit_row utf8_ascii rows_8x2 0 7 s y =
        tty_write (set_tty_cursor (set_tty_attr s
          (rows_8x2.data.getD (y * rows_8x2.width + 0) default).attr) 0 y) [27, 91, 75]) :=
  update_output_rows_emission utf8_ascii rows_8x2 0 0 7 1 tty_origin (by decide) (by decide)
    (by decide) (by decide) (by decide) (by decide) (by decide)

/-- The rendering of the first row of the 8 x 2 buffer with the rows `ab`
and `abcdefgh`: the row has six trailing blanks, so that `ab` is followed by
`ESC[K`; the second row has none. -/
theorem update_output_example :
    tty_stream (update_output utf8_ascii true rows_8x2 ⟨0, 0, 7, 0⟩ tty_origin) =
      [27, 91, 50, 53, 108, 97, 98, 27, 91, 75] ∧
    row_skipped rows_8x2 0 = 6 ∧ row_skipped rows_8x2 1 = 0 := by
  decide

end Conhost
